import Mathlib

/-! # Array construction framework of geoarrow (`src/internal/arrow-hpp/builder.hpp`)

A shallow embedding of the growable buffers, the validity bitmap and the typed
array builders, followed by the properties established for them.

Conventions of the embedding.

* `int64_t` and `int` fields are `Int` (or `Nat` for the bit cursor, which only
  counts from 0 to 8); element counts are bounded by the address space, far
  below the range where 64-bit arithmetic wraps, so no wrap-around is modelled
  for them.  The narrowing conversions the code performs (`uint8_t`, `int32_t`)
  are explicit (`% 256`, `toInt32`).
* A heap block is a list of cells; a cell is `none` while it is uninitialised.
  A pointer is an `Option`: `none` is `nullptr`.
* Operations that can throw `util::Exception`, or that would touch memory
  outside a block, return `Except Fault`.
* Whether the C allocator satisfies a request is not decided by the program:
  it is the parameter `oom` (`oom n = true`: a request for `n` bytes returns
  `nullptr`).  A request with a negative byte count, which the call converts to
  a `size_t` above `PTRDIFF_MAX`, always fails.
-/

namespace arrow.hpp.builder

/-- The two ways an operation can fail to produce a state: a thrown
`util::Exception` (with its format string), or an access outside an allocated
block (undefined behaviour in the source). -/
inductive Fault where
  | exception (what : String)
  | undefined
deriving DecidableEq, Repr

/-- A heap block of elements of type `α`; `none` is an uninitialised cell. -/
abbrev Block (α : Type) := List (Option α)

/-- Contents of a block after `realloc` to `n` elements: the common prefix is
kept, new cells are uninitialised. -/
def Block.resize {α : Type} (blk : Block α) (n : Nat) : Block α :=
  blk.take n ++ List.replicate (n - blk.length) none

/-- The C `realloc(ptr, n_bytes)` for a block of elements of `w` bytes each:
`none` is a null result (the old block is then left as it was). -/
def realloc {α : Type} (oom : Int → Bool) (ptr : Option (Block α)) (n_bytes : Int) (w : Nat) :
    Option (Block α) :=
  if n_bytes < 0 ∨ oom n_bytes = true then none
  else some (Block.resize (ptr.getD []) (n_bytes.toNat / w))

/-- The C `memcpy(dst + pos, src, |src|)` into a block. -/
def memcpy {α : Type} (dst : Option (Block α)) (pos : Int) (src : List α) :
    Except Fault (Block α) :=
  match dst with
  | none => .error .undefined
  | some blk =>
    if 0 ≤ pos ∧ pos + src.length ≤ blk.length then
      .ok (blk.take pos.toNat ++ src.map some ++ blk.drop (pos.toNat + src.length))
    else .error .undefined

/-- The C `memset(dst + pos, v, n)` on a block of bytes. -/
def memset {α : Type} (dst : Option (Block α)) (pos : Int) (v : α) (n : Int) :
    Except Fault (Block α) :=
  if n < 0 then .error .undefined else memcpy dst pos (List.replicate n.toNat v)

/-- The values of a block whose cells are all initialised. -/
def Block.values {α : Type} : Block α → Option (List α)
  | [] => some []
  | none :: _ => none
  | some x :: t => (Block.values t).map (fun l => x :: l)

/-! ## `BufferBuilder<BufferT>` -/

/-- The class `BufferBuilder<BufferT>`; `w` is `sizeof(BufferT)`. -/
structure BufferBuilder (α : Type) (w : Nat) where
  data_ : Option (Block α)
  capacity_ : Int
  size_ : Int
  growth_factor_ : Int
deriving DecidableEq, Repr

namespace BufferBuilder

variable {α : Type} {w : Nat}

/-- `BufferBuilder::reallocate`. -/
def reallocate (oom : Int → Bool) (b : BufferBuilder α w) (capacity : Int) :
    Except Fault (BufferBuilder α w) :=
  if capacity = b.capacity_ then .ok b
  else
    let n_bytes := capacity * (w : Int)
    match realloc oom b.data_ n_bytes w with
    | none => .error (.exception "Failed to allocate BufferBuilder::data_ of capacity %lld")
    | some new_data => .ok { b with data_ := some new_data, capacity_ := n_bytes / (w : Int) }

/-- The constructor `BufferBuilder(capacity)`. -/
def new (oom : Int → Bool) (capacity : Int) : Except Fault (BufferBuilder α w) :=
  reallocate oom { data_ := none, capacity_ := -1, size_ := 0, growth_factor_ := 2 } capacity

/-- `BufferBuilder::reserve`.  The product `capacity_ * growth_factor_ + 1` is
formed in `double` in the source and converted back to `int64_t`; it is exact
for every capacity below 2^52. -/
def reserve (oom : Int → Bool) (b : BufferBuilder α w) (additional_capacity : Int) :
    Except Fault (BufferBuilder α w) :=
  if b.size_ + additional_capacity > b.capacity_ then
    let target_capacity := max (b.capacity_ * b.growth_factor_ + 1) (b.size_ + additional_capacity)
    reallocate oom b target_capacity
  else .ok b

/-- `BufferBuilder::advance`. -/
def advance (b : BufferBuilder α w) (n : Int) : BufferBuilder α w :=
  { b with size_ := b.size_ + n }

/-- `BufferBuilder::write_buffer(buffer, size)`, with `size` the length of `buffer`. -/
def write_buffer (oom : Int → Bool) (b : BufferBuilder α w) (buffer : List α) :
    Except Fault (BufferBuilder α w) :=
  match reserve oom b buffer.length with
  | .error e => .error e
  | .ok b1 =>
    match memcpy b1.data_ b1.size_ buffer with
    | .error e => .error e
    | .ok d => .ok (advance { b1 with data_ := some d } buffer.length)

/-- `BufferBuilder::write_element`. -/
def write_element (oom : Int → Bool) (b : BufferBuilder α w) (item : α) :
    Except Fault (BufferBuilder α w) :=
  write_buffer oom b [item]

/-- `BufferBuilder::release`: the pointer handed out, and the builder left behind. -/
def release (b : BufferBuilder α w) : Option (Block α) × BufferBuilder α w :=
  (b.data_, { b with data_ := none })

/-- `BufferBuilder::capacity`. -/
def capacity (b : BufferBuilder α w) : Int := b.capacity_

/-- `BufferBuilder::size`. -/
def size (b : BufferBuilder α w) : Int := b.size_

/-- `BufferBuilder::remaining_capacity`. -/
def remaining_capacity (b : BufferBuilder α w) : Int := b.capacity_ - b.size_

/-- The elements `data()[0 .. size())`, when they can all be read. -/
def contents (b : BufferBuilder α w) : Option (List α) :=
  if b.size_ ≤ 0 then some []
  else
    match b.data_ with
    | none => none
    | some blk => if b.size_ ≤ blk.length then Block.values (blk.take b.size_.toNat) else none

/-- A call made on a `BufferBuilder` by a client. -/
inductive Op (α : Type) where
  | write_element (item : α)
  | write_buffer (buffer : List α)

/-- The elements a call appends. -/
def Op.payload {α : Type} : Op α → List α
  | .write_element item => [item]
  | .write_buffer buffer => buffer

/-- One call. -/
def step (oom : Int → Bool) (b : BufferBuilder α w) : Op α → Except Fault (BufferBuilder α w)
  | .write_element item => write_element oom b item
  | .write_buffer buffer => write_buffer oom b buffer

/-- A sequence of calls, in order. -/
def run (oom : Int → Bool) (b : BufferBuilder α w) : List (Op α) → Except Fault (BufferBuilder α w)
  | [] => .ok b
  | op :: ops =>
    match step oom b op with
    | .error e => .error e
    | .ok b1 => run oom b1 ops

end BufferBuilder

/-! ## `BitmapBuilder` -/

/-- The class `BitmapBuilder`.  `buffer_` is a `uint8_t`, `buffer_size_` an `int`
that counts the bits gathered in `buffer_`. -/
structure BitmapBuilder where
  buffer_builder_ : BufferBuilder Nat 1
  null_count_ : Int
  buffer_ : Nat
  buffer_size_ : Nat
  size_ : Int
  allocated_ : Bool
deriving DecidableEq, Repr

namespace BitmapBuilder

/-- `BitmapBuilder::reallocate`; `%` and `/` of the source truncate towards zero. -/
def reallocate (oom : Int → Bool) (b : BitmapBuilder) (capacity : Int) :
    Except Fault BitmapBuilder :=
  match (if capacity.tmod 8 = 0 then b.buffer_builder_.reallocate oom (capacity.tdiv 8)
         else b.buffer_builder_.reallocate oom (capacity.tdiv 8 + 1)) with
  | .error e => .error e
  | .ok bb => .ok { b with buffer_builder_ := bb }

/-- `BitmapBuilder::trigger_alloc`. -/
def trigger_alloc (oom : Int → Bool) (b : BitmapBuilder) (capacity : Int) :
    Except Fault BitmapBuilder :=
  match reallocate oom b capacity with
  | .error e => .error e
  | .ok b1 =>
    match memset b1.buffer_builder_.data_ b1.buffer_builder_.size_ 0xff
        b1.buffer_builder_.capacity with
    | .error e => .error e
    | .ok d =>
      let b2 : BitmapBuilder :=
        { b1 with buffer_builder_ := { b1.buffer_builder_ with data_ := some d },
                  allocated_ := true }
      if b2.size_ > 0 then
        .ok { b2 with buffer_builder_ := b2.buffer_builder_.advance ((b2.size_ - 1).tdiv 8) }
      else .ok b2

/-- The constructor `BitmapBuilder(capacity, null_count_guess)`. -/
def new (oom : Int → Bool) (capacity : Int) (null_count_guess : Int) :
    Except Fault BitmapBuilder :=
  match (BufferBuilder.new oom 0 : Except Fault (BufferBuilder Nat 1)) with
  | .error e => .error e
  | .ok bb =>
    let b : BitmapBuilder :=
      { buffer_builder_ := bb, null_count_ := 0, buffer_ := 0, buffer_size_ := 0, size_ := 0,
        allocated_ := false }
    if null_count_guess ≠ 0 then trigger_alloc oom b capacity else .ok b

/-- `BitmapBuilder::write_element`. -/
def write_element (oom : Int → Bool) (b : BitmapBuilder) (value : Bool) :
    Except Fault BitmapBuilder :=
  let b1 : BitmapBuilder :=
    { b with size_ := b.size_ + 1,
             null_count_ := b.null_count_ + (if value then 0 else 1),
             buffer_ := (b.buffer_ ||| (value.toNat <<< b.buffer_size_)) % 256,
             buffer_size_ := b.buffer_size_ + 1 }
  if b1.buffer_size_ = 8 then
    if b1.buffer_ = 0xff ∧ b1.allocated_ = false then
      .ok { b1 with buffer_size_ := 0, buffer_ := 0 }
    else
      match (if b1.buffer_ ≠ 0xff ∧ b1.allocated_ = false then trigger_alloc oom b1 b1.size_
             else .ok b1) with
      | .error e => .error e
      | .ok b2 =>
        match b2.buffer_builder_.write_element oom b2.buffer_ with
        | .error e => .error e
        | .ok bb => .ok { b2 with buffer_builder_ := bb, buffer_size_ := 0, buffer_ := 0 }
  else .ok b1

/-- The loop of `BitmapBuilder::release`: `n` calls of `write_element(false)`. -/
def pad (oom : Int → Bool) : Nat → BitmapBuilder → Except Fault BitmapBuilder
  | 0, b => .ok b
  | n + 1, b =>
    match write_element oom b false with
    | .error e => .error e
    | .ok b1 => pad oom n b1

/-- `BitmapBuilder::release`: the pointer returned, and the builder left behind.
The loop bound `8 - buffer_size_` is computed once, before the loop. -/
def release (oom : Int → Bool) (b : BitmapBuilder) :
    Except Fault (Option (Block Nat) × BitmapBuilder) :=
  match (if b.allocated_ = true ∨ b.null_count_ > 0 then pad oom (8 - b.buffer_size_) b
         else .ok b) with
  | .error e => .error e
  | .ok b1 =>
    if b1.allocated_ = true then
      .ok (b1.buffer_builder_.release.1, { b1 with buffer_builder_ := b1.buffer_builder_.release.2 })
    else .ok (none, b1)

/-- `BitmapBuilder::null_count`. -/
def null_count (b : BitmapBuilder) : Int := b.null_count_

/-- `BitmapBuilder::size`. -/
def size (b : BitmapBuilder) : Int := b.size_

/-- `BitmapBuilder::capacity`. -/
def capacity (b : BitmapBuilder) : Int := b.buffer_builder_.capacity * 8

/-- A sequence of `write_element` calls, in order. -/
def writes (oom : Int → Bool) (b : BitmapBuilder) : List Bool → Except Fault BitmapBuilder
  | [] => .ok b
  | v :: vs =>
    match write_element oom b v with
    | .error e => .error e
    | .ok b1 => writes oom b1 vs

end BitmapBuilder

/-- Element `i` of a packed validity buffer read least-significant bit first:
bit `i mod 8` of byte `i div 8`; `none` when that byte is outside the block or
uninitialised. -/
def bitmap_get (blk : Block Nat) (i : Nat) : Option Bool :=
  match blk[i / 8]? with
  | some (some byte) => some (byte.testBit (i % 8))
  | _ => none

/-! ## The array/schema struct pair and `CArrayFinalizer` -/

/-- The functions a `release` member can point to: the two callbacks of this
library, or a callback installed by another producer. -/
inductive ReleaseCallback where
  | arrow_hpp_builder_release_schema_internal
  | arrow_hpp_builder_release_array_data_internal
  | foreign (tag : Nat)
deriving DecidableEq, Repr

/-- What a `const void*` of `ArrowArray::buffers` points to in this library:
a block of `uint8_t`, `int32_t`, `int64_t` or `double`. -/
inductive Buffer where
  | uint8 (blk : Block Nat)
  | int32 (blk : Block Int)
  | int64 (blk : Block Int)
  | float64 (blk : Block Float)

/-- The C struct `ArrowArray`. -/
structure ArrowArray where
  length : Int
  null_count : Int
  offset : Int
  n_buffers : Int
  n_children : Int
  buffers : Option (List (Option Buffer))
  children : Option (List (Option ArrowArray))
  dictionary : Option ArrowArray
  private_data : Option Unit
  release : Option ReleaseCallback

/-- The C struct `ArrowSchema`. -/
structure ArrowSchema where
  format : String
  name : String
  metadata : Option String
  flags : Int
  n_children : Int
  children : Option (List (Option ArrowSchema))
  dictionary : Option ArrowSchema
  private_data : Option Unit
  release : Option ReleaseCallback

/-- Modelled from the spec: the flag bit for "nullable" of the wire format, a
macro of the header `common.hpp`, which is not among the sources; 2 is its value
in the public columnar convention. -/
def ARROW_FLAG_NULLABLE : Int := 2

/-- The size of a pointer, in bytes. -/
def sizeof_pointer : Int := 8

/-- The value of `sizeof(struct ArrowArray)`. -/
def sizeof_ArrowArray : Int := 80

/-- The value of `sizeof(struct ArrowSchema)`. -/
def sizeof_ArrowSchema : Int := 72

/-- A struct `ArrowArray` of which only `release` has been assigned (`nullptr`):
the other members, indeterminate in the source, are given fixed values. -/
def ArrowArray.unreleased : ArrowArray :=
  { length := 0, null_count := 0, offset := 0, n_buffers := 0, n_children := 0, buffers := none,
    children := none, dictionary := none, private_data := none, release := none }

/-- A struct `ArrowSchema` of which only `release` has been assigned (`nullptr`). -/
def ArrowSchema.unreleased : ArrowSchema :=
  { format := "", name := "", metadata := none, flags := 0, n_children := 0, children := none,
    dictionary := none, private_data := none, release := none }

/-- `allocate_schema(schema, n_children)`, on its successful path; a failed
`malloc` is the exception the source throws. -/
def allocate_schema (oom : Int → Bool) (n_children : Int) : Except Fault ArrowSchema :=
  let schema : ArrowSchema :=
    { format := "", name := "", metadata := none, flags := ARROW_FLAG_NULLABLE,
      n_children := n_children, children := none, dictionary := none, private_data := none,
      release := some .arrow_hpp_builder_release_schema_internal }
  if n_children > 0 then
    if oom (n_children * sizeof_pointer) = true then
      .error (.exception "Failed to allocate schema->children of size %lld")
    else if oom sizeof_ArrowSchema = true then
      .error (.exception "Failed to allocate schema->children[%lld]")
    else
      .ok { schema with
              children := some (List.replicate n_children.toNat (some ArrowSchema.unreleased)) }
  else .ok schema

/-- `allocate_array_data(array_data, n_buffers, n_children)`, on its successful
path; a failed `malloc` is the exception the source throws. -/
def allocate_array_data (oom : Int → Bool) (n_buffers n_children : Int) :
    Except Fault ArrowArray :=
  let array_data : ArrowArray :=
    { length := 0, null_count := -1, offset := 0, n_buffers := n_buffers,
      n_children := n_children, buffers := none, children := none, dictionary := none,
      private_data := none, release := some .arrow_hpp_builder_release_array_data_internal }
  match (if n_buffers > 0 then
           if oom (n_buffers * sizeof_pointer) = true then
             (.error (.exception "Failed to allocate array_data->buffers of size %lld") :
               Except Fault ArrowArray)
           else .ok { array_data with buffers := some (List.replicate n_buffers.toNat none) }
         else .ok array_data) with
  | .error e => .error e
  | .ok a1 =>
    if n_children > 0 then
      if oom (n_children * sizeof_pointer) = true then
        .error (.exception "Failed to allocate array_data->children of size %lld")
      else if oom sizeof_ArrowArray = true then
        .error (.exception "Failed to allocate array_data->children[%lld]")
      else
        .ok { a1 with
                children := some (List.replicate n_children.toNat (some ArrowArray.unreleased)) }
    else .ok a1

/-- The assignment `array_data.buffers[i] = p`. -/
def ArrowArray.set_buffer (a : ArrowArray) (i : Nat) (p : Option Buffer) :
    Except Fault ArrowArray :=
  match a.buffers with
  | none => .error .undefined
  | some bs => if i < bs.length then .ok { a with buffers := some (bs.set i p) }
               else .error .undefined

/-- The class `CArrayFinalizer`. -/
structure CArrayFinalizer where
  array_data : ArrowArray
  schema : ArrowSchema

namespace CArrayFinalizer

/-- The constructor `CArrayFinalizer()`. -/
def new : CArrayFinalizer :=
  { array_data := ArrowArray.unreleased, schema := ArrowSchema.unreleased }

/-- `CArrayFinalizer::allocate`. -/
def allocate (oom : Int → Bool) (_f : CArrayFinalizer) (n_buffers n_children : Int) :
    Except Fault CArrayFinalizer :=
  match allocate_array_data oom n_buffers n_children with
  | .error e => .error e
  | .ok a =>
    match allocate_schema oom n_children with
    | .error e => .error e
    | .ok s => .ok { array_data := a, schema := s }

/-- `CArrayFinalizer::release(array_data_out, schema_out)`: the two structs
written through the output pointers, and the finalizer left behind. -/
def release (f : CArrayFinalizer) (array_data_out : Option ArrowArray)
    (schema_out : Option ArrowSchema) :
    Except Fault (ArrowArray × ArrowSchema × CArrayFinalizer) :=
  match array_data_out, schema_out with
  | none, _ => .error (.exception "output array_data is nullptr")
  | some _, none => .error (.exception "output schema is nullptr")
  | some a_out, some s_out =>
    if a_out.release ≠ none then .error (.exception "output array_data is not released")
    else if s_out.release ≠ none then .error (.exception "output schema is not released")
    else
      .ok (f.array_data, f.schema,
           { array_data := { f.array_data with release := none },
             schema := { f.schema with release := none } })

end CArrayFinalizer

/-! ## `Float64ArrayBuilder` -/

/-- The class `Float64ArrayBuilder`, with the members `size_` and
`validity_buffer_builder_` of its base class `ArrayBuilder`. -/
structure Float64ArrayBuilder where
  size_ : Int
  validity_buffer_builder_ : BitmapBuilder
  buffer_builder_ : BufferBuilder Float 8

namespace Float64ArrayBuilder

/-- The constructor `Float64ArrayBuilder(capacity)`. -/
def new (oom : Int → Bool) (capacity : Int) : Except Fault Float64ArrayBuilder :=
  match BitmapBuilder.new oom capacity 0 with
  | .error e => .error e
  | .ok v =>
    match (BufferBuilder.new oom capacity : Except Fault (BufferBuilder Float 8)) with
    | .error e => .error e
    | .ok bb => .ok { size_ := 0, validity_buffer_builder_ := v, buffer_builder_ := bb }

/-- `ArrayBuilder::size`. -/
def size (b : Float64ArrayBuilder) : Int := b.size_

/-- `Float64ArrayBuilder::reserve`. -/
def reserve (oom : Int → Bool) (b : Float64ArrayBuilder) (additional_capacity : Int) :
    Except Fault Float64ArrayBuilder :=
  match b.buffer_builder_.reserve oom additional_capacity with
  | .error e => .error e
  | .ok bb => .ok { b with buffer_builder_ := bb }

/-- `Float64ArrayBuilder::write_element`. -/
def write_element (oom : Int → Bool) (b : Float64ArrayBuilder) (value : Float) :
    Except Fault Float64ArrayBuilder :=
  match b.buffer_builder_.write_element oom value with
  | .error e => .error e
  | .ok bb => .ok { b with buffer_builder_ := bb }

/-- `Float64ArrayBuilder::write_buffer(buffer, n)`, with `n` the length of `buffer`. -/
def write_buffer (oom : Int → Bool) (b : Float64ArrayBuilder) (buffer : List Float) :
    Except Fault Float64ArrayBuilder :=
  match b.buffer_builder_.write_buffer oom buffer with
  | .error e => .error e
  | .ok bb => .ok { b with buffer_builder_ := bb }

/-- `Float64ArrayBuilder::release(array_data, schema)`: the structs published
through the two pointers, and the builder left behind. -/
def release (oom : Int → Bool) (b : Float64ArrayBuilder) (array_data : Option ArrowArray)
    (schema : Option ArrowSchema) :
    Except Fault (ArrowArray × ArrowSchema × Float64ArrayBuilder) :=
  match CArrayFinalizer.new.allocate oom 2 0 with
  | .error e => .error e
  | .ok f0 =>
    let f1 : CArrayFinalizer := { f0 with schema := { f0.schema with format := "g" } }
    let f2 : CArrayFinalizer :=
      { f1 with array_data := { f1.array_data with length := b.buffer_builder_.size } }
    let f3 : CArrayFinalizer :=
      { f2 with array_data :=
          { f2.array_data with null_count := b.validity_buffer_builder_.null_count } }
    match b.validity_buffer_builder_.release oom with
    | .error e => .error e
    | .ok (p0, v) =>
      match f3.array_data.set_buffer 0 (p0.map Buffer.uint8) with
      | .error e => .error e
      | .ok a4 =>
        match a4.set_buffer 1 (b.buffer_builder_.release.1.map Buffer.float64) with
        | .error e => .error e
        | .ok a5 =>
          match CArrayFinalizer.release { f3 with array_data := a5 } array_data schema with
          | .error e => .error e
          | .ok (a_out, s_out, _) =>
            .ok (a_out, s_out,
                 { b with validity_buffer_builder_ := v,
                          buffer_builder_ := b.buffer_builder_.release.2 })

/-- A call that feeds values to a `Float64ArrayBuilder`. -/
inductive Op where
  | write_element (value : Float)
  | write_buffer (buffer : List Float)
  | reserve (additional_capacity : Int)

/-- The values a call appends. -/
def Op.payload : Op → List Float
  | .write_element value => [value]
  | .write_buffer buffer => buffer
  | .reserve _ => []

/-- One call. -/
def step (oom : Int → Bool) (b : Float64ArrayBuilder) : Op → Except Fault Float64ArrayBuilder
  | .write_element value => write_element oom b value
  | .write_buffer buffer => write_buffer oom b buffer
  | .reserve n => reserve oom b n

/-- A sequence of calls, in order. -/
def run (oom : Int → Bool) (b : Float64ArrayBuilder) :
    List Op → Except Fault Float64ArrayBuilder
  | [] => .ok b
  | op :: ops =>
    match step oom b op with
    | .error e => .error e
    | .ok b1 => run oom b1 ops

end Float64ArrayBuilder

/-! ## `StringArrayBuilder` -/

/-- The implicit conversion of an `int64_t` to `int32_t` (two's complement
wrap-around). -/
def toInt32 (x : Int) : Int := (x + 2147483648) % 4294967296 - 2147483648

/-- The value of `std::numeric_limits<int32_t>::max()`. -/
def INT32_MAX : Int := 2147483647

/-- The class `StringArrayBuilder`, with the members `size_` and
`validity_buffer_builder_` of its base class `ArrayBuilder`. -/
structure StringArrayBuilder where
  size_ : Int
  validity_buffer_builder_ : BitmapBuilder
  is_large_ : Bool
  item_size_ : Int
  offset_buffer_builder_ : BufferBuilder Int 4
  large_offset_buffer_builder_ : BufferBuilder Int 8
  data_buffer_builder_ : BufferBuilder Nat 1
deriving DecidableEq, Repr

namespace StringArrayBuilder

/-- The constructor `StringArrayBuilder(capacity, data_size_guess)`. -/
def new (oom : Int → Bool) (capacity data_size_guess : Int) : Except Fault StringArrayBuilder :=
  match BitmapBuilder.new oom capacity 0 with
  | .error e => .error e
  | .ok v =>
    match (BufferBuilder.new oom capacity : Except Fault (BufferBuilder Int 4)) with
    | .error e => .error e
    | .ok off =>
      match (BufferBuilder.new oom capacity : Except Fault (BufferBuilder Int 8)) with
      | .error e => .error e
      | .ok large =>
        match (BufferBuilder.new oom data_size_guess : Except Fault (BufferBuilder Nat 1)) with
        | .error e => .error e
        | .ok data =>
          let b : StringArrayBuilder :=
            { size_ := 0, validity_buffer_builder_ := v, is_large_ := false, item_size_ := 0,
              offset_buffer_builder_ := off, large_offset_buffer_builder_ := large,
              data_buffer_builder_ := data }
          if b.is_large_ = true then
            match b.large_offset_buffer_builder_.write_element oom 0 with
            | .error e => .error e
            | .ok l1 => .ok { b with large_offset_buffer_builder_ := l1 }
          else
            match b.offset_buffer_builder_.write_element oom 0 with
            | .error e => .error e
            | .ok o1 => .ok { b with offset_buffer_builder_ := o1 }

/-- `ArrayBuilder::size`. -/
def size (b : StringArrayBuilder) : Int := b.size_

/-- `StringArrayBuilder::needs_make_large`. -/
def needs_make_large (b : StringArrayBuilder) (capacity : Int) : Bool :=
  !b.is_large_ && decide (b.data_buffer_builder_.size + capacity > INT32_MAX)

/-- The read `offset_buffer_builder_.data()[i]`. -/
def offset_at (src : BufferBuilder Int 4) (i : Nat) : Except Fault Int :=
  match src.data_ with
  | none => .error .undefined
  | some blk =>
    match blk[i]? with
    | some (some x) => .ok x
    | _ => .error .undefined

/-- The loop of `StringArrayBuilder::make_large` over the indices `is`. -/
def make_large_loop (oom : Int → Bool) (src : BufferBuilder Int 4) :
    List Nat → BufferBuilder Int 8 → Except Fault (BufferBuilder Int 8)
  | [], large => .ok large
  | i :: is, large =>
    match offset_at src i with
    | .error e => .error e
    | .ok x =>
      match large.write_element oom x with
      | .error e => .error e
      | .ok l1 => make_large_loop oom src is l1

/-- `StringArrayBuilder::make_large`. -/
def make_large (oom : Int → Bool) (b : StringArrayBuilder) : Except Fault StringArrayBuilder :=
  match make_large_loop oom b.offset_buffer_builder_
      (List.range b.offset_buffer_builder_.size.toNat) b.large_offset_buffer_builder_ with
  | .error e => .error e
  | .ok l1 =>
    .ok { b with large_offset_buffer_builder_ := l1,
                 offset_buffer_builder_ := b.offset_buffer_builder_.release.2,
                 is_large_ := true }

/-- `StringArrayBuilder::write_buffer(buffer, capacity)`, with `capacity` the
length of `buffer`. -/
def write_buffer (oom : Int → Bool) (b : StringArrayBuilder) (buffer : List Nat) :
    Except Fault StringArrayBuilder :=
  match (if b.needs_make_large buffer.length = true then make_large oom b else .ok b) with
  | .error e => .error e
  | .ok b1 =>
    match b1.data_buffer_builder_.write_buffer oom buffer with
    | .error e => .error e
    | .ok d => .ok { b1 with data_buffer_builder_ := d, item_size_ := b1.item_size_ + buffer.length }

/-- `StringArrayBuilder::finish_element(not_null)`. -/
def finish_element (oom : Int → Bool) (b : StringArrayBuilder) (not_null : Bool) :
    Except Fault StringArrayBuilder :=
  match (if b.is_large_ = true then
           match b.large_offset_buffer_builder_.write_element oom b.data_buffer_builder_.size with
           | .error e => (.error e : Except Fault StringArrayBuilder)
           | .ok l1 => .ok { b with large_offset_buffer_builder_ := l1 }
         else
           match b.offset_buffer_builder_.write_element oom
               (toInt32 b.data_buffer_builder_.size) with
           | .error e => .error e
           | .ok o1 => .ok { b with offset_buffer_builder_ := o1 }) with
  | .error e => .error e
  | .ok b1 =>
    match b1.validity_buffer_builder_.write_element oom not_null with
    | .error e => .error e
    | .ok v =>
      .ok { b1 with item_size_ := 0, validity_buffer_builder_ := v, size_ := b1.size_ + 1 }

/-- `StringArrayBuilder::release(array_data, schema)`: the structs published
through the two pointers, and the builder left behind. -/
def release (oom : Int → Bool) (b : StringArrayBuilder) (array_data : Option ArrowArray)
    (schema : Option ArrowSchema) :
    Except Fault (ArrowArray × ArrowSchema × StringArrayBuilder) :=
  match CArrayFinalizer.new.allocate oom 3 0 with
  | .error e => .error e
  | .ok f0 =>
    match b.validity_buffer_builder_.release oom with
    | .error e => .error e
    | .ok (p0, v) =>
      match f0.array_data.set_buffer 0 (p0.map Buffer.uint8) with
      | .error e => .error e
      | .ok a1 =>
        match a1.set_buffer 2 (b.data_buffer_builder_.release.1.map Buffer.uint8) with
        | .error e => .error e
        | .ok a2 =>
          match (if b.is_large_ = true then
                   (a2.set_buffer 1 (b.large_offset_buffer_builder_.release.1.map Buffer.int64)).map
                     (fun a => ("U", a, { b with
                        large_offset_buffer_builder_ := b.large_offset_buffer_builder_.release.2 }))
                 else
                   (a2.set_buffer 1 (b.offset_buffer_builder_.release.1.map Buffer.int32)).map
                     (fun a => ("u", a, { b with
                        offset_buffer_builder_ := b.offset_buffer_builder_.release.2 }))) with
          | .error e => .error e
          | .ok (format, a3, b3) =>
            let a4 : ArrowArray := { a3 with null_count := v.null_count }
            let a5 : ArrowArray := { a4 with length := b.size_ }
            match CArrayFinalizer.release
                { array_data := a5, schema := { f0.schema with format := format } }
                array_data schema with
            | .error e => .error e
            | .ok (a_out, s_out, _) =>
              .ok (a_out, s_out,
                   { b3 with validity_buffer_builder_ := v,
                             data_buffer_builder_ := b.data_buffer_builder_.release.2 })

/-- A call made on a `StringArrayBuilder` by a client that writes whole buffers. -/
inductive Op where
  | write_buffer (buffer : List Nat)
  | finish_element (not_null : Bool)
deriving DecidableEq, Repr

/-- One call. -/
def step (oom : Int → Bool) (b : StringArrayBuilder) : Op → Except Fault StringArrayBuilder
  | .write_buffer buffer => write_buffer oom b buffer
  | .finish_element not_null => finish_element oom b not_null

/-- A sequence of calls, in order. -/
def run (oom : Int → Bool) (b : StringArrayBuilder) :
    List Op → Except Fault StringArrayBuilder
  | [] => .ok b
  | op :: ops =>
    match step oom b op with
    | .error e => .error e
    | .ok b1 => run oom b1 ops

/-- The buffer of offsets in use: the 64-bit one in large mode, else the 32-bit one. -/
def active_offsets (b : StringArrayBuilder) : Option (List Int) :=
  if b.is_large_ = true then b.large_offset_buffer_builder_.contents
  else b.offset_buffer_builder_.contents

end StringArrayBuilder

end arrow.hpp.builder
namespace arrow.hpp.builder

namespace BufferBuilder

variable {α : Type} {w : Nat}

/-- A builder that holds no block yet (constructed with capacity `-1`). -/
def Fresh (b : BufferBuilder α w) : Prop :=
  b.data_ = none ∧ b.capacity_ = -1 ∧ b.size_ = 0

/-- The builder owns a block of `capacity_` cells whose first `size_` cells hold
the elements `xs`. -/
def Stores (b : BufferBuilder α w) (xs : List α) : Prop :=
  ∃ blk, b.data_ = some blk ∧ (blk.length : Int) = b.capacity_ ∧ b.size_ = xs.length ∧
    b.size_ ≤ b.capacity_ ∧ blk.take xs.length = xs.map some

end BufferBuilder
end arrow.hpp.builder
namespace arrow.hpp.builder
namespace BufferBuilder

/-- The elements appended by a sequence of calls, in call order. -/
def written {α : Type} : List (Op α) → List α
  | [] => []
  | op :: ops => op.payload ++ written ops

end BufferBuilder
end arrow.hpp.builder
namespace arrow.hpp.builder

/-- The eight validity bits of a byte, least significant first. -/
def bits8 (c : Nat) : List Bool := (List.range 8).map c.testBit

/-- The bits of a sequence of bytes, in element order. -/
def unpack : List Nat → List Bool
  | [] => []
  | c :: cs => bits8 c ++ unpack cs

/-- The number whose bit `j` is the `j`-th element of the list. -/
def pack : List Bool → Nat
  | [] => 0
  | b :: bs => b.toNat + 2 * pack bs

namespace BitmapBuilder

/-- The state of a builder to which the values `vals` have been written: whole
bytes `cs` already committed (stored in the buffer once it is allocated, all
`0xff` and not stored before), and the bits `ps` gathered in `buffer_`. -/
def Inv (b : BitmapBuilder) (vals : List Bool) : Prop :=
  ∃ (cs : List Nat) (ps : List Bool),
    vals = unpack cs ++ ps ∧ ps.length < 8 ∧ b.buffer_size_ = ps.length ∧ b.buffer_ = pack ps ∧
    b.size_ = vals.length ∧ b.null_count_ = vals.count false ∧
    (b.allocated_ = true → b.buffer_builder_.Stores cs) ∧
    (b.allocated_ = false → cs = List.replicate cs.length 255 ∧ b.buffer_builder_.Stores [])

end BitmapBuilder
end arrow.hpp.builder
namespace arrow.hpp.builder

/-- The first `n` doubles behind a buffer pointer of an array node, when they can
all be read. -/
def Buffer.float64_values (p : Option Buffer) (n : Int) : Option (List Float) :=
  if n ≤ 0 then some []
  else
    match p with
    | some (.float64 blk) => if n ≤ blk.length then Block.values (blk.take n.toNat) else none
    | _ => none

namespace Float64ArrayBuilder

/-- The values appended by a sequence of calls, in call order. -/
def written : List Op → List Float
  | [] => []
  | op :: ops => op.payload ++ written ops

end Float64ArrayBuilder
end arrow.hpp.builder
namespace arrow.hpp.builder
namespace StringArrayBuilder

/-- A whole life of a builder: construction, a sequence of calls, then `release`
into the two output slots. -/
def build (oom : Int → Bool) (capacity data_size_guess : Int) (ops : List Op)
    (array_data : Option ArrowArray) (schema : Option ArrowSchema) :
    Except Fault (ArrowArray × ArrowSchema × StringArrayBuilder) :=
  match new oom capacity data_size_guess with
  | .error e => .error e
  | .ok b0 =>
    match run oom b0 ops with
    | .error e => .error e
    | .ok b => release oom b array_data schema

/-- The `length` and `null_count` members of a published array. -/
def published_counts (r : Except Fault (ArrowArray × ArrowSchema × StringArrayBuilder)) :
    Option (Int × Int) :=
  match r with
  | .error _ => none
  | .ok (a, _, _) => some (a.length, a.null_count)

end StringArrayBuilder
end arrow.hpp.builder
namespace arrow.hpp.builder
namespace StringArrayBuilder

/-- The items closed by `finish_element` and the bytes written since the last
`finish_element`, after the calls `ops` made from a point where the closed items
were `items` and the open bytes `cur`. -/
def feed : List (List Nat) → List Nat → List Op → List (List Nat) × List Nat
  | items, cur, [] => (items, cur)
  | items, cur, .write_buffer buffer :: ops => feed items (cur ++ buffer) ops
  | items, cur, .finish_element _ :: ops => feed (items ++ [cur]) [] ops

/-- The items finished by a sequence of calls: item `i` is the concatenation of
the buffers written between the `i`-th and the `(i+1)`-th `finish_element`. -/
def finished (ops : List Op) : List (List Nat) := (feed [] [] ops).1

/-- The bytes written after the last `finish_element`. -/
def unfinished (ops : List Op) : List Nat := (feed [] [] ops).2

/-- The number of bytes written by a sequence of calls. -/
def total_bytes : List Op → Int
  | [] => 0
  | .write_buffer buffer :: ops => buffer.length + total_bytes ops
  | .finish_element _ :: ops => total_bytes ops

/-- The data cursor (number of bytes written so far) after each of the items,
for a cursor that stands at `start` before the first of them. -/
def cursors_from (start : Int) : List (List Nat) → List Int
  | [] => []
  | item :: items => (start + item.length) :: cursors_from (start + item.length) items

/-- The data cursor at construction and after each finished item, as unbounded
integers. -/
def cursors (items : List (List Nat)) : List Int := 0 :: cursors_from 0 items

/-- The state of a builder that has closed the items `items` and holds the open
bytes `cur`. -/
def Tracks (s : StringArrayBuilder) (items : List (List Nat)) (cur : List Nat) : Prop :=
  s.size_ = items.length ∧
  (∃ flags, s.validity_buffer_builder_.Inv flags) ∧
  ((s.data_buffer_builder_.Fresh ∧ items.flatten ++ cur = []) ∨
    s.data_buffer_builder_.Stores (items.flatten ++ cur)) ∧
  (s.is_large_ = false →
    s.offset_buffer_builder_.Stores (cursors items) ∧
    ((items.flatten ++ cur).length : Int) ≤ INT32_MAX ∧
    ((s.large_offset_buffer_builder_.Fresh ∧ ([] : List Int) = []) ∨
      s.large_offset_buffer_builder_.Stores [])) ∧
  (s.is_large_ = true →
    s.large_offset_buffer_builder_.Stores (cursors items) ∧
    INT32_MAX < ((items.flatten ++ cur).length : Int))

end StringArrayBuilder
end arrow.hpp.builder
/-! # The array-view factory of geoarrow (`src/internal/geoarrow-hpp/factory.hpp`)

The factory reads a schema through the class `Meta`, whose header is not among
the sources: the result of constructing a `Meta` from a schema pointer is a
parameter `parse` of the functions below (an error is the message of the
`Meta::ValidationError` the constructor throws).  Reading `schema->children[0]`
where there is no such pointer is undefined behaviour in the source.
-/

namespace geoarrow

open arrow.hpp.builder

namespace util

/-- Modelled from the spec: the enumeration `util::Extension`, of a header that is
not among the sources; the nine tags that `factory.hpp` names, and the two values
(other, none) of "none/unsupported", which fall to its `default` branches. -/
inductive Extension where
  | Point
  | Linestring
  | Polygon
  | MultiPoint
  | MultiLinestring
  | MultiPolygon
  | GeometryCollection
  | WKB
  | WKT
  | ExtensionOther
  | ExtensionNone
deriving DecidableEq, Repr

/-- Modelled from the spec: the enumeration `util::StorageType`, of a header that
is not among the sources; the seven storage kinds of the spec, and one value for
every other enumerator, which falls to the `default` branches of `factory.hpp`. -/
inductive StorageType where
  | FixedSizeList
  | List
  | Binary
  | LargeBinary
  | FixedWidthBinary
  | String
  | LargeString
  | StorageTypeOther
deriving DecidableEq, Repr

end util

/-- Modelled from the spec: the class `Meta`, of a header that is not among the
sources, reduced to the two members that `factory.hpp` reads. -/
structure Meta where
  extension_ : util.Extension
  storage_type_ : util.StorageType
deriving DecidableEq, Repr

/-- The two ways a factory call can fail to return a view: a thrown
`Meta::ValidationError`, or a read through a pointer that does not exist. -/
inductive Failure where
  | ValidationError (what : String)
  | undefined
deriving DecidableEq, Repr

/-- The concrete view classes the factory instantiates, each bound to the schema
pointer it was given (their headers are not among the sources). -/
inductive ArrayView where
  | PointArrayView (schema : Option ArrowSchema)
  | LinestringArrayView (schema : Option ArrowSchema)
  | PolygonArrayView (schema : Option ArrowSchema)
  | CollectionArrayView_PointArrayView (schema : Option ArrowSchema)
  | CollectionArrayView_LinestringArrayView (schema : Option ArrowSchema)
  | CollectionArrayView_PolygonArrayView (schema : Option ArrowSchema)
  | WKBArrayView (schema : Option ArrowSchema)
  | LargeWKBArrayView (schema : Option ArrowSchema)
  | FixedWidthWKBArrayView (schema : Option ArrowSchema)
  | WKTArrayView (schema : Option ArrowSchema)
  | LargeWKTArrayView (schema : Option ArrowSchema)

/-- The construction `Meta m(schema)`. -/
def Meta.construct (parse : Option ArrowSchema → Except String Meta)
    (schema : Option ArrowSchema) : Except Failure Meta :=
  match parse schema with
  | .error what => .error (.ValidationError what)
  | .ok m => .ok m

/-- The read `schema->children[0]`. -/
def children0 (schema : Option ArrowSchema) : Except Failure (Option ArrowSchema) :=
  match schema with
  | none => .error .undefined
  | some s =>
    match s.children with
    | none => .error .undefined
    | some [] => .error .undefined
    | some (child :: _) => .ok child

/-- `create_view_point`. -/
def create_view_point (schema : Option ArrowSchema) (point_meta : Meta) :
    Except Failure ArrayView :=
  match point_meta.storage_type_ with
  | .FixedSizeList => .ok (.PointArrayView schema)
  | _ => .error (.ValidationError "Unsupported storage type for extension geoarrow.point")

/-- `create_view_linestring`. -/
def create_view_linestring (parse : Option ArrowSchema → Except String Meta)
    (schema : Option ArrowSchema) (linestring_meta : Meta) : Except Failure ArrayView := do
  let point_meta ← Meta.construct parse (← children0 schema)
  match linestring_meta.storage_type_ with
  | .List =>
    match point_meta.storage_type_ with
    | .FixedSizeList => .ok (.LinestringArrayView schema)
    | _ => .error (.ValidationError "Unsupported storage type for extension geoarrow.point")
  | _ => .error (.ValidationError "Unsupported storage type for extension geoarrow.linestring")

/-- `create_view_polygon`. -/
def create_view_polygon (parse : Option ArrowSchema → Except String Meta)
    (schema : Option ArrowSchema) (polygon_meta : Meta) : Except Failure ArrayView := do
  let linestring_meta ← Meta.construct parse (← children0 schema)
  let point_meta ← Meta.construct parse (← children0 (← children0 schema))
  match polygon_meta.storage_type_ with
  | .List =>
    match linestring_meta.storage_type_ with
    | .List =>
      match point_meta.storage_type_ with
      | .FixedSizeList => .ok (.PolygonArrayView schema)
      | _ => .error (.ValidationError "Unsupported storage type for extension geoarrow.point")
    | _ => .error (.ValidationError "Unsupported storage type for extension geoarrow.linestring")
  | _ => .error (.ValidationError "Unsupported storage type for extension geoarrow.polygon")

/-- `create_view_multipoint`. -/
def create_view_multipoint (schema : Option ArrowSchema) (multi_meta point_meta : Meta) :
    Except Failure ArrayView :=
  match multi_meta.storage_type_ with
  | .List =>
    match point_meta.storage_type_ with
    | .FixedSizeList => .ok (.CollectionArrayView_PointArrayView schema)
    | _ => .error (.ValidationError "Unsupported storage type for extension geoarrow.point")
  | _ =>
    .error (.ValidationError "Unsupported storage type for extension geoarrow.geometrycollection")

/-- `create_view_multilinestring`. -/
def create_view_multilinestring (parse : Option ArrowSchema → Except String Meta)
    (schema : Option ArrowSchema) (multi_meta linestring_meta : Meta) :
    Except Failure ArrayView := do
  let point_meta ← Meta.construct parse (← children0 (← children0 schema))
  match multi_meta.storage_type_ with
  | .List =>
    match linestring_meta.storage_type_ with
    | .List =>
      match point_meta.storage_type_ with
      | .FixedSizeList => .ok (.CollectionArrayView_LinestringArrayView schema)
      | _ => .error (.ValidationError "Unsupported storage type for extension geoarrow.point")
    | _ => .error (.ValidationError "Unsupported storage type for extension geoarrow.linestring")
  | _ =>
    .error (.ValidationError "Unsupported storage type for extension geoarrow.geometrycollection")

/-- `create_view_multipolygon`. -/
def create_view_multipolygon (parse : Option ArrowSchema → Except String Meta)
    (schema : Option ArrowSchema) (multi_meta polygon_meta : Meta) :
    Except Failure ArrayView := do
  let linestring_meta ← Meta.construct parse (← children0 (← children0 schema))
  let point_meta ← Meta.construct parse (← children0 (← children0 (← children0 schema)))
  match multi_meta.storage_type_ with
  | .List =>
    match polygon_meta.storage_type_ with
    | .List =>
      match linestring_meta.storage_type_ with
      | .List =>
        match point_meta.storage_type_ with
        | .FixedSizeList => .ok (.CollectionArrayView_PolygonArrayView schema)
        | _ => .error (.ValidationError "Unsupported storage type for extension geoarrow.point")
      | _ =>
        .error (.ValidationError "Unsupported storage type for extension geoarrow.linestring")
    | _ => .error (.ValidationError "Unsupported storage type for extension geoarrow.polygon")
  | _ =>
    .error (.ValidationError "Unsupported storage type for extension geoarrow.geometrycollection")

/-- `create_view_collection`. -/
def create_view_collection (parse : Option ArrowSchema → Except String Meta)
    (schema : Option ArrowSchema) (multi_meta : Meta) : Except Failure ArrayView := do
  let child_meta ← Meta.construct parse (← children0 schema)
  match child_meta.extension_ with
  | .Point => create_view_multipoint schema multi_meta child_meta
  | .Linestring => create_view_multilinestring parse schema multi_meta child_meta
  | .Polygon => create_view_multipolygon parse schema multi_meta child_meta
  | _ =>
    .error (.ValidationError
      "Unsupported extension type for child of geoarrow.geometrycollection")

/-- `create_view_wkb`. -/
def create_view_wkb (schema : Option ArrowSchema) (geoarrow_meta : Meta) :
    Except Failure ArrayView :=
  match geoarrow_meta.storage_type_ with
  | .Binary => .ok (.WKBArrayView schema)
  | .LargeBinary => .ok (.LargeWKBArrayView schema)
  | .FixedWidthBinary => .ok (.FixedWidthWKBArrayView schema)
  | _ => .error (.ValidationError "Unsupported storage type for extension geoarrow.wkb")

/-- `create_view_wkt`. -/
def create_view_wkt (schema : Option ArrowSchema) (geoarrow_meta : Meta) :
    Except Failure ArrayView :=
  match geoarrow_meta.storage_type_ with
  | .Binary => .ok (.WKTArrayView schema)
  | .String => .ok (.WKTArrayView schema)
  | .LargeBinary => .ok (.LargeWKTArrayView schema)
  | .LargeString => .ok (.LargeWKTArrayView schema)
  | _ => .error (.ValidationError "Unsupported storage type for extension geoarrow.wkt")

/-- `create_view`. -/
def create_view (parse : Option ArrowSchema → Except String Meta)
    (schema : Option ArrowSchema) : Except Failure ArrayView := do
  let geoarrow_meta ← Meta.construct parse schema
  match geoarrow_meta.extension_ with
  | .Point => create_view_point schema geoarrow_meta
  | .Linestring => create_view_linestring parse schema geoarrow_meta
  | .Polygon => create_view_polygon parse schema geoarrow_meta
  | .MultiPoint => create_view_collection parse schema geoarrow_meta
  | .MultiLinestring => create_view_collection parse schema geoarrow_meta
  | .MultiPolygon => create_view_collection parse schema geoarrow_meta
  | .GeometryCollection => create_view_collection parse schema geoarrow_meta
  | .WKB => create_view_wkb schema geoarrow_meta
  | .WKT => create_view_wkt schema geoarrow_meta
  | _ => .error (.ValidationError "Unsupported extension type")

end geoarrow
namespace geoarrow

open arrow.hpp.builder

/-- The four tags that `create_view` sends to `create_view_collection`. -/
def is_collection_tag : util.Extension → Bool
  | .MultiPoint => true
  | .MultiLinestring => true
  | .MultiPolygon => true
  | .GeometryCollection => true
  | _ => false

/-- The supported shapes of section 4.5 of the spec, with the view each one is
bound to: the node's tag and storage kind, and the storage kinds found along
`children[0]` as deep as the shape requires. -/
def Supported (parse : Option ArrowSchema → Except String Meta) (schema : Option ArrowSchema)
    (v : ArrayView) : Prop :=
  (parse schema = .ok ⟨.Point, .FixedSizeList⟩ ∧ v = .PointArrayView schema) ∨
  (parse schema = .ok ⟨.Linestring, .List⟩ ∧
    (∃ c ce, children0 schema = .ok c ∧ parse c = .ok ⟨ce, .FixedSizeList⟩) ∧
    v = .LinestringArrayView schema) ∨
  (parse schema = .ok ⟨.Polygon, .List⟩ ∧
    (∃ c ce g ge, children0 schema = .ok c ∧ parse c = .ok ⟨ce, .List⟩ ∧
      children0 c = .ok g ∧ parse g = .ok ⟨ge, .FixedSizeList⟩) ∧
    v = .PolygonArrayView schema) ∨
  (∃ tag c, is_collection_tag tag = true ∧ parse schema = .ok ⟨tag, .List⟩ ∧
    children0 schema = .ok c ∧
    ((parse c = .ok ⟨.Point, .FixedSizeList⟩ ∧ v = .CollectionArrayView_PointArrayView schema) ∨
     (parse c = .ok ⟨.Linestring, .List⟩ ∧
        (∃ g ge, children0 c = .ok g ∧ parse g = .ok ⟨ge, .FixedSizeList⟩) ∧
        v = .CollectionArrayView_LinestringArrayView schema) ∨
     (parse c = .ok ⟨.Polygon, .List⟩ ∧
        (∃ g ge h he, children0 c = .ok g ∧ parse g = .ok ⟨ge, .List⟩ ∧
          children0 g = .ok h ∧ parse h = .ok ⟨he, .FixedSizeList⟩) ∧
        v = .CollectionArrayView_PolygonArrayView schema))) ∨
  (parse schema = .ok ⟨.WKB, .Binary⟩ ∧ v = .WKBArrayView schema) ∨
  (parse schema = .ok ⟨.WKB, .LargeBinary⟩ ∧ v = .LargeWKBArrayView schema) ∨
  (parse schema = .ok ⟨.WKB, .FixedWidthBinary⟩ ∧ v = .FixedWidthWKBArrayView schema) ∨
  (parse schema = .ok ⟨.WKT, .Binary⟩ ∧ v = .WKTArrayView schema) ∨
  (parse schema = .ok ⟨.WKT, .String⟩ ∧ v = .WKTArrayView schema) ∨
  (parse schema = .ok ⟨.WKT, .LargeBinary⟩ ∧ v = .LargeWKTArrayView schema) ∨
  (parse schema = .ok ⟨.WKT, .LargeString⟩ ∧ v = .LargeWKTArrayView schema)

end geoarrow
namespace geoarrow

open arrow.hpp.builder

/-- The texts of the validation errors that `factory.hpp` throws itself. -/
def factory_messages : List String :=
  ["Unsupported storage type for extension geoarrow.point",
   "Unsupported storage type for extension geoarrow.linestring",
   "Unsupported storage type for extension geoarrow.polygon",
   "Unsupported storage type for extension geoarrow.geometrycollection",
   "Unsupported extension type for child of geoarrow.geometrycollection",
   "Unsupported storage type for extension geoarrow.wkb",
   "Unsupported storage type for extension geoarrow.wkt",
   "Unsupported extension type"]

/-- A failure that the factory can account for: a validation error with one of
its own texts, or with the text of a `Meta` constructor that rejected one of the
nodes `schema`, `children[0]`, ... down to the third level, or a read of a
`children[0]` that does not exist within those levels. -/
def Accounted (parse : Option ArrowSchema → Except String Meta) (schema : Option ArrowSchema) :
    Failure → Prop
  | .ValidationError what =>
    what ∈ factory_messages ∨ parse schema = .error what ∨
    (∃ c, children0 schema = .ok c ∧ (parse c = .error what ∨
      ∃ g, children0 c = .ok g ∧ (parse g = .error what ∨
        ∃ h, children0 g = .ok h ∧ parse h = .error what)))
  | .undefined =>
    children0 schema = .error .undefined ∨
    (∃ c, children0 schema = .ok c ∧ (children0 c = .error .undefined ∨
      ∃ g, children0 c = .ok g ∧ children0 g = .error .undefined))

end geoarrow
namespace geoarrow

open arrow.hpp.builder

/-- The pointers `children[0]` that a call of `create_view` dereferences all
exist: the first child of the node for a linestring, polygon or collection tag;
the first grandchild for a polygon tag, and for a collection tag whose child is
tagged linestring or polygon; the first great-grandchild for a collection tag
whose child is tagged polygon.  Each pointer is read only once the `Meta`
constructions before it have returned. -/
def ReadsExist (parse : Option ArrowSchema → Except String Meta)
    (schema : Option ArrowSchema) : Prop :=
  ∀ m, parse schema = .ok m →
    (m.extension_ = .Linestring → ∃ c, children0 schema = .ok c) ∧
    (m.extension_ = .Polygon →
      ∃ c, children0 schema = .ok c ∧ ∀ cm, parse c = .ok cm → ∃ g, children0 c = .ok g) ∧
    (is_collection_tag m.extension_ = true →
      ∃ c, children0 schema = .ok c ∧ ∀ cm, parse c = .ok cm →
        (cm.extension_ = .Linestring → ∃ g, children0 c = .ok g) ∧
        (cm.extension_ = .Polygon →
          ∃ g, children0 c = .ok g ∧ ∀ gm, parse g = .ok gm → ∃ k, children0 g = .ok k))

/-- A stand-in for the extension tag that `Meta` reads from the metadata of a
node, used to evaluate the factory on concrete trees. -/
def sample_extension : Option String → util.Extension
  | some "geoarrow.point" => .Point
  | some "geoarrow.linestring" => .Linestring
  | some "geoarrow.polygon" => .Polygon
  | some "geoarrow.multipoint" => .MultiPoint
  | some "geoarrow.multilinestring" => .MultiLinestring
  | some "geoarrow.multipolygon" => .MultiPolygon
  | some "geoarrow.geometrycollection" => .GeometryCollection
  | some "geoarrow.wkb" => .WKB
  | some "geoarrow.wkt" => .WKT
  | some _ => .ExtensionOther
  | none => .ExtensionNone

/-- A stand-in for the storage kind that `Meta` reads from the format string of a
node (the format codes of the columnar convention), used to evaluate the factory
on concrete trees. -/
def sample_storage : String → util.StorageType
  | "+w:2" => .FixedSizeList
  | "+l" => .List
  | "z" => .Binary
  | "Z" => .LargeBinary
  | "w:21" => .FixedWidthBinary
  | "u" => .String
  | "U" => .LargeString
  | _ => .StorageTypeOther

/-- A stand-in for the `Meta` constructor: it rejects the null pointer and reads
the tag and the storage kind of any other node. -/
def sample_Meta : Option ArrowSchema → Except String Meta
  | none => .error "schema is NULL"
  | some s => .ok ⟨sample_extension s.metadata, sample_storage s.format⟩

/-- A schema node with the given metadata, format string and children. -/
def sample_node (tag : Option String) (format : String)
    (children : List (Option ArrowSchema)) : Option ArrowSchema :=
  some
    { format := format, name := "", metadata := tag, flags := 0,
      n_children := children.length, children := some children, dictionary := none,
      private_data := none, release := some .arrow_hpp_builder_release_schema_internal }

/-- A point node: a fixed-size list of two doubles. -/
def sample_point : Option ArrowSchema :=
  sample_node (some "geoarrow.point") "+w:2" [sample_node none "g" []]

/-- A linestring node: a list of points. -/
def sample_linestring : Option ArrowSchema :=
  sample_node (some "geoarrow.linestring") "+l" [sample_point]

/-- A polygon node: a list of lists of points. -/
def sample_polygon : Option ArrowSchema :=
  sample_node (some "geoarrow.polygon") "+l" [sample_node none "+l" [sample_point]]

end geoarrow
namespace arrow.hpp.builder

/-! ## `StructArrayBuilder` -/

/-- The builders a `std::unique_ptr<ArrayBuilder>` of this library can own: a
`Float64ArrayBuilder`, a `StringArrayBuilder`, or a `StructArrayBuilder` with
its members `size_`, `validity_buffer_builder_`, `child_names_` and
`children_`. -/
inductive ArrayBuilder where
  | float64 (b : Float64ArrayBuilder)
  | string (b : StringArrayBuilder)
  | struct (size_ : Int) (validity_buffer_builder_ : BitmapBuilder)
      (child_names_ : List String) (children_ : List ArrayBuilder)

/-- `ArrayBuilder::size`, which no derived class overrides. -/
def ArrayBuilder.size : ArrayBuilder → Int
  | .float64 b => b.size_
  | .string b => b.size_
  | .struct size_ _ _ _ => size_

/-- The read `array_data.children[i]`. -/
def ArrowArray.child (a : ArrowArray) (i : Nat) : Except Fault (Option ArrowArray) :=
  match a.children with
  | none => .error .undefined
  | some cs =>
    match cs.get? i with
    | none => .error .undefined
    | some p => .ok p

/-- The read `schema.children[i]`. -/
def ArrowSchema.child (s : ArrowSchema) (i : Nat) : Except Fault (Option ArrowSchema) :=
  match s.children with
  | none => .error .undefined
  | some cs =>
    match cs.get? i with
    | none => .error .undefined
    | some p => .ok p

/-- The struct behind `array_data.children[i]` after a callee has written `v`
through that pointer. -/
def ArrowArray.write_child (a : ArrowArray) (i : Nat) (v : ArrowArray) : ArrowArray :=
  { a with children := a.children.map (fun cs => cs.set i (some v)) }

/-- The struct behind `schema.children[i]` after a callee has written `v`
through that pointer. -/
def ArrowSchema.write_child (s : ArrowSchema) (i : Nat) (v : ArrowSchema) : ArrowSchema :=
  { s with children := s.children.map (fun cs => cs.set i (some v)) }

mutual

/-- The virtual call `builder->release(array_data, schema)`: the structs
published through the two pointers, and the builder left behind. -/
def ArrayBuilder.release (oom : Int → Bool) :
    ArrayBuilder → Option ArrowArray → Option ArrowSchema →
      Except Fault (ArrowArray × ArrowSchema × ArrayBuilder)
  | .float64 b, array_data, schema =>
    match b.release oom array_data schema with
    | .error e => .error e
    | .ok (a, s, b1) => .ok (a, s, .float64 b1)
  | .string b, array_data, schema =>
    match b.release oom array_data schema with
    | .error e => .error e
    | .ok (a, s, b1) => .ok (a, s, .string b1)
  | .struct size_ validity_buffer_builder_ child_names_ children_, array_data, schema =>
    match CArrayFinalizer.new.allocate oom 1 child_names_.length with
    | .error e => .error e
    | .ok f0 =>
      let f1 : CArrayFinalizer := { f0 with schema := { f0.schema with format := "+s" } }
      let f2 : CArrayFinalizer := { f1 with array_data := { f1.array_data with length := size_ } }
      let f3 : CArrayFinalizer :=
        { f2 with array_data :=
            { f2.array_data with null_count := validity_buffer_builder_.null_count } }
      match ArrayBuilder.release_children oom children_ child_names_.length 0 f3 with
      | .error e => .error e
      | .ok (f4, children1) =>
        match CArrayFinalizer.release f4 array_data schema with
        | .error e => .error e
        | .ok (a_out, s_out, _) =>
          .ok (a_out, s_out, .struct size_ validity_buffer_builder_ child_names_ children1)

/-- The loop `for (i = 0; i < num_children(); i++) children_[i]->release(...)` of
`StructArrayBuilder::release`, from index `i` with `n` rounds left, over the
builders `children_[i], children_[i + 1], ...`; it returns the finalizer and
those builders as the loop leaves them. -/
def ArrayBuilder.release_children (oom : Int → Bool) :
    List ArrayBuilder → Nat → Nat → CArrayFinalizer →
      Except Fault (CArrayFinalizer × List ArrayBuilder)
  | [], n, _, f => if n = 0 then .ok (f, []) else .error .undefined
  | c :: cs, n, i, f =>
    if n = 0 then .ok (f, c :: cs)
    else
      match f.array_data.child i with
      | .error e => .error e
      | .ok array_data_i =>
        match f.schema.child i with
        | .error e => .error e
        | .ok schema_i =>
          match ArrayBuilder.release oom c array_data_i schema_i with
          | .error e => .error e
          | .ok (a, s, c1) =>
            match ArrayBuilder.release_children oom cs (n - 1) (i + 1)
                { array_data := f.array_data.write_child i a,
                  schema := f.schema.write_child i s } with
            | .error e => .error e
            | .ok (f1, cs1) => .ok (f1, c1 :: cs1)

end

/-- The class `StructArrayBuilder`, with the members `size_` and
`validity_buffer_builder_` of its base class `ArrayBuilder`. -/
structure StructArrayBuilder where
  size_ : Int
  validity_buffer_builder_ : BitmapBuilder
  child_names_ : List String
  children_ : List ArrayBuilder

namespace StructArrayBuilder

/-- The builder as the `ArrayBuilder` it is. -/
def as_ArrayBuilder (b : StructArrayBuilder) : ArrayBuilder :=
  .struct b.size_ b.validity_buffer_builder_ b.child_names_ b.children_

/-- The constructor `StructArrayBuilder(capacity)`. -/
def new (oom : Int → Bool) (capacity : Int) : Except Fault StructArrayBuilder :=
  match BitmapBuilder.new oom capacity 0 with
  | .error e => .error e
  | .ok v => .ok { size_ := 0, validity_buffer_builder_ := v, child_names_ := [], children_ := [] }

/-- `ArrayBuilder::size`. -/
def size (b : StructArrayBuilder) : Int := b.size_

/-- `StructArrayBuilder::num_children`. -/
def num_children (b : StructArrayBuilder) : Int := b.child_names_.length

/-- `StructArrayBuilder::set_size`: the builder after the call, and the exception
if one was thrown. -/
def set_size (b : StructArrayBuilder) (size : Int) : StructArrayBuilder × Option Fault :=
  if b.num_children > 0 ∧ size ≠ b.size_ then
    (b, some (.exception "Attempt to resize a StructArrayBuilder from %lld to %lld"))
  else ({ b with size_ := size }, none)

/-- `StructArrayBuilder::add_child`: the builder after the call, and the exception
if one was thrown. -/
def add_child (b : StructArrayBuilder) (child : ArrayBuilder) (name : String) :
    StructArrayBuilder × Option Fault :=
  match b.set_size child.size with
  | (b1, some e) => (b1, some e)
  | (b1, none) =>
    let b2 : StructArrayBuilder := { b1 with child_names_ := b1.child_names_ ++ [name] }
    ({ b2 with children_ := b2.children_ ++ [child] }, none)

/-- A sequence of `add_child` calls, stopped by the first exception. -/
def add_children (b : StructArrayBuilder) :
    List (ArrayBuilder × String) → StructArrayBuilder × Option Fault
  | [] => (b, none)
  | (child, name) :: rest =>
    match b.add_child child name with
    | (b1, some e) => (b1, some e)
    | (b1, none) => add_children b1 rest

/-- `StructArrayBuilder::release(array_data, schema)`: the structs published
through the two pointers, and the builder left behind. -/
def release (oom : Int → Bool) (b : StructArrayBuilder) (array_data : Option ArrowArray)
    (schema : Option ArrowSchema) :
    Except Fault (ArrowArray × ArrowSchema × StructArrayBuilder) :=
  match CArrayFinalizer.new.allocate oom 1 b.child_names_.length with
  | .error e => .error e
  | .ok f0 =>
    let f1 : CArrayFinalizer := { f0 with schema := { f0.schema with format := "+s" } }
    let f2 : CArrayFinalizer := { f1 with array_data := { f1.array_data with length := b.size } }
    let f3 : CArrayFinalizer :=
      { f2 with array_data :=
          { f2.array_data with null_count := b.validity_buffer_builder_.null_count } }
    match ArrayBuilder.release_children oom b.children_ b.child_names_.length 0 f3 with
    | .error e => .error e
    | .ok (f4, children1) =>
      match CArrayFinalizer.release f4 array_data schema with
      | .error e => .error e
      | .ok (a_out, s_out, _) => .ok (a_out, s_out, { b with children_ := children1 })

end StructArrayBuilder

/-- The `length` of a published array and the `length` of each of its children
(`none` where no struct was published or a child pointer is null). -/
def published_lengths {β : Type} :
    Except Fault (ArrowArray × ArrowSchema × β) → Option (Int × List Int)
  | .ok (a, _, _) =>
    match a.children with
    | none => some (a.length, [])
    | some cs =>
      (cs.mapM (fun (c : Option ArrowArray) => c.map ArrowArray.length)).map
        (fun ls => (a.length, ls))
  | .error _ => none

end arrow.hpp.builder
namespace arrow.hpp.builder

/-! ## Ownership of heap blocks

The release callbacks, `allocate_array_data`, `allocate_schema` and
`CArrayFinalizer` once more, this time keeping the allocator's books: every
pointer to a heap block is the address `malloc` returned, paired with what is
behind it where the code follows the pointer, and `free` of an address that is
not an outstanding allocation is undefined behaviour.  The contents of the
buffers, which the callbacks never read, are left out. -/

namespace tracked

/-- The address of a heap block. -/
abbrev Addr := Nat

/-- The allocator's books: the outstanding allocations, and a counter of the
calls of `malloc`, which numbers the blocks. -/
structure Heap where
  live : Addr → Bool
  next : Addr

/-- The C `malloc(n_bytes)`.  Whether the request is satisfied is the parameter
`oom`, asked with the number of the call and the size; a new block has an
address that was never handed out before. -/
def malloc (oom : Nat → Int → Bool) (h : Heap) (n_bytes : Int) : Option Addr × Heap :=
  if oom h.next n_bytes = true then (none, { h with next := h.next + 1 })
  else (some h.next, { live := fun a => decide (a = h.next) || h.live a, next := h.next + 1 })

/-- The C `free(p)` for a non-null `p`. -/
def free (h : Heap) (p : Addr) : Except Fault Heap :=
  if h.live p = true then .ok { h with live := fun a => !decide (a = p) && h.live a }
  else .error .undefined

/-- The statement `if (p != nullptr) free(p)`. -/
def free_nonnull (h : Heap) : Option Addr → Except Fault Heap
  | none => .ok h
  | some p => free h p

/-- The outstanding allocations, in the order of their addresses. -/
def Heap.outstanding (h : Heap) : List Addr := (List.range h.next).filter h.live

/-- The C struct `ArrowArray`. -/
structure ArrowArray where
  length : Int
  null_count : Int
  offset : Int
  n_buffers : Int
  n_children : Int
  buffers : Option (Addr × List (Option Addr))
  children : Option (Addr × List (Option (Addr × ArrowArray)))
  dictionary : Option (Addr × ArrowArray)
  private_data : Option Addr
  release : Option ReleaseCallback

/-- The C struct `ArrowSchema`; `format` and `name` point to storage that the
struct does not own. -/
structure ArrowSchema where
  format : String
  name : String
  metadata : Option Addr
  flags : Int
  n_children : Int
  children : Option (Addr × List (Option (Addr × ArrowSchema)))
  dictionary : Option (Addr × ArrowSchema)
  private_data : Option Addr
  release : Option ReleaseCallback

/-- The loop `for (i = 0; i < n_buffers; i++) if (buffers[i] != nullptr)
free(buffers[i])`, with `n` rounds left over the remaining slots. -/
def free_buffers : Heap → List (Option Addr) → Nat → Except Fault Heap
  | h, _, 0 => .ok h
  | _, [], _ + 1 => .error .undefined
  | h, p :: slots, n + 1 =>
    match free_nonnull h p with
    | .error e => .error e
    | .ok h1 => free_buffers h1 slots n

/-- The statements `if (buffers != nullptr) { for (...) if (buffers[i] != nullptr)
free(buffers[i]); free(buffers); }`. -/
def release_array_buffers (h : Heap) (n_buffers : Int) :
    Option (Addr × List (Option Addr)) → Except Fault Heap
  | none => .ok h
  | some (p, slots) =>
    match free_buffers h slots n_buffers.toNat with
    | .error e => .error e
    | .ok h1 => free h1 p

mutual

/-- The statements of `arrow_hpp_builder_release_array_data_internal` inside its
guard and before `array_data->release = nullptr`.  `foreign` is what the release
callback of another producer, called on a struct, does to the heap. -/
def release_array_data (foreign : Nat → ArrowArray → Heap → Except Fault Heap) :
    Heap → ArrowArray → Except Fault Heap
  | h, ⟨_, _, _, n_buffers, n_children, buffers, children, dictionary, private_data, _⟩ =>
    match release_array_buffers h n_buffers buffers with
    | .error e => .error e
    | .ok h1 =>
      match release_array_children_array foreign h1 children n_children.toNat with
      | .error e => .error e
      | .ok h2 =>
        match release_array_dictionary foreign h2 dictionary with
        | .error e => .error e
        | .ok h3 => free_nonnull h3 private_data

/-- The statements `if (children != nullptr) { for (...) ...; free(children); }`
of the array callback. -/
def release_array_children_array (foreign : Nat → ArrowArray → Heap → Except Fault Heap) :
    Heap → Option (Addr × List (Option (Addr × ArrowArray))) → Nat → Except Fault Heap
  | h, none, _ => .ok h
  | h, some (p, slots), n =>
    match release_array_children foreign h slots n with
    | .error e => .error e
    | .ok h1 => free h1 p

/-- The loop over `array_data->children`, with `n` rounds left over the remaining
slots: a non-null child is released through its own callback when it has one,
then freed. -/
def release_array_children (foreign : Nat → ArrowArray → Heap → Except Fault Heap) :
    Heap → List (Option (Addr × ArrowArray)) → Nat → Except Fault Heap
  | h, [], n => if n = 0 then .ok h else .error .undefined
  | h, none :: slots, n =>
    if n = 0 then .ok h else release_array_children foreign h slots (n - 1)
  | h, some (p, child) :: slots, n =>
    if n = 0 then .ok h
    else
      match (match child.release with
             | none => .ok h
             | some .arrow_hpp_builder_release_array_data_internal =>
               release_array_data foreign h child
             | some .arrow_hpp_builder_release_schema_internal => .error .undefined
             | some (.foreign tag) => foreign tag child h : Except Fault Heap) with
      | .error e => .error e
      | .ok h1 =>
        match free h1 p with
        | .error e => .error e
        | .ok h2 => release_array_children foreign h2 slots (n - 1)

/-- The statements `if (dictionary != nullptr) { if (dictionary->release !=
nullptr) dictionary->release(dictionary); free(dictionary); }` of the array
callback. -/
def release_array_dictionary (foreign : Nat → ArrowArray → Heap → Except Fault Heap) :
    Heap → Option (Addr × ArrowArray) → Except Fault Heap
  | h, none => .ok h
  | h, some (p, d) =>
    match (match d.release with
           | none => .ok h
           | some .arrow_hpp_builder_release_array_data_internal =>
             release_array_data foreign h d
           | some .arrow_hpp_builder_release_schema_internal => .error .undefined
           | some (.foreign tag) => foreign tag d h : Except Fault Heap) with
    | .error e => .error e
    | .ok h1 => free h1 p

end

mutual

/-- The statements of `arrow_hpp_builder_release_schema_internal` inside its
guard and before `schema->release = nullptr`. -/
def release_schema (foreign : Nat → ArrowSchema → Heap → Except Fault Heap) :
    Heap → ArrowSchema → Except Fault Heap
  | h, ⟨_, _, metadata, _, n_children, children, dictionary, private_data, _⟩ =>
    match free_nonnull h metadata with
    | .error e => .error e
    | .ok h1 =>
      match release_schema_children_array foreign h1 children n_children.toNat with
      | .error e => .error e
      | .ok h2 =>
        match release_schema_dictionary foreign h2 dictionary with
        | .error e => .error e
        | .ok h3 => free_nonnull h3 private_data

/-- The statements `if (children != nullptr) { for (...) ...; free(children); }`
of the schema callback. -/
def release_schema_children_array (foreign : Nat → ArrowSchema → Heap → Except Fault Heap) :
    Heap → Option (Addr × List (Option (Addr × ArrowSchema))) → Nat → Except Fault Heap
  | h, none, _ => .ok h
  | h, some (p, slots), n =>
    match release_schema_children foreign h slots n with
    | .error e => .error e
    | .ok h1 => free h1 p

/-- The loop over `schema->children`, with `n` rounds left over the remaining
slots. -/
def release_schema_children (foreign : Nat → ArrowSchema → Heap → Except Fault Heap) :
    Heap → List (Option (Addr × ArrowSchema)) → Nat → Except Fault Heap
  | h, [], n => if n = 0 then .ok h else .error .undefined
  | h, none :: slots, n =>
    if n = 0 then .ok h else release_schema_children foreign h slots (n - 1)
  | h, some (p, child) :: slots, n =>
    if n = 0 then .ok h
    else
      match (match child.release with
             | none => .ok h
             | some .arrow_hpp_builder_release_schema_internal =>
               release_schema foreign h child
             | some .arrow_hpp_builder_release_array_data_internal => .error .undefined
             | some (.foreign tag) => foreign tag child h : Except Fault Heap) with
      | .error e => .error e
      | .ok h1 =>
        match free h1 p with
        | .error e => .error e
        | .ok h2 => release_schema_children foreign h2 slots (n - 1)

/-- The statements `if (dictionary != nullptr) { ... }` of the schema callback. -/
def release_schema_dictionary (foreign : Nat → ArrowSchema → Heap → Except Fault Heap) :
    Heap → Option (Addr × ArrowSchema) → Except Fault Heap
  | h, none => .ok h
  | h, some (p, d) =>
    match (match d.release with
           | none => .ok h
           | some .arrow_hpp_builder_release_schema_internal =>
             release_schema foreign h d
           | some .arrow_hpp_builder_release_array_data_internal => .error .undefined
           | some (.foreign tag) => foreign tag d h : Except Fault Heap) with
    | .error e => .error e
    | .ok h1 => free h1 p

end

/-- The callback `arrow_hpp_builder_release_array_data_internal(array_data)`: the
heap, and the struct behind the pointer, after the call. -/
def arrow_hpp_builder_release_array_data_internal
    (foreign : Nat → ArrowArray → Heap → Except Fault Heap) (h : Heap)
    (array_data : Option ArrowArray) : Except Fault (Heap × Option ArrowArray) :=
  match array_data with
  | none => .ok (h, none)
  | some a =>
    if a.release ≠ none then
      match release_array_data foreign h a with
      | .error e => .error e
      | .ok h1 => .ok (h1, some { a with release := none })
    else .ok (h, some a)

/-- The callback `arrow_hpp_builder_release_schema_internal(schema)`: the heap,
and the struct behind the pointer, after the call. -/
def arrow_hpp_builder_release_schema_internal
    (foreign : Nat → ArrowSchema → Heap → Except Fault Heap) (h : Heap)
    (schema : Option ArrowSchema) : Except Fault (Heap × Option ArrowSchema) :=
  match schema with
  | none => .ok (h, none)
  | some s =>
    if s.release ≠ none then
      match release_schema foreign h s with
      | .error e => .error e
      | .ok h1 => .ok (h1, some { s with release := none })
    else .ok (h, some s)

/-- A struct `ArrowArray` of which only `release` has been assigned (`nullptr`):
the other members, indeterminate in the source, are given fixed values. -/
def ArrowArray.unreleased : ArrowArray :=
  { length := 0, null_count := 0, offset := 0, n_buffers := 0, n_children := 0, buffers := none,
    children := none, dictionary := none, private_data := none, release := none }

/-- A struct `ArrowSchema` of which only `release` has been assigned (`nullptr`). -/
def ArrowSchema.unreleased : ArrowSchema :=
  { format := "", name := "", metadata := none, flags := 0, n_children := 0, children := none,
    dictionary := none, private_data := none, release := none }

/-- The statements `arrow_hpp_builder_release_array_data_internal(array_data);
throw util::Exception(what)` of `allocate_array_data`: the heap and the struct
when the exception leaves the function. -/
def abandon_array_data (foreign : Nat → ArrowArray → Heap → Except Fault Heap) (h : Heap)
    (a : ArrowArray) (what : String) : Heap × ArrowArray × Option Fault :=
  match arrow_hpp_builder_release_array_data_internal foreign h (some a) with
  | .error e => (h, a, some e)
  | .ok (h1, a1) => (h1, a1.getD a, some (.exception what))

/-- The statements `arrow_hpp_builder_release_schema_internal(schema); throw
util::Exception(what)` of `allocate_schema`. -/
def abandon_schema (foreign : Nat → ArrowSchema → Heap → Except Fault Heap) (h : Heap)
    (s : ArrowSchema) (what : String) : Heap × ArrowSchema × Option Fault :=
  match arrow_hpp_builder_release_schema_internal foreign h (some s) with
  | .error e => (h, s, some e)
  | .ok (h1, s1) => (h1, s1.getD s, some (.exception what))

/-- The loop of `allocate_array_data` that allocates `children[i]`, from index `i`
with `k` rounds left: the heap, the pointer array, and whether every `malloc`
returned a block. -/
def allocate_array_children (oom : Nat → Int → Bool) :
    Nat → Heap → List (Option (Addr × ArrowArray)) → Nat →
      Heap × List (Option (Addr × ArrowArray)) × Bool
  | 0, h, slots, _ => (h, slots, true)
  | k + 1, h, slots, i =>
    match malloc oom h sizeof_ArrowArray with
    | (none, h1) => (h1, slots, false)
    | (some p, h1) =>
      allocate_array_children oom k h1 (slots.set i (some (p, ArrowArray.unreleased))) (i + 1)

/-- The loop of `allocate_schema` that allocates `children[i]`. -/
def allocate_schema_children (oom : Nat → Int → Bool) :
    Nat → Heap → List (Option (Addr × ArrowSchema)) → Nat →
      Heap × List (Option (Addr × ArrowSchema)) × Bool
  | 0, h, slots, _ => (h, slots, true)
  | k + 1, h, slots, i =>
    match malloc oom h sizeof_ArrowSchema with
    | (none, h1) => (h1, slots, false)
    | (some p, h1) =>
      allocate_schema_children oom k h1 (slots.set i (some (p, ArrowSchema.unreleased))) (i + 1)

/-- `allocate_array_data(array_data, n_buffers, n_children)`: the heap and the
struct after the call, and the exception if one was thrown. -/
def allocate_array_data (foreign : Nat → ArrowArray → Heap → Except Fault Heap)
    (oom : Nat → Int → Bool) (h : Heap) (n_buffers n_children : Int) :
    Heap × ArrowArray × Option Fault :=
  let a0 : ArrowArray :=
    { length := 0, null_count := -1, offset := 0, n_buffers := n_buffers,
      n_children := n_children, buffers := none, children := none, dictionary := none,
      private_data := none, release := some .arrow_hpp_builder_release_array_data_internal }
  match (if n_buffers > 0 then
           match malloc oom h (n_buffers * sizeof_pointer) with
           | (none, h1) =>
             abandon_array_data foreign h1 a0 "Failed to allocate array_data->buffers of size %lld"
           | (some p, h1) =>
             (h1, { a0 with buffers := some (p, List.replicate n_buffers.toNat none) }, none)
         else (h, a0, none) : Heap × ArrowArray × Option Fault) with
  | (h1, a1, some e) => (h1, a1, some e)
  | (h1, a1, none) =>
    if n_children > 0 then
      match malloc oom h1 (n_children * sizeof_pointer) with
      | (none, h2) =>
        abandon_array_data foreign h2 a1 "Failed to allocate array_data->children of size %lld"
      | (some p, h2) =>
        match allocate_array_children oom n_children.toNat h2
            (List.replicate n_children.toNat none) 0 with
        | (h3, slots, false) =>
          abandon_array_data foreign h3 { a1 with children := some (p, slots) }
            "Failed to allocate array_data->children[%lld]"
        | (h3, slots, true) => (h3, { a1 with children := some (p, slots) }, none)
    else (h1, a1, none)

/-- `allocate_schema(schema, n_children)`: the heap and the struct after the
call, and the exception if one was thrown. -/
def allocate_schema (foreign : Nat → ArrowSchema → Heap → Except Fault Heap)
    (oom : Nat → Int → Bool) (h : Heap) (n_children : Int) :
    Heap × ArrowSchema × Option Fault :=
  let s0 : ArrowSchema :=
    { format := "", name := "", metadata := none, flags := ARROW_FLAG_NULLABLE,
      n_children := n_children, children := none, dictionary := none, private_data := none,
      release := some .arrow_hpp_builder_release_schema_internal }
  if n_children > 0 then
    match malloc oom h (n_children * sizeof_pointer) with
    | (none, h1) =>
      abandon_schema foreign h1 s0 "Failed to allocate schema->children of size %lld"
    | (some p, h1) =>
      match allocate_schema_children oom n_children.toNat h1
          (List.replicate n_children.toNat none) 0 with
      | (h2, slots, false) =>
        abandon_schema foreign h2 { s0 with children := some (p, slots) }
          "Failed to allocate schema->children[%lld]"
      | (h2, slots, true) => (h2, { s0 with children := some (p, slots) }, none)
  else (h, s0, none)

/-- The class `CArrayFinalizer`. -/
structure CArrayFinalizer where
  array_data : ArrowArray
  schema : ArrowSchema

namespace CArrayFinalizer

/-- The constructor `CArrayFinalizer()`. -/
def new : CArrayFinalizer :=
  { array_data := ArrowArray.unreleased, schema := ArrowSchema.unreleased }

/-- `CArrayFinalizer::allocate(n_buffers, n_children)`: the heap and the finalizer
after the call, and the exception if one was thrown. -/
def allocate (foreign_array : Nat → ArrowArray → Heap → Except Fault Heap)
    (foreign_schema : Nat → ArrowSchema → Heap → Except Fault Heap)
    (oom : Nat → Int → Bool) (h : Heap) (f : CArrayFinalizer) (n_buffers n_children : Int) :
    Heap × CArrayFinalizer × Option Fault :=
  match allocate_array_data foreign_array oom h n_buffers n_children with
  | (h1, a, some e) => (h1, { f with array_data := a }, some e)
  | (h1, a, none) =>
    match allocate_schema foreign_schema oom h1 n_children with
    | (h2, s, e) => (h2, { array_data := a, schema := s }, e)

/-- `CArrayFinalizer::release(array_data_out, schema_out)`: the finalizer and the
structs behind the two output pointers after the call, and the exception if one
was thrown.  The call neither allocates nor frees. -/
def release (f : CArrayFinalizer) (array_data_out : Option ArrowArray)
    (schema_out : Option ArrowSchema) :
    (CArrayFinalizer × Option ArrowArray × Option ArrowSchema) × Option Fault :=
  match array_data_out, schema_out with
  | none, _ => ((f, array_data_out, schema_out), some (.exception "output array_data is nullptr"))
  | some _, none =>
    ((f, array_data_out, schema_out), some (.exception "output schema is nullptr"))
  | some a_out, some s_out =>
    if a_out.release ≠ none then
      ((f, array_data_out, schema_out), some (.exception "output array_data is not released"))
    else if s_out.release ≠ none then
      ((f, array_data_out, schema_out), some (.exception "output schema is not released"))
    else
      let array_data_out1 : Option ArrowArray := some f.array_data
      let f1 : CArrayFinalizer := { f with array_data := { f.array_data with release := none } }
      let schema_out1 : Option ArrowSchema := some f1.schema
      let f2 : CArrayFinalizer := { f1 with schema := { f1.schema with release := none } }
      ((f2, array_data_out1, schema_out1), none)

/-- The destructor `~CArrayFinalizer()`: the heap and the finalizer after it. -/
def destroy (foreign_array : Nat → ArrowArray → Heap → Except Fault Heap)
    (foreign_schema : Nat → ArrowSchema → Heap → Except Fault Heap)
    (h : Heap) (f : CArrayFinalizer) : Except Fault (Heap × CArrayFinalizer) :=
  match arrow_hpp_builder_release_array_data_internal foreign_array h (some f.array_data) with
  | .error e => .error e
  | .ok (h1, a) =>
    match arrow_hpp_builder_release_schema_internal foreign_schema h1 (some f.schema) with
    | .error e => .error e
    | .ok (h2, s) => .ok (h2, { array_data := a.getD f.array_data, schema := s.getD f.schema })

/-- The assignments `array_data.buffers[i] = bufs[i]` of a client, for every slot
`i` of the pointer array that `allocate` left zeroed. -/
def attach_buffers (f : CArrayFinalizer) (bufs : List (Option Addr)) : CArrayFinalizer :=
  { f with array_data :=
      { f.array_data with buffers := f.array_data.buffers.map (fun pb => (pb.1, bufs)) } }

/-- A finalizer that is constructed, allocated, given buffers and destroyed
without a call of `release`; when `allocate` throws, the destructor runs as the
exception leaves the scope.  The result is the heap at the end. -/
def lifetime (foreign_array : Nat → ArrowArray → Heap → Except Fault Heap)
    (foreign_schema : Nat → ArrowSchema → Heap → Except Fault Heap)
    (oom : Nat → Int → Bool) (h : Heap) (n_buffers n_children : Int)
    (bufs : List (Option Addr)) : Except Fault Heap :=
  match allocate foreign_array foreign_schema oom h new n_buffers n_children with
  | (h1, f1, none) =>
    (destroy foreign_array foreign_schema h1 (f1.attach_buffers bufs)).map Prod.fst
  | (h1, f1, some (.exception _)) =>
    (destroy foreign_array foreign_schema h1 f1).map Prod.fst
  | (_, _, some .undefined) => .error .undefined

end CArrayFinalizer

end tracked

end arrow.hpp.builder
namespace arrow.hpp.builder.tracked

/-- Every outstanding allocation was handed out by an earlier call of `malloc`. -/
def Heap.Valid (h : Heap) : Prop := ∀ a, h.live a = true → a < h.next

/-- The outstanding allocations of `h` are the blocks of `own`, each listed once,
together with the blocks of `base`. -/
def Heap.Split (h : Heap) (base : Addr → Bool) (own : List Addr) : Prop :=
  own.Nodup ∧ (∀ p ∈ own, base p = false ∧ p < h.next) ∧ (∀ a, base a = true → a < h.next) ∧
  ∀ a, h.live a = (decide (a ∈ own) || base a)

/-- The addresses in the non-null slots of an array of pointers to structs. -/
def child_addrs {α : Type} (slots : List (Option (Addr × α))) : List Addr :=
  slots.filterMap (fun s => s.map Prod.fst)

/-- The blocks freed for the buffers: the non-null slots, then the pointer array. -/
def buffer_blocks : Option (Addr × List (Option Addr)) → List Addr
  | none => []
  | some (p, slots) => slots.reduceOption ++ [p]

/-- The blocks freed for children without a callback of their own: the structs
behind the non-null slots, then the pointer array. -/
def children_blocks {α : Type} : Option (Addr × List (Option (Addr × α))) → List Addr
  | none => []
  | some (p, slots) => child_addrs slots ++ [p]

/-- The blocks that the release callback frees for an array whose children have
no callback of their own, in the order of the calls of `free`. -/
def ArrowArray.blocks (a : ArrowArray) : List Addr :=
  buffer_blocks a.buffers ++ children_blocks a.children

/-- The blocks that the release callback frees for a schema whose children have
no callback of their own. -/
def ArrowSchema.blocks (s : ArrowSchema) : List Addr := children_blocks s.children

/-- An array as `allocate_array_data` builds it and a client fills its buffer
slots: the two pointer arrays have `n_buffers` and `n_children` slots, no child
has a release callback, and there is no dictionary and no private data. -/
def ArrowArray.Flat (a : ArrowArray) : Prop :=
  (∀ p slots, a.buffers = some (p, slots) → slots.length = a.n_buffers.toNat) ∧
  (∀ p slots, a.children = some (p, slots) →
    slots.length = a.n_children.toNat ∧ ∀ q c, some (q, c) ∈ slots → c.release = none) ∧
  a.dictionary = none ∧ a.private_data = none

/-- A schema as `allocate_schema` builds it. -/
def ArrowSchema.Flat (s : ArrowSchema) : Prop :=
  (∀ p slots, s.children = some (p, slots) →
    slots.length = s.n_children.toNat ∧ ∀ q c, some (q, c) ∈ slots → c.release = none) ∧
  s.metadata = none ∧ s.dictionary = none ∧ s.private_data = none

end arrow.hpp.builder.tracked
/-! ## The type collector of geoarrow (`src/internal/geoarrow-hpp/compute-geoparquet-types.hpp`)

`GeoParquetTypeCollector` keeps the current geometry type and dimensions of a
stream of features and collects the pairs seen at `geom_start` in a
`std::unordered_set`; `release` writes one label per collected pair into a
`StringArrayBuilder`.  The set is a list of distinct pairs; the order in which a
range-`for` visits it, which the language leaves unspecified, is a parameter
`iteration` of `release`.
-/

namespace arrow.hpp.builder

/-- The bytes of a C string of ASCII characters, one per character. -/
def c_str_bytes (s : String) : List Nat := s.toList.map Char.toNat

namespace StringArrayBuilder

/-- Modelled from the spec: `StringArrayBuilder::write_element(const std::string&)`,
which the type collector calls and `builder.hpp` does not define (the collector
also includes `builder-string.hpp`, a header that is not among the sources): the
bytes of the string are appended with `write_buffer` and the element is closed
with `finish_element()`, as the spec describes the String builder. -/
def write_element (oom : Int → Bool) (b : StringArrayBuilder) (item : String) :
    Except Fault StringArrayBuilder :=
  match write_buffer oom b (c_str_bytes item) with
  | .error e => .error e
  | .ok b1 => finish_element oom b1 true

end StringArrayBuilder

/-- The first `n` entries of an offsets buffer of an array node, 32-bit or
64-bit, when they can all be read. -/
def Buffer.offset_values (p : Option Buffer) (n : Nat) : Option (List Int) :=
  match p with
  | some (.int32 blk) => if n ≤ blk.length then Block.values (blk.take n) else none
  | some (.int64 blk) => if n ≤ blk.length then Block.values (blk.take n) else none
  | _ => none

/-- The first `n` bytes behind a data buffer pointer of an array node, when they
can all be read. -/
def Buffer.byte_values (p : Option Buffer) (n : Nat) : Option (List Nat) :=
  if n = 0 then some []
  else
    match p with
    | some (.uint8 blk) => if n ≤ blk.length then Block.values (blk.take n) else none
    | _ => none

/-- The elements that consecutive offsets cut out of the data bytes: element `i`
is `bytes[offsets[i] .. offsets[i + 1])`. -/
def slices : List Int → List Nat → List (List Nat)
  | lo :: hi :: rest, bytes =>
    ((bytes.drop lo.toNat).take (hi - lo).toNat) :: slices (hi :: rest) bytes
  | _, _ => []

/-- The elements of a published string array, read the way a consumer of the
columnar format reads them: `length + 1` offsets from `buffers[1]`, and the data
bytes of `buffers[2]` up to the last offset. -/
def published_strings (a : ArrowArray) : Option (List (List Nat)) :=
  match a.buffers with
  | some [_, offsets, data] =>
    match Buffer.offset_values offsets (a.length.toNat + 1) with
    | none => none
    | some offs =>
      match Buffer.byte_values data (offs.getLastD 0).toNat with
      | none => none
      | some bytes => some (slices offs bytes)
  | _ => none

end arrow.hpp.builder

namespace geoarrow

open arrow.hpp.builder

namespace util

/-- Modelled from the spec: the enumeration `util::GeometryType`, of a header that
is not among the sources; the eight enumerators that the type collector names,
and any other value of the underlying integer type, which falls to the `default`
branch of a `switch`. -/
inductive GeometryType where
  | GEOMETRY_TYPE_UNKNOWN
  | POINT
  | LINESTRING
  | POLYGON
  | MULTIPOINT
  | MULTILINESTRING
  | MULTIPOLYGON
  | GEOMETRYCOLLECTION
  | GeometryTypeOther (value : Int)
deriving DecidableEq, Repr

/-- Modelled from the spec: the enumeration `util::Dimensions`, of a header that is
not among the sources; the five enumerators that the type collector names, and
any other value of the underlying integer type. -/
inductive Dimensions where
  | DIMENSIONS_UNKNOWN
  | XY
  | XYZ
  | XYM
  | XYZM
  | DimensionsOther (value : Int)
deriving DecidableEq, Repr

end util

/-- Modelled from the spec: the enumeration `Result` of `handler.hpp`, which is not
among the sources; the value that lets the source go on, and the one that
`geom_start` of the type collector returns. -/
inductive Result where
  | CONTINUE
  | ABORT_FEATURE
deriving DecidableEq, Repr

/-- `std::unordered_set::insert`: the set as the list of its elements, each once;
an element that compares equal to one already present is not inserted. -/
def unordered_set_insert {α : Type} [DecidableEq α] (set : List α) (item : α) : List α :=
  if item ∈ set then set else set ++ [item]

/-- The class `GeoParquetTypeCollector`. -/
structure GeoParquetTypeCollector where
  dim_ : util.Dimensions
  geometry_type_ : util.GeometryType
  all_types_ : List (util.GeometryType × util.Dimensions)

namespace GeoParquetTypeCollector

/-- The constructor `GeoParquetTypeCollector()`. -/
def new : GeoParquetTypeCollector :=
  { dim_ := .DIMENSIONS_UNKNOWN, geometry_type_ := .GEOMETRY_TYPE_UNKNOWN, all_types_ := [] }

/-- `GeoParquetTypeCollector::new_dimensions`. -/
def new_dimensions (c : GeoParquetTypeCollector) (dim : util.Dimensions) :
    GeoParquetTypeCollector :=
  { c with dim_ := dim }

/-- `GeoParquetTypeCollector::new_geometry_type`. -/
def new_geometry_type (c : GeoParquetTypeCollector) (geometry_type : util.GeometryType) :
    GeoParquetTypeCollector :=
  { c with geometry_type_ := geometry_type }

/-- `GeoParquetTypeCollector::geom_start`: the value returned and the collector
after the call.  The arguments are not used. -/
def geom_start (c : GeoParquetTypeCollector) (_geometry_type : util.GeometryType)
    (_size : Int) : Result × GeoParquetTypeCollector :=
  (.ABORT_FEATURE,
   { c with all_types_ := unordered_set_insert c.all_types_ (c.geometry_type_, c.dim_) })

/-- `GeoParquetTypeCollector::make_type`.  The longest label has 21 characters, so
`snprintf` into the 128-byte buffer never truncates. -/
def make_type (item : util.GeometryType × util.Dimensions) : String :=
  match (match item.1 with
         | .POINT => some "Point"
         | .LINESTRING => some "Linestring"
         | .POLYGON => some "Polygon"
         | .MULTIPOINT => some "MultiPoint"
         | .MULTILINESTRING => some "MultiLinestring"
         | .MULTIPOLYGON => some "MultiPolygon"
         | .GEOMETRYCOLLECTION => some "GeometryCollection"
         | _ => none : Option String) with
  | none => ""
  | some type_str =>
    match (match item.2 with
           | .XY => some ""
           | .XYZ => some " Z"
           | .XYM => some " M"
           | .XYZM => some " ZM"
           | _ => none : Option String) with
    | none => ""
    | some dim_str => type_str ++ dim_str

/-- The loop of `GeoParquetTypeCollector::release` over the items the iteration
visits. -/
def write_items (oom : Int → Bool) :
    StringArrayBuilder → List (util.GeometryType × util.Dimensions) →
      Except Fault StringArrayBuilder
  | builder, [] => .ok builder
  | builder, item :: items =>
    match builder.write_element oom (make_type item) with
    | .error e => .error e
    | .ok b1 => write_items oom b1 items

/-- `GeoParquetTypeCollector::release(array_data, schema)`; `iteration` is the
order in which the range-`for` visits the set. -/
def release (oom : Int → Bool)
    (iteration : List (util.GeometryType × util.Dimensions) →
      List (util.GeometryType × util.Dimensions))
    (c : GeoParquetTypeCollector) (array_data : Option ArrowArray)
    (schema : Option ArrowSchema) :
    Except Fault (ArrowArray × ArrowSchema × StringArrayBuilder) :=
  match StringArrayBuilder.new oom 1024 1024 with
  | .error e => .error e
  | .ok builder =>
    match write_items oom builder (iteration c.all_types_) with
    | .error e => .error e
    | .ok b1 => b1.release oom array_data schema

/-- A call that a geometry source makes on the collector. -/
inductive Event where
  | new_dimensions (dim : util.Dimensions)
  | new_geometry_type (geometry_type : util.GeometryType)
  | geom_start (geometry_type : util.GeometryType) (size : Int)

/-- One call. -/
def step (c : GeoParquetTypeCollector) : Event → GeoParquetTypeCollector
  | .new_dimensions dim => c.new_dimensions dim
  | .new_geometry_type geometry_type => c.new_geometry_type geometry_type
  | .geom_start geometry_type size => (c.geom_start geometry_type size).2

/-- A sequence of calls, in order. -/
def run (c : GeoParquetTypeCollector) : List Event → GeoParquetTypeCollector
  | [] => c
  | e :: es => run (c.step e) es

/-- The calls for one feature of the given type and dimensions: the type and the
dimensions are announced, then the geometry starts. -/
def feature (item : util.GeometryType × util.Dimensions) : List Event :=
  [.new_geometry_type item.1, .new_dimensions item.2, .geom_start item.1 1]

/-- The calls for a sequence of features. -/
def features : List (util.GeometryType × util.Dimensions) → List Event
  | [] => []
  | item :: items => feature item ++ features items

/-- The (geometry type, dimensions) pairs that were current at the calls of
`geom_start` in a sequence of calls, one entry per call, for a source whose
current type and dimensions are `g` and `d` before the first call. -/
def current_pairs : util.GeometryType → util.Dimensions → List Event →
    List (util.GeometryType × util.Dimensions)
  | _, _, [] => []
  | g, _, .new_dimensions d :: es => current_pairs g d es
  | _, d, .new_geometry_type g :: es => current_pairs g d es
  | g, d, .geom_start _ _ :: es => (g, d) :: current_pairs g d es

end GeoParquetTypeCollector

end geoarrow
namespace arrow.hpp.builder

/-- The `name` of each child schema of a published schema, in slot order (`none`
where the schema has no children array or a child pointer is null). -/
def published_child_names (s : ArrowSchema) : Option (List String) :=
  match s.children with
  | none => none
  | some cs => cs.mapM (fun (c : Option ArrowSchema) => c.map ArrowSchema.name)

end arrow.hpp.builder

namespace geoarrow

/-- The class of a view that `create_view` returns, without the node it is bound
to. -/
def ArrayView.class_name : ArrayView → String
  | .PointArrayView _ => "PointArrayView"
  | .LinestringArrayView _ => "LinestringArrayView"
  | .PolygonArrayView _ => "PolygonArrayView"
  | .CollectionArrayView_PointArrayView _ => "CollectionArrayView<PointArrayView>"
  | .CollectionArrayView_LinestringArrayView _ => "CollectionArrayView<LinestringArrayView>"
  | .CollectionArrayView_PolygonArrayView _ => "CollectionArrayView<PolygonArrayView>"
  | .WKBArrayView _ => "WKBArrayView"
  | .LargeWKBArrayView _ => "LargeWKBArrayView"
  | .FixedWidthWKBArrayView _ => "FixedWidthWKBArrayView"
  | .WKTArrayView _ => "WKTArrayView"
  | .LargeWKTArrayView _ => "LargeWKTArrayView"

/-- The outcome of the factory as a caller tells outcomes apart: the class of the
view, or the failure. -/
def outcome (r : Except Failure ArrayView) : Except Failure String :=
  match r with
  | .error e => .error e
  | .ok v => .ok v.class_name

end geoarrow
namespace arrow.hpp.builder

theorem Block.resize_length {α : Type} (blk : Block α) (n : Nat) :
    (Block.resize blk n).length = n := by
  simp [Block.resize]; omega

theorem Block.resize_take {α : Type} (blk : Block α) (n m : Nat) (h : m ≤ n)
    (hm : m ≤ blk.length) : (Block.resize blk n).take m = blk.take m := by
  unfold Block.resize
  rw [List.take_append_of_le_length (by simp; omega), List.take_take]
  congr 1
  omega

theorem Block.values_map_some {α : Type} (xs : List α) :
    Block.values (xs.map some) = some xs := by
  induction xs with
  | nil => rfl
  | cons x t ih => simp [Block.values, ih]

namespace BufferBuilder

variable {α : Type} {w : Nat}

theorem buffer_reallocate_eq_ok (oom : Int → Bool) (hw : 0 < w) (b b1 : BufferBuilder α w) (c : Int)
    (h : reallocate oom b c = .ok b1) :
    (c = b.capacity_ ∧ b1 = b) ∨
    (c ≠ b.capacity_ ∧ 0 ≤ c ∧
      b1 = { b with data_ := some (Block.resize (b.data_.getD []) c.toNat), capacity_ := c }) := by
  unfold reallocate at h
  by_cases hc : c = b.capacity_
  · left; simp [hc] at h; exact ⟨hc, h.symm⟩
  · right
    simp only [hc, if_false] at h
    have hwz : (w : Int) ≠ 0 := by omega
    by_cases hcond : c * (w : Int) < 0 ∨ oom (c * (w : Int)) = true
    · simp [realloc, hcond] at h
    · simp only [realloc, hcond, if_false] at h
      simp only [not_or] at hcond
      have hnn : 0 ≤ c * (w : Int) := by omega
      have hc0 : 0 ≤ c := by
        by_contra hneg
        have : c * (w : Int) < 0 := Int.mul_neg_of_neg_of_pos (by omega) (by omega)
        omega
      refine ⟨hc, hc0, ?_⟩
      have h1 : (c * (w : Int)).toNat / w = c.toNat := by
        obtain ⟨k, rfl⟩ := Int.eq_ofNat_of_zero_le hc0
        have : ((k : Int) * (w : Int)).toNat = k * w := by
          rw [← Int.natCast_mul]; exact Int.toNat_natCast _
        rw [this]; simp [Nat.mul_div_cancel _ hw]
      have h2 : c * (w : Int) / (w : Int) = c := Int.mul_ediv_cancel _ hwz
      simp only [h1, h2] at h
      injection h with h
      exact h.symm

theorem buffer_reallocate_total (hw : 0 < w) (b : BufferBuilder α w) (c : Int)
    (h : 0 ≤ c ∨ c = b.capacity_) :
    ∃ b1, reallocate (fun _ => false) b c = .ok b1 := by
  unfold reallocate
  by_cases hc : c = b.capacity_
  · simp [hc]
  · have hc0 : 0 ≤ c := by rcases h with h | h; exact h; exact absurd h hc
    simp only [hc, if_false]
    unfold realloc
    have : ¬ (c * (w : Int) < 0) := by
      have := Int.mul_nonneg hc0 (by omega : (0 : Int) ≤ w)
      omega
    simp [this]

end BufferBuilder
end arrow.hpp.builder
namespace arrow.hpp.builder
namespace BufferBuilder

variable {α : Type} {w : Nat}

theorem Stores.contents_eq {b : BufferBuilder α w} {xs : List α} (h : Stores b xs) :
    b.contents = some xs := by
  obtain ⟨blk, hd, hlen, hsz, hle, htk⟩ := h
  unfold contents
  by_cases h0 : b.size_ ≤ 0
  · have : xs.length = 0 := by omega
    have : xs = [] := List.length_eq_zero.mp this
    simp [h0, this]
  · have h1 : b.size_ ≤ (blk.length : Int) := by omega
    have h2 : b.size_.toNat = xs.length := by omega
    simp [h0, hd, h1, h2, htk, Block.values_map_some]

theorem buffer_reserve_stores (oom : Int → Bool) (hw : 0 < w) {b b1 : BufferBuilder α w} {xs : List α}
    (n : Int) (hs : Stores b xs) (h : reserve oom b n = .ok b1) :
    Stores b1 xs ∧ b1.size_ + n ≤ b1.capacity_ ∧ b.capacity_ ≤ b1.capacity_ ∧
      b1.size_ = b.size_ ∧ b1.growth_factor_ = b.growth_factor_ ∧
      (b.size_ + n ≤ b.capacity_ → b1 = b) ∧
      (b.capacity_ < b.size_ + n →
        b1.capacity_ = max (b.capacity_ * b.growth_factor_ + 1) (b.size_ + n)) := by
  obtain ⟨blk, hd, hlen, hsz, hle, htk⟩ := hs
  unfold reserve at h
  by_cases hgt : b.size_ + n > b.capacity_
  · simp only [hgt, if_true] at h
    have htgt : b.size_ + n ≤ max (b.capacity_ * b.growth_factor_ + 1) (b.size_ + n) :=
      le_max_right _ _
    rcases buffer_reallocate_eq_ok oom hw b b1 _ h with ⟨hc, rfl⟩ | ⟨_, h0, rfl⟩
    · omega
    · refine ⟨⟨_, rfl, ?_, hsz, ?_, ?_⟩, ?_, ?_, rfl, rfl, ?_, ?_⟩
      · simp only [Block.resize_length]; omega
      · simp only; omega
      · simp only [hd, Option.getD_some]
        rw [Block.resize_take _ _ _ (by omega) (by omega)]
        exact htk
      · simp only; omega
      · simp only; omega
      · intro hcontra; omega
      · intro _; rfl
  · simp only [hgt, if_false] at h
    injection h with h
    subst h
    exact ⟨⟨blk, hd, hlen, hsz, hle, htk⟩, by omega, le_refl _, rfl, rfl, fun _ => rfl,
      fun hc => absurd hc (by omega)⟩

theorem buffer_reserve_fresh (oom : Int → Bool) (hw : 0 < w) {b b1 : BufferBuilder α w}
    (n : Int) (hn : 0 ≤ n) (hs : Fresh b) (h : reserve oom b n = .ok b1) :
    Stores b1 [] ∧ b1.size_ + n ≤ b1.capacity_ := by
  obtain ⟨hd, hcap, hsz⟩ := hs
  unfold reserve at h
  have hgt : b.size_ + n > b.capacity_ := by omega
  simp only [hgt, if_true] at h
  have htgt : b.size_ + n ≤ max (b.capacity_ * b.growth_factor_ + 1) (b.size_ + n) :=
    le_max_right _ _
  rcases buffer_reallocate_eq_ok oom hw b b1 _ h with ⟨hc, rfl⟩ | ⟨_, h0, rfl⟩
  · omega
  · refine ⟨⟨_, rfl, ?_, ?_, ?_, ?_⟩, ?_⟩
    · simp only [Block.resize_length]; omega
    · simpa using hsz
    · simp only; omega
    · simp
    · simp only; omega

theorem buffer_reserve_total (hw : 0 < w) (b : BufferBuilder α w) (n : Int)
    (h : 0 ≤ b.size_ + n) : ∃ b1, reserve (fun _ => false) b n = .ok b1 := by
  unfold reserve
  by_cases hgt : b.size_ + n > b.capacity_
  · simp only [hgt, if_true]
    apply buffer_reallocate_total hw
    left
    exact le_trans h (le_max_right _ _)
  · simp [hgt]

theorem buffer_memcpy_stores {blk : Block α} {xs : List α} (ys : List α)
    (htk : blk.take xs.length = xs.map some)
    (hfit : (xs.length : Int) + ys.length ≤ blk.length) :
    ∃ d, memcpy (some blk) (xs.length : Int) ys = .ok d ∧ d.length = blk.length ∧
      d.take (xs.length + ys.length) = (xs ++ ys).map some ∧
      d = xs.map some ++ ys.map some ++ blk.drop (xs.length + ys.length) := by
  have hcond : (0 : Int) ≤ (xs.length : Int) ∧
      (xs.length : Int) + (ys.length : Int) ≤ (blk.length : Int) := ⟨by omega, hfit⟩
  refine ⟨blk.take (xs.length : Int).toNat ++ ys.map some ++
      blk.drop ((xs.length : Int).toNat + ys.length),
    by simp only [memcpy, hcond, and_self, if_true], ?_, ?_, ?_⟩
  · simp; omega
  · simp only [Int.toNat_natCast, htk]
    rw [List.take_append_of_le_length (by simp)]
    rw [List.take_of_length_le (by simp)]
    simp
  · simp only [Int.toNat_natCast, htk]

theorem buffer_write_buffer_stores (oom : Int → Bool) (hw : 0 < w) {b b1 : BufferBuilder α w}
    {xs : List α} (ys : List α) (hs : Stores b xs) (h : write_buffer oom b ys = .ok b1) :
    Stores b1 (xs ++ ys) ∧ b.capacity_ ≤ b1.capacity_ ∧
      b1.growth_factor_ = b.growth_factor_ := by
  unfold write_buffer at h
  cases hr : reserve oom b (ys.length : Int) with
  | error e => simp [hr] at h
  | ok b2 =>
    simp only [hr] at h
    obtain ⟨⟨blk, hd, hlen, hsz, hle, htk⟩, hroom, hcap, _, hgf, _⟩ :=
      buffer_reserve_stores oom hw _ hs hr
    obtain ⟨d, hm, hdl, hdt, _⟩ := buffer_memcpy_stores ys htk (by omega)
    rw [hd, hsz, hm] at h
    injection h with h
    subst h
    refine ⟨⟨d, rfl, ?_, ?_, ?_, ?_⟩, hcap, hgf⟩
    · simp only [advance]; omega
    · simp only [advance, List.length_append]; push_cast; omega
    · simp only [advance]; omega
    · simpa using hdt

theorem buffer_write_buffer_fresh (oom : Int → Bool) (hw : 0 < w) {b b1 : BufferBuilder α w}
    (ys : List α) (hs : Fresh b) (h : write_buffer oom b ys = .ok b1) :
    Stores b1 ys := by
  unfold write_buffer at h
  cases hr : reserve oom b (ys.length : Int) with
  | error e => simp [hr] at h
  | ok b2 =>
    simp only [hr] at h
    obtain ⟨⟨blk, hd, hlen, hsz, hle, htk⟩, hroom⟩ :=
      buffer_reserve_fresh oom hw _ (by omega) hs hr
    obtain ⟨d, hm, hdl, hdt, _⟩ := @buffer_memcpy_stores _ blk [] ys htk (by simp at hsz ⊢; omega)
    simp only [List.length_nil, Nat.cast_zero] at hsz hm
    rw [hd, hsz, hm] at h
    injection h with h
    subst h
    refine ⟨d, rfl, ?_, ?_, ?_, ?_⟩
    · simp only [advance]; omega
    · simp only [advance]; omega
    · simp only [advance]; omega
    · simpa using hdt

theorem buffer_write_buffer_total (hw : 0 < w) {b : BufferBuilder α w} {xs : List α} (ys : List α)
    (hs : (Fresh b ∧ xs = []) ∨ Stores b xs) :
    ∃ b1, write_buffer (fun _ => false) b ys = .ok b1 := by
  have hsz : b.size_ = xs.length := by
    rcases hs with ⟨⟨_, _, h⟩, rfl⟩ | ⟨_, _, _, h, _⟩
    · simpa using h
    · exact h
  obtain ⟨b2, hr⟩ := buffer_reserve_total hw b (ys.length : Int) (by omega)
  have key : ∃ blk, b2.data_ = some blk ∧ b2.size_ = xs.length ∧
      blk.take xs.length = xs.map some ∧ (xs.length : Int) + ys.length ≤ blk.length := by
    rcases hs with ⟨hf, rfl⟩ | hst
    · obtain ⟨⟨blk, hd, hlen, hsz2, hle, htk⟩, hroom⟩ :=
        buffer_reserve_fresh _ hw _ (by omega) hf hr
      exact ⟨blk, hd, hsz2, htk, by simp at hsz2 ⊢; omega⟩
    · obtain ⟨⟨blk, hd, hlen, hsz2, hle, htk⟩, hroom, _⟩ := buffer_reserve_stores _ hw _ hst hr
      exact ⟨blk, hd, hsz2, htk, by omega⟩
  obtain ⟨blk, hd, hsz2, htk, hfit⟩ := key
  obtain ⟨d, hm, _⟩ := buffer_memcpy_stores ys htk hfit
  refine ⟨advance { b2 with data_ := some d } (ys.length : Int), ?_⟩
  simp only [write_buffer, hr, hd, hsz2, hm]

theorem buffer_new_spec (oom : Int → Bool) (hw : 0 < w) (c : Int) {b : BufferBuilder α w}
    (h : (new oom c : Except Fault (BufferBuilder α w)) = .ok b) :
    b.growth_factor_ = 2 ∧
    ((c = -1 ∧ Fresh b) ∨
     (0 ≤ c ∧ Stores b [] ∧ b.capacity_ = c ∧ b.size_ = 0 ∧
        b.data_ = some (List.replicate c.toNat none))) := by
  unfold new at h
  rcases buffer_reallocate_eq_ok oom hw _ b c h with ⟨hc, rfl⟩ | ⟨_, h0, rfl⟩
  · exact ⟨rfl, Or.inl ⟨hc, rfl, rfl, rfl⟩⟩
  · refine ⟨rfl, Or.inr ⟨h0, ⟨_, rfl, ?_, rfl, ?_, ?_⟩, rfl, rfl, ?_⟩⟩
    · simp only [Block.resize_length]; omega
    · simpa using h0
    · simp
    · simp [Block.resize]

theorem buffer_new_total (hw : 0 < w) (c : Int) (hc : -1 ≤ c) :
    ∃ b, (new (fun _ => false) c : Except Fault (BufferBuilder α w)) = .ok b := by
  unfold new
  apply buffer_reallocate_total hw
  by_cases h : c = -1
  · right; exact h
  · left; omega

end BufferBuilder
end arrow.hpp.builder
namespace arrow.hpp.builder
namespace BufferBuilder

variable {α : Type} {w : Nat}

theorem buffer_step_eq_write_buffer (oom : Int → Bool) (b : BufferBuilder α w) (op : Op α) :
    step oom b op = write_buffer oom b op.payload := by
  cases op <;> rfl

theorem buffer_run_holds (oom : Int → Bool) (hw : 0 < w) (ops : List (Op α)) :
    ∀ (b b1 : BufferBuilder α w) (xs : List α), ((Fresh b ∧ xs = []) ∨ Stores b xs) →
      run oom b ops = .ok b1 →
      (Fresh b1 ∧ xs ++ written ops = []) ∨ Stores b1 (xs ++ written ops) := by
  induction ops with
  | nil =>
    intro b b1 xs hs h
    simp only [run] at h
    injection h with h
    subst h
    simpa [written] using hs
  | cons op ops ih =>
    intro b b1 xs hs h
    simp only [run, buffer_step_eq_write_buffer] at h
    cases hwb : write_buffer oom b op.payload with
    | error e => simp [hwb] at h
    | ok b2 =>
      simp only [hwb] at h
      have hs2 : Stores b2 (xs ++ op.payload) := by
        rcases hs with ⟨hf, rfl⟩ | hst
        · simpa using buffer_write_buffer_fresh oom hw _ hf hwb
        · exact (buffer_write_buffer_stores oom hw _ hst hwb).1
      have := ih b2 b1 _ (Or.inr hs2) h
      simpa [written, List.append_assoc] using this

theorem buffer_run_total (hw : 0 < w) (ops : List (Op α)) :
    ∀ (b : BufferBuilder α w) (xs : List α), ((Fresh b ∧ xs = []) ∨ Stores b xs) →
      ∃ b1, run (fun _ => false) b ops = .ok b1 := by
  induction ops with
  | nil => intro b xs _; exact ⟨b, rfl⟩
  | cons op ops ih =>
    intro b xs hs
    obtain ⟨b2, hwb⟩ := buffer_write_buffer_total hw op.payload hs
    have hs2 : Stores b2 (xs ++ op.payload) := by
      rcases hs with ⟨hf, rfl⟩ | hst
      · simpa using buffer_write_buffer_fresh _ hw _ hf hwb
      · exact (buffer_write_buffer_stores _ hw _ hst hwb).1
    obtain ⟨b1, h1⟩ := ih b2 _ (Or.inr hs2)
    exact ⟨b1, by simp only [run, buffer_step_eq_write_buffer, hwb, h1]⟩

theorem buffer_holds_size_contents {b : BufferBuilder α w} {xs : List α}
    (h : (Fresh b ∧ xs = []) ∨ Stores b xs) :
    b.size = xs.length ∧ b.contents = some xs := by
  rcases h with ⟨⟨_, _, hsz⟩, rfl⟩ | hst
  · refine ⟨by simpa [size] using hsz, ?_⟩
    simp [contents, hsz]
  · obtain ⟨blk, hd, hlen, hsz, hle, htk⟩ := hst
    exact ⟨hsz, Stores.contents_eq ⟨blk, hd, hlen, hsz, hle, htk⟩⟩

/-- C4: after any sequence of `write_element` / `write_buffer` calls on a
`BufferBuilder` constructed with any capacity, `size()` is the number of elements
written and `data()[0 .. size())` holds exactly the written values in write
order; with an allocator that never fails (and a capacity of at least `-1`) every
such sequence runs to completion. -/
theorem buffer_builder_reads_back_writes {α : Type} (w : Nat) (oom : Int → Bool)
    (capacity : Int) (ops : List (Op α)) :
    (∀ b0 b : BufferBuilder α (w + 1), new oom capacity = .ok b0 → run oom b0 ops = .ok b →
      b.size = (written ops).length ∧ b.contents = some (written ops)) ∧
    (-1 ≤ capacity → ∃ b0 b : BufferBuilder α (w + 1),
      new (fun _ => false) capacity = .ok b0 ∧ run (fun _ => false) b0 ops = .ok b) := by
  have hw : 0 < w + 1 := Nat.succ_pos w
  have init : ∀ (o : Int → Bool) (b0 : BufferBuilder α (w + 1)), new o capacity = .ok b0 →
      (Fresh b0 ∧ ([] : List α) = []) ∨ Stores b0 [] := by
    intro o b0 h0
    rcases (buffer_new_spec o hw capacity h0).2 with ⟨_, hf⟩ | ⟨_, hs, _⟩
    · exact Or.inl ⟨hf, rfl⟩
    · exact Or.inr hs
  constructor
  · intro b0 b h0 hrun
    have := buffer_run_holds oom hw ops b0 b [] (init oom b0 h0) hrun
    simpa using buffer_holds_size_contents this
  · intro hc
    obtain ⟨b0, h0⟩ := buffer_new_total (α := α) hw capacity hc
    obtain ⟨b, hb⟩ := buffer_run_total hw ops b0 [] (init _ b0 h0)
    exact ⟨b0, b, h0, hb⟩

/-- C5: on a builder whose block has `capacity()` cells and whose `size()` is
between 0 and `capacity()`, `reserve(n)` with `n >= 0` leaves room for `n` more
elements, does not decrease `capacity()`, and keeps `size()` and the cells
already written; with an allocator that never fails it returns. -/
theorem buffer_builder_reserve_makes_room {α : Type} (w : Nat) (oom : Int → Bool)
    (b : BufferBuilder α (w + 1)) (blk : Block α) (n : Int)
    (hdata : b.data_ = some blk) (hblk : (blk.length : Int) = b.capacity)
    (hsize : 0 ≤ b.size) (hle : b.size ≤ b.capacity) (hn : 0 ≤ n) :
    (∀ b1, reserve oom b n = .ok b1 →
      n ≤ b1.capacity - b1.size ∧ b.capacity ≤ b1.capacity ∧ b1.size = b.size ∧
      b1.contents = b.contents ∧
      ∃ blk1, b1.data_ = some blk1 ∧ (blk1.length : Int) = b1.capacity ∧
        blk1.take b.size.toNat = blk.take b.size.toNat) ∧
    (∃ b1, reserve (fun _ => false) b n = .ok b1) := by
  have hw : 0 < w + 1 := Nat.succ_pos w
  simp only [size, capacity] at *
  refine ⟨?_, buffer_reserve_total hw b n (by omega)⟩
  intro b1 h
  unfold reserve at h
  by_cases hgt : b.size_ + n > b.capacity_
  · simp only [hgt, if_true] at h
    have htgt : b.size_ + n ≤ max (b.capacity_ * b.growth_factor_ + 1) (b.size_ + n) :=
      le_max_right _ _
    rcases buffer_reallocate_eq_ok oom hw b b1 _ h with ⟨hc, rfl⟩ | ⟨_, h0, rfl⟩
    · omega
    · have htake : (Block.resize blk
          (max (b.capacity_ * b.growth_factor_ + 1) (b.size_ + n)).toNat).take b.size_.toNat =
          blk.take b.size_.toNat := Block.resize_take _ _ _ (by omega) (by omega)
      refine ⟨by simp only; omega, by simp only; omega, rfl, ?_, ?_⟩
      · unfold contents
        by_cases hz : b.size_ ≤ 0
        · simp [hz]
        · have h1 : b.size_ ≤ (blk.length : Int) := by omega
          have h2 : b.size_ ≤ ((Block.resize blk
              (max (b.capacity_ * b.growth_factor_ + 1) (b.size_ + n)).toNat).length : Int) := by
            rw [Block.resize_length]; omega
          simp only [hz, if_false, hdata, Option.getD_some, h1, h2, if_true, htake]
      · exact ⟨_, rfl, by simp only [Block.resize_length]; omega, by
          simpa only [hdata, Option.getD_some] using htake⟩
  · simp only [hgt, if_false] at h
    injection h with h
    subst h
    exact ⟨by omega, le_refl _, rfl, rfl, blk, hdata, hblk, rfl⟩

/-- Witness for C5: a block of three `uint8_t` cells of which two are written,
asked for room for five more. -/
theorem buffer_builder_reserve_makes_room_witness :
    (∀ b1, reserve (fun _ => false)
        ({ data_ := some [some 7, some 9, none], capacity_ := 3, size_ := 2,
           growth_factor_ := 2 } : BufferBuilder Nat 1) 5 = .ok b1 →
      (5 : Int) ≤ b1.capacity - b1.size ∧ (3 : Int) ≤ b1.capacity ∧ b1.size = 2 ∧
      b1.contents = some [7, 9] ∧
      ∃ blk1, b1.data_ = some blk1 ∧ (blk1.length : Int) = b1.capacity ∧
        blk1.take 2 = [some 7, some 9]) ∧
    (∃ b1, reserve (fun _ => false)
        ({ data_ := some [some 7, some 9, none], capacity_ := 3, size_ := 2,
           growth_factor_ := 2 } : BufferBuilder Nat 1) 5 = .ok b1) :=
  buffer_builder_reserve_makes_room 0 (fun _ => false)
    { data_ := some [some 7, some 9, none], capacity_ := 3, size_ := 2, growth_factor_ := 2 }
    [some 7, some 9, none] 5 rfl (by decide) (by decide) (by decide) (by decide)

end BufferBuilder
end arrow.hpp.builder
namespace arrow.hpp.builder

theorem bits8_pack : ∀ a b c d e f g h : Bool,
    bits8 (pack [a, b, c, d, e, f, g, h]) = [a, b, c, d, e, f, g, h] := by decide

theorem pack_eq_255 : ∀ a b c d e f g h : Bool, pack [a, b, c, d, e, f, g, h] = 255 →
    [a, b, c, d, e, f, g, h] = List.replicate 8 true := by decide

theorem list_of_length_eight {α : Type} (l : List α) (h : l.length = 8) :
    ∃ a b c d e f g i, l = [a, b, c, d, e, f, g, i] := by
  match l, h with
  | [a, b, c, d, e, f, g, i], _ => exact ⟨a, b, c, d, e, f, g, i, rfl⟩

theorem bits8_pack_of_length (l : List Bool) (h : l.length = 8) : bits8 (pack l) = l := by
  obtain ⟨a, b, c, d, e, f, g, i, rfl⟩ := list_of_length_eight l h
  exact bits8_pack a b c d e f g i

theorem pack_eq_255_of_length (l : List Bool) (h : l.length = 8) (hp : pack l = 255) :
    l = List.replicate 8 true := by
  obtain ⟨a, b, c, d, e, f, g, i, rfl⟩ := list_of_length_eight l h
  exact pack_eq_255 a b c d e f g i hp

theorem pack_lt (ps : List Bool) : pack ps < 2 ^ ps.length := by
  induction ps with
  | nil => simp [pack]
  | cons b bs ih =>
    simp only [pack, List.length_cons, pow_succ]
    cases b <;> simp <;> omega

theorem pack_append (ps : List Bool) (v : Bool) :
    pack (ps ++ [v]) = pack ps + 2 ^ ps.length * v.toNat := by
  induction ps with
  | nil => simp [pack]
  | cons b bs ih =>
    show pack (b :: (bs ++ [v])) = pack (b :: bs) + 2 ^ (bs.length + 1) * v.toNat
    simp only [pack, ih, pow_succ]
    ring

theorem pack_or_shift (ps : List Bool) (v : Bool) (h : ps.length < 8) :
    (pack ps ||| (v.toNat <<< ps.length)) % 256 = pack (ps ++ [v]) := by
  have h1 : pack ps ||| (v.toNat <<< ps.length) = pack (ps ++ [v]) := by
    rw [pack_append, Nat.shiftLeft_eq, Nat.lor_comm, Nat.mul_comm v.toNat,
      Nat.add_comm, Nat.mul_add_lt_is_or (pack_lt ps)]
  rw [h1]
  apply Nat.mod_eq_of_lt
  have h2 : (ps ++ [v]).length ≤ 8 := by simp; omega
  calc pack (ps ++ [v]) < 2 ^ (ps ++ [v]).length := pack_lt _
    _ ≤ 2 ^ 8 := Nat.pow_le_pow_right (by decide) h2

theorem bits8_length (c : Nat) : (bits8 c).length = 8 := by simp [bits8]

theorem unpack_length (cs : List Nat) : (unpack cs).length = 8 * cs.length := by
  induction cs with
  | nil => rfl
  | cons c cs ih => simp only [unpack, List.length_append, bits8_length, ih, List.length_cons]; omega

theorem unpack_append (cs ds : List Nat) : unpack (cs ++ ds) = unpack cs ++ unpack ds := by
  induction cs with
  | nil => rfl
  | cons c cs ih =>
    show unpack (c :: (cs ++ ds)) = unpack (c :: cs) ++ unpack ds
    simp only [unpack, ih, List.append_assoc]

theorem unpack_singleton (c : Nat) : unpack [c] = bits8 c := by simp [unpack]

theorem unpack_replicate_255 (n : Nat) :
    unpack (List.replicate n 255) = List.replicate (8 * n) true := by
  induction n with
  | zero => rfl
  | succ n ih =>
    rw [List.replicate_succ, unpack, ih]
    have : bits8 255 = List.replicate 8 true := by decide
    rw [this, ← List.replicate_add]
    congr 1
    omega

theorem unpack_getElem? (cs : List Nat) :
    ∀ i, i < 8 * cs.length →
      (unpack cs)[i]? = (cs[i / 8]?).map (fun c => c.testBit (i % 8)) := by
  induction cs with
  | nil => intro i hi; simp at hi
  | cons c cs ih =>
    intro i hi
    by_cases h8 : i < 8
    · have hd : i / 8 = 0 := Nat.div_eq_of_lt h8
      have hm : i % 8 = i := Nat.mod_eq_of_lt h8
      rw [unpack, List.getElem?_append_left (by rw [bits8_length]; exact h8), hd, hm]
      simp [bits8, h8]
    · have hge : 8 ≤ i := by omega
      rw [unpack, List.getElem?_append_right (by rw [bits8_length]; exact hge), bits8_length]
      have hlen : i - 8 < 8 * cs.length := by simp only [List.length_cons] at hi; omega
      rw [ih (i - 8) hlen]
      have hd : i / 8 = (i - 8) / 8 + 1 := by omega
      have hm : (i - 8) % 8 = i % 8 := by omega
      rw [hd, hm, List.getElem?_cons_succ]

end arrow.hpp.builder
namespace arrow.hpp.builder
namespace BitmapBuilder

theorem bitmap_memset_whole (blk : Block Nat) (v : Nat) (m : Nat) (h : blk.length = m) :
    memset (some blk) 0 v (m : Int) = .ok (List.replicate m (some v)) := by
  have h1 : ¬ ((m : Int) < 0) := by omega
  have h2 : (0 : Int) ≤ 0 ∧ (0 : Int) + ((List.replicate m v).length : Int) ≤ (blk.length : Int) := by
    simp [h]
  simp only [memset, h1, if_false, memcpy, Int.toNat_natCast, h2, and_self, if_true]
  simp [h]

theorem bitmap_trigger_alloc_eq_ok (oom : Int → Bool) {b b2 : BitmapBuilder} {c : Int}
    (h : trigger_alloc oom b c = .ok b2) (hs : b.buffer_builder_.Stores []) :
    ∃ m : Nat, (m : Int) = (if c.tmod 8 = 0 then c.tdiv 8 else c.tdiv 8 + 1) ∧
      b2 = { b with
        buffer_builder_ :=
          { data_ := some (List.replicate m (some 255)), capacity_ := m,
            size_ := if b.size_ > 0 then (b.size_ - 1).tdiv 8 else 0,
            growth_factor_ := b.buffer_builder_.growth_factor_ },
        allocated_ := true } := by
  obtain ⟨blk, hd, hlen, hsz, hle, _⟩ := hs
  simp only [List.length_nil, Nat.cast_zero] at hsz
  have hre : reallocate oom b c =
      match b.buffer_builder_.reallocate oom
        (if c.tmod 8 = 0 then c.tdiv 8 else c.tdiv 8 + 1) with
      | .error e => .error e
      | .ok bb => .ok { b with buffer_builder_ := bb } := by
    unfold reallocate
    by_cases hc8 : c.tmod 8 = 0
    · simp only [hc8, if_true]
    · simp only [hc8, if_false]
  unfold trigger_alloc at h
  rw [hre] at h
  generalize ht : (if c.tmod 8 = 0 then c.tdiv 8 else c.tdiv 8 + 1) = t at h ⊢
  cases hr : b.buffer_builder_.reallocate oom t with
  | error e => simp [hr] at h
  | ok bb1 =>
    simp only [hr] at h
    have key : ∃ m : Nat, (m : Int) = t ∧ ∃ blk1 : Block Nat, blk1.length = m ∧
        bb1 = { data_ := some blk1, capacity_ := m, size_ := 0,
                growth_factor_ := b.buffer_builder_.growth_factor_ } := by
      rcases BufferBuilder.buffer_reallocate_eq_ok oom (by decide) _ bb1 t hr with
        ⟨hc, hb1⟩ | ⟨_, h0, hb1⟩
      · refine ⟨blk.length, by omega, blk, rfl, ?_⟩
        rw [hb1]
        cases hbb : b.buffer_builder_ with
        | mk d cp sz gf =>
          simp only [hbb] at hd hlen hsz
          simp only [hd, hsz, ← hlen]
      · refine ⟨t.toNat, by omega, Block.resize (b.buffer_builder_.data_.getD []) t.toNat,
          Block.resize_length _ _, ?_⟩
        rw [hb1]
        simp only [hsz, BufferBuilder.mk.injEq, true_and, and_true]
        omega
    obtain ⟨m, hm, blk1, hl1, rfl⟩ := key
    simp only [BufferBuilder.capacity] at h
    rw [bitmap_memset_whole blk1 255 m hl1] at h
    refine ⟨m, hm, ?_⟩
    simp only [BufferBuilder.advance] at h
    split at h
    · rename_i hpos
      injection h with h
      rw [← h]
      simp only [hpos, if_true, zero_add]
    · rename_i hpos
      injection h with h
      rw [← h]
      simp only [hpos, if_false]

theorem bitmap_trigger_alloc_total (b : BitmapBuilder) (c : Int)
    (hs : b.buffer_builder_.Stores [])
    (hc : 0 ≤ (if c.tmod 8 = 0 then c.tdiv 8 else c.tdiv 8 + 1)) :
    ∃ b2, trigger_alloc (fun _ => false) b c = .ok b2 := by
  obtain ⟨blk, hd, hlen, hsz, hle, _⟩ := hs
  simp only [List.length_nil, Nat.cast_zero] at hsz
  have hre : reallocate (fun _ => false) b c =
      match b.buffer_builder_.reallocate (fun _ => false)
        (if c.tmod 8 = 0 then c.tdiv 8 else c.tdiv 8 + 1) with
      | .error e => .error e
      | .ok bb => .ok { b with buffer_builder_ := bb } := by
    unfold reallocate
    by_cases hc8 : c.tmod 8 = 0
    · simp only [hc8, if_true]
    · simp only [hc8, if_false]
  generalize ht : (if c.tmod 8 = 0 then c.tdiv 8 else c.tdiv 8 + 1) = t at hre hc
  obtain ⟨bb1, hr⟩ := BufferBuilder.buffer_reallocate_total (by decide) b.buffer_builder_ t (Or.inl hc)
  have key : ∃ m : Nat, ∃ blk1 : Block Nat, blk1.length = m ∧ bb1.data_ = some blk1 ∧
      bb1.capacity_ = m ∧ bb1.size_ = 0 := by
    rcases BufferBuilder.buffer_reallocate_eq_ok _ (by decide) _ bb1 t hr with
      ⟨hc, hb1⟩ | ⟨_, h0, hb1⟩
    · rw [hb1]; exact ⟨blk.length, blk, rfl, hd, hlen.symm, hsz⟩
    · rw [hb1]
      exact ⟨t.toNat, Block.resize (b.buffer_builder_.data_.getD []) t.toNat,
        Block.resize_length _ _, rfl, by simp only; omega, hsz⟩
  obtain ⟨m, blk1, hl1, hd1, hc1, hs1⟩ := key
  unfold trigger_alloc
  rw [hre, hr]
  simp only [BufferBuilder.capacity, hd1, hc1, hs1, bitmap_memset_whole blk1 255 m hl1]
  split <;> exact ⟨_, rfl⟩

end BitmapBuilder
end arrow.hpp.builder
namespace arrow.hpp.builder
namespace BitmapBuilder

theorem bitmap_count_false_snoc (vals : List Bool) (v : Bool) :
    ((vals ++ [v]).count false : Int) = vals.count false + (if v = true then 0 else 1) := by
  cases v <;> simp

theorem bitmap_write_element_inv (oom : Int → Bool) {b b1 : BitmapBuilder} {vals : List Bool} (v : Bool)
    (hinv : Inv b vals) (h : write_element oom b v = .ok b1) :
    Inv b1 (vals ++ [v]) ∧ (b.allocated_ = true → b1.allocated_ = true) ∧
    (b.allocated_ = false → v = true → b.null_count_ = 0 →
      b1.allocated_ = false ∧ b1.buffer_builder_ = b.buffer_builder_) := by
  obtain ⟨cs, ps, hvals, hps, hbs, hbuf, hsz, hnc, hal, hunal⟩ := hinv
  have hpk := pack_or_shift ps v hps
  have hnc1 : b.null_count_ + (if v = true then 0 else 1) = ((vals ++ [v]).count false : Int) := by
    rw [bitmap_count_false_snoc, hnc]
  have hsz1 : b.size_ + 1 = ((vals ++ [v]).length : Int) := by
    rw [hsz]; simp
  unfold write_element at h
  simp only [hbs, hbuf, hpk, hnc1, hsz1] at h
  by_cases h8 : ps.length + 1 = 8
  · simp only [h8, if_true] at h
    have hl : (ps ++ [v]).length = 8 := by simp [h8]
    have hv8 : vals ++ [v] = unpack (cs ++ [pack (ps ++ [v])]) := by
      rw [unpack_append, unpack_singleton, bits8_pack_of_length _ hl, hvals, List.append_assoc]
    by_cases hff : pack (ps ++ [v]) = 255 ∧ b.allocated_ = false
    · simp only [hff, and_self, if_true] at h
      injection h with h
      subst h
      refine ⟨⟨cs ++ [255], [], ?_, by decide, rfl, rfl, rfl, rfl, ?_, ?_⟩, ?_, ?_⟩
      · rw [List.append_nil, ← hff.1]; exact hv8
      · intro hc; simp only [hff.2] at hc; cases hc
      · intro _
        refine ⟨?_, (hunal hff.2).2⟩
        rw [List.length_append, List.length_singleton, List.replicate_succ',
          ← (hunal hff.2).1]
      · intro hc; rw [hff.2] at hc; cases hc
      · intro _ _ _; exact ⟨rfl, rfl⟩
    · simp only [hff, if_false] at h
      cases halc : b.allocated_ with
      | true =>
        simp only [halc, and_false, if_false, Bool.true_eq_false] at h
        cases hw : b.buffer_builder_.write_element oom (pack (ps ++ [v])) with
        | error e => rw [hw] at h; cases h
        | ok bb =>
          simp only [hw] at h
          injection h with h
          subst h
          have hst := (BufferBuilder.buffer_write_buffer_stores oom (by decide) _ (hal halc) hw).1
          refine ⟨⟨cs ++ [pack (ps ++ [v])], [], ?_, by decide, rfl, rfl, rfl, rfl, ?_, ?_⟩, ?_, ?_⟩
          · rw [List.append_nil]; exact hv8
          · intro _; exact hst
          · intro hc; simp only [halc] at hc; cases hc
          · intro _; rfl
          · intro hc; cases hc
      | false =>
        have hne : pack (ps ++ [v]) ≠ 255 := fun hp => hff ⟨hp, halc⟩
        simp only [halc, hne, ne_eq, not_false_eq_true, and_self, if_true] at h
        cases ht : trigger_alloc oom
            { buffer_builder_ := b.buffer_builder_, null_count_ := ((vals ++ [v]).count false : Int),
              buffer_ := pack (ps ++ [v]), buffer_size_ := 8,
              size_ := ((vals ++ [v]).length : Int), allocated_ := false }
            ((vals ++ [v]).length : Int) with
        | error e => rw [ht] at h; cases h
        | ok b2 =>
          simp only [ht] at h
          obtain ⟨m, hm, hb2⟩ := bitmap_trigger_alloc_eq_ok oom ht (hunal halc).2
          have hlen8 : (vals ++ [v]).length = 8 * (cs.length + 1) := by
            rw [hv8, unpack_length]; simp
          have hm1 : m = cs.length + 1 := by
            rw [hlen8] at hm
            have e1 : ((8 * (cs.length + 1) : Nat) : Int).tmod 8 = 0 := by
              rw [Int.tmod_eq_emod (by omega) (by omega)]; omega
            have e2 : ((8 * (cs.length + 1) : Nat) : Int).tdiv 8 = (cs.length : Int) + 1 := by
              rw [Int.tdiv_eq_ediv (by omega) (by omega)]; omega
            rw [e1, e2] at hm
            simp only [if_true] at hm
            omega
          have hadv : (if ((vals ++ [v]).length : Int) > 0 then
              (((vals ++ [v]).length : Int) - 1).tdiv 8 else 0) = (cs.length : Int) := by
            rw [hlen8]
            have : ((8 * (cs.length + 1) : Nat) : Int) > 0 := by omega
            simp only [this, if_true]
            rw [Int.tdiv_eq_ediv (by omega) (by omega)]; omega
          rw [hadv, hm1] at hb2
          have hst2 : b2.buffer_builder_.Stores cs := by
            rw [hb2]
            refine ⟨_, rfl, by simp, rfl, by simp, ?_⟩
            rw [(hunal halc).1]
            simp [List.take_replicate]
          cases hw : b2.buffer_builder_.write_element oom b2.buffer_ with
          | error e => rw [hw] at h; cases h
          | ok bb =>
            simp only [hw] at h
            injection h with h
            subst h
            have hst := (BufferBuilder.buffer_write_buffer_stores oom (by decide) _ hst2 hw).1
            have hbuf2 : b2.buffer_ = pack (ps ++ [v]) := by rw [hb2]
            have hsz2 : b2.size_ = ((vals ++ [v]).length : Int) := by rw [hb2]
            have hnc2 : b2.null_count_ = ((vals ++ [v]).count false : Int) := by rw [hb2]
            have hal2 : b2.allocated_ = true := by rw [hb2]
            refine ⟨⟨cs ++ [pack (ps ++ [v])], [], ?_, by decide, rfl, rfl, hsz2, hnc2, ?_, ?_⟩,
              ?_, ?_⟩
            · rw [List.append_nil]; exact hv8
            · intro _; rw [← hbuf2]; exact hst
            · intro hc; simp only [hal2] at hc; cases hc
            · intro hc; cases hc
            · intro _ hv hz
              exfalso
              apply hne
              have hcnt : (vals ++ [v]).count false = 0 := by
                have h5 := hnc1
                rw [hz, hv] at h5
                simp only [if_true, zero_add] at h5
                rw [hv]; exact_mod_cast h5.symm
              have hall : ∀ x ∈ ps ++ [v], x = true := by
                intro x hx
                have hx2 : x ∈ vals ++ [v] := by
                  rw [hvals, List.append_assoc]; exact List.mem_append_right _ hx
                cases x with
                | true => rfl
                | false => exact absurd hx2 (List.count_eq_zero.mp hcnt)
              have : ps ++ [v] = List.replicate 8 true := by
                rw [← hl]; exact List.eq_replicate_of_mem hall
              rw [this]; decide
  · simp only [h8, if_false] at h
    injection h with h
    subst h
    refine ⟨⟨cs, ps ++ [v], ?_, ?_, ?_, rfl, rfl, rfl, hal, hunal⟩, fun hc => hc, ?_⟩
    · rw [hvals, List.append_assoc]
    · simp; omega
    · simp
    · intro hc _ _; exact ⟨hc, rfl⟩

end BitmapBuilder
end arrow.hpp.builder
namespace arrow.hpp.builder
namespace BitmapBuilder

theorem bitmap_trigger_alloc_boundary (oom : Int → Bool) {b b2 : BitmapBuilder} (k : Nat)
    (hsz : b.size_ = ((8 * (k + 1) : Nat) : Int)) (h : trigger_alloc oom b b.size_ = .ok b2)
    (hs : b.buffer_builder_.Stores []) :
    b2.buffer_builder_.Stores (List.replicate k 255) := by
  obtain ⟨m, hm, hb2⟩ := bitmap_trigger_alloc_eq_ok oom h hs
  have e1 : ((8 * (k + 1) : Nat) : Int).tmod 8 = 0 := by
    rw [Int.tmod_eq_emod (by omega) (by omega)]; omega
  have e2 : ((8 * (k + 1) : Nat) : Int).tdiv 8 = (k : Int) + 1 := by
    rw [Int.tdiv_eq_ediv (by omega) (by omega)]; omega
  have e3 : ((((8 * (k + 1) : Nat) : Int)) - 1).tdiv 8 = (k : Int) := by
    rw [Int.tdiv_eq_ediv (by omega) (by omega)]; omega
  have e4 : ((8 * (k + 1) : Nat) : Int) > 0 := by omega
  rw [hsz, e1, e2] at hm
  simp only [if_true] at hm
  have hm1 : m = k + 1 := by omega
  rw [hsz, e3, hm1] at hb2
  simp only [e4, if_true] at hb2
  rw [hb2]
  refine ⟨_, rfl, by simp, by simp, by simp, ?_⟩
  simp [List.take_replicate]

theorem bitmap_write_element_total {b : BitmapBuilder} {vals : List Bool} (v : Bool)
    (hinv : Inv b vals) : ∃ b1, write_element (fun _ => false) b v = .ok b1 := by
  obtain ⟨cs, ps, hvals, hps, hbs, hbuf, hsz, hnc, hal, hunal⟩ := hinv
  have hpk := pack_or_shift ps v hps
  unfold write_element
  simp only [hbs, hbuf, hpk]
  by_cases h8 : ps.length + 1 = 8
  · simp only [h8, if_true]
    by_cases hff : pack (ps ++ [v]) = 255 ∧ b.allocated_ = false
    · simp only [hff, and_self, if_true]
      exact ⟨_, rfl⟩
    · simp only [hff, if_false]
      cases halc : b.allocated_ with
      | true =>
        simp only [and_false, if_false, Bool.true_eq_false]
        obtain ⟨bb, hw⟩ := BufferBuilder.buffer_write_buffer_total (by decide) [pack (ps ++ [v])]
          (Or.inr (hal halc))
        simp only [BufferBuilder.write_element, hw]
        exact ⟨_, rfl⟩
      | false =>
        have hne : pack (ps ++ [v]) ≠ 255 := fun hp => hff ⟨hp, halc⟩
        simp only [hne, ne_eq, not_false_eq_true, and_self, if_true]
        have hlen : b.size_ + 1 = ((8 * (cs.length + 1) : Nat) : Int) := by
          rw [hsz, hvals, List.length_append, unpack_length]; push_cast; omega
        have e2 : ((8 * (cs.length + 1) : Nat) : Int).tdiv 8 = (cs.length : Int) + 1 := by
          rw [Int.tdiv_eq_ediv (by omega) (by omega)]; omega
        obtain ⟨b2, ht⟩ := bitmap_trigger_alloc_total
          { buffer_builder_ := b.buffer_builder_,
            null_count_ := b.null_count_ + (if v = true then 0 else 1),
            buffer_ := pack (ps ++ [v]), buffer_size_ := 8,
            size_ := b.size_ + 1, allocated_ := false }
          (b.size_ + 1) (hunal halc).2 (by rw [hlen, e2]; split <;> omega)
        have hst := bitmap_trigger_alloc_boundary _ cs.length hlen ht (hunal halc).2
        obtain ⟨bb, hw⟩ := BufferBuilder.buffer_write_buffer_total (by decide) [b2.buffer_] (Or.inr hst)
        simp only [ht, BufferBuilder.write_element, hw]
        exact ⟨_, rfl⟩
  · simp only [h8, if_false]
    exact ⟨_, rfl⟩

end BitmapBuilder
end arrow.hpp.builder

namespace arrow.hpp.builder
namespace BitmapBuilder

theorem bitmap_writes_inv (oom : Int → Bool) (vs : List Bool) :
    ∀ (b b1 : BitmapBuilder) (pre : List Bool), Inv b pre → writes oom b vs = .ok b1 →
      Inv b1 (pre ++ vs) ∧ (b.allocated_ = true → b1.allocated_ = true) := by
  induction vs with
  | nil =>
    intro b b1 pre hinv h
    simp only [writes] at h
    injection h with h
    subst h
    exact ⟨by simpa using hinv, fun hc => hc⟩
  | cons v vs ih =>
    intro b b1 pre hinv h
    simp only [writes] at h
    cases hw : write_element oom b v with
    | error e => rw [hw] at h; cases h
    | ok b2 =>
      rw [hw] at h
      obtain ⟨hinv2, hmono, _⟩ := bitmap_write_element_inv oom v hinv hw
      obtain ⟨hinv1, hmono1⟩ := ih b2 b1 (pre ++ [v]) hinv2 h
      exact ⟨by simpa [List.append_assoc] using hinv1, fun hc => hmono1 (hmono hc)⟩

theorem bitmap_writes_total (vs : List Bool) :
    ∀ (b : BitmapBuilder) (pre : List Bool), Inv b pre →
      ∃ b1, writes (fun _ => false) b vs = .ok b1 := by
  induction vs with
  | nil => intro b pre _; exact ⟨b, rfl⟩
  | cons v vs ih =>
    intro b pre hinv
    obtain ⟨b2, hw⟩ := bitmap_write_element_total v hinv
    obtain ⟨b1, h1⟩ := ih b2 _ (bitmap_write_element_inv _ v hinv hw).1
    exact ⟨b1, by simp only [writes, hw, h1]⟩

theorem bitmap_pad_eq_writes (oom : Int → Bool) (n : Nat) :
    ∀ b : BitmapBuilder, pad oom n b = writes oom b (List.replicate n false) := by
  induction n with
  | zero => intro b; rfl
  | succ n ih =>
    intro b
    simp only [pad, List.replicate_succ, writes]
    cases write_element oom b false with
    | error e => rfl
    | ok b1 => exact ih b1

theorem bitmap_new_inv (oom : Int → Bool) (capacity guess : Int) {b0 : BitmapBuilder}
    (h : new oom capacity guess = .ok b0) :
    Inv b0 [] ∧ (guess = 0 → b0.allocated_ = false ∧ b0.buffer_builder_.capacity = 0) := by
  unfold new at h
  cases hb : (BufferBuilder.new oom 0 : Except Fault (BufferBuilder Nat 1)) with
  | error e => rw [hb] at h; cases h
  | ok bb =>
    rw [hb] at h
    have hst : bb.Stores [] ∧ bb.capacity_ = 0 := by
      rcases (BufferBuilder.buffer_new_spec oom (by decide) 0 hb).2 with ⟨hc, _⟩ | ⟨_, hs, hcap, _⟩
      · exact absurd hc (by decide)
      · exact ⟨hs, hcap⟩
    by_cases hg : guess = 0
    · simp only [hg, ne_eq, not_true_eq_false, if_false] at h
      injection h with h
      subst h
      refine ⟨⟨[], [], rfl, by decide, rfl, rfl, rfl, rfl, ?_, ?_⟩, fun _ => ⟨rfl, hst.2⟩⟩
      · intro hc; cases hc
      · intro _; exact ⟨rfl, hst.1⟩
    · simp only [ne_eq, hg, not_false_eq_true, if_true] at h
      obtain ⟨m, _, hb2⟩ := bitmap_trigger_alloc_eq_ok oom h hst.1
      simp only [gt_iff_lt, lt_self_iff_false, if_false] at hb2
      rw [hb2]
      refine ⟨⟨[], [], rfl, by decide, rfl, rfl, rfl, rfl, ?_, ?_⟩, fun hc => absurd hc hg⟩
      · intro _; exact ⟨_, rfl, by simp, rfl, by simp, by simp⟩
      · intro hc; cases hc

theorem bitmap_new_total (capacity guess : Int) (h : guess = 0 ∨ 0 ≤ capacity) :
    ∃ b0, new (fun _ => false) capacity guess = .ok b0 := by
  obtain ⟨bb, hb⟩ := BufferBuilder.buffer_new_total (α := Nat) (w := 1) (by decide) 0 (by decide)
  have hst : bb.Stores [] := by
    rcases (BufferBuilder.buffer_new_spec _ (by decide) 0 hb).2 with ⟨hc, _⟩ | ⟨_, hs, _⟩
    · exact absurd hc (by decide)
    · exact hs
  unfold new
  rw [hb]
  by_cases hg : guess = 0
  · simp only [hg, ne_eq, not_true_eq_false, if_false]
    exact ⟨_, rfl⟩
  · simp only [ne_eq, hg, not_false_eq_true, if_true]
    have hc : 0 ≤ capacity := by rcases h with h | h; exact absurd h hg; exact h
    apply bitmap_trigger_alloc_total _ _ hst
    have h1 : capacity.tdiv 8 = capacity / 8 := Int.tdiv_eq_ediv hc (by decide)
    rw [h1]
    split <;> omega

/-- C3: after any sequence of `write_element` calls on a `BitmapBuilder` (any
constructor arguments), `null_count()` is the number of `false` values written
and `size()` the number of values written; with an allocator that never fails
the sequence runs to completion. -/
theorem bitmap_null_count_is_exact (oom : Int → Bool) (capacity guess : Int)
    (vals : List Bool) :
    (∀ b0 b, new oom capacity guess = .ok b0 → writes oom b0 vals = .ok b →
      b.null_count = vals.count false ∧ b.size = vals.length) ∧
    ((guess = 0 ∨ 0 ≤ capacity) → ∃ b0 b,
      new (fun _ => false) capacity guess = .ok b0 ∧ writes (fun _ => false) b0 vals = .ok b) := by
  constructor
  · intro b0 b h0 hw
    obtain ⟨cs, ps, _, _, _, _, hsz, hnc, _⟩ :=
      (bitmap_writes_inv oom vals b0 b [] (bitmap_new_inv oom capacity guess h0).1 hw).1
    simp only [List.nil_append] at hsz hnc
    exact ⟨hnc, hsz⟩
  · intro hc
    obtain ⟨b0, h0⟩ := bitmap_new_total capacity guess hc
    obtain ⟨b, hb⟩ := bitmap_writes_total vals b0 [] (bitmap_new_inv _ capacity guess h0).1
    exact ⟨b0, b, h0, hb⟩

end BitmapBuilder
end arrow.hpp.builder

namespace arrow.hpp.builder
namespace BitmapBuilder

theorem pack_all_true (l : List Bool) (hl : l.length = 8) (h : ∀ x ∈ l, x = true) :
    pack l = 255 := by
  have : l = List.replicate 8 true := by rw [← hl]; exact List.eq_replicate_of_mem h
  rw [this]; decide

theorem bitmap_write_element_true (oom : Int → Bool) {b : BitmapBuilder} {vals : List Bool}
    (hinv : Inv b vals) (hal : b.allocated_ = false) (hz : b.null_count_ = 0) :
    ∃ b1, write_element oom b true = .ok b1 := by
  obtain ⟨cs, ps, hvals, hps, hbs, hbuf, hsz, hnc, _, _⟩ := hinv
  have hpk := pack_or_shift ps true hps
  unfold write_element
  simp only [hbs, hbuf, hpk]
  by_cases h8 : ps.length + 1 = 8
  · have hcnt : vals.count false = 0 := by rw [hz] at hnc; exact_mod_cast hnc.symm
    have hall : ∀ x ∈ ps ++ [true], x = true := by
      intro x hx
      rcases List.mem_append.mp hx with hx | hx
      · cases x with
        | true => rfl
        | false =>
          exact absurd (by rw [hvals]; exact List.mem_append_right _ hx)
            (List.count_eq_zero.mp hcnt)
      · simpa using hx
    have hp := pack_all_true (ps ++ [true]) (by simp [h8]) hall
    simp only [h8, if_true, hp, hal, and_self]
    exact ⟨_, rfl⟩
  · simp only [h8, if_false]
    exact ⟨_, rfl⟩

theorem bitmap_writes_all_true (oom : Int → Bool) (vs : List Bool) (hall : ∀ v ∈ vs, v = true) :
    ∀ (b : BitmapBuilder) (pre : List Bool), Inv b pre → b.allocated_ = false →
      b.null_count_ = 0 →
      ∃ b1, writes oom b vs = .ok b1 ∧ Inv b1 (pre ++ vs) ∧ b1.allocated_ = false ∧
        b1.null_count_ = 0 ∧ b1.buffer_builder_ = b.buffer_builder_ := by
  induction vs with
  | nil =>
    intro b pre hinv hal hz
    exact ⟨b, rfl, by simpa using hinv, hal, hz, rfl⟩
  | cons v vs ih =>
    intro b pre hinv hal hz
    have hv : v = true := hall v (List.mem_cons_self _ _)
    subst hv
    obtain ⟨b2, hw⟩ := bitmap_write_element_true oom hinv hal hz
    obtain ⟨hinv2, _, hkeep⟩ := bitmap_write_element_inv oom true hinv hw
    obtain ⟨hal2, hbb2⟩ := hkeep hal rfl hz
    have hz2 : b2.null_count_ = 0 := by
      obtain ⟨_, _, _, _, _, _, _, hnc2, _⟩ := hinv2
      obtain ⟨_, _, _, _, _, _, _, hnc, _⟩ := hinv
      rw [hnc2, bitmap_count_false_snoc, ← hnc, hz]; simp
    obtain ⟨b1, h1, hinv1, hal1, hz1, hbb1⟩ :=
      ih (fun x hx => hall x (List.mem_cons_of_mem _ hx)) b2 (pre ++ [true]) hinv2 hal2 hz2
    exact ⟨b1, by simp only [writes, hw, h1], by simpa [List.append_assoc] using hinv1, hal1, hz1,
      by rw [hbb1, hbb2]⟩

/-- C2: on a `BitmapBuilder` constructed without a null-count guess, writing only
`true` values (possibly none) never materialises a backing buffer, whatever the
allocator does: after every prefix of the writes the builder is not allocated and
its byte buffer is the empty one of the constructor; `release()` then returns a
null pointer and `null_count()` is 0. -/
theorem bitmap_all_valid_has_no_buffer (oom : Int → Bool) (capacity : Int) (vals : List Bool)
    (hall : ∀ v ∈ vals, v = true) :
    (∀ b0, new oom capacity 0 = .ok b0 →
      (∀ pre, pre <+: vals → ∃ b1, writes oom b0 pre = .ok b1 ∧ b1.allocated_ = false ∧
        b1.buffer_builder_ = b0.buffer_builder_ ∧ b1.buffer_builder_.capacity = 0) ∧
      ∃ b, writes oom b0 vals = .ok b ∧ b.null_count = 0 ∧ b.release oom = .ok (none, b)) ∧
    (∃ b0, new (fun _ => false) capacity 0 = .ok b0) := by
  refine ⟨?_, bitmap_new_total capacity 0 (Or.inl rfl)⟩
  intro b0 h0
  obtain ⟨hinv0, hfresh⟩ := bitmap_new_inv oom capacity 0 h0
  obtain ⟨hal0, hcap0⟩ := hfresh rfl
  have hz0 : b0.null_count_ = 0 := by
    obtain ⟨_, _, _, _, _, _, _, hnc, _⟩ := hinv0
    simpa using hnc
  constructor
  · intro pre hpre
    have hallp : ∀ v ∈ pre, v = true := fun v hv => hall v (hpre.subset hv)
    obtain ⟨b1, h1, _, hal1, _, hbb1⟩ := bitmap_writes_all_true oom pre hallp b0 [] hinv0 hal0 hz0
    exact ⟨b1, h1, hal1, hbb1, by rw [hbb1]; exact hcap0⟩
  · obtain ⟨b, h1, _, hal1, hz1, _⟩ := bitmap_writes_all_true oom vals hall b0 [] hinv0 hal0 hz0
    refine ⟨b, h1, hz1, ?_⟩
    unfold release
    have hcond : ¬ (b.allocated_ = true ∨ b.null_count_ > 0) := by
      rw [hal1, hz1]; simp
    rw [if_neg hcond]
    simp only [hal1, Bool.false_eq_true, if_false]

/-- Witness for C2: three valid values written to a builder of capacity 1024. -/
theorem bitmap_all_valid_has_no_buffer_witness :
    (∀ v ∈ [true, true, true], v = true) ∧
    ((∀ b0, new (fun _ => false) 1024 0 = .ok b0 →
      (∀ pre, pre <+: [true, true, true] → ∃ b1, writes (fun _ => false) b0 pre = .ok b1 ∧
        b1.allocated_ = false ∧ b1.buffer_builder_ = b0.buffer_builder_ ∧
        b1.buffer_builder_.capacity = 0) ∧
      ∃ b, writes (fun _ => false) b0 [true, true, true] = .ok b ∧ b.null_count = 0 ∧
        b.release (fun _ => false) = .ok (none, b)) ∧
    (∃ b0, new (fun _ => false) 1024 0 = .ok b0)) :=
  ⟨by decide, bitmap_all_valid_has_no_buffer (fun _ => false) 1024 [true, true, true] (by decide)⟩

end BitmapBuilder
end arrow.hpp.builder

namespace arrow.hpp.builder
namespace BitmapBuilder

theorem bitmap_stores_bitmap_get {bb : BufferBuilder Nat 1} {cs : List Nat} {blk : Block Nat}
    (hs : bb.Stores cs) (hd : bb.data_ = some blk) (i : Nat) (hi : i < 8 * cs.length) :
    bitmap_get blk i = (unpack cs)[i]? := by
  obtain ⟨blk1, hd1, _, _, _, htk⟩ := hs
  rw [hd] at hd1
  injection hd1 with hd1
  subst hd1
  have hlt : i / 8 < cs.length := by omega
  have hget : blk[i / 8]? = some (some (cs[i / 8])) := by
    have h1 : (blk.take cs.length)[i / 8]? = blk[i / 8]? := by
      rw [List.getElem?_take]; simp [hlt]
    rw [← h1, htk]
    simp [hlt]
  rw [unpack_getElem? cs i hi]
  simp only [bitmap_get, hget]
  simp [hlt]

theorem bitmap_release_inv (oom : Int → Bool) {b b1 : BitmapBuilder} {vals : List Bool}
    {p : Option (Block Nat)} (hinv : Inv b vals) (hfalse : false ∈ vals)
    (h : b.release oom = .ok (p, b1)) :
    ∃ blk, p = some blk ∧ ∀ i, i < vals.length → bitmap_get blk i = vals[i]? := by
  have hpos : b.null_count_ > 0 := by
    obtain ⟨_, _, _, _, _, _, _, hnc, _⟩ := hinv
    rw [hnc]
    exact_mod_cast List.count_pos_iff.mpr hfalse
  have hbs : ∃ ps : List Bool, ∃ cs : List Nat, vals = unpack cs ++ ps ∧ ps.length < 8 ∧
      b.buffer_size_ = ps.length := by
    obtain ⟨cs, ps, h1, h2, h3, _⟩ := hinv
    exact ⟨ps, cs, h1, h2, h3⟩
  obtain ⟨ps, cs, hvals, hps, hbsz⟩ := hbs
  unfold release at h
  have hcond : b.allocated_ = true ∨ b.null_count_ > 0 := Or.inr hpos
  rw [if_pos hcond, bitmap_pad_eq_writes] at h
  cases hw : writes oom b (List.replicate (8 - b.buffer_size_) false) with
  | error e => rw [hw] at h; cases h
  | ok b2 =>
    rw [hw] at h
    obtain ⟨hinv2, _⟩ := bitmap_writes_inv oom _ b b2 vals hinv hw
    obtain ⟨cs2, ps2, hvals2, hps2, _, _, _, _, hal2, hunal2⟩ := hinv2
    have hlen : (vals ++ List.replicate (8 - b.buffer_size_) false).length =
        8 * (cs.length + 1) := by
      rw [List.length_append, List.length_replicate, hbsz, hvals, List.length_append,
        unpack_length]
      omega
    have hlen2 : 8 * cs2.length + ps2.length = 8 * (cs.length + 1) := by
      rw [← hlen, hvals2, List.length_append, unpack_length]
    have hps0 : ps2 = [] := List.length_eq_zero.mp (by omega)
    have hcs2 : cs2.length = cs.length + 1 := by
      rw [hps0] at hlen2; simp at hlen2; omega
    rw [hps0, List.append_nil] at hvals2
    have halloc : b2.allocated_ = true := by
      cases hb : b2.allocated_ with
      | true => rfl
      | false =>
        exfalso
        have hrep := (hunal2 hb).1
        have hmem : false ∈ unpack cs2 := by
          rw [← hvals2]; exact List.mem_append_left _ hfalse
        rw [hrep, unpack_replicate_255] at hmem
        have := List.eq_of_mem_replicate hmem
        cases this
    have hst := hal2 halloc
    simp only [halloc, if_true, BufferBuilder.release] at h
    injection h with h
    injection h with hp hb1
    obtain ⟨blk, hd, _⟩ := id hst
    refine ⟨blk, by rw [← hp, hd], ?_⟩
    intro i hi
    have hi8 : i < 8 * cs2.length := by
      have : vals.length ≤ (vals ++ List.replicate (8 - b.buffer_size_) false).length := by
        simp
      omega
    rw [bitmap_stores_bitmap_get hst hd i hi8, ← hvals2, List.getElem?_append_left hi]

theorem bitmap_release_total {b : BitmapBuilder} {vals : List Bool} (hinv : Inv b vals) :
    ∃ r, b.release (fun _ => false) = .ok r := by
  unfold release
  have key : ∃ b1, (if b.allocated_ = true ∨ b.null_count_ > 0 then
      pad (fun _ => false) (8 - b.buffer_size_) b else .ok b) = .ok b1 := by
    split
    · rw [bitmap_pad_eq_writes]; exact bitmap_writes_total _ b vals hinv
    · exact ⟨b, rfl⟩
  obtain ⟨b1, hb1⟩ := key
  simp only [hb1]
  split <;> exact ⟨_, rfl⟩

/-- C1: when the values written with `write_element` to a `BitmapBuilder` (any
constructor arguments) contain a `false`, `release()` returns a buffer in which,
read least-significant bit first, element `i` is the `i`-th value written, for
every `i` below the number of values; with an allocator that never fails the
writes and the release run to completion. -/
theorem bitmap_release_reproduces_writes (oom : Int → Bool) (capacity guess : Int)
    (vals : List Bool) (hfalse : false ∈ vals) :
    (∀ b0 b p b1, new oom capacity guess = .ok b0 → writes oom b0 vals = .ok b →
      b.release oom = .ok (p, b1) →
      ∃ blk, p = some blk ∧ ∀ i, i < vals.length → bitmap_get blk i = vals[i]?) ∧
    ((guess = 0 ∨ 0 ≤ capacity) → ∃ b0 b r,
      new (fun _ => false) capacity guess = .ok b0 ∧ writes (fun _ => false) b0 vals = .ok b ∧
      b.release (fun _ => false) = .ok r) := by
  constructor
  · intro b0 b p b1 h0 hw hr
    have hinv := (bitmap_writes_inv oom vals b0 b [] (bitmap_new_inv oom capacity guess h0).1 hw).1
    rw [List.nil_append] at hinv
    exact bitmap_release_inv oom hinv hfalse hr
  · intro hc
    obtain ⟨b0, h0⟩ := bitmap_new_total capacity guess hc
    obtain ⟨b, hb⟩ := bitmap_writes_total vals b0 [] (bitmap_new_inv _ capacity guess h0).1
    have hinv := (bitmap_writes_inv _ vals b0 b [] (bitmap_new_inv _ capacity guess h0).1 hb).1
    rw [List.nil_append] at hinv
    obtain ⟨r, hr⟩ := bitmap_release_total hinv
    exact ⟨b0, b, r, h0, hb, hr⟩

/-- Witness for C1: the values `true, false, true` written to a builder of
capacity 1024 constructed without a null-count guess. -/
theorem bitmap_release_reproduces_writes_witness :
    false ∈ [true, false, true] ∧
    ((∀ b0 b p b1, new (fun _ => false) 1024 0 = .ok b0 →
      writes (fun _ => false) b0 [true, false, true] = .ok b →
      b.release (fun _ => false) = .ok (p, b1) →
      ∃ blk, p = some blk ∧
        ∀ i, i < 3 → bitmap_get blk i = [true, false, true][i]?) ∧
    (((0 : Int) = 0 ∨ (0 : Int) ≤ 1024) → ∃ b0 b r,
      new (fun _ => false) 1024 0 = .ok b0 ∧
      writes (fun _ => false) b0 [true, false, true] = .ok b ∧
      b.release (fun _ => false) = .ok r)) :=
  ⟨by decide, bitmap_release_reproduces_writes (fun _ => false) 1024 0 [true, false, true]
    (by decide)⟩

end BitmapBuilder
end arrow.hpp.builder

namespace arrow.hpp.builder

theorem bitmap_release_unallocated (oom : Int → Bool) (b : BitmapBuilder)
    (hal : b.allocated_ = false) (hz : b.null_count_ = 0) :
    b.release oom = .ok (none, b) := by
  unfold BitmapBuilder.release
  have hcond : ¬ (b.allocated_ = true ∨ b.null_count_ > 0) := by
    rw [hal, hz]; simp
  rw [if_neg hcond]
  simp only [hal, Bool.false_eq_true, if_false]

theorem buffer_reserve_holds {α : Type} {w : Nat} (oom : Int → Bool) (hw : 0 < w)
    {b b1 : BufferBuilder α w} {xs : List α} (n : Int)
    (hs : (b.Fresh ∧ xs = []) ∨ b.Stores xs) (h : b.reserve oom n = .ok b1) :
    (b1.Fresh ∧ xs = []) ∨ b1.Stores xs := by
  rcases hs with ⟨hf, rfl⟩ | hst
  · by_cases hn : 0 ≤ n
    · exact Or.inr (BufferBuilder.buffer_reserve_fresh oom hw n hn hf h).1
    · obtain ⟨_, hcap, hsz⟩ := id hf
      have hle : ¬ (b.size_ + n > b.capacity_) := by omega
      simp only [BufferBuilder.reserve, hle, if_false] at h
      injection h with h
      subst h
      exact Or.inl ⟨hf, rfl⟩
  · exact Or.inr (BufferBuilder.buffer_reserve_stores oom hw n hst h).1

theorem buffer_reserve_holds_total {α : Type} {w : Nat} (hw : 0 < w)
    {b : BufferBuilder α w} {xs : List α} (n : Int)
    (hs : (b.Fresh ∧ xs = []) ∨ b.Stores xs) :
    ∃ b1, b.reserve (fun _ => false) n = .ok b1 := by
  by_cases hgt : b.size_ + n > b.capacity_
  · apply BufferBuilder.buffer_reserve_total hw
    rcases hs with ⟨⟨_, hcap, hsz⟩, _⟩ | ⟨_, _, _, hsz, hle, _⟩ <;> omega
  · exact ⟨b, by simp only [BufferBuilder.reserve, hgt, if_false]⟩

end arrow.hpp.builder

namespace arrow.hpp.builder

theorem finalizer_allocate_flat (oom : Int → Bool) (n : Nat) (hn : 0 < n) {f : CArrayFinalizer}
    (h : CArrayFinalizer.new.allocate oom (n : Int) 0 = .ok f) :
    f.array_data =
      { length := 0, null_count := -1, offset := 0, n_buffers := n, n_children := 0,
        buffers := some (List.replicate n none), children := none, dictionary := none,
        private_data := none,
        release := some .arrow_hpp_builder_release_array_data_internal } ∧
    f.schema =
      { format := "", name := "", metadata := none, flags := ARROW_FLAG_NULLABLE,
        n_children := 0, children := none, dictionary := none, private_data := none,
        release := some .arrow_hpp_builder_release_schema_internal } := by
  have hpos : (n : Int) > 0 := by omega
  simp only [CArrayFinalizer.allocate, allocate_array_data, allocate_schema, hpos, if_true,
    gt_iff_lt, lt_self_iff_false, if_false] at h
  by_cases ho : oom ((n : Int) * sizeof_pointer) = true
  · simp only [ho, if_true] at h
    cases h
  · simp only [ho, if_false, Int.toNat_natCast] at h
    injection h with h
    subst h
    exact ⟨rfl, rfl⟩

theorem finalizer_allocate_flat_total (n : Nat) (hn : 0 < n) :
    ∃ f, CArrayFinalizer.new.allocate (fun _ => false) (n : Int) 0 = .ok f := by
  have hpos : (n : Int) > 0 := by omega
  simp only [CArrayFinalizer.allocate, allocate_array_data, allocate_schema, hpos, if_true,
    gt_iff_lt, lt_self_iff_false, if_false, Bool.false_eq_true]
  exact ⟨_, rfl⟩

end arrow.hpp.builder

namespace arrow.hpp.builder
namespace Float64ArrayBuilder

theorem float64_release_eq (oom : Int → Bool) (b : Float64ArrayBuilder)
    (a_out : ArrowArray) (s_out : ArrowSchema) (ha : a_out.release = none)
    (hs : s_out.release = none) (hal : b.validity_buffer_builder_.allocated_ = false)
    (hz : b.validity_buffer_builder_.null_count_ = 0) {a : ArrowArray} {s : ArrowSchema}
    {b1 : Float64ArrayBuilder} (h : b.release oom (some a_out) (some s_out) = .ok (a, s, b1)) :
    a = { length := b.buffer_builder_.size_, null_count := 0, offset := 0, n_buffers := 2,
          n_children := 0,
          buffers := some [none, b.buffer_builder_.data_.map Buffer.float64],
          children := none, dictionary := none, private_data := none,
          release := some .arrow_hpp_builder_release_array_data_internal } ∧
    s = { format := "g", name := "", metadata := none, flags := ARROW_FLAG_NULLABLE,
          n_children := 0, children := none, dictionary := none, private_data := none,
          release := some .arrow_hpp_builder_release_schema_internal } := by
  unfold release at h
  cases hf : CArrayFinalizer.new.allocate oom 2 0 with
  | error e => rw [hf] at h; cases h
  | ok f0 =>
    rw [hf] at h
    obtain ⟨hfa, hfs⟩ := finalizer_allocate_flat oom 2 (by decide) hf
    simp only [hfa, hfs, bitmap_release_unallocated oom _ hal hz, BitmapBuilder.null_count, hz,
      BufferBuilder.size, BufferBuilder.release, ArrowArray.set_buffer, List.replicate,
      List.length_cons, List.length_nil, Option.map_none', List.set_cons_zero,
      List.set_cons_succ, CArrayFinalizer.release, ha, hs, ne_eq, not_true_eq_false, if_false,
      Nat.lt_add_one, Nat.zero_lt_succ, if_true, Nat.reduceAdd, Nat.reduceLT] at h
    injection h with h
    injection h with h1 h2
    injection h2 with h2 h3
    exact ⟨h1.symm, h2.symm⟩

theorem float64_release_total (b : Float64ArrayBuilder)
    (a_out : ArrowArray) (s_out : ArrowSchema) (ha : a_out.release = none)
    (hs : s_out.release = none) (hal : b.validity_buffer_builder_.allocated_ = false)
    (hz : b.validity_buffer_builder_.null_count_ = 0) :
    ∃ r, b.release (fun _ => false) (some a_out) (some s_out) = .ok r := by
  unfold release
  obtain ⟨f0, hf⟩ := finalizer_allocate_flat_total 2 (by decide)
  obtain ⟨hfa, hfs⟩ := finalizer_allocate_flat _ 2 (by decide) hf
  have hf2 : CArrayFinalizer.new.allocate (fun _ => false) 2 0 = .ok f0 := hf
  rw [hf2]
  simp only [hfa, hfs, bitmap_release_unallocated _ _ hal hz, BitmapBuilder.null_count, hz,
      BufferBuilder.size, BufferBuilder.release, ArrowArray.set_buffer, List.replicate,
      List.length_cons, List.length_nil, Option.map_none', List.set_cons_zero,
      List.set_cons_succ, CArrayFinalizer.release, ha, hs, ne_eq, not_true_eq_false, if_false,
      Nat.lt_add_one, Nat.zero_lt_succ, if_true, Nat.reduceAdd, Nat.reduceLT]
  exact ⟨_, rfl⟩

end Float64ArrayBuilder
end arrow.hpp.builder

namespace arrow.hpp.builder
namespace Float64ArrayBuilder

theorem float64_new_spec (oom : Int → Bool) (capacity : Int) {b0 : Float64ArrayBuilder}
    (h : new oom capacity = .ok b0) :
    b0.validity_buffer_builder_.allocated_ = false ∧
    b0.validity_buffer_builder_.null_count_ = 0 ∧
    ((b0.buffer_builder_.Fresh ∧ ([] : List Float) = []) ∨ b0.buffer_builder_.Stores []) := by
  unfold new at h
  cases hv : BitmapBuilder.new oom capacity 0 with
  | error e => rw [hv] at h; cases h
  | ok v =>
    rw [hv] at h
    cases hb : (BufferBuilder.new oom capacity : Except Fault (BufferBuilder Float 8)) with
    | error e => rw [hb] at h; cases h
    | ok bb =>
      rw [hb] at h
      injection h with h
      subst h
      obtain ⟨hinv, hfresh⟩ := BitmapBuilder.bitmap_new_inv oom capacity 0 hv
      obtain ⟨_, _, _, _, _, _, _, hnc, _⟩ := hinv
      refine ⟨(hfresh rfl).1, by simpa using hnc, ?_⟩
      rcases (BufferBuilder.buffer_new_spec oom (by decide) capacity hb).2 with
        ⟨_, hf⟩ | ⟨_, hs, _⟩
      · exact Or.inl ⟨hf, rfl⟩
      · exact Or.inr hs

theorem float64_new_total (capacity : Int) (hc : -1 ≤ capacity) :
    ∃ b0, new (fun _ => false) capacity = .ok b0 := by
  obtain ⟨v, hv⟩ := BitmapBuilder.bitmap_new_total capacity 0 (Or.inl rfl)
  obtain ⟨bb, hb⟩ := BufferBuilder.buffer_new_total (α := Float) (w := 8) (by decide) capacity hc
  simp only [new, hv, hb]
  exact ⟨_, rfl⟩

theorem float64_step_spec (oom : Int → Bool) {b b1 : Float64ArrayBuilder} {xs : List Float}
    (op : Op) (hs : (b.buffer_builder_.Fresh ∧ xs = []) ∨ b.buffer_builder_.Stores xs)
    (h : step oom b op = .ok b1) :
    b1.validity_buffer_builder_ = b.validity_buffer_builder_ ∧ b1.size_ = b.size_ ∧
    ((b1.buffer_builder_.Fresh ∧ xs ++ op.payload = []) ∨
      b1.buffer_builder_.Stores (xs ++ op.payload)) := by
  have hwb : ∀ ys bb, b.buffer_builder_.write_buffer oom ys = .ok bb → bb.Stores (xs ++ ys) := by
    intro ys bb hw
    rcases hs with ⟨hf, rfl⟩ | hst
    · simpa using BufferBuilder.buffer_write_buffer_fresh oom (by decide) _ hf hw
    · exact (BufferBuilder.buffer_write_buffer_stores oom (by decide) _ hst hw).1
  cases op with
  | write_element value =>
    simp only [step, write_element, BufferBuilder.write_element] at h
    cases hw : b.buffer_builder_.write_buffer oom [value] with
    | error e => rw [hw] at h; cases h
    | ok bb =>
      rw [hw] at h
      injection h with h
      subst h
      exact ⟨rfl, rfl, Or.inr (hwb _ _ hw)⟩
  | write_buffer buffer =>
    simp only [step, write_buffer] at h
    cases hw : b.buffer_builder_.write_buffer oom buffer with
    | error e => rw [hw] at h; cases h
    | ok bb =>
      rw [hw] at h
      injection h with h
      subst h
      exact ⟨rfl, rfl, Or.inr (hwb _ _ hw)⟩
  | reserve n =>
    simp only [step, reserve] at h
    cases hw : b.buffer_builder_.reserve oom n with
    | error e => rw [hw] at h; cases h
    | ok bb =>
      rw [hw] at h
      injection h with h
      subst h
      refine ⟨rfl, rfl, ?_⟩
      simpa [Op.payload] using buffer_reserve_holds oom (by decide) n hs hw

theorem float64_step_total {b : Float64ArrayBuilder} {xs : List Float}
    (op : Op) (hs : (b.buffer_builder_.Fresh ∧ xs = []) ∨ b.buffer_builder_.Stores xs) :
    ∃ b1, step (fun _ => false) b op = .ok b1 := by
  cases op with
  | write_element value =>
    obtain ⟨bb, hw⟩ := BufferBuilder.buffer_write_buffer_total (by decide) [value] hs
    simp only [step, write_element, BufferBuilder.write_element, hw]
    exact ⟨_, rfl⟩
  | write_buffer buffer =>
    obtain ⟨bb, hw⟩ := BufferBuilder.buffer_write_buffer_total (by decide) buffer hs
    simp only [step, write_buffer, hw]
    exact ⟨_, rfl⟩
  | reserve n =>
    obtain ⟨bb, hw⟩ := buffer_reserve_holds_total (by decide) n hs
    simp only [step, reserve, hw]
    exact ⟨_, rfl⟩

theorem float64_run_spec (oom : Int → Bool) (ops : List Op) :
    ∀ (b b1 : Float64ArrayBuilder) (xs : List Float),
      ((b.buffer_builder_.Fresh ∧ xs = []) ∨ b.buffer_builder_.Stores xs) →
      run oom b ops = .ok b1 →
      b1.validity_buffer_builder_ = b.validity_buffer_builder_ ∧ b1.size_ = b.size_ ∧
      ((b1.buffer_builder_.Fresh ∧ xs ++ written ops = []) ∨
        b1.buffer_builder_.Stores (xs ++ written ops)) := by
  induction ops with
  | nil =>
    intro b b1 xs hs h
    simp only [run] at h
    injection h with h
    subst h
    exact ⟨rfl, rfl, by simpa [written] using hs⟩
  | cons op ops ih =>
    intro b b1 xs hs h
    simp only [run] at h
    cases hst : step oom b op with
    | error e => rw [hst] at h; cases h
    | ok b2 =>
      rw [hst] at h
      obtain ⟨hv2, hs2, hh2⟩ := float64_step_spec oom op hs hst
      obtain ⟨hv1, hs1, hh1⟩ := ih b2 b1 _ hh2 h
      exact ⟨by rw [hv1, hv2], by rw [hs1, hs2], by simpa [written, List.append_assoc] using hh1⟩

theorem float64_run_total (ops : List Op) :
    ∀ (b : Float64ArrayBuilder) (xs : List Float),
      ((b.buffer_builder_.Fresh ∧ xs = []) ∨ b.buffer_builder_.Stores xs) →
      ∃ b1, run (fun _ => false) b ops = .ok b1 := by
  induction ops with
  | nil => intro b xs _; exact ⟨b, rfl⟩
  | cons op ops ih =>
    intro b xs hs
    obtain ⟨b2, hst⟩ := float64_step_total op hs
    obtain ⟨b1, h1⟩ := ih b2 _ (float64_step_spec _ op hs hst).2.2
    exact ⟨b1, by simp only [run, hst, h1]⟩

theorem float64_values_of_holds {bb : BufferBuilder Float 8} {xs : List Float}
    (h : (bb.Fresh ∧ xs = []) ∨ bb.Stores xs) :
    bb.size_ = xs.length ∧
    Buffer.float64_values (bb.data_.map Buffer.float64) bb.size_ = some xs := by
  rcases h with ⟨⟨_, _, hsz⟩, rfl⟩ | ⟨blk, hd, hlen, hsz, hle, htk⟩
  · exact ⟨by simpa using hsz, by simp [Buffer.float64_values, hsz]⟩
  · refine ⟨hsz, ?_⟩
    unfold Buffer.float64_values
    by_cases h0 : bb.size_ ≤ 0
    · have : xs = [] := List.length_eq_zero.mp (by omega)
      simp [h0, this]
    · have h1 : bb.size_ ≤ (blk.length : Int) := by omega
      have h2 : bb.size_.toNat = xs.length := by omega
      simp [h0, hd, h1, h2, htk, Block.values_map_some]

end Float64ArrayBuilder
end arrow.hpp.builder

namespace arrow.hpp.builder
namespace Float64ArrayBuilder

theorem float64_publish_spec (oom : Int → Bool) (capacity : Int) (ops : List Op)
    (a_out : ArrowArray) (s_out : ArrowSchema) (ha : a_out.release = none)
    (hs : s_out.release = none) {b0 b b1 : Float64ArrayBuilder} {a : ArrowArray}
    {s : ArrowSchema} (h0 : new oom capacity = .ok b0) (hrun : run oom b0 ops = .ok b)
    (hrel : b.release oom (some a_out) (some s_out) = .ok (a, s, b1)) :
    a = { length := ((written ops).length : Int), null_count := 0, offset := 0, n_buffers := 2,
          n_children := 0,
          buffers := some [none, b.buffer_builder_.data_.map Buffer.float64],
          children := none, dictionary := none, private_data := none,
          release := some .arrow_hpp_builder_release_array_data_internal } ∧
    s = { format := "g", name := "", metadata := none, flags := ARROW_FLAG_NULLABLE,
          n_children := 0, children := none, dictionary := none, private_data := none,
          release := some .arrow_hpp_builder_release_schema_internal } ∧
    Buffer.float64_values (b.buffer_builder_.data_.map Buffer.float64)
      ((written ops).length : Int) = some (written ops) := by
  obtain ⟨hal0, hz0, hh0⟩ := float64_new_spec oom capacity h0
  obtain ⟨hv, _, hh⟩ := float64_run_spec oom ops b0 b [] hh0 hrun
  rw [List.nil_append] at hh
  obtain ⟨hsz, hvals⟩ := float64_values_of_holds hh
  obtain ⟨hA, hS⟩ := float64_release_eq oom b a_out s_out ha hs (by rw [hv]; exact hal0)
    (by rw [hv]; exact hz0) hrel
  rw [hsz] at hA hvals
  exact ⟨hA, hS, hvals⟩

theorem float64_publish_total (capacity : Int) (hc : -1 ≤ capacity) (ops : List Op)
    (a_out : ArrowArray) (s_out : ArrowSchema) (ha : a_out.release = none)
    (hs : s_out.release = none) :
    ∃ b0 b r, new (fun _ => false) capacity = .ok b0 ∧ run (fun _ => false) b0 ops = .ok b ∧
      b.release (fun _ => false) (some a_out) (some s_out) = .ok r := by
  obtain ⟨b0, h0⟩ := float64_new_total capacity hc
  obtain ⟨hal0, hz0, hh0⟩ := float64_new_spec _ capacity h0
  obtain ⟨b, hrun⟩ := float64_run_total ops b0 [] hh0
  obtain ⟨hv, _, _⟩ := float64_run_spec _ ops b0 b [] hh0 hrun
  obtain ⟨r, hr⟩ := float64_release_total b a_out s_out ha hs (by rw [hv]; exact hal0)
    (by rw [hv]; exact hz0)
  exact ⟨b0, b, r, h0, hrun, hr⟩

/-- C9: for every sequence of `write_element` / `write_buffer` (and `reserve`)
calls on a `Float64ArrayBuilder`, `release()` into two released output slots
publishes a node with format `"g"`, exactly two buffers and no children, `length`
equal to the number of values written, and a values buffer `buffers[1]` that
holds exactly the written values in order; with an allocator that never fails
(and a capacity of at least `-1`) construction, writes and release complete. -/
theorem float64_release_publishes_values (oom : Int → Bool) (capacity : Int) (ops : List Op)
    (a_out : ArrowArray) (s_out : ArrowSchema) (ha : a_out.release = none)
    (hs : s_out.release = none) :
    (∀ b0 b a s b1, new oom capacity = .ok b0 → run oom b0 ops = .ok b →
      b.release oom (some a_out) (some s_out) = .ok (a, s, b1) →
      s.format = "g" ∧ a.n_buffers = 2 ∧ a.n_children = 0 ∧ a.children = none ∧
      s.n_children = 0 ∧ s.children = none ∧ a.length = (written ops).length ∧
      ∃ p0 p1, a.buffers = some [p0, p1] ∧
        Buffer.float64_values p1 a.length = some (written ops)) ∧
    (-1 ≤ capacity → ∃ b0 b r,
      new (fun _ => false) capacity = .ok b0 ∧ run (fun _ => false) b0 ops = .ok b ∧
      b.release (fun _ => false) (some a_out) (some s_out) = .ok r) := by
  constructor
  · intro b0 b a s b1 h0 hrun hrel
    obtain ⟨hA, hS, hvals⟩ := float64_publish_spec oom capacity ops a_out s_out ha hs h0 hrun hrel
    subst hA
    subst hS
    exact ⟨rfl, rfl, rfl, rfl, rfl, rfl, rfl, _, _, rfl, hvals⟩
  · intro hc
    exact float64_publish_total capacity hc ops a_out s_out ha hs

/-- Witness for C9: one value written with `write_element`, two with `write_buffer`,
released into two structs whose `release` is null. -/
theorem float64_release_publishes_values_witness :
    ArrowArray.unreleased.release = none ∧ ArrowSchema.unreleased.release = none ∧
    ((∀ b0 b a s b1, new (fun _ => false) 4 = .ok b0 →
      run (fun _ => false) b0 [.write_element 1.0, .write_buffer [2.0, 3.0]] = .ok b →
      b.release (fun _ => false) (some ArrowArray.unreleased) (some ArrowSchema.unreleased) =
        .ok (a, s, b1) →
      s.format = "g" ∧ a.n_buffers = 2 ∧ a.n_children = 0 ∧ a.children = none ∧
      s.n_children = 0 ∧ s.children = none ∧ a.length = 3 ∧
      ∃ p0 p1, a.buffers = some [p0, p1] ∧
        Buffer.float64_values p1 a.length = some [1.0, 2.0, 3.0]) ∧
    ((-1 : Int) ≤ 4 → ∃ b0 b r,
      new (fun _ => false) 4 = .ok b0 ∧
      run (fun _ => false) b0 [.write_element 1.0, .write_buffer [2.0, 3.0]] = .ok b ∧
      b.release (fun _ => false) (some ArrowArray.unreleased) (some ArrowSchema.unreleased) =
        .ok r)) :=
  ⟨rfl, rfl, float64_release_publishes_values (fun _ => false) 4
    [.write_element 1.0, .write_buffer [2.0, 3.0]] ArrowArray.unreleased ArrowSchema.unreleased
    rfl rfl⟩

/-- C10 (amended): a `Float64ArrayBuilder` has no operation that takes validity
flags.  Whatever values are written, the published node has `length` equal to
their number, `null_count = 0`, a null validity buffer `buffers[0]`, and a values
buffer holding the values in order; for the values `1.0, x, 3.0` this is
`length = 3`, `null_count = 0`, no bitmap, and the values `1.0, x, 3.0`. -/
theorem float64_release_has_no_nulls (oom : Int → Bool) (capacity : Int) (ops : List Op)
    (a_out : ArrowArray) (s_out : ArrowSchema) (ha : a_out.release = none)
    (hs : s_out.release = none) :
    (∀ b0 b a s b1, new oom capacity = .ok b0 → run oom b0 ops = .ok b →
      b.release oom (some a_out) (some s_out) = .ok (a, s, b1) →
      a.length = (written ops).length ∧ a.null_count = 0 ∧
      ∃ p1, a.buffers = some [none, p1] ∧
        Buffer.float64_values p1 a.length = some (written ops)) ∧
    (∀ (x : Float) b0 b a s b1, new oom capacity = .ok b0 →
      run oom b0 [.write_element 1.0, .write_element x, .write_element 3.0] = .ok b →
      b.release oom (some a_out) (some s_out) = .ok (a, s, b1) →
      a.length = 3 ∧ a.null_count = 0 ∧
      ∃ p1, a.buffers = some [none, p1] ∧
        Buffer.float64_values p1 3 = some [1.0, x, 3.0]) ∧
    (-1 ≤ capacity → ∃ b0 b r,
      new (fun _ => false) capacity = .ok b0 ∧ run (fun _ => false) b0 ops = .ok b ∧
      b.release (fun _ => false) (some a_out) (some s_out) = .ok r) := by
  refine ⟨?_, ?_, fun hc => float64_publish_total capacity hc ops a_out s_out ha hs⟩
  · intro b0 b a s b1 h0 hrun hrel
    obtain ⟨hA, _, hvals⟩ := float64_publish_spec oom capacity ops a_out s_out ha hs h0 hrun hrel
    subst hA
    exact ⟨rfl, rfl, _, rfl, hvals⟩
  · intro x b0 b a s b1 h0 hrun hrel
    obtain ⟨hA, _, hvals⟩ := float64_publish_spec oom capacity _ a_out s_out ha hs h0 hrun hrel
    subst hA
    exact ⟨rfl, rfl, _, rfl, hvals⟩

/-- Witness for C10 (amended): three values written to a builder of capacity 1024. -/
theorem float64_release_has_no_nulls_witness :
    ArrowArray.unreleased.release = none ∧ ArrowSchema.unreleased.release = none ∧
    ∃ b0 b r,
      new (fun _ => false) 1024 = .ok b0 ∧
      run (fun _ => false) b0 [.write_element 1.0, .write_element 2.0, .write_element 3.0] =
        .ok b ∧
      b.release (fun _ => false) (some ArrowArray.unreleased) (some ArrowSchema.unreleased) =
        .ok r ∧
      r.1.length = 3 ∧ r.1.null_count = 0 ∧
      ∃ p1, r.1.buffers = some [none, p1] ∧
        Buffer.float64_values p1 r.1.length = some [1.0, 2.0, 3.0] := by
  have h := float64_release_has_no_nulls (fun _ => false) 1024
    [.write_element 1.0, .write_element 2.0, .write_element 3.0]
    ArrowArray.unreleased ArrowSchema.unreleased rfl rfl
  obtain ⟨b0, b, ⟨a, s, b1⟩, h0, hrun, hrel⟩ := h.2.2 (by decide)
  exact ⟨rfl, rfl, b0, b, (a, s, b1), h0, hrun, hrel, h.1 b0 b a s b1 h0 hrun hrel⟩

/-- C10 as stated fails: the builder fed `1.0, 2.0, 3.0` (values are all it
accepts) publishes `null_count = 0`, not 1, and a null validity buffer, not a
bitmap; and no sequence of calls on a `Float64ArrayBuilder`, with any allocator
and any output slots, publishes a node with `null_count = 1`. -/
theorem float64_validity_flags_counterexample :
    (∃ b0 b a s b1,
      new (fun _ => false) 1024 = .ok b0 ∧
      run (fun _ => false) b0 [.write_element 1.0, .write_element 2.0, .write_element 3.0] =
        .ok b ∧
      b.release (fun _ => false) (some ArrowArray.unreleased) (some ArrowSchema.unreleased) =
        .ok (a, s, b1) ∧
      a.length = 3 ∧ a.null_count ≠ 1 ∧ ∃ p1, a.buffers = some [none, p1]) ∧
    ¬ ∃ (oom : Int → Bool) (capacity : Int) (ops : List Op) (a_out : ArrowArray)
        (s_out : ArrowSchema) (b0 b b1 : Float64ArrayBuilder) (a : ArrowArray)
        (s : ArrowSchema),
      new oom capacity = .ok b0 ∧ run oom b0 ops = .ok b ∧
      b.release oom (some a_out) (some s_out) = .ok (a, s, b1) ∧ a.null_count = 1 := by
  constructor
  · obtain ⟨b0, b, ⟨a, s, b1⟩, h0, hrun, hrel⟩ := float64_publish_total 1024 (by decide)
      [.write_element 1.0, .write_element 2.0, .write_element 3.0]
      ArrowArray.unreleased ArrowSchema.unreleased rfl rfl
    obtain ⟨hA, _, _⟩ := float64_publish_spec _ 1024 _ ArrowArray.unreleased
      ArrowSchema.unreleased rfl rfl h0 hrun hrel
    refine ⟨b0, b, a, s, b1, h0, hrun, hrel, ?_⟩
    subst hA
    exact ⟨rfl, by show (0 : Int) ≠ 1; decide, _, rfl⟩
  · rintro ⟨oom, capacity, ops, a_out, s_out, b0, b, b1, a, s, h0, hrun, hrel, hnc⟩
    have hrel2 := hrel
    unfold release at hrel2
    have hao : a_out.release = none ∧ s_out.release = none := by
      by_contra hne
      cases hf : CArrayFinalizer.new.allocate oom 2 0 with
      | error e => rw [hf] at hrel2; cases hrel2
      | ok f0 =>
        rw [hf] at hrel2
        cases hvr : b.validity_buffer_builder_.release oom with
        | error e => simp only [hvr] at hrel2; cases hrel2
        | ok r =>
          obtain ⟨p0, v⟩ := r
          simp only [hvr] at hrel2
          split at hrel2
          · cases hrel2
          · split at hrel2
            · cases hrel2
            · simp only [CArrayFinalizer.release] at hrel2
              by_cases h1 : a_out.release = none
              · by_cases h2 : s_out.release = none
                · exact hne ⟨h1, h2⟩
                · simp [h1, h2] at hrel2
              · simp [h1] at hrel2
    obtain ⟨hA, _, _⟩ := float64_publish_spec oom capacity ops a_out s_out hao.1 hao.2 h0 hrun hrel
    subst hA
    exact absurd hnc (by show ¬ (0 : Int) = 1; decide)

end Float64ArrayBuilder
end arrow.hpp.builder

namespace arrow.hpp.builder
namespace StringArrayBuilder

/-- C8 fails on the code: one element finished with `not_null = false` is
published with `length = 1` and `null_count = 8`, because `release()` reads
`null_count()` after the validity builder has padded its last byte with seven
`write_element(false)` calls. -/
theorem string_release_counts_padding_bits :
    published_counts (build (fun _ => false) 16 16 [.finish_element false]
      (some ArrowArray.unreleased) (some ArrowSchema.unreleased)) = some (1, 8) := by
  decide

/-- The same run with three elements, the second null: `null_count` is 6. -/
theorem string_release_counts_padding_bits_three :
    published_counts (build (fun _ => false) 4 4
      [.write_buffer [104, 105], .finish_element true, .finish_element false,
       .write_buffer [33], .finish_element true]
      (some ArrowArray.unreleased) (some ArrowSchema.unreleased)) = some (3, 6) := by
  decide

end StringArrayBuilder
end arrow.hpp.builder

namespace arrow.hpp.builder
namespace StringArrayBuilder

theorem feed_append (ops1 ops2 : List Op) :
    ∀ (items : List (List Nat)) (cur : List Nat),
      feed items cur (ops1 ++ ops2) = feed (feed items cur ops1).1 (feed items cur ops1).2 ops2 := by
  induction ops1 with
  | nil => intro items cur; rfl
  | cons op ops1 ih =>
    intro items cur
    cases op with
    | write_buffer buffer => exact ih items (cur ++ buffer)
    | finish_element nn => exact ih (items ++ [cur]) []

theorem feed_items_extend (ops : List Op) :
    ∀ (items : List (List Nat)) (cur : List Nat),
      ∃ more, (feed items cur ops).1 = items ++ more := by
  induction ops with
  | nil => intro items cur; exact ⟨[], by simp [feed]⟩
  | cons op ops ih =>
    intro items cur
    cases op with
    | write_buffer buffer => exact ih items (cur ++ buffer)
    | finish_element nn =>
      obtain ⟨more, h⟩ := ih (items ++ [cur]) []
      exact ⟨cur :: more, by simp only [feed, h, List.append_assoc, List.singleton_append]⟩

theorem feed_total_bytes (ops : List Op) :
    ∀ (items : List (List Nat)) (cur : List Nat),
      ((((feed items cur ops).1).flatten ++ (feed items cur ops).2).length : Int) =
        ((items.flatten ++ cur).length : Int) + total_bytes ops := by
  induction ops with
  | nil => intro items cur; simp [feed, total_bytes]
  | cons op ops ih =>
    intro items cur
    cases op with
    | write_buffer buffer =>
      simp only [feed, total_bytes]
      rw [ih items (cur ++ buffer)]
      simp only [List.length_append]
      push_cast
      omega
    | finish_element nn =>
      simp only [feed, total_bytes]
      rw [ih (items ++ [cur]) []]
      simp

theorem total_bytes_nonneg (ops : List Op) : 0 ≤ total_bytes ops := by
  induction ops with
  | nil => simp [total_bytes]
  | cons op ops ih =>
    cases op with
    | write_buffer buffer => simp only [total_bytes]; omega
    | finish_element nn => simpa [total_bytes] using ih

theorem total_bytes_append (ops1 ops2 : List Op) :
    total_bytes (ops1 ++ ops2) = total_bytes ops1 + total_bytes ops2 := by
  induction ops1 with
  | nil => simp [total_bytes]
  | cons op ops1 ih =>
    cases op with
    | write_buffer buffer =>
      show total_bytes (.write_buffer buffer :: (ops1 ++ ops2)) = _
      simp only [total_bytes, ih]; omega
    | finish_element nn =>
      show total_bytes (.finish_element nn :: (ops1 ++ ops2)) = _
      simp only [total_bytes, ih]

theorem cursors_from_append (items : List (List Nat)) :
    ∀ (start : Int) (more : List (List Nat)),
      cursors_from start (items ++ more) =
        cursors_from start items ++ cursors_from (start + (items.flatten.length : Int)) more := by
  induction items with
  | nil => intro start more; simp [cursors_from]
  | cons item items ih =>
    intro start more
    show cursors_from start (item :: (items ++ more)) = _
    have e : start + (item.length : Int) + (items.flatten.length : Int) =
        start + (((item :: items).flatten.length : Nat) : Int) := by
      rw [List.flatten_cons, List.length_append]; push_cast; ring
    simp only [cursors_from, ih, e, List.cons_append]

theorem cursors_from_length (items : List (List Nat)) :
    ∀ start : Int, (cursors_from start items).length = items.length := by
  induction items with
  | nil => intro start; rfl
  | cons item items ih => intro start; simp [cursors_from, ih]

theorem cursors_length (items : List (List Nat)) : (cursors items).length = items.length + 1 := by
  simp [cursors, cursors_from_length]

theorem cursors_snoc (items : List (List Nat)) (cur : List Nat) :
    cursors (items ++ [cur]) = cursors items ++ [((items.flatten ++ cur).length : Int)] := by
  simp only [cursors, cursors_from_append, cursors_from, List.cons_append, List.length_append]
  push_cast
  simp

theorem cursors_from_chain (items : List (List Nat)) :
    ∀ start : Int, List.Chain (fun x y => x ≤ y) start (cursors_from start items) := by
  induction items with
  | nil => intro start; exact List.Chain.nil
  | cons item items ih =>
    intro start
    exact List.Chain.cons (by omega) (ih _)

theorem cursors_from_slice (items : List (List Nat)) :
    ∀ (pre rest : List Nat) (i : Nat), i < items.length →
      ∃ lo hi : Int,
        (((pre.length : Int)) :: cursors_from (pre.length : Int) items)[i]? = some lo ∧
        (((pre.length : Int)) :: cursors_from (pre.length : Int) items)[i + 1]? = some hi ∧
        0 ≤ lo ∧ lo ≤ hi ∧
        ((pre ++ items.flatten ++ rest).drop lo.toNat).take (hi - lo).toNat = items[i]?.getD [] := by
  induction items with
  | nil => intro pre rest i hi; simp at hi
  | cons item items ih =>
    intro pre rest i hi
    cases i with
    | zero =>
      refine ⟨pre.length, (pre.length : Int) + item.length, rfl, by simp [cursors_from],
        by omega, by omega, ?_⟩
      have h1 : ((pre.length : Int)).toNat = pre.length := Int.toNat_natCast _
      have h2 : ((pre.length : Int) + item.length - pre.length).toNat = item.length := by omega
      rw [h1, h2]
      simp [List.append_assoc]
    | succ i =>
      have hi2 : i < items.length := by simpa using hi
      obtain ⟨lo, hi3, h1, h2, h3, h4, h5⟩ := ih (pre ++ item) rest i hi2
      refine ⟨lo, hi3, ?_, ?_, h3, h4, ?_⟩
      · simpa [cursors_from] using h1
      · simpa [cursors_from] using h2
      · simpa [List.append_assoc] using h5

end StringArrayBuilder
end arrow.hpp.builder

namespace arrow.hpp.builder
namespace StringArrayBuilder

theorem string_offset_at {src : BufferBuilder Int 4} {done rest : List Int} (x : Int)
    (hs : src.Stores (done ++ x :: rest)) : offset_at src done.length = .ok x := by
  obtain ⟨blk, hd, _, _, _, htk⟩ := hs
  have hget : blk[done.length]? = some (some x) := by
    have h1 : (blk.take (done ++ x :: rest).length)[done.length]? = blk[done.length]? := by
      rw [List.getElem?_take]; simp
    rw [← h1, htk, List.map_append, List.map_cons,
      List.getElem?_append_right (by simp)]
    simp
  simp only [offset_at, hd, hget]

theorem string_make_large_loop (oom : Int → Bool) (src : BufferBuilder Int 4)
    (rest : List Int) :
    ∀ (done : List Int) (large l1 : BufferBuilder Int 8), src.Stores (done ++ rest) →
      ((large.Fresh ∧ done = []) ∨ large.Stores done) →
      make_large_loop oom src (List.range' done.length rest.length) large = .ok l1 →
      (l1.Fresh ∧ done ++ rest = []) ∨ l1.Stores (done ++ rest) := by
  induction rest with
  | nil =>
    intro done large l1 _ hl h
    simp only [List.length_nil, List.range'_zero, make_large_loop] at h
    injection h with h
    subst h
    simpa using hl
  | cons x rest ih =>
    intro done large l1 hs hl h
    simp only [List.length_cons, List.range'_succ, make_large_loop, string_offset_at x hs] at h
    cases hw : large.write_element oom x with
    | error e => rw [hw] at h; cases h
    | ok l2 =>
      rw [hw] at h
      have hl2 : l2.Stores (done ++ [x]) := by
        rcases hl with ⟨hf, rfl⟩ | hst
        · simpa using BufferBuilder.buffer_write_buffer_fresh oom (by decide) _ hf hw
        · exact (BufferBuilder.buffer_write_buffer_stores oom (by decide) _ hst hw).1
      have := ih (done ++ [x]) l2 l1 (by simpa [List.append_assoc] using hs) (Or.inr hl2)
        (by simpa using h)
      simpa [List.append_assoc] using this

theorem string_make_large_loop_total (src : BufferBuilder Int 4) (rest : List Int) :
    ∀ (done : List Int) (large : BufferBuilder Int 8), src.Stores (done ++ rest) →
      ((large.Fresh ∧ done = []) ∨ large.Stores done) →
      ∃ l1, make_large_loop (fun _ => false) src (List.range' done.length rest.length) large =
        .ok l1 := by
  induction rest with
  | nil => intro done large _ _; exact ⟨large, by simp [make_large_loop]⟩
  | cons x rest ih =>
    intro done large hs hl
    obtain ⟨l2, hw⟩ := BufferBuilder.buffer_write_buffer_total (by decide) [x] hl
    have hl2 : l2.Stores (done ++ [x]) := by
      rcases hl with ⟨hf, rfl⟩ | hst
      · simpa using BufferBuilder.buffer_write_buffer_fresh _ (by decide) _ hf hw
      · exact (BufferBuilder.buffer_write_buffer_stores _ (by decide) _ hst hw).1
    obtain ⟨l1, h1⟩ := ih (done ++ [x]) l2 (by simpa [List.append_assoc] using hs) (Or.inr hl2)
    refine ⟨l1, ?_⟩
    simp only [List.length_cons, List.range'_succ, make_large_loop, string_offset_at x hs,
      BufferBuilder.write_element, hw]
    simpa using h1

theorem string_make_large (oom : Int → Bool) {s s1 : StringArrayBuilder} {os : List Int}
    (hoff : s.offset_buffer_builder_.Stores os) (hos : os ≠ [])
    (hl : (s.large_offset_buffer_builder_.Fresh ∧ ([] : List Int) = []) ∨
      s.large_offset_buffer_builder_.Stores [])
    (h : make_large oom s = .ok s1) :
    s1.is_large_ = true ∧ s1.large_offset_buffer_builder_.Stores os ∧ s1.size_ = s.size_ ∧
    s1.validity_buffer_builder_ = s.validity_buffer_builder_ ∧
    s1.data_buffer_builder_ = s.data_buffer_builder_ ∧ s1.item_size_ = s.item_size_ := by
  have hsz : s.offset_buffer_builder_.size.toNat = os.length := by
    obtain ⟨_, _, _, hsz, _⟩ := hoff
    simp only [BufferBuilder.size, hsz, Int.toNat_natCast]
  unfold make_large at h
  rw [hsz, List.range_eq_range'] at h
  cases hloop : make_large_loop oom s.offset_buffer_builder_ (List.range' 0 os.length)
      s.large_offset_buffer_builder_ with
  | error e => rw [hloop] at h; cases h
  | ok l1 =>
    rw [hloop] at h
    injection h with h
    subst h
    have := string_make_large_loop oom s.offset_buffer_builder_ os [] _ l1
      (by simpa using hoff) hl (by simpa using hloop)
    rcases this with ⟨_, hnil⟩ | hst
    · exact absurd (by simpa using hnil) hos
    · exact ⟨rfl, by simpa using hst, rfl, rfl, rfl, rfl⟩

theorem string_make_large_total {s : StringArrayBuilder} {os : List Int}
    (hoff : s.offset_buffer_builder_.Stores os)
    (hl : (s.large_offset_buffer_builder_.Fresh ∧ ([] : List Int) = []) ∨
      s.large_offset_buffer_builder_.Stores []) :
    ∃ s1, make_large (fun _ => false) s = .ok s1 := by
  have hsz : s.offset_buffer_builder_.size.toNat = os.length := by
    obtain ⟨_, _, _, hsz, _⟩ := hoff
    simp only [BufferBuilder.size, hsz, Int.toNat_natCast]
  obtain ⟨l1, hloop⟩ := string_make_large_loop_total s.offset_buffer_builder_ os []
    s.large_offset_buffer_builder_ (by simpa using hoff) hl
  unfold make_large
  rw [hsz, List.range_eq_range']
  simp only [List.length_nil] at hloop
  simp only [hloop]
  exact ⟨_, rfl⟩

end StringArrayBuilder
end arrow.hpp.builder

namespace arrow.hpp.builder
namespace StringArrayBuilder

theorem toInt32_of_small (x : Int) (h0 : 0 ≤ x) (h1 : x ≤ INT32_MAX) : toInt32 x = x := by
  unfold toInt32
  unfold INT32_MAX at h1
  omega

theorem cursors_ne_nil (items : List (List Nat)) : cursors items ≠ [] := by
  simp [cursors]

theorem string_data_size {s : StringArrayBuilder} {items : List (List Nat)} {cur : List Nat}
    (ht : Tracks s items cur) :
    s.data_buffer_builder_.size = ((items.flatten ++ cur).length : Int) :=
  (BufferBuilder.buffer_holds_size_contents ht.2.2.1).1

theorem string_write_buffer_tracks (oom : Int → Bool) {s s1 : StringArrayBuilder}
    {items : List (List Nat)} {cur : List Nat} (xs : List Nat) (ht : Tracks s items cur)
    (h : write_buffer oom s xs = .ok s1) :
    Tracks s1 items (cur ++ xs) ∧
    (s1.is_large_ = true ↔
      (s.is_large_ = true ∨ INT32_MAX < ((items.flatten ++ cur).length : Int) + xs.length)) := by
  have hT := string_data_size ht
  obtain ⟨hsz, hval, hdata, h32, hlg⟩ := ht
  have hdw : ∀ d, s.data_buffer_builder_.write_buffer oom xs = .ok d →
      d.Stores (items.flatten ++ (cur ++ xs)) := by
    intro d hw
    rw [← List.append_assoc]
    rcases hdata with ⟨hf, hnil⟩ | hst
    · rw [hnil]
      simpa using BufferBuilder.buffer_write_buffer_fresh oom (by decide) _ hf hw
    · exact (BufferBuilder.buffer_write_buffer_stores oom (by decide) _ hst hw).1
  have hlen : ((items.flatten ++ (cur ++ xs)).length : Int) =
      ((items.flatten ++ cur).length : Int) + xs.length := by
    simp only [List.length_append]; push_cast; omega
  unfold write_buffer at h
  cases hL : s.is_large_ with
  | true =>
    simp only [needs_make_large, hL, Bool.not_true, Bool.false_and, Bool.false_eq_true,
      if_false] at h
    cases hw : s.data_buffer_builder_.write_buffer oom xs with
    | error e => rw [hw] at h; cases h
    | ok d =>
      rw [hw] at h
      injection h with h
      subst h
      refine ⟨⟨hsz, hval, Or.inr (hdw d hw), ?_, ?_⟩, ?_⟩
      · intro hc; simp only [hL] at hc; cases hc
      · intro _; exact ⟨(hlg hL).1, by rw [hlen]; have := (hlg hL).2; omega⟩
      · simp [hL]
  | false =>
    by_cases hcross : s.data_buffer_builder_.size + (xs.length : Int) > INT32_MAX
    · simp only [needs_make_large, hL, Bool.not_false, Bool.true_and, hcross, decide_True,
        if_true] at h
      cases hm : make_large oom s with
      | error e => rw [hm] at h; cases h
      | ok s2 =>
        rw [hm] at h
        obtain ⟨hL2, hst2, hsz2, hv2, hd2, _⟩ :=
          string_make_large oom (h32 hL).1 (cursors_ne_nil items) (h32 hL).2.2 hm
        simp only [hd2] at h
        cases hw : s.data_buffer_builder_.write_buffer oom xs with
        | error e => rw [hw] at h; cases h
        | ok d =>
          rw [hw] at h
          injection h with h
          subst h
          refine ⟨⟨by simpa [hsz2] using hsz, by simpa [hv2] using hval, Or.inr (hdw d hw),
            ?_, ?_⟩, ?_⟩
          · intro hc; simp only [hL2] at hc; cases hc
          · intro _; exact ⟨hst2, by rw [hlen]; omega⟩
          · simp only [hL2, true_iff]; right; omega
    · simp only [needs_make_large, hL, Bool.not_false, Bool.true_and, hcross, decide_False,
        Bool.false_eq_true, if_false] at h
      cases hw : s.data_buffer_builder_.write_buffer oom xs with
      | error e => rw [hw] at h; cases h
      | ok d =>
        rw [hw] at h
        injection h with h
        subst h
        refine ⟨⟨hsz, hval, Or.inr (hdw d hw), ?_, ?_⟩, ?_⟩
        · intro _; exact ⟨(h32 hL).1, by rw [hlen]; omega, (h32 hL).2.2⟩
        · intro hc; simp only [hL] at hc; cases hc
        · simp only [hL, Bool.false_eq_true, false_or, false_iff]; omega

theorem string_write_buffer_total {s : StringArrayBuilder} {items : List (List Nat)}
    {cur : List Nat} (xs : List Nat) (ht : Tracks s items cur) :
    ∃ s1, write_buffer (fun _ => false) s xs = .ok s1 := by
  obtain ⟨hsz, hval, hdata, h32, hlg⟩ := ht
  obtain ⟨d, hw⟩ := BufferBuilder.buffer_write_buffer_total (by decide) xs hdata
  unfold write_buffer
  by_cases hn : s.needs_make_large (xs.length : Int) = true
  · have hL : s.is_large_ = false := by
      cases hL : s.is_large_ with
      | false => rfl
      | true => simp [needs_make_large, hL] at hn
    obtain ⟨s2, hm⟩ := string_make_large_total (h32 hL).1 (h32 hL).2.2
    obtain ⟨_, _, _, _, hd2, _⟩ :=
      string_make_large _ (h32 hL).1 (cursors_ne_nil items) (h32 hL).2.2 hm
    simp only [hn, if_true, hm, hd2, hw]
    exact ⟨_, rfl⟩
  · have hn2 : s.needs_make_large (xs.length : Int) = false := by simpa using hn
    simp only [hn2, Bool.false_eq_true, if_false, hw]
    exact ⟨_, rfl⟩

end StringArrayBuilder
end arrow.hpp.builder

namespace arrow.hpp.builder
namespace StringArrayBuilder

theorem string_finish_element_tracks (oom : Int → Bool) {s s1 : StringArrayBuilder}
    {items : List (List Nat)} {cur : List Nat} (nn : Bool) (ht : Tracks s items cur)
    (h : finish_element oom s nn = .ok s1) :
    Tracks s1 (items ++ [cur]) [] ∧ s1.is_large_ = s.is_large_ := by
  have hT := string_data_size ht
  obtain ⟨hsz, ⟨flags, hval⟩, hdata, h32, hlg⟩ := ht
  have hdata2 : (s.data_buffer_builder_.Fresh ∧ (items ++ [cur]).flatten ++ [] = []) ∨
      s.data_buffer_builder_.Stores ((items ++ [cur]).flatten ++ []) := by
    simpa using hdata
  have hlen2 : (((items ++ [cur]).flatten ++ ([] : List Nat)).length : Int) =
      ((items.flatten ++ cur).length : Int) := by simp
  have hsz2 : s.size_ + 1 = ((items ++ [cur]).length : Int) := by
    rw [hsz]; simp
  unfold finish_element at h
  cases hL : s.is_large_ with
  | true =>
    simp only [hL, if_true] at h
    cases hw : s.large_offset_buffer_builder_.write_element oom s.data_buffer_builder_.size with
    | error e => simp only [hw] at h; cases h
    | ok l1 =>
      simp only [hw] at h
      cases hv : s.validity_buffer_builder_.write_element oom nn with
      | error e => simp only [hv] at h; cases h
      | ok v =>
        simp only [hv] at h
        injection h with h
        subst h
        have hst := (BufferBuilder.buffer_write_buffer_stores oom (by decide) _ (hlg hL).1 hw).1
        rw [hT, ← cursors_snoc] at hst
        refine ⟨⟨hsz2, ⟨_, (BitmapBuilder.bitmap_write_element_inv oom nn hval hv).1⟩, hdata2,
          ?_, ?_⟩, rfl⟩
        · intro hc; simp only [hL] at hc; cases hc
        · intro _; exact ⟨hst, by rw [hlen2]; exact (hlg hL).2⟩
  | false =>
    simp only [hL, Bool.false_eq_true, if_false] at h
    have hsmall : toInt32 s.data_buffer_builder_.size = s.data_buffer_builder_.size :=
      toInt32_of_small _ (by rw [hT]; omega) (by rw [hT]; exact (h32 hL).2.1)
    rw [hsmall] at h
    cases hw : s.offset_buffer_builder_.write_element oom s.data_buffer_builder_.size with
    | error e => simp only [hw] at h; cases h
    | ok o1 =>
      simp only [hw] at h
      cases hv : s.validity_buffer_builder_.write_element oom nn with
      | error e => simp only [hv] at h; cases h
      | ok v =>
        simp only [hv] at h
        injection h with h
        subst h
        have hst := (BufferBuilder.buffer_write_buffer_stores oom (by decide) _ (h32 hL).1 hw).1
        rw [hT, ← cursors_snoc] at hst
        refine ⟨⟨hsz2, ⟨_, (BitmapBuilder.bitmap_write_element_inv oom nn hval hv).1⟩, hdata2,
          ?_, ?_⟩, rfl⟩
        · intro _; exact ⟨hst, by rw [hlen2]; exact (h32 hL).2.1, (h32 hL).2.2⟩
        · intro hc; simp only [hL] at hc; cases hc

theorem string_finish_element_total {s : StringArrayBuilder} {items : List (List Nat)}
    {cur : List Nat} (nn : Bool) (ht : Tracks s items cur) :
    ∃ s1, finish_element (fun _ => false) s nn = .ok s1 := by
  obtain ⟨hsz, ⟨flags, hval⟩, hdata, h32, hlg⟩ := ht
  obtain ⟨v, hv⟩ := BitmapBuilder.bitmap_write_element_total nn hval
  unfold finish_element
  cases hL : s.is_large_ with
  | true =>
    obtain ⟨l1, hw⟩ := BufferBuilder.buffer_write_buffer_total (by decide)
      [s.data_buffer_builder_.size] (Or.inr (hlg hL).1)
    simp only [if_true, BufferBuilder.write_element, hw, hv]
    exact ⟨_, rfl⟩
  | false =>
    obtain ⟨o1, hw⟩ := BufferBuilder.buffer_write_buffer_total (by decide)
      [toInt32 s.data_buffer_builder_.size] (Or.inr (h32 hL).1)
    simp only [Bool.false_eq_true, if_false, BufferBuilder.write_element, hw, hv]
    exact ⟨_, rfl⟩

theorem string_new_tracks (oom : Int → Bool) (capacity guess : Int) {b0 : StringArrayBuilder}
    (h : new oom capacity guess = .ok b0) : Tracks b0 [] [] ∧ b0.is_large_ = false := by
  unfold new at h
  cases hv : BitmapBuilder.new oom capacity 0 with
  | error e => simp only [hv] at h; cases h
  | ok v =>
    simp only [hv] at h
    cases ho : (BufferBuilder.new oom capacity : Except Fault (BufferBuilder Int 4)) with
    | error e => simp only [ho] at h; cases h
    | ok off =>
      simp only [ho] at h
      cases hl : (BufferBuilder.new oom capacity : Except Fault (BufferBuilder Int 8)) with
      | error e => simp only [hl] at h; cases h
      | ok large =>
        simp only [hl] at h
        cases hd : (BufferBuilder.new oom guess : Except Fault (BufferBuilder Nat 1)) with
        | error e => simp only [hd] at h; cases h
        | ok data =>
          simp only [hd, Bool.false_eq_true, if_false] at h
          cases hw : off.write_element oom 0 with
          | error e => simp only [hw] at h; cases h
          | ok o1 =>
            simp only [hw] at h
            injection h with h
            subst h
            have hholds : ∀ {α : Type} {w : Nat} (_ : 0 < w) (c : Int) (bb : BufferBuilder α w),
                BufferBuilder.new oom c = .ok bb →
                (bb.Fresh ∧ ([] : List α) = []) ∨ bb.Stores [] := by
              intro α w hw0 c bb hb
              rcases (BufferBuilder.buffer_new_spec oom hw0 c hb).2 with ⟨_, hf⟩ | ⟨_, hs, _⟩
              · exact Or.inl ⟨hf, rfl⟩
              · exact Or.inr hs
            have hoff : o1.Stores [0] := by
              rcases hholds (by decide) capacity off ho with ⟨hf, _⟩ | hst
              · exact BufferBuilder.buffer_write_buffer_fresh oom (by decide) _ hf hw
              · simpa using (BufferBuilder.buffer_write_buffer_stores oom (by decide) _ hst hw).1
            refine ⟨⟨rfl, ⟨[], (BitmapBuilder.bitmap_new_inv oom capacity 0 hv).1⟩, ?_, ?_, ?_⟩,
              rfl⟩
            · simpa using hholds (by decide) guess data hd
            · intro _
              exact ⟨hoff, by simp [INT32_MAX], hholds (by decide) capacity large hl⟩
            · intro hc; cases hc

theorem string_new_total (capacity guess : Int) (hc : -1 ≤ capacity) (hg : -1 ≤ guess) :
    ∃ b0, new (fun _ => false) capacity guess = .ok b0 := by
  obtain ⟨v, hv⟩ := BitmapBuilder.bitmap_new_total capacity 0 (Or.inl rfl)
  obtain ⟨off, ho⟩ := BufferBuilder.buffer_new_total (α := Int) (w := 4) (by decide) capacity hc
  obtain ⟨large, hl⟩ := BufferBuilder.buffer_new_total (α := Int) (w := 8) (by decide) capacity hc
  obtain ⟨data, hd⟩ := BufferBuilder.buffer_new_total (α := Nat) (w := 1) (by decide) guess hg
  have hoff : (off.Fresh ∧ ([] : List Int) = []) ∨ off.Stores [] := by
    rcases (BufferBuilder.buffer_new_spec _ (by decide) capacity ho).2 with ⟨_, hf⟩ | ⟨_, hs, _⟩
    · exact Or.inl ⟨hf, rfl⟩
    · exact Or.inr hs
  obtain ⟨o1, hw⟩ := BufferBuilder.buffer_write_buffer_total (by decide) [(0 : Int)] hoff
  simp only [new, hv, ho, hl, hd, Bool.false_eq_true, if_false, BufferBuilder.write_element, hw]
  exact ⟨_, rfl⟩

theorem string_run_tracks (oom : Int → Bool) (ops : List Op) :
    ∀ (s s1 : StringArrayBuilder) (items : List (List Nat)) (cur : List Nat),
      Tracks s items cur → run oom s ops = .ok s1 →
      Tracks s1 (feed items cur ops).1 (feed items cur ops).2 ∧
      (s1.is_large_ = true ↔
        (s.is_large_ = true ∨
          INT32_MAX < ((items.flatten ++ cur).length : Int) + total_bytes ops)) := by
  induction ops with
  | nil =>
    intro s s1 items cur ht h
    simp only [run] at h
    injection h with h
    subst h
    refine ⟨ht, ?_⟩
    simp only [total_bytes, add_zero]
    constructor
    · intro hL; exact Or.inl hL
    · rintro (hL | hbig)
      · exact hL
      · cases hL : s.is_large_ with
        | true => rfl
        | false => have := (ht.2.2.2.1 hL).2.1; omega
  | cons op ops ih =>
    intro s s1 items cur ht h
    simp only [run] at h
    cases op with
    | write_buffer buffer =>
      simp only [step] at h
      cases hw : write_buffer oom s buffer with
      | error e => simp only [hw] at h; cases h
      | ok s2 =>
        simp only [hw] at h
        obtain ⟨ht2, hiff2⟩ := string_write_buffer_tracks oom buffer ht hw
        obtain ⟨ht1, hiff1⟩ := ih s2 s1 items (cur ++ buffer) ht2 h
        refine ⟨ht1, ?_⟩
        rw [hiff1, hiff2]
        have hb := total_bytes_nonneg ops
        have hlen : ((items.flatten ++ (cur ++ buffer)).length : Int) =
            ((items.flatten ++ cur).length : Int) + buffer.length := by
          simp only [List.length_append]; push_cast; omega
        simp only [total_bytes, hlen]
        constructor
        · rintro ((hL | hbig) | hbig)
          · exact Or.inl hL
          · right; omega
          · right; omega
        · rintro (hL | hbig)
          · exact Or.inl (Or.inl hL)
          · right; omega
    | finish_element nn =>
      simp only [step] at h
      cases hw : finish_element oom s nn with
      | error e => simp only [hw] at h; cases h
      | ok s2 =>
        simp only [hw] at h
        obtain ⟨ht2, hL2⟩ := string_finish_element_tracks oom nn ht hw
        obtain ⟨ht1, hiff1⟩ := ih s2 s1 (items ++ [cur]) [] ht2 h
        refine ⟨ht1, ?_⟩
        rw [hiff1, hL2]
        have hlen : ((((items ++ [cur]).flatten ++ ([] : List Nat)).length : Nat) : Int) =
            ((items.flatten ++ cur).length : Int) := by simp
        simp only [total_bytes, hlen]

theorem string_run_total (ops : List Op) :
    ∀ (s : StringArrayBuilder) (items : List (List Nat)) (cur : List Nat),
      Tracks s items cur → ∃ s1, run (fun _ => false) s ops = .ok s1 := by
  induction ops with
  | nil => intro s items cur _; exact ⟨s, rfl⟩
  | cons op ops ih =>
    intro s items cur ht
    cases op with
    | write_buffer buffer =>
      obtain ⟨s2, hw⟩ := string_write_buffer_total buffer ht
      obtain ⟨s1, h1⟩ := ih s2 _ _ (string_write_buffer_tracks _ buffer ht hw).1
      simp only [run, step, hw, h1]
      exact ⟨_, rfl⟩
    | finish_element nn =>
      obtain ⟨s2, hw⟩ := string_finish_element_total nn ht
      obtain ⟨s1, h1⟩ := ih s2 _ _ (string_finish_element_tracks _ nn ht hw).1
      simp only [run, step, hw, h1]
      exact ⟨_, rfl⟩

end StringArrayBuilder
end arrow.hpp.builder

namespace arrow.hpp.builder
namespace StringArrayBuilder

theorem cursors_from_bounds (items : List (List Nat)) :
    ∀ (start x : Int), x ∈ cursors_from start items →
      start ≤ x ∧ x ≤ start + (items.flatten.length : Int) := by
  induction items with
  | nil => intro start x hx; simp [cursors_from] at hx
  | cons item items ih =>
    intro start x hx
    simp only [cursors_from, List.mem_cons] at hx
    have hlen : (((item :: items).flatten.length : Nat) : Int) =
        (item.length : Int) + (items.flatten.length : Int) := by
      rw [List.flatten_cons, List.length_append]; push_cast; rfl
    rw [hlen]
    rcases hx with rfl | hx
    · omega
    · have := ih _ _ hx
      omega

theorem cursors_bounds (items : List (List Nat)) (x : Int) (hx : x ∈ cursors items) :
    0 ≤ x ∧ x ≤ (items.flatten.length : Int) := by
  simp only [cursors, List.mem_cons] at hx
  rcases hx with rfl | hx
  · omega
  · have := cursors_from_bounds items 0 x hx
    omega

theorem cursors_chain (items : List (List Nat)) :
    List.Chain' (fun x y : Int => x ≤ y) (cursors items) :=
  cursors_from_chain items 0

theorem cursors_slice (items : List (List Nat)) (rest : List Nat) (i : Nat)
    (hi : i < items.length) :
    ∃ lo hi2 : Int, (cursors items)[i]? = some lo ∧ (cursors items)[i + 1]? = some hi2 ∧
      0 ≤ lo ∧ lo ≤ hi2 ∧
      items[i]? = some (((items.flatten ++ rest).drop lo.toNat).take (hi2 - lo).toNat) := by
  obtain ⟨lo, hi2, h1, h2, h3, h4, h5⟩ := cursors_from_slice items [] rest i hi
  refine ⟨lo, hi2, by simpa [cursors] using h1, by simpa [cursors] using h2, h3, h4, ?_⟩
  simp only [List.nil_append] at h5
  rw [h5]
  simp [List.getElem?_eq_getElem hi]

theorem string_tracks_view {s : StringArrayBuilder} {items : List (List Nat)} {cur : List Nat}
    (ht : Tracks s items cur) :
    s.active_offsets = some (cursors items) ∧
    s.data_buffer_builder_.contents = some (items.flatten ++ cur) ∧
    s.size = (items.length : Int) ∧
    (s.is_large_ = false → ((items.flatten ++ cur).length : Int) ≤ INT32_MAX) := by
  obtain ⟨hsz, _, hdata, h32, hlg⟩ := ht
  refine ⟨?_, (BufferBuilder.buffer_holds_size_contents hdata).2, hsz, fun hL => (h32 hL).2.1⟩
  unfold active_offsets
  cases hL : s.is_large_ with
  | true => simpa using (hlg hL).1.contents_eq
  | false => simpa using (h32 hL).1.contents_eq

/-- C6: after any interleaving of `write_buffer` and `finish_element` calls on a
`StringArrayBuilder` (32-bit or large mode, across a promotion) the offsets buffer
in use holds `size() + 1` entries, starts with 0, is non-decreasing, and for every
finished item `i` the data bytes in `[offset[i], offset[i+1])` are the bytes
written between the `i`-th and the `(i+1)`-th `finish_element`; every stored
offset is the data cursor computed without wrap-around, and in 32-bit mode it
fits an `int32_t`.  With an allocator that never fails the calls complete. -/
theorem string_offsets_delimit_items (oom : Int → Bool) (capacity guess : Int)
    (ops : List Op) :
    (∀ b0 b, new oom capacity guess = .ok b0 → run oom b0 ops = .ok b →
      ∃ offs data, b.active_offsets = some offs ∧
        b.data_buffer_builder_.contents = some data ∧
        b.size = ((finished ops).length : Int) ∧
        (offs.length : Int) = b.size + 1 ∧
        offs[0]? = some 0 ∧
        List.Chain' (fun x y : Int => x ≤ y) offs ∧
        (∀ i, i < (finished ops).length → ∃ lo hi : Int,
          offs[i]? = some lo ∧ offs[i + 1]? = some hi ∧ 0 ≤ lo ∧ lo ≤ hi ∧
          (finished ops)[i]? = some ((data.drop lo.toNat).take (hi - lo).toNat)) ∧
        offs = cursors (finished ops) ∧
        (b.is_large_ = false → ∀ x ∈ offs, 0 ≤ x ∧ x ≤ INT32_MAX ∧ toInt32 x = x)) ∧
    (-1 ≤ capacity → -1 ≤ guess → ∃ b0 b,
      new (fun _ => false) capacity guess = .ok b0 ∧ run (fun _ => false) b0 ops = .ok b) := by
  constructor
  · intro b0 b h0 hrun
    have ht := (string_run_tracks oom ops b0 b [] [] (string_new_tracks oom capacity guess h0).1
      hrun).1
    obtain ⟨hoffs, hdata, hsize, hsmall⟩ := string_tracks_view ht
    refine ⟨_, _, hoffs, hdata, hsize, ?_, by simp [cursors], cursors_chain _, ?_, rfl, ?_⟩
    · rw [hsize, cursors_length]; push_cast; rfl
    · intro i hi
      exact cursors_slice _ _ i hi
    · intro hL x hx
      have hb := cursors_bounds _ x hx
      have ht2 := hsmall hL
      have hle : x ≤ INT32_MAX := by
        simp only [List.length_append] at ht2
        push_cast at ht2
        have : (0 : Int) ≤ ((feed [] [] ops).2.length : Int) := by omega
        unfold finished at hb
        omega
      exact ⟨hb.1, hle, toInt32_of_small x hb.1 hle⟩
  · intro hc hg
    obtain ⟨b0, h0⟩ := string_new_total capacity guess hc hg
    obtain ⟨b, hb⟩ := string_run_total ops b0 [] [] (string_new_tracks _ capacity guess h0).1
    exact ⟨b0, b, h0, hb⟩

end StringArrayBuilder
end arrow.hpp.builder

namespace arrow.hpp.builder
namespace StringArrayBuilder

theorem string_release_eq (oom : Int → Bool) (b : StringArrayBuilder)
    (a_out : ArrowArray) (s_out : ArrowSchema) (ha : a_out.release = none)
    (hs : s_out.release = none) {a : ArrowArray} {s : ArrowSchema} {b1 : StringArrayBuilder}
    (h : b.release oom (some a_out) (some s_out) = .ok (a, s, b1)) :
    ∃ p0 v, b.validity_buffer_builder_.release oom = .ok (p0, v) ∧
      s = { format := if b.is_large_ = true then "U" else "u", name := "", metadata := none,
            flags := ARROW_FLAG_NULLABLE, n_children := 0, children := none,
            dictionary := none, private_data := none,
            release := some .arrow_hpp_builder_release_schema_internal } ∧
      a = { length := b.size_, null_count := v.null_count_, offset := 0, n_buffers := 3,
            n_children := 0,
            buffers := some [p0.map Buffer.uint8,
              if b.is_large_ = true then b.large_offset_buffer_builder_.data_.map Buffer.int64
              else b.offset_buffer_builder_.data_.map Buffer.int32,
              b.data_buffer_builder_.data_.map Buffer.uint8],
            children := none, dictionary := none, private_data := none,
            release := some .arrow_hpp_builder_release_array_data_internal } := by
  unfold release at h
  cases hf : CArrayFinalizer.new.allocate oom 3 0 with
  | error e => rw [hf] at h; cases h
  | ok f0 =>
    rw [hf] at h
    obtain ⟨hfa, hfs⟩ := finalizer_allocate_flat oom 3 (by decide) hf
    cases hv : b.validity_buffer_builder_.release oom with
    | error e => simp only [hv] at h; cases h
    | ok r =>
      obtain ⟨p0, v⟩ := r
      refine ⟨p0, v, rfl, ?_⟩
      cases hL : b.is_large_ with
      | true =>
        simp only [hv, hfa, hfs, hL, if_true, BitmapBuilder.null_count,
          BufferBuilder.release, ArrowArray.set_buffer, List.replicate,
          List.length_cons, List.length_nil, List.set_cons_zero,
          List.set_cons_succ, CArrayFinalizer.release, ha, hs, ne_eq, not_true_eq_false,
          if_false, Nat.lt_add_one, Nat.zero_lt_succ, Nat.reduceAdd, Nat.reduceLT,
          Except.map] at h
        injection h with h
        injection h with h1 h2
        injection h2 with h2 h3
        exact ⟨h2.symm, h1.symm⟩
      | false =>
        simp only [hv, hfa, hfs, hL, Bool.false_eq_true, if_false, BitmapBuilder.null_count,
          BufferBuilder.release, ArrowArray.set_buffer, List.replicate,
          List.length_cons, List.length_nil, List.set_cons_zero,
          List.set_cons_succ, CArrayFinalizer.release, ha, hs, ne_eq, not_true_eq_false,
          Nat.lt_add_one, Nat.zero_lt_succ, if_true, Nat.reduceAdd, Nat.reduceLT,
          Except.map] at h
        injection h with h
        injection h with h1 h2
        injection h2 with h2 h3
        exact ⟨h2.symm, h1.symm⟩

theorem string_release_total {b : StringArrayBuilder} {items : List (List Nat)}
    {cur : List Nat} (ht : Tracks b items cur)
    (a_out : ArrowArray) (s_out : ArrowSchema) (ha : a_out.release = none)
    (hs : s_out.release = none) :
    ∃ r, b.release (fun _ => false) (some a_out) (some s_out) = .ok r := by
  obtain ⟨_, ⟨flags, hval⟩, _⟩ := ht
  obtain ⟨f0, hf⟩ := finalizer_allocate_flat_total 3 (by decide)
  obtain ⟨hfa, hfs⟩ := finalizer_allocate_flat _ 3 (by decide) hf
  have hf2 : CArrayFinalizer.new.allocate (fun _ => false) 3 0 = .ok f0 := hf
  obtain ⟨⟨p0, v⟩, hv⟩ := BitmapBuilder.bitmap_release_total hval
  unfold release
  rw [hf2]
  cases hL : b.is_large_ with
  | true =>
    simp only [hv, hfa, hfs, if_true, BitmapBuilder.null_count,
      BufferBuilder.release, ArrowArray.set_buffer, List.replicate,
      List.length_cons, List.length_nil, List.set_cons_zero,
      List.set_cons_succ, CArrayFinalizer.release, ha, hs, ne_eq, not_true_eq_false,
      if_false, Nat.lt_add_one, Nat.zero_lt_succ, Nat.reduceAdd, Nat.reduceLT,
      Except.map]
    exact ⟨_, rfl⟩
  | false =>
    simp only [hv, hfa, hfs, Bool.false_eq_true, if_false, BitmapBuilder.null_count,
      BufferBuilder.release, ArrowArray.set_buffer, List.replicate,
      List.length_cons, List.length_nil, List.set_cons_zero,
      List.set_cons_succ, CArrayFinalizer.release, ha, hs, ne_eq, not_true_eq_false,
      Nat.lt_add_one, Nat.zero_lt_succ, if_true, Nat.reduceAdd, Nat.reduceLT,
      Except.map]
    exact ⟨_, rfl⟩

theorem string_run_append (oom : Int → Bool) (ops1 ops2 : List Op) :
    ∀ (s s1 : StringArrayBuilder), run oom s (ops1 ++ ops2) = .ok s1 →
      ∃ sm, run oom s ops1 = .ok sm ∧ run oom sm ops2 = .ok s1 := by
  induction ops1 with
  | nil => intro s s1 h; exact ⟨s, rfl, h⟩
  | cons op ops1 ih =>
    intro s s1 h
    simp only [List.cons_append, run] at h ⊢
    cases hst : step oom s op with
    | error e => simp only [hst] at h; cases h
    | ok s2 =>
      simp only [hst] at h ⊢
      exact ih s2 s1 h

theorem string_first_crossing (ops : List Op) (h : INT32_MAX < total_bytes ops) :
    ∃ pre buffer post, ops = pre ++ Op.write_buffer buffer :: post ∧
      total_bytes pre ≤ INT32_MAX ∧ INT32_MAX < total_bytes pre + (buffer.length : Int) := by
  induction ops using List.reverseRecOn with
  | nil => simp [total_bytes, INT32_MAX] at h
  | append_singleton ops op ih =>
    rw [total_bytes_append] at h
    by_cases hpre : INT32_MAX < total_bytes ops
    · obtain ⟨pre, buffer, post, he, h1, h2⟩ := ih hpre
      exact ⟨pre, buffer, post ++ [op], by rw [he]; simp, h1, h2⟩
    · cases op with
      | write_buffer buffer =>
        refine ⟨ops, buffer, [], rfl, by omega, ?_⟩
        simpa [total_bytes] using h
      | finish_element nn =>
        simp only [total_bytes, add_zero] at h
        exact absurd h hpre

theorem take_of_take_append {α : Type} (blk : List (Option α)) (l1 l2 : List α)
    (h : blk.take (l1 ++ l2).length = (l1 ++ l2).map some) :
    blk.take l1.length = l1.map some := by
  have h2 := congrArg (List.take l1.length) h
  rw [List.take_take] at h2
  have hmin : min l1.length (l1 ++ l2).length = l1.length := by simp
  rw [hmin] at h2
  rw [h2, List.map_append, List.take_append_of_le_length (by simp)]
  simp

end StringArrayBuilder
end arrow.hpp.builder

namespace arrow.hpp.builder
namespace StringArrayBuilder

theorem string_stores_cursors_initial {w : Nat} {bb : BufferBuilder Int w}
    {blk : Block Int} (items more : List (List Nat)) (hd : bb.data_ = some blk)
    (hs : bb.Stores (cursors (items ++ more))) :
    blk.take (cursors items).length = (cursors items).map some := by
  obtain ⟨blk1, hd1, _, _, _, htk⟩ := hs
  rw [hd] at hd1
  injection hd1 with hd1
  subst hd1
  have hc : cursors (items ++ more) =
      cursors items ++ cursors_from (0 + (items.flatten.length : Int)) more := by
    simp only [cursors, cursors_from_append, List.cons_append]
  rw [hc] at htk
  exact take_of_take_append blk _ _ htk

/-- C7: a builder whose written data crosses the 32-bit offset limit (more than
`INT32_MAX` bytes in total) releases format `"U"` with the 64-bit offsets buffer in
`buffers[1]`; at the write that crosses the limit the builder was still in 32-bit
mode, and the 64-bit offsets of the items finished before it are, in the same
order and count, the 32-bit offsets recorded for them.  A builder that never
crosses the limit releases format `"u"` with its 32-bit offsets buffer.  With an
allocator that never fails construction, calls and release complete. -/
theorem string_promotion_keeps_offsets (oom : Int → Bool) (capacity guess : Int)
    (ops : List Op) (a_out : ArrowArray) (s_out : ArrowSchema) (ha : a_out.release = none)
    (hs : s_out.release = none) :
    (∀ b0 b a s b1, new oom capacity guess = .ok b0 → run oom b0 ops = .ok b →
      b.release oom (some a_out) (some s_out) = .ok (a, s, b1) →
      (INT32_MAX < total_bytes ops →
        s.format = "U" ∧ b.is_large_ = true ∧
        ∃ p0 p2 blk, a.buffers = some [p0, some (.int64 blk), p2] ∧
          b.large_offset_buffer_builder_.data_ = some blk ∧
          blk.take ((finished ops).length + 1) = (cursors (finished ops)).map some ∧
          (∃ pre buffer post, ops = pre ++ Op.write_buffer buffer :: post ∧
            total_bytes pre ≤ INT32_MAX ∧
            INT32_MAX < total_bytes pre + (buffer.length : Int)) ∧
          ∀ pre buffer post, ops = pre ++ Op.write_buffer buffer :: post →
            total_bytes pre ≤ INT32_MAX →
            INT32_MAX < total_bytes pre + (buffer.length : Int) →
            ∃ bpre offs32, run oom b0 pre = .ok bpre ∧ bpre.is_large_ = false ∧
              bpre.offset_buffer_builder_.contents = some offs32 ∧
              (offs32.length : Int) = bpre.size + 1 ∧
              blk.take offs32.length = offs32.map some) ∧
      (total_bytes ops ≤ INT32_MAX →
        s.format = "u" ∧ b.is_large_ = false ∧
        ∃ p0 p2 blk, a.buffers = some [p0, some (.int32 blk), p2] ∧
          b.offset_buffer_builder_.data_ = some blk ∧
          blk.take ((finished ops).length + 1) = (cursors (finished ops)).map some)) ∧
    (-1 ≤ capacity → -1 ≤ guess → ∃ b0 b r,
      new (fun _ => false) capacity guess = .ok b0 ∧ run (fun _ => false) b0 ops = .ok b ∧
      b.release (fun _ => false) (some a_out) (some s_out) = .ok r) := by
  constructor
  · intro b0 b a s b1 h0 hrun hrel
    obtain ⟨ht0, hL0⟩ := string_new_tracks oom capacity guess h0
    obtain ⟨ht, hiff⟩ := string_run_tracks oom ops b0 b [] [] ht0 hrun
    simp only [hL0, Bool.false_eq_true, false_or, List.flatten_nil, List.append_nil,
      List.length_nil, Nat.cast_zero, zero_add] at hiff
    obtain ⟨p0, v, _, hS, hA⟩ := string_release_eq oom b a_out s_out ha hs hrel
    constructor
    · intro hbig
      have hL : b.is_large_ = true := hiff.mpr hbig
      have hst := (ht.2.2.2.2 hL).1
      obtain ⟨blk, hd, _⟩ := id hst
      have hlen : (cursors (finished ops)).length = (finished ops).length + 1 :=
        cursors_length _
      refine ⟨by rw [hS, hL]; rfl, hL, p0.map Buffer.uint8,
        b.data_buffer_builder_.data_.map Buffer.uint8, blk, ?_, hd, ?_,
        string_first_crossing ops hbig, ?_⟩
      · rw [hA, hL, hd]; rfl
      · rw [← hlen]
        have := string_stores_cursors_initial (finished ops) [] hd (by simpa [finished] using hst)
        exact this
      · intro pre buffer post he hle hgt
        rw [he] at hrun
        obtain ⟨bpre, hpre, _⟩ := string_run_append oom pre _ b0 b hrun
        obtain ⟨htp, hiffp⟩ := string_run_tracks oom pre b0 bpre [] [] ht0 hpre
        simp only [hL0, Bool.false_eq_true, false_or, List.flatten_nil, List.append_nil,
          List.length_nil, Nat.cast_zero, zero_add] at hiffp
        have hLp : bpre.is_large_ = false := by
          cases hLp : bpre.is_large_ with
          | false => rfl
          | true => have := hiffp.mp hLp; omega
        obtain ⟨hoffs, _, hsize, _⟩ := string_tracks_view htp
        simp only [active_offsets, hLp, Bool.false_eq_true, if_false] at hoffs
        refine ⟨bpre, _, hpre, hLp, hoffs, ?_, ?_⟩
        · rw [hsize, cursors_length]; push_cast; rfl
        · obtain ⟨more, hmore⟩ := feed_items_extend (Op.write_buffer buffer :: post)
            (feed [] [] pre).1 (feed [] [] pre).2
          have hfin : (feed [] [] ops).1 = (feed [] [] pre).1 ++ more := by
            rw [he, feed_append]; exact hmore
          have hst2 : b.large_offset_buffer_builder_.Stores
              (cursors ((feed [] [] pre).1 ++ more)) := by
            rw [← hfin]; exact hst
          exact string_stores_cursors_initial _ more hd hst2
    · intro hsmall
      have hL : b.is_large_ = false := by
        cases hL : b.is_large_ with
        | false => rfl
        | true => have := hiff.mp hL; omega
      have hst := (ht.2.2.2.1 hL).1
      obtain ⟨blk, hd, _⟩ := id hst
      have hlen : (cursors (finished ops)).length = (finished ops).length + 1 :=
        cursors_length _
      refine ⟨by rw [hS, hL]; rfl, hL, p0.map Buffer.uint8,
        b.data_buffer_builder_.data_.map Buffer.uint8, blk, ?_, hd, ?_⟩
      · rw [hA, hL, hd]; rfl
      · rw [← hlen]
        exact string_stores_cursors_initial (finished ops) [] hd (by simpa [finished] using hst)
  · intro hc hg
    obtain ⟨b0, h0⟩ := string_new_total capacity guess hc hg
    have ht0 := (string_new_tracks _ capacity guess h0).1
    obtain ⟨b, hb⟩ := string_run_total ops b0 [] [] ht0
    have ht := (string_run_tracks _ ops b0 b [] [] ht0 hb).1
    obtain ⟨r, hr⟩ := string_release_total ht a_out s_out ha hs
    exact ⟨b0, b, r, h0, hb, hr⟩

end StringArrayBuilder
end arrow.hpp.builder

namespace arrow.hpp.builder
namespace StringArrayBuilder

/-- Witness for C7: one byte, then a buffer of `2^31 - 1` bytes that crosses the
limit, each closed by `finish_element`; the run completes and publishes the
large format with the 64-bit offsets `0, 1, 2^31`. -/
theorem string_promotion_keeps_offsets_witness :
    ArrowArray.unreleased.release = none ∧ ArrowSchema.unreleased.release = none ∧
    INT32_MAX < total_bytes
      [.write_buffer [1], .finish_element true,
       .write_buffer (List.replicate 2147483647 0), .finish_element true] ∧
    ∃ b0 b a s b1,
      new (fun _ => false) 16 16 = .ok b0 ∧
      run (fun _ => false) b0
        [.write_buffer [1], .finish_element true,
         .write_buffer (List.replicate 2147483647 0), .finish_element true] = .ok b ∧
      b.release (fun _ => false) (some ArrowArray.unreleased) (some ArrowSchema.unreleased) =
        .ok (a, s, b1) ∧
      s.format = "U" ∧
      ∃ p0 p2 blk, a.buffers = some [p0, some (.int64 blk), p2] ∧
        blk.take 3 = [some 0, some 1, some 2147483648] := by
  have hbig : INT32_MAX < total_bytes
      [.write_buffer [1], .finish_element true,
       .write_buffer (List.replicate 2147483647 0), .finish_element true] := by
    simp only [total_bytes, List.length_replicate, List.length_singleton, INT32_MAX]
    decide
  have h := string_promotion_keeps_offsets (fun _ => false) 16 16
    [.write_buffer [1], .finish_element true,
     .write_buffer (List.replicate 2147483647 0), .finish_element true]
    ArrowArray.unreleased ArrowSchema.unreleased rfl rfl
  obtain ⟨b0, b, ⟨a, s, b1⟩, h0, hrun, hrel⟩ := h.2 (by decide) (by decide)
  obtain ⟨hfmt, _, p0, p2, blk, hbuf, _, htake, _⟩ := (h.1 b0 b a s b1 h0 hrun hrel).1 hbig
  refine ⟨rfl, rfl, hbig, b0, b, a, s, b1, h0, hrun, hrel, hfmt, p0, p2, blk, hbuf, ?_⟩
  have hfin : finished
      [.write_buffer [1], .finish_element true,
       .write_buffer (List.replicate 2147483647 0), .finish_element true] =
      [[1], List.replicate 2147483647 0] := rfl
  rw [hfin] at htake
  simp only [cursors, cursors_from, List.length_cons, List.length_nil, List.length_replicate,
    List.length_singleton, List.map_cons, List.map_nil, Nat.reduceAdd] at htake
  have e1 : (0 : Int) + ((1 : Nat) : Int) = 1 := by decide
  have e2 : (1 : Int) + ((2147483647 : Nat) : Int) = 2147483648 := by decide
  rw [e1, e2] at htake
  exact htake

end StringArrayBuilder
end arrow.hpp.builder

namespace geoarrow
open arrow.hpp.builder

theorem factory_point (parse : Option ArrowSchema → Except String Meta)
    (schema : Option ArrowSchema) (h : parse schema = .ok ⟨.Point, .FixedSizeList⟩) :
    create_view parse schema = .ok (.PointArrayView schema) := by
  simp [create_view, Meta.construct, h, create_view_point, bind, Except.bind]

theorem factory_linestring (parse : Option ArrowSchema → Except String Meta)
    (schema c : Option ArrowSchema) (ce : util.Extension)
    (h : parse schema = .ok ⟨.Linestring, .List⟩) (hc : children0 schema = .ok c)
    (hcm : parse c = .ok ⟨ce, .FixedSizeList⟩) :
    create_view parse schema = .ok (.LinestringArrayView schema) := by
  simp [create_view, Meta.construct, h, create_view_linestring, bind, Except.bind, hc, hcm]

theorem factory_polygon (parse : Option ArrowSchema → Except String Meta)
    (schema c g : Option ArrowSchema) (ce ge : util.Extension)
    (h : parse schema = .ok ⟨.Polygon, .List⟩) (hc : children0 schema = .ok c)
    (hcm : parse c = .ok ⟨ce, .List⟩) (hg : children0 c = .ok g)
    (hgm : parse g = .ok ⟨ge, .FixedSizeList⟩) :
    create_view parse schema = .ok (.PolygonArrayView schema) := by
  simp [create_view, Meta.construct, h, create_view_polygon, bind, Except.bind, hc, hcm, hg, hgm]

theorem factory_collection_eq (parse : Option ArrowSchema → Except String Meta)
    (schema : Option ArrowSchema) (tag : util.Extension) (st : util.StorageType)
    (ht : is_collection_tag tag = true) (h : parse schema = .ok ⟨tag, st⟩) :
    create_view parse schema = create_view_collection parse schema ⟨tag, st⟩ := by
  cases tag <;> simp [is_collection_tag] at ht <;>
    simp [create_view, Meta.construct, h, bind, Except.bind]

end geoarrow

namespace geoarrow
open arrow.hpp.builder

theorem children0_error (schema : Option ArrowSchema) (e : Failure)
    (h : children0 schema = .error e) : e = .undefined := by
  unfold children0 at h
  split at h
  · cases h; rfl
  · split at h
    · cases h; rfl
    · cases h; rfl
    · cases h

theorem factory_message_mem (what : String) (h : what ∈ factory_messages)
    (parse : Option ArrowSchema → Except String Meta) (schema : Option ArrowSchema) :
    Accounted parse schema (.ValidationError what) := Or.inl h

theorem factory_linestring_ok (parse : Option ArrowSchema → Except String Meta)
    (schema : Option ArrowSchema) (m : Meta) (v : ArrayView)
    (h : create_view_linestring parse schema m = .ok v) :
    m.storage_type_ = .List ∧
    (∃ c ce, children0 schema = .ok c ∧ parse c = .ok ⟨ce, .FixedSizeList⟩) ∧
    v = .LinestringArrayView schema := by
  unfold create_view_linestring at h
  simp only [bind, Except.bind, Meta.construct] at h
  cases hc : children0 schema with
  | error e => simp only [hc] at h; cases h
  | ok c =>
    simp only [hc] at h
    cases hcm : parse c with
    | error e => simp only [hcm] at h; cases h
    | ok cm =>
      simp only [hcm] at h
      split at h
      · rename_i hst
        split at h
        · rename_i hcst
          obtain ⟨ce, cst⟩ := cm
          simp only at hcst
          subst hcst
          injection h with h
          exact ⟨hst, ⟨c, ce, rfl, hcm⟩, h.symm⟩
        · cases h
      · cases h

theorem factory_linestring_error (parse : Option ArrowSchema → Except String Meta)
    (schema : Option ArrowSchema) (m : Meta) (e : Failure)
    (h : create_view_linestring parse schema m = .error e) : Accounted parse schema e := by
  unfold create_view_linestring at h
  simp only [bind, Except.bind, Meta.construct] at h
  cases hc : children0 schema with
  | error e2 =>
    simp only [hc] at h
    injection h with h
    subst h
    have := children0_error _ _ hc
    subst this
    exact Or.inl hc
  | ok c =>
    simp only [hc] at h
    cases hcm : parse c with
    | error e2 =>
      simp only [hcm] at h
      injection h with h
      subst h
      exact Or.inr (Or.inr ⟨c, hc, Or.inl hcm⟩)
    | ok cm =>
      simp only [hcm] at h
      split at h
      · split at h
        · cases h
        · injection h with h; subst h; exact Or.inl (by decide)
      · injection h with h; subst h; exact Or.inl (by decide)

theorem factory_polygon_ok (parse : Option ArrowSchema → Except String Meta)
    (schema : Option ArrowSchema) (m : Meta) (v : ArrayView)
    (h : create_view_polygon parse schema m = .ok v) :
    m.storage_type_ = .List ∧
    (∃ c ce g ge, children0 schema = .ok c ∧ parse c = .ok ⟨ce, .List⟩ ∧
      children0 c = .ok g ∧ parse g = .ok ⟨ge, .FixedSizeList⟩) ∧
    v = .PolygonArrayView schema := by
  unfold create_view_polygon at h
  simp only [bind, Except.bind, Meta.construct] at h
  cases hc : children0 schema with
  | error e => simp only [hc] at h; cases h
  | ok c =>
    simp only [hc] at h
    cases hcm : parse c with
    | error e => simp only [hcm] at h; cases h
    | ok cm =>
      simp only [hcm] at h
      cases hg : children0 c with
      | error e => simp only [hg] at h; cases h
      | ok g =>
        simp only [hg] at h
        cases hgm : parse g with
        | error e => simp only [hgm] at h; cases h
        | ok gm =>
          simp only [hgm] at h
          split at h
          · rename_i hst
            split at h
            · rename_i hcst
              split at h
              · rename_i hgst
                obtain ⟨ce, cst⟩ := cm
                obtain ⟨ge, gst⟩ := gm
                simp only at hcst hgst
                subst hcst
                subst hgst
                injection h with h
                exact ⟨hst, ⟨c, ce, g, ge, rfl, hcm, hg, hgm⟩, h.symm⟩
              · cases h
            · cases h
          · cases h

theorem factory_polygon_error (parse : Option ArrowSchema → Except String Meta)
    (schema : Option ArrowSchema) (m : Meta) (e : Failure)
    (h : create_view_polygon parse schema m = .error e) : Accounted parse schema e := by
  unfold create_view_polygon at h
  simp only [bind, Except.bind, Meta.construct] at h
  cases hc : children0 schema with
  | error e2 =>
    simp only [hc] at h
    injection h with h
    subst h
    have := children0_error _ _ hc
    subst this
    exact Or.inl hc
  | ok c =>
    simp only [hc] at h
    cases hcm : parse c with
    | error e2 =>
      simp only [hcm] at h
      injection h with h
      subst h
      exact Or.inr (Or.inr ⟨c, hc, Or.inl hcm⟩)
    | ok cm =>
      simp only [hcm] at h
      cases hg : children0 c with
      | error e2 =>
        simp only [hg] at h
        injection h with h
        subst h
        have := children0_error _ _ hg
        subst this
        exact Or.inr ⟨c, hc, Or.inl hg⟩
      | ok g =>
        simp only [hg] at h
        cases hgm : parse g with
        | error e2 =>
          simp only [hgm] at h
          injection h with h
          subst h
          exact Or.inr (Or.inr ⟨c, hc, Or.inr ⟨g, hg, Or.inl hgm⟩⟩)
        | ok gm =>
          simp only [hgm] at h
          split at h
          · split at h
            · split at h
              · cases h
              · injection h with h; subst h; exact Or.inl (by decide)
            · injection h with h; subst h; exact Or.inl (by decide)
          · injection h with h; subst h; exact Or.inl (by decide)

theorem factory_multipoint_ok (schema : Option ArrowSchema) (mm pm : Meta) (v : ArrayView)
    (h : create_view_multipoint schema mm pm = .ok v) :
    mm.storage_type_ = .List ∧ pm.storage_type_ = .FixedSizeList ∧
    v = .CollectionArrayView_PointArrayView schema := by
  unfold create_view_multipoint at h
  split at h
  · rename_i hst
    split at h
    · rename_i hpst
      injection h with h
      exact ⟨hst, hpst, h.symm⟩
    · cases h
  · cases h

theorem factory_multipoint_error (parse : Option ArrowSchema → Except String Meta)
    (schema : Option ArrowSchema) (mm pm : Meta) (e : Failure)
    (h : create_view_multipoint schema mm pm = .error e) : Accounted parse schema e := by
  unfold create_view_multipoint at h
  split at h
  · split at h
    · cases h
    · injection h with h; subst h; exact Or.inl (by decide)
  · injection h with h; subst h; exact Or.inl (by decide)

theorem factory_multilinestring_ok (parse : Option ArrowSchema → Except String Meta)
    (schema : Option ArrowSchema) (mm lm : Meta) (v : ArrayView)
    (h : create_view_multilinestring parse schema mm lm = .ok v) :
    mm.storage_type_ = .List ∧ lm.storage_type_ = .List ∧
    (∃ c g ge, children0 schema = .ok c ∧ children0 c = .ok g ∧
      parse g = .ok ⟨ge, .FixedSizeList⟩) ∧
    v = .CollectionArrayView_LinestringArrayView schema := by
  unfold create_view_multilinestring at h
  simp only [bind, Except.bind, Meta.construct] at h
  cases hc : children0 schema with
  | error e => simp only [hc] at h; cases h
  | ok c =>
    simp only [hc] at h
    cases hg : children0 c with
    | error e => simp only [hg] at h; cases h
    | ok g =>
      simp only [hg] at h
      cases hgm : parse g with
      | error e => simp only [hgm] at h; cases h
      | ok gm =>
        simp only [hgm] at h
        split at h
        · rename_i hst
          split at h
          · rename_i hlst
            split at h
            · rename_i hgst
              obtain ⟨ge, gst⟩ := gm
              simp only at hgst
              subst hgst
              injection h with h
              exact ⟨hst, hlst, ⟨c, g, ge, rfl, hg, hgm⟩, h.symm⟩
            · cases h
          · cases h
        · cases h

theorem factory_multilinestring_error (parse : Option ArrowSchema → Except String Meta)
    (schema : Option ArrowSchema) (mm lm : Meta) (e : Failure)
    (h : create_view_multilinestring parse schema mm lm = .error e) :
    Accounted parse schema e := by
  unfold create_view_multilinestring at h
  simp only [bind, Except.bind, Meta.construct] at h
  cases hc : children0 schema with
  | error e2 =>
    simp only [hc] at h
    injection h with h
    subst h
    have := children0_error _ _ hc
    subst this
    exact Or.inl hc
  | ok c =>
    simp only [hc] at h
    cases hg : children0 c with
    | error e2 =>
      simp only [hg] at h
      injection h with h
      subst h
      have := children0_error _ _ hg
      subst this
      exact Or.inr ⟨c, hc, Or.inl hg⟩
    | ok g =>
      simp only [hg] at h
      cases hgm : parse g with
      | error e2 =>
        simp only [hgm] at h
        injection h with h
        subst h
        exact Or.inr (Or.inr ⟨c, hc, Or.inr ⟨g, hg, Or.inl hgm⟩⟩)
      | ok gm =>
        simp only [hgm] at h
        split at h
        · split at h
          · split at h
            · cases h
            · injection h with h; subst h; exact Or.inl (by decide)
          · injection h with h; subst h; exact Or.inl (by decide)
        · injection h with h; subst h; exact Or.inl (by decide)

theorem factory_multipolygon_ok (parse : Option ArrowSchema → Except String Meta)
    (schema : Option ArrowSchema) (mm pm : Meta) (v : ArrayView)
    (h : create_view_multipolygon parse schema mm pm = .ok v) :
    mm.storage_type_ = .List ∧ pm.storage_type_ = .List ∧
    (∃ c g ge k ke, children0 schema = .ok c ∧ children0 c = .ok g ∧
      parse g = .ok ⟨ge, .List⟩ ∧ children0 g = .ok k ∧
      parse k = .ok ⟨ke, .FixedSizeList⟩) ∧
    v = .CollectionArrayView_PolygonArrayView schema := by
  unfold create_view_multipolygon at h
  simp only [bind, Except.bind, Meta.construct] at h
  cases hc : children0 schema with
  | error e => simp only [hc] at h; cases h
  | ok c =>
    simp only [hc] at h
    cases hg : children0 c with
    | error e => simp only [hg] at h; cases h
    | ok g =>
      simp only [hg] at h
      cases hgm : parse g with
      | error e => simp only [hgm] at h; cases h
      | ok gm =>
        simp only [hgm] at h
        cases hk : children0 g with
        | error e => simp only [hk] at h; cases h
        | ok k =>
          simp only [hk] at h
          cases hkm : parse k with
          | error e => simp only [hkm] at h; cases h
          | ok km =>
            simp only [hkm] at h
            split at h
            · rename_i hst
              split at h
              · rename_i hpst
                split at h
                · rename_i hgst
                  split at h
                  · rename_i hkst
                    obtain ⟨ge, gst⟩ := gm
                    obtain ⟨ke, kst⟩ := km
                    simp only at hgst hkst
                    subst hgst
                    subst hkst
                    injection h with h
                    exact ⟨hst, hpst, ⟨c, g, ge, k, ke, rfl, hg, hgm, hk, hkm⟩, h.symm⟩
                  · cases h
                · cases h
              · cases h
            · cases h

theorem factory_multipolygon_error (parse : Option ArrowSchema → Except String Meta)
    (schema : Option ArrowSchema) (mm pm : Meta) (e : Failure)
    (h : create_view_multipolygon parse schema mm pm = .error e) :
    Accounted parse schema e := by
  unfold create_view_multipolygon at h
  simp only [bind, Except.bind, Meta.construct] at h
  cases hc : children0 schema with
  | error e2 =>
    simp only [hc] at h
    injection h with h
    subst h
    have := children0_error _ _ hc
    subst this
    exact Or.inl hc
  | ok c =>
    simp only [hc] at h
    cases hg : children0 c with
    | error e2 =>
      simp only [hg] at h
      injection h with h
      subst h
      have := children0_error _ _ hg
      subst this
      exact Or.inr ⟨c, hc, Or.inl hg⟩
    | ok g =>
      simp only [hg] at h
      cases hgm : parse g with
      | error e2 =>
        simp only [hgm] at h
        injection h with h
        subst h
        exact Or.inr (Or.inr ⟨c, hc, Or.inr ⟨g, hg, Or.inl hgm⟩⟩)
      | ok gm =>
        simp only [hgm] at h
        cases hk : children0 g with
        | error e2 =>
          simp only [hk] at h
          injection h with h
          subst h
          have := children0_error _ _ hk
          subst this
          exact Or.inr ⟨c, hc, Or.inr ⟨g, hg, hk⟩⟩
        | ok k =>
          simp only [hk] at h
          cases hkm : parse k with
          | error e2 =>
            simp only [hkm] at h
            injection h with h
            subst h
            exact Or.inr (Or.inr ⟨c, hc, Or.inr ⟨g, hg, Or.inr ⟨k, hk, hkm⟩⟩⟩)
          | ok km =>
            simp only [hkm] at h
            split at h
            · split at h
              · split at h
                · split at h
                  · cases h
                  · injection h with h; subst h; exact Or.inl (by decide)
                · injection h with h; subst h; exact Or.inl (by decide)
              · injection h with h; subst h; exact Or.inl (by decide)
            · injection h with h; subst h; exact Or.inl (by decide)

end geoarrow

namespace geoarrow
open arrow.hpp.builder

theorem factory_collection_point (parse : Option ArrowSchema → Except String Meta)
    (schema c : Option ArrowSchema) (tag : util.Extension)
    (ht : is_collection_tag tag = true) (h : parse schema = .ok ⟨tag, .List⟩)
    (hc : children0 schema = .ok c) (hcm : parse c = .ok ⟨.Point, .FixedSizeList⟩) :
    create_view parse schema = .ok (.CollectionArrayView_PointArrayView schema) := by
  rw [factory_collection_eq parse schema tag _ ht h]
  simp [create_view_collection, Meta.construct, bind, Except.bind, hc, hcm,
    create_view_multipoint]

theorem factory_collection_linestring (parse : Option ArrowSchema → Except String Meta)
    (schema c g : Option ArrowSchema) (tag ge : util.Extension)
    (ht : is_collection_tag tag = true) (h : parse schema = .ok ⟨tag, .List⟩)
    (hc : children0 schema = .ok c) (hcm : parse c = .ok ⟨.Linestring, .List⟩)
    (hg : children0 c = .ok g) (hgm : parse g = .ok ⟨ge, .FixedSizeList⟩) :
    create_view parse schema = .ok (.CollectionArrayView_LinestringArrayView schema) := by
  rw [factory_collection_eq parse schema tag _ ht h]
  simp [create_view_collection, Meta.construct, bind, Except.bind, hc, hcm, hg, hgm,
    create_view_multilinestring]

theorem factory_collection_polygon (parse : Option ArrowSchema → Except String Meta)
    (schema c g k : Option ArrowSchema) (tag ge ke : util.Extension)
    (ht : is_collection_tag tag = true) (h : parse schema = .ok ⟨tag, .List⟩)
    (hc : children0 schema = .ok c) (hcm : parse c = .ok ⟨.Polygon, .List⟩)
    (hg : children0 c = .ok g) (hgm : parse g = .ok ⟨ge, .List⟩)
    (hk : children0 g = .ok k) (hkm : parse k = .ok ⟨ke, .FixedSizeList⟩) :
    create_view parse schema = .ok (.CollectionArrayView_PolygonArrayView schema) := by
  rw [factory_collection_eq parse schema tag _ ht h]
  simp [create_view_collection, Meta.construct, bind, Except.bind, hc, hcm, hg, hgm, hk, hkm,
    create_view_multipolygon]

theorem factory_wkb (parse : Option ArrowSchema → Except String Meta)
    (schema : Option ArrowSchema) (st : util.StorageType) (h : parse schema = .ok ⟨.WKB, st⟩) :
    create_view parse schema = create_view_wkb schema ⟨.WKB, st⟩ := by
  simp [create_view, Meta.construct, h, bind, Except.bind]

theorem factory_wkt (parse : Option ArrowSchema → Except String Meta)
    (schema : Option ArrowSchema) (st : util.StorageType) (h : parse schema = .ok ⟨.WKT, st⟩) :
    create_view parse schema = create_view_wkt schema ⟨.WKT, st⟩ := by
  simp [create_view, Meta.construct, h, bind, Except.bind]

theorem factory_collection_ok (parse : Option ArrowSchema → Except String Meta)
    (schema : Option ArrowSchema) (mm : Meta) (v : ArrayView)
    (h : create_view_collection parse schema mm = .ok v) :
    mm.storage_type_ = .List ∧ ∃ c, children0 schema = .ok c ∧
      ((parse c = .ok ⟨.Point, .FixedSizeList⟩ ∧
          v = .CollectionArrayView_PointArrayView schema) ∨
       (parse c = .ok ⟨.Linestring, .List⟩ ∧
          (∃ g ge, children0 c = .ok g ∧ parse g = .ok ⟨ge, .FixedSizeList⟩) ∧
          v = .CollectionArrayView_LinestringArrayView schema) ∨
       (parse c = .ok ⟨.Polygon, .List⟩ ∧
          (∃ g ge k ke, children0 c = .ok g ∧ parse g = .ok ⟨ge, .List⟩ ∧
            children0 g = .ok k ∧ parse k = .ok ⟨ke, .FixedSizeList⟩) ∧
          v = .CollectionArrayView_PolygonArrayView schema)) := by
  unfold create_view_collection at h
  simp only [bind, Except.bind, Meta.construct] at h
  cases hc : children0 schema with
  | error e => simp only [hc] at h; cases h
  | ok c =>
    simp only [hc] at h
    cases hcm : parse c with
    | error e => simp only [hcm] at h; cases h
    | ok cm =>
      simp only [hcm] at h
      obtain ⟨ce, cst⟩ := cm
      cases ce <;> simp only at h <;> try (cases h)
      · obtain ⟨h1, h2, h3⟩ := factory_multipoint_ok schema mm _ v h
        simp only at h2
        subst h2
        exact ⟨h1, c, rfl, Or.inl ⟨hcm, h3⟩⟩
      · obtain ⟨h1, h2, ⟨c2, g, ge, hc2, hg, hgm⟩, h3⟩ :=
          factory_multilinestring_ok parse schema mm _ v h
        simp only at h2
        subst h2
        rw [hc] at hc2
        injection hc2 with hc2
        subst hc2
        exact ⟨h1, c, rfl, Or.inr (Or.inl ⟨hcm, ⟨g, ge, hg, hgm⟩, h3⟩)⟩
      · obtain ⟨h1, h2, ⟨c2, g, ge, k, ke, hc2, hg, hgm, hk, hkm⟩, h3⟩ :=
          factory_multipolygon_ok parse schema mm _ v h
        simp only at h2
        subst h2
        rw [hc] at hc2
        injection hc2 with hc2
        subst hc2
        exact ⟨h1, c, rfl, Or.inr (Or.inr ⟨hcm, ⟨g, ge, k, ke, hg, hgm, hk, hkm⟩, h3⟩)⟩

theorem factory_collection_error (parse : Option ArrowSchema → Except String Meta)
    (schema : Option ArrowSchema) (mm : Meta) (e : Failure)
    (h : create_view_collection parse schema mm = .error e) : Accounted parse schema e := by
  unfold create_view_collection at h
  simp only [bind, Except.bind, Meta.construct] at h
  cases hc : children0 schema with
  | error e2 =>
    simp only [hc] at h
    injection h with h
    subst h
    have := children0_error _ _ hc
    subst this
    exact Or.inl hc
  | ok c =>
    simp only [hc] at h
    cases hcm : parse c with
    | error e2 =>
      simp only [hcm] at h
      injection h with h
      subst h
      exact Or.inr (Or.inr ⟨c, hc, Or.inl hcm⟩)
    | ok cm =>
      simp only [hcm] at h
      obtain ⟨ce, cst⟩ := cm
      cases ce <;> simp only at h
      case Point => exact factory_multipoint_error parse schema mm _ e h
      case Linestring => exact factory_multilinestring_error parse schema mm _ e h
      case Polygon => exact factory_multipolygon_error parse schema mm _ e h
      all_goals (injection h with h; subst h; exact Or.inl (by decide))

end geoarrow

namespace geoarrow
open arrow.hpp.builder

theorem factory_wkb_ok (schema : Option ArrowSchema) (m : Meta) (v : ArrayView)
    (h : create_view_wkb schema m = .ok v) :
    (m.storage_type_ = .Binary ∧ v = .WKBArrayView schema) ∨
    (m.storage_type_ = .LargeBinary ∧ v = .LargeWKBArrayView schema) ∨
    (m.storage_type_ = .FixedWidthBinary ∧ v = .FixedWidthWKBArrayView schema) := by
  obtain ⟨e, st⟩ := m
  cases st <;> simp [create_view_wkb] at h <;> simp [h]

theorem factory_wkt_ok (schema : Option ArrowSchema) (m : Meta) (v : ArrayView)
    (h : create_view_wkt schema m = .ok v) :
    (m.storage_type_ = .Binary ∧ v = .WKTArrayView schema) ∨
    (m.storage_type_ = .String ∧ v = .WKTArrayView schema) ∨
    (m.storage_type_ = .LargeBinary ∧ v = .LargeWKTArrayView schema) ∨
    (m.storage_type_ = .LargeString ∧ v = .LargeWKTArrayView schema) := by
  obtain ⟨e, st⟩ := m
  cases st <;> simp [create_view_wkt] at h <;> simp [h]

theorem factory_wkb_error (schema : Option ArrowSchema) (m : Meta) (e : Failure)
    (h : create_view_wkb schema m = .error e) :
    e = .ValidationError "Unsupported storage type for extension geoarrow.wkb" ∧
    m.storage_type_ ≠ .Binary ∧ m.storage_type_ ≠ .LargeBinary ∧
    m.storage_type_ ≠ .FixedWidthBinary := by
  obtain ⟨ext, st⟩ := m
  cases st <;> simp [create_view_wkb] at h <;> simp [h]

theorem factory_wkt_error (schema : Option ArrowSchema) (m : Meta) (e : Failure)
    (h : create_view_wkt schema m = .error e) :
    e = .ValidationError "Unsupported storage type for extension geoarrow.wkt" ∧
    m.storage_type_ ≠ .Binary ∧ m.storage_type_ ≠ .String ∧
    m.storage_type_ ≠ .LargeBinary ∧ m.storage_type_ ≠ .LargeString := by
  obtain ⟨ext, st⟩ := m
  cases st <;> simp [create_view_wkt] at h <;> simp [h]

theorem factory_point_ok (schema : Option ArrowSchema) (m : Meta) (v : ArrayView)
    (h : create_view_point schema m = .ok v) :
    m.storage_type_ = .FixedSizeList ∧ v = .PointArrayView schema := by
  obtain ⟨e, st⟩ := m
  cases st <;> simp [create_view_point] at h
  simp [h]

theorem factory_point_error (schema : Option ArrowSchema) (m : Meta) (e : Failure)
    (h : create_view_point schema m = .error e) :
    e = .ValidationError "Unsupported storage type for extension geoarrow.point" ∧
    m.storage_type_ ≠ .FixedSizeList := by
  obtain ⟨ext, st⟩ := m
  cases st <;> simp [create_view_point] at h <;> simp [h]

/-- Soundness of the dispatch: a returned view is the view of a supported shape. -/
theorem factory_sound (parse : Option ArrowSchema → Except String Meta)
    (schema : Option ArrowSchema) (v : ArrayView) (h : create_view parse schema = .ok v) :
    Supported parse schema v := by
  unfold create_view at h
  simp only [bind, Except.bind, Meta.construct] at h
  cases hp : parse schema with
  | error e => simp only [hp] at h; cases h
  | ok m =>
    simp only [hp] at h
    obtain ⟨ext, st⟩ := m
    cases ext <;> simp only at h
    case Point =>
      obtain ⟨h1, h2⟩ := factory_point_ok schema _ v h
      simp only at h1
      subst h1
      exact Or.inl ⟨hp, h2⟩
    case Linestring =>
      obtain ⟨h1, h2, h3⟩ := factory_linestring_ok parse schema _ v h
      simp only at h1
      subst h1
      exact Or.inr (Or.inl ⟨hp, h2, h3⟩)
    case Polygon =>
      obtain ⟨h1, h2, h3⟩ := factory_polygon_ok parse schema _ v h
      simp only at h1
      subst h1
      exact Or.inr (Or.inr (Or.inl ⟨hp, h2, h3⟩))
    case MultiPoint =>
      obtain ⟨h1, c, hc, h2⟩ := factory_collection_ok parse schema _ v h
      simp only at h1
      subst h1
      exact Or.inr (Or.inr (Or.inr (Or.inl ⟨.MultiPoint, c, rfl, hp, hc, h2⟩)))
    case MultiLinestring =>
      obtain ⟨h1, c, hc, h2⟩ := factory_collection_ok parse schema _ v h
      simp only at h1
      subst h1
      exact Or.inr (Or.inr (Or.inr (Or.inl ⟨.MultiLinestring, c, rfl, hp, hc, h2⟩)))
    case MultiPolygon =>
      obtain ⟨h1, c, hc, h2⟩ := factory_collection_ok parse schema _ v h
      simp only at h1
      subst h1
      exact Or.inr (Or.inr (Or.inr (Or.inl ⟨.MultiPolygon, c, rfl, hp, hc, h2⟩)))
    case GeometryCollection =>
      obtain ⟨h1, c, hc, h2⟩ := factory_collection_ok parse schema _ v h
      simp only at h1
      subst h1
      exact Or.inr (Or.inr (Or.inr (Or.inl ⟨.GeometryCollection, c, rfl, hp, hc, h2⟩)))
    case WKB =>
      rcases factory_wkb_ok schema _ v h with ⟨h1, h2⟩ | ⟨h1, h2⟩ | ⟨h1, h2⟩ <;>
        simp only at h1 <;> subst h1
      · exact Or.inr (Or.inr (Or.inr (Or.inr (Or.inl ⟨hp, h2⟩))))
      · exact Or.inr (Or.inr (Or.inr (Or.inr (Or.inr (Or.inl ⟨hp, h2⟩)))))
      · exact Or.inr (Or.inr (Or.inr (Or.inr (Or.inr (Or.inr (Or.inl ⟨hp, h2⟩))))))
    case WKT =>
      rcases factory_wkt_ok schema _ v h with ⟨h1, h2⟩ | ⟨h1, h2⟩ | ⟨h1, h2⟩ | ⟨h1, h2⟩ <;>
        simp only at h1 <;> subst h1
      · exact Or.inr (Or.inr (Or.inr (Or.inr (Or.inr (Or.inr (Or.inr (Or.inl ⟨hp, h2⟩)))))))
      · exact Or.inr (Or.inr (Or.inr (Or.inr (Or.inr (Or.inr (Or.inr (Or.inr
          (Or.inl ⟨hp, h2⟩))))))))
      · exact Or.inr (Or.inr (Or.inr (Or.inr (Or.inr (Or.inr (Or.inr (Or.inr
          (Or.inr (Or.inl ⟨hp, h2⟩)))))))))
      · exact Or.inr (Or.inr (Or.inr (Or.inr (Or.inr (Or.inr (Or.inr (Or.inr
          (Or.inr (Or.inr ⟨hp, h2⟩)))))))))
    all_goals cases h

/-- Completeness of the dispatch: every supported shape is given its view. -/
theorem factory_complete (parse : Option ArrowSchema → Except String Meta)
    (schema : Option ArrowSchema) (v : ArrayView) (h : Supported parse schema v) :
    create_view parse schema = .ok v := by
  rcases h with ⟨h, hv⟩ | ⟨h, ⟨c, ce, hc, hcm⟩, hv⟩ | ⟨h, ⟨c, ce, g, ge, hc, hcm, hg, hgm⟩, hv⟩ |
    ⟨tag, c, ht, h, hc, hs⟩ | ⟨h, hv⟩ | ⟨h, hv⟩ | ⟨h, hv⟩ | ⟨h, hv⟩ | ⟨h, hv⟩ | ⟨h, hv⟩ | ⟨h, hv⟩
  · rw [hv]; exact factory_point parse schema h
  · rw [hv]; exact factory_linestring parse schema c ce h hc hcm
  · rw [hv]; exact factory_polygon parse schema c g ce ge h hc hcm hg hgm
  · rcases hs with ⟨hcm, hv⟩ | ⟨hcm, ⟨g, ge, hg, hgm⟩, hv⟩ |
      ⟨hcm, ⟨g, ge, k, ke, hg, hgm, hk, hkm⟩, hv⟩
    · rw [hv]; exact factory_collection_point parse schema c tag ht h hc hcm
    · rw [hv]; exact factory_collection_linestring parse schema c g tag ge ht h hc hcm hg hgm
    · rw [hv]
      exact factory_collection_polygon parse schema c g k tag ge ke ht h hc hcm hg hgm hk hkm
  · rw [hv, factory_wkb parse schema _ h]; rfl
  · rw [hv, factory_wkb parse schema _ h]; rfl
  · rw [hv, factory_wkb parse schema _ h]; rfl
  · rw [hv, factory_wkt parse schema _ h]; rfl
  · rw [hv, factory_wkt parse schema _ h]; rfl
  · rw [hv, factory_wkt parse schema _ h]; rfl
  · rw [hv, factory_wkt parse schema _ h]; rfl

/-- Every failure of the factory is accounted for. -/
theorem factory_error (parse : Option ArrowSchema → Except String Meta)
    (schema : Option ArrowSchema) (e : Failure) (h : create_view parse schema = .error e) :
    Accounted parse schema e := by
  unfold create_view at h
  simp only [bind, Except.bind, Meta.construct] at h
  cases hp : parse schema with
  | error e2 =>
    simp only [hp] at h
    injection h with h
    subst h
    exact Or.inr (Or.inl hp)
  | ok m =>
    simp only [hp] at h
    obtain ⟨ext, st⟩ := m
    cases ext <;> simp only at h
    case Point =>
      rw [(factory_point_error schema _ e h).1]; exact Or.inl (by decide)
    case Linestring =>
      exact factory_linestring_error parse schema _ e h
    case Polygon =>
      exact factory_polygon_error parse schema _ e h
    case MultiPoint =>
      exact factory_collection_error parse schema _ e h
    case MultiLinestring =>
      exact factory_collection_error parse schema _ e h
    case MultiPolygon =>
      exact factory_collection_error parse schema _ e h
    case GeometryCollection =>
      exact factory_collection_error parse schema _ e h
    case WKB =>
      rw [(factory_wkb_error schema _ e h).1]; exact Or.inl (by decide)
    case WKT =>
      rw [(factory_wkt_error schema _ e h).1]; exact Or.inl (by decide)
    all_goals (injection h with h; subst h; exact Or.inl (by decide))

end geoarrow
namespace geoarrow
open arrow.hpp.builder

theorem factory_linestring_defined (parse : Option ArrowSchema → Except String Meta)
    (schema c : Option ArrowSchema) (m : Meta) (hc : children0 schema = .ok c) :
    create_view_linestring parse schema m ≠ .error .undefined := by
  intro h
  unfold create_view_linestring at h
  simp only [bind, Except.bind, Meta.construct, hc] at h
  cases hcm : parse c with
  | error e => simp only [hcm] at h; cases h
  | ok cm =>
    simp only [hcm] at h
    repeat' (first | cases h | split at h)

theorem factory_polygon_defined (parse : Option ArrowSchema → Except String Meta)
    (schema c : Option ArrowSchema) (m : Meta) (hc : children0 schema = .ok c)
    (hg : ∀ cm, parse c = .ok cm → ∃ g, children0 c = .ok g) :
    create_view_polygon parse schema m ≠ .error .undefined := by
  intro h
  unfold create_view_polygon at h
  simp only [bind, Except.bind, Meta.construct, hc] at h
  cases hcm : parse c with
  | error e => simp only [hcm] at h; cases h
  | ok cm =>
    obtain ⟨g, hg⟩ := hg cm hcm
    simp only [hcm, hg] at h
    cases hgm : parse g with
    | error e => simp only [hgm] at h; cases h
    | ok gm =>
      simp only [hgm] at h
      repeat' (first | cases h | split at h)

theorem factory_multipoint_defined (schema : Option ArrowSchema) (mm pm : Meta) :
    create_view_multipoint schema mm pm ≠ .error .undefined := by
  intro h
  unfold create_view_multipoint at h
  repeat' (first | cases h | split at h)

theorem factory_multilinestring_defined (parse : Option ArrowSchema → Except String Meta)
    (schema c g : Option ArrowSchema) (mm lm : Meta) (hc : children0 schema = .ok c)
    (hg : children0 c = .ok g) :
    create_view_multilinestring parse schema mm lm ≠ .error .undefined := by
  intro h
  unfold create_view_multilinestring at h
  simp only [bind, Except.bind, Meta.construct, hc, hg] at h
  cases hgm : parse g with
  | error e => simp only [hgm] at h; cases h
  | ok gm =>
    simp only [hgm] at h
    repeat' (first | cases h | split at h)

theorem factory_multipolygon_defined (parse : Option ArrowSchema → Except String Meta)
    (schema c g : Option ArrowSchema) (mm pm : Meta) (hc : children0 schema = .ok c)
    (hg : children0 c = .ok g) (hk : ∀ gm, parse g = .ok gm → ∃ k, children0 g = .ok k) :
    create_view_multipolygon parse schema mm pm ≠ .error .undefined := by
  intro h
  unfold create_view_multipolygon at h
  simp only [bind, Except.bind, Meta.construct, hc, hg] at h
  cases hgm : parse g with
  | error e => simp only [hgm] at h; cases h
  | ok gm =>
    obtain ⟨k, hk⟩ := hk gm hgm
    simp only [hgm, hk] at h
    cases hkm : parse k with
    | error e => simp only [hkm] at h; cases h
    | ok km =>
      simp only [hkm] at h
      repeat' (first | cases h | split at h)

theorem factory_collection_defined (parse : Option ArrowSchema → Except String Meta)
    (schema c : Option ArrowSchema) (mm : Meta) (hc : children0 schema = .ok c)
    (hr : ∀ cm, parse c = .ok cm →
        (cm.extension_ = .Linestring → ∃ g, children0 c = .ok g) ∧
        (cm.extension_ = .Polygon →
          ∃ g, children0 c = .ok g ∧ ∀ gm, parse g = .ok gm → ∃ k, children0 g = .ok k)) :
    create_view_collection parse schema mm ≠ .error .undefined := by
  intro h
  unfold create_view_collection at h
  simp only [bind, Except.bind, Meta.construct, hc] at h
  cases hcm : parse c with
  | error e => simp only [hcm] at h; cases h
  | ok cm =>
    simp only [hcm] at h
    obtain ⟨h1, h2⟩ := hr cm hcm
    obtain ⟨ce, cst⟩ := cm
    cases ce <;> simp only at h
    case Point => exact factory_multipoint_defined schema mm _ h
    case Linestring =>
      obtain ⟨g, hg⟩ := h1 rfl
      exact factory_multilinestring_defined parse schema c g mm _ hc hg h
    case Polygon =>
      obtain ⟨g, hg, hk⟩ := h2 rfl
      exact factory_multipolygon_defined parse schema c g mm _ hc hg hk h
    all_goals cases h

/-- When every pointer the factory dereferences exists, a failure is never the
undefined one. -/
theorem factory_defined (parse : Option ArrowSchema → Except String Meta)
    (schema : Option ArrowSchema) (hr : ReadsExist parse schema) :
    create_view parse schema ≠ .error .undefined := by
  intro h
  unfold create_view at h
  simp only [bind, Except.bind, Meta.construct] at h
  cases hp : parse schema with
  | error e => simp only [hp] at h; cases h
  | ok m =>
    simp only [hp] at h
    obtain ⟨h1, h2, h3⟩ := hr m hp
    obtain ⟨ext, st⟩ := m
    cases ext <;> simp only at h
    case Point => exact absurd (factory_point_error schema _ _ h).1 (by simp)
    case Linestring =>
      obtain ⟨c, hc⟩ := h1 rfl
      exact factory_linestring_defined parse schema c _ hc h
    case Polygon =>
      obtain ⟨c, hc, hg⟩ := h2 rfl
      exact factory_polygon_defined parse schema c _ hc hg h
    case MultiPoint =>
      obtain ⟨c, hc, hg⟩ := h3 rfl
      exact factory_collection_defined parse schema c _ hc hg h
    case MultiLinestring =>
      obtain ⟨c, hc, hg⟩ := h3 rfl
      exact factory_collection_defined parse schema c _ hc hg h
    case MultiPolygon =>
      obtain ⟨c, hc, hg⟩ := h3 rfl
      exact factory_collection_defined parse schema c _ hc hg h
    case GeometryCollection =>
      obtain ⟨c, hc, hg⟩ := h3 rfl
      exact factory_collection_defined parse schema c _ hc hg h
    case WKB => exact absurd (factory_wkb_error schema _ _ h).1 (by simp)
    case WKT => exact absurd (factory_wkt_error schema _ _ h).1 (by simp)
    all_goals cases h

end geoarrow

namespace geoarrow
open arrow.hpp.builder

/-- C17: for every schema tree and every behaviour of the `Meta` constructor,
`create_view` returns the point view for a node read as (point, fixed-size list);
the linestring view for (linestring, list) with a fixed-size-list child; the
polygon view for (polygon, list) with a list child and a fixed-size-list
grandchild; and for a node read as multipoint, multilinestring, multipolygon or
geometry collection with list storage, the collection-of-point view when the
child is (point, fixed-size list), the collection-of-linestring view when the
child is (linestring, list) over a fixed-size list, and the
collection-of-polygon view when the child is (polygon, list) over a list over a
fixed-size list. -/
theorem factory_dispatch_geometric (parse : Option ArrowSchema → Except String Meta)
    (schema : Option ArrowSchema) :
    (parse schema = .ok ⟨.Point, .FixedSizeList⟩ →
      create_view parse schema = .ok (.PointArrayView schema)) ∧
    (∀ c ce, parse schema = .ok ⟨.Linestring, .List⟩ → children0 schema = .ok c →
      parse c = .ok ⟨ce, .FixedSizeList⟩ →
      create_view parse schema = .ok (.LinestringArrayView schema)) ∧
    (∀ c ce g ge, parse schema = .ok ⟨.Polygon, .List⟩ → children0 schema = .ok c →
      parse c = .ok ⟨ce, .List⟩ → children0 c = .ok g → parse g = .ok ⟨ge, .FixedSizeList⟩ →
      create_view parse schema = .ok (.PolygonArrayView schema)) ∧
    (∀ tag c,
      tag = .MultiPoint ∨ tag = .MultiLinestring ∨ tag = .MultiPolygon ∨
        tag = .GeometryCollection →
      parse schema = .ok ⟨tag, .List⟩ → children0 schema = .ok c →
      (parse c = .ok ⟨.Point, .FixedSizeList⟩ →
        create_view parse schema = .ok (.CollectionArrayView_PointArrayView schema)) ∧
      (∀ g ge, parse c = .ok ⟨.Linestring, .List⟩ → children0 c = .ok g →
        parse g = .ok ⟨ge, .FixedSizeList⟩ →
        create_view parse schema = .ok (.CollectionArrayView_LinestringArrayView schema)) ∧
      (∀ g ge k ke, parse c = .ok ⟨.Polygon, .List⟩ → children0 c = .ok g →
        parse g = .ok ⟨ge, .List⟩ → children0 g = .ok k →
        parse k = .ok ⟨ke, .FixedSizeList⟩ →
        create_view parse schema = .ok (.CollectionArrayView_PolygonArrayView schema))) := by
  refine ⟨factory_point parse schema, ?_, ?_, ?_⟩
  · intro c ce h hc hcm
    exact factory_linestring parse schema c ce h hc hcm
  · intro c ce g ge h hc hcm hg hgm
    exact factory_polygon parse schema c g ce ge h hc hcm hg hgm
  · intro tag c ht h hc
    have ht2 : is_collection_tag tag = true := by
      rcases ht with ht | ht | ht | ht <;> rw [ht] <;> rfl
    refine ⟨?_, ?_, ?_⟩
    · intro hcm
      exact factory_collection_point parse schema c tag ht2 h hc hcm
    · intro g ge hcm hg hgm
      exact factory_collection_linestring parse schema c g tag ge ht2 h hc hcm hg hgm
    · intro g ge k ke hcm hg hgm hk hkm
      exact factory_collection_polygon parse schema c g k tag ge ke ht2 h hc hcm hg hgm hk hkm

/-- C17 at concrete trees: a point, a linestring and a polygon node are given
their views, and a multipolygon node over a polygon node is given the
collection-of-polygon view. -/
theorem factory_dispatch_geometric_witness :
    create_view sample_Meta sample_point = .ok (.PointArrayView sample_point) ∧
    create_view sample_Meta sample_linestring = .ok (.LinestringArrayView sample_linestring) ∧
    create_view sample_Meta sample_polygon = .ok (.PolygonArrayView sample_polygon) ∧
    create_view sample_Meta (sample_node (some "geoarrow.multipolygon") "+l" [sample_polygon]) =
      .ok (.CollectionArrayView_PolygonArrayView
        (sample_node (some "geoarrow.multipolygon") "+l" [sample_polygon])) :=
  ⟨(factory_dispatch_geometric sample_Meta sample_point).1 rfl,
   (factory_dispatch_geometric sample_Meta sample_linestring).2.1 sample_point .Point
     rfl rfl rfl,
   (factory_dispatch_geometric sample_Meta sample_polygon).2.2.1
     (sample_node none "+l" [sample_point]) .ExtensionNone sample_point .Point
     rfl rfl rfl rfl rfl,
   ((factory_dispatch_geometric sample_Meta
      (sample_node (some "geoarrow.multipolygon") "+l" [sample_polygon])).2.2.2
      .MultiPolygon sample_polygon (Or.inr (Or.inr (Or.inl rfl))) rfl rfl).2.2
      (sample_node none "+l" [sample_point]) .ExtensionNone sample_point .Point
      rfl rfl rfl rfl rfl⟩

/-- C18: on a node read as well-known binary, `create_view` returns
`WKBArrayView` for binary, `LargeWKBArrayView` for large-binary and
`FixedWidthWKBArrayView` for fixed-width-binary storage, three distinct kinds of
view; on a node read as well-known text it returns `WKTArrayView` for binary or
string storage and `LargeWKTArrayView` for large-binary or large-string storage;
every other storage kind under either tag raises a validation error. -/
theorem factory_dispatch_wkb_wkt (parse : Option ArrowSchema → Except String Meta)
    (schema : Option ArrowSchema) :
    (parse schema = .ok ⟨.WKB, .Binary⟩ →
      create_view parse schema = .ok (.WKBArrayView schema)) ∧
    (parse schema = .ok ⟨.WKB, .LargeBinary⟩ →
      create_view parse schema = .ok (.LargeWKBArrayView schema)) ∧
    (parse schema = .ok ⟨.WKB, .FixedWidthBinary⟩ →
      create_view parse schema = .ok (.FixedWidthWKBArrayView schema)) ∧
    (∀ s1 s2 s3, ArrayView.WKBArrayView s1 ≠ ArrayView.LargeWKBArrayView s2 ∧
      ArrayView.WKBArrayView s1 ≠ ArrayView.FixedWidthWKBArrayView s3 ∧
      ArrayView.LargeWKBArrayView s2 ≠ ArrayView.FixedWidthWKBArrayView s3) ∧
    (∀ st, parse schema = .ok ⟨.WKB, st⟩ →
      st ≠ .Binary → st ≠ .LargeBinary → st ≠ .FixedWidthBinary →
      create_view parse schema =
        .error (.ValidationError "Unsupported storage type for extension geoarrow.wkb")) ∧
    (parse schema = .ok ⟨.WKT, .Binary⟩ →
      create_view parse schema = .ok (.WKTArrayView schema)) ∧
    (parse schema = .ok ⟨.WKT, .String⟩ →
      create_view parse schema = .ok (.WKTArrayView schema)) ∧
    (parse schema = .ok ⟨.WKT, .LargeBinary⟩ →
      create_view parse schema = .ok (.LargeWKTArrayView schema)) ∧
    (parse schema = .ok ⟨.WKT, .LargeString⟩ →
      create_view parse schema = .ok (.LargeWKTArrayView schema)) ∧
    (∀ s1 s2, ArrayView.WKTArrayView s1 ≠ ArrayView.LargeWKTArrayView s2) ∧
    (∀ st, parse schema = .ok ⟨.WKT, st⟩ →
      st ≠ .Binary → st ≠ .String → st ≠ .LargeBinary → st ≠ .LargeString →
      create_view parse schema =
        .error (.ValidationError "Unsupported storage type for extension geoarrow.wkt")) := by
  refine ⟨?_, ?_, ?_, ?_, ?_, ?_, ?_, ?_, ?_, ?_, ?_⟩
  · intro h; rw [factory_wkb parse schema _ h]; rfl
  · intro h; rw [factory_wkb parse schema _ h]; rfl
  · intro h; rw [factory_wkb parse schema _ h]; rfl
  · intro s1 s2 s3
    exact ⟨fun h => (by cases h), fun h => (by cases h), fun h => (by cases h)⟩
  · intro st h h1 h2 h3
    rw [factory_wkb parse schema _ h]
    cases st <;> first | rfl | exact absurd rfl h1 | exact absurd rfl h2 | exact absurd rfl h3
  · intro h; rw [factory_wkt parse schema _ h]; rfl
  · intro h; rw [factory_wkt parse schema _ h]; rfl
  · intro h; rw [factory_wkt parse schema _ h]; rfl
  · intro h; rw [factory_wkt parse schema _ h]; rfl
  · intro s1 s2 h; cases h
  · intro st h h1 h2 h3 h4
    rw [factory_wkt parse schema _ h]
    cases st <;> first | rfl | exact absurd rfl h1 | exact absurd rfl h2 |
      exact absurd rfl h3 | exact absurd rfl h4

/-- C18 at concrete nodes: a well-known-binary node with large-binary storage is
given the large WKB view, a well-known-text node with string storage the WKT
view, and a well-known-binary node with string storage is rejected. -/
theorem factory_dispatch_wkb_wkt_witness :
    create_view sample_Meta (sample_node (some "geoarrow.wkb") "Z" []) =
      .ok (.LargeWKBArrayView (sample_node (some "geoarrow.wkb") "Z" [])) ∧
    create_view sample_Meta (sample_node (some "geoarrow.wkt") "u" []) =
      .ok (.WKTArrayView (sample_node (some "geoarrow.wkt") "u" [])) ∧
    create_view sample_Meta (sample_node (some "geoarrow.wkb") "u" []) =
      .error (.ValidationError "Unsupported storage type for extension geoarrow.wkb") :=
  ⟨(factory_dispatch_wkb_wkt sample_Meta (sample_node (some "geoarrow.wkb") "Z" [])).2.1 rfl,
   (factory_dispatch_wkb_wkt sample_Meta
      (sample_node (some "geoarrow.wkt") "u" [])).2.2.2.2.2.2.1 rfl,
   (factory_dispatch_wkb_wkt sample_Meta
      (sample_node (some "geoarrow.wkb") "u" [])).2.2.2.2.1 .String rfl
      (by decide) (by decide) (by decide)⟩

end geoarrow

namespace geoarrow
open arrow.hpp.builder

theorem factory_unsupported_extension (parse : Option ArrowSchema → Except String Meta)
    (schema : Option ArrowSchema) (st : util.StorageType)
    (h : parse schema = .ok ⟨.ExtensionNone, st⟩ ∨ parse schema = .ok ⟨.ExtensionOther, st⟩) :
    create_view parse schema = .error (.ValidationError "Unsupported extension type") := by
  rcases h with h | h <;> simp [create_view, Meta.construct, h, bind, Except.bind]

theorem factory_collection_tag (tag : util.Extension)
    (ht : tag = .MultiPoint ∨ tag = .MultiLinestring ∨ tag = .MultiPolygon ∨
      tag = .GeometryCollection) : is_collection_tag tag = true := by
  rcases ht with ht | ht | ht | ht <;> rw [ht] <;> rfl

theorem factory_unsupported_child (parse : Option ArrowSchema → Except String Meta)
    (schema c : Option ArrowSchema) (tag ce : util.Extension) (st cst : util.StorageType)
    (ht : is_collection_tag tag = true) (h : parse schema = .ok ⟨tag, st⟩)
    (hc : children0 schema = .ok c) (hcm : parse c = .ok ⟨ce, cst⟩)
    (h1 : ce ≠ .Point) (h2 : ce ≠ .Linestring) (h3 : ce ≠ .Polygon) :
    create_view parse schema = .error (.ValidationError
      "Unsupported extension type for child of geoarrow.geometrycollection") := by
  rw [factory_collection_eq parse schema tag _ ht h]
  simp only [create_view_collection, Meta.construct, bind, Except.bind, hc, hcm]

theorem factory_linestring_child (parse : Option ArrowSchema → Except String Meta)
    (schema c : Option ArrowSchema) (ce : util.Extension) (cst : util.StorageType)
    (h : parse schema = .ok ⟨.Linestring, .List⟩) (hc : children0 schema = .ok c)
    (hcm : parse c = .ok ⟨ce, cst⟩) (hn : cst ≠ .FixedSizeList) :
    create_view parse schema =
      .error (.ValidationError "Unsupported storage type for extension geoarrow.point") := by
  simp only [create_view, create_view_linestring, Meta.construct, bind, Except.bind, h, hc, hcm]

theorem factory_polygon_grandchild (parse : Option ArrowSchema → Except String Meta)
    (schema c g : Option ArrowSchema) (ce ge : util.Extension) (gst : util.StorageType)
    (h : parse schema = .ok ⟨.Polygon, .List⟩) (hc : children0 schema = .ok c)
    (hcm : parse c = .ok ⟨ce, .List⟩) (hg : children0 c = .ok g)
    (hgm : parse g = .ok ⟨ge, gst⟩) (hn : gst ≠ .FixedSizeList) :
    create_view parse schema =
      .error (.ValidationError "Unsupported storage type for extension geoarrow.point") := by
  simp only [create_view, create_view_polygon, Meta.construct, bind, Except.bind, h, hc, hcm,
    hg, hgm]

theorem factory_collection_storage (parse : Option ArrowSchema → Except String Meta)
    (schema c : Option ArrowSchema) (tag : util.Extension) (st cst : util.StorageType)
    (ht : is_collection_tag tag = true) (h : parse schema = .ok ⟨tag, st⟩)
    (hn : st ≠ .List) (hc : children0 schema = .ok c) (hcm : parse c = .ok ⟨.Point, cst⟩) :
    create_view parse schema = .error (.ValidationError
      "Unsupported storage type for extension geoarrow.geometrycollection") := by
  rw [factory_collection_eq parse schema tag _ ht h]
  simp only [create_view_collection, create_view_multipoint, Meta.construct, bind, Except.bind,
    hc, hcm]

theorem factory_point_storage (parse : Option ArrowSchema → Except String Meta)
    (schema : Option ArrowSchema) (st : util.StorageType)
    (h : parse schema = .ok ⟨.Point, st⟩) (hn : st ≠ .FixedSizeList) :
    create_view parse schema =
      .error (.ValidationError "Unsupported storage type for extension geoarrow.point") := by
  simp only [create_view, create_view_point, Meta.construct, bind, Except.bind, h]

/-- C19: `create_view` returns a view exactly for the supported shapes, each with
its own view; for every other tree it returns no view and fails, and the failure
is a validation error whenever the `children[0]` pointers the call dereferences
exist (a missing one is undefined behaviour in the source).  In particular the
none/unsupported extension tag, a collection whose child is not tagged point,
linestring or polygon, a linestring whose child is not a fixed-size list and a
polygon whose grandchild is not a fixed-size list raise a validation error. -/
theorem factory_rejects_unsupported (parse : Option ArrowSchema → Except String Meta)
    (schema : Option ArrowSchema) :
    (∀ v, create_view parse schema = .ok v ↔ Supported parse schema v) ∧
    ((∀ v, ¬ Supported parse schema v) →
      ∃ e, create_view parse schema = .error e ∧ Accounted parse schema e) ∧
    (ReadsExist parse schema → (∀ v, ¬ Supported parse schema v) →
      ∃ what, create_view parse schema = .error (.ValidationError what)) ∧
    (∀ st, parse schema = .ok ⟨.ExtensionNone, st⟩ ∨ parse schema = .ok ⟨.ExtensionOther, st⟩ →
      create_view parse schema = .error (.ValidationError "Unsupported extension type")) ∧
    (∀ tag st c ce cst,
      tag = .MultiPoint ∨ tag = .MultiLinestring ∨ tag = .MultiPolygon ∨
        tag = .GeometryCollection →
      parse schema = .ok ⟨tag, st⟩ → children0 schema = .ok c → parse c = .ok ⟨ce, cst⟩ →
      ce ≠ .Point → ce ≠ .Linestring → ce ≠ .Polygon →
      create_view parse schema = .error (.ValidationError
        "Unsupported extension type for child of geoarrow.geometrycollection")) ∧
    (∀ c ce cst, parse schema = .ok ⟨.Linestring, .List⟩ → children0 schema = .ok c →
      parse c = .ok ⟨ce, cst⟩ → cst ≠ .FixedSizeList →
      create_view parse schema =
        .error (.ValidationError "Unsupported storage type for extension geoarrow.point")) ∧
    (∀ c ce g ge gst, parse schema = .ok ⟨.Polygon, .List⟩ → children0 schema = .ok c →
      parse c = .ok ⟨ce, .List⟩ → children0 c = .ok g → parse g = .ok ⟨ge, gst⟩ →
      gst ≠ .FixedSizeList →
      create_view parse schema =
        .error (.ValidationError "Unsupported storage type for extension geoarrow.point")) := by
  have hfail : (∀ v, ¬ Supported parse schema v) →
      ∃ e, create_view parse schema = .error e ∧ Accounted parse schema e := by
    intro hn
    cases hcv : create_view parse schema with
    | ok v => exact absurd (factory_sound parse schema v hcv) (hn v)
    | error e => exact ⟨e, rfl, factory_error parse schema e hcv⟩
  refine ⟨?_, hfail, ?_, ?_, ?_, ?_, ?_⟩
  · intro v
    exact ⟨factory_sound parse schema v, factory_complete parse schema v⟩
  · intro hr hn
    obtain ⟨e, he, _⟩ := hfail hn
    cases e with
    | ValidationError what => exact ⟨what, he⟩
    | undefined => exact absurd he (factory_defined parse schema hr)
  · intro st h
    exact factory_unsupported_extension parse schema st h
  · intro tag st c ce cst ht h hc hcm h1 h2 h3
    exact factory_unsupported_child parse schema c tag ce st cst (factory_collection_tag tag ht)
      h hc hcm h1 h2 h3
  · intro c ce cst h hc hcm hn
    exact factory_linestring_child parse schema c ce cst h hc hcm hn
  · intro c ce g ge gst h hc hcm hg hgm hn
    exact factory_polygon_grandchild parse schema c g ce ge gst h hc hcm hg hgm hn

/-- C19 at concrete trees: a node without an extension tag, a geometry
collection over a well-known-binary child, and a linestring over a binary child
are rejected with a validation error. -/
theorem factory_rejects_unsupported_witness :
    create_view sample_Meta (sample_node none "+l" [sample_point]) =
      .error (.ValidationError "Unsupported extension type") ∧
    create_view sample_Meta (sample_node (some "geoarrow.geometrycollection") "+l"
        [sample_node (some "geoarrow.wkb") "z" []]) =
      .error (.ValidationError
        "Unsupported extension type for child of geoarrow.geometrycollection") ∧
    create_view sample_Meta (sample_node (some "geoarrow.linestring") "+l"
        [sample_node (some "geoarrow.point") "z" []]) =
      .error (.ValidationError "Unsupported storage type for extension geoarrow.point") :=
  ⟨(factory_rejects_unsupported sample_Meta (sample_node none "+l" [sample_point])).2.2.2.1
      .List (Or.inl rfl),
   (factory_rejects_unsupported sample_Meta (sample_node (some "geoarrow.geometrycollection")
      "+l" [sample_node (some "geoarrow.wkb") "z" []])).2.2.2.2.1
      .GeometryCollection .List (sample_node (some "geoarrow.wkb") "z" []) .WKB .Binary
      (Or.inr (Or.inr (Or.inr rfl))) rfl rfl rfl (by decide) (by decide) (by decide),
   (factory_rejects_unsupported sample_Meta (sample_node (some "geoarrow.linestring") "+l"
      [sample_node (some "geoarrow.point") "z" []])).2.2.2.2.2.1
      (sample_node (some "geoarrow.point") "z" []) .Point .Binary rfl rfl rfl (by decide)⟩

/-- C20 (amended): a validation error raised by `create_view` carries either one
of the eight fixed texts of `factory.hpp` or the text of a `Meta` constructor
that rejected a node.  The fixed texts name the extension the factory expected at
the level of the mismatch and never the storage kind found: a point node with
any storage other than a fixed-size list gives the text for `geoarrow.point`; a
multipoint, multilinestring, multipolygon or geometry-collection node with any
storage other than a list (over a point child) gives the text for
`geoarrow.geometrycollection`; an unsupported top-level extension gives
`Unsupported extension type`, which names no extension. -/
theorem factory_messages_are_fixed (parse : Option ArrowSchema → Except String Meta)
    (schema : Option ArrowSchema) :
    (∀ what, create_view parse schema = .error (.ValidationError what) →
      what ∈
        ["Unsupported storage type for extension geoarrow.point",
         "Unsupported storage type for extension geoarrow.linestring",
         "Unsupported storage type for extension geoarrow.polygon",
         "Unsupported storage type for extension geoarrow.geometrycollection",
         "Unsupported extension type for child of geoarrow.geometrycollection",
         "Unsupported storage type for extension geoarrow.wkb",
         "Unsupported storage type for extension geoarrow.wkt",
         "Unsupported extension type"] ∨
      parse schema = .error what ∨
      (∃ c, children0 schema = .ok c ∧ (parse c = .error what ∨
        ∃ g, children0 c = .ok g ∧ (parse g = .error what ∨
          ∃ k, children0 g = .ok k ∧ parse k = .error what)))) ∧
    (∀ st, parse schema = .ok ⟨.Point, st⟩ → st ≠ .FixedSizeList →
      create_view parse schema =
        .error (.ValidationError "Unsupported storage type for extension geoarrow.point")) ∧
    (∀ tag st c cst,
      tag = .MultiPoint ∨ tag = .MultiLinestring ∨ tag = .MultiPolygon ∨
        tag = .GeometryCollection →
      parse schema = .ok ⟨tag, st⟩ → st ≠ .List → children0 schema = .ok c →
      parse c = .ok ⟨.Point, cst⟩ →
      create_view parse schema = .error (.ValidationError
        "Unsupported storage type for extension geoarrow.geometrycollection")) ∧
    (∀ st, parse schema = .ok ⟨.ExtensionNone, st⟩ ∨ parse schema = .ok ⟨.ExtensionOther, st⟩ →
      create_view parse schema = .error (.ValidationError "Unsupported extension type")) := by
  refine ⟨?_, ?_, ?_, ?_⟩
  · intro what h
    exact factory_error parse schema _ h
  · intro st h hn
    exact factory_point_storage parse schema st h hn
  · intro tag st c cst ht h hn hc hcm
    exact factory_collection_storage parse schema c tag st cst (factory_collection_tag tag ht)
      h hn hc hcm
  · intro st h
    exact factory_unsupported_extension parse schema st h

/-- C20 (amended) at concrete trees: a multipoint node with binary storage is
reported with the text for `geoarrow.geometrycollection`. -/
theorem factory_messages_are_fixed_witness :
    create_view sample_Meta (sample_node (some "geoarrow.multipoint") "z" [sample_point]) =
      .error (.ValidationError
        "Unsupported storage type for extension geoarrow.geometrycollection") :=
  (factory_messages_are_fixed sample_Meta
    (sample_node (some "geoarrow.multipoint") "z" [sample_point])).2.2.1
    .MultiPoint .Binary sample_point .FixedSizeList (Or.inl rfl) rfl (by decide) rfl rfl

/-- C20 as stated fails: a multipoint node with binary storage and a
multilinestring node with large-string storage, two offending nodes that differ
in extension tag and in storage kind, are rejected with the same text, which
names `geoarrow.geometrycollection` and no storage kind; and a node tagged with
an unknown extension and a node without a tag are both rejected with
`Unsupported extension type`, which names neither. -/
theorem factory_message_counterexample :
    sample_Meta (sample_node (some "geoarrow.multipoint") "z" [sample_point]) =
      .ok ⟨.MultiPoint, .Binary⟩ ∧
    sample_Meta (sample_node (some "geoarrow.multilinestring") "U" [sample_linestring]) =
      .ok ⟨.MultiLinestring, .LargeString⟩ ∧
    create_view sample_Meta (sample_node (some "geoarrow.multipoint") "z" [sample_point]) =
      .error (.ValidationError
        "Unsupported storage type for extension geoarrow.geometrycollection") ∧
    create_view sample_Meta
        (sample_node (some "geoarrow.multilinestring") "U" [sample_linestring]) =
      .error (.ValidationError
        "Unsupported storage type for extension geoarrow.geometrycollection") ∧
    sample_Meta (sample_node (some "geoarrow.box") "+w:4" []) =
      .ok ⟨.ExtensionOther, .StorageTypeOther⟩ ∧
    sample_Meta (sample_node none "u" []) = .ok ⟨.ExtensionNone, .String⟩ ∧
    create_view sample_Meta (sample_node (some "geoarrow.box") "+w:4" []) =
      .error (.ValidationError "Unsupported extension type") ∧
    create_view sample_Meta (sample_node none "u" []) =
      .error (.ValidationError "Unsupported extension type") :=
  ⟨rfl, rfl, rfl, rfl, rfl, rfl, rfl, rfl⟩

end geoarrow

namespace arrow.hpp.builder

theorem struct_float64_step_size (oom : Int → Bool) (b b1 : Float64ArrayBuilder)
    (op : Float64ArrayBuilder.Op) (h : Float64ArrayBuilder.step oom b op = .ok b1) :
    b1.size_ = b.size_ := by
  cases op <;>
    simp only [Float64ArrayBuilder.step, Float64ArrayBuilder.write_element,
      Float64ArrayBuilder.write_buffer, Float64ArrayBuilder.reserve] at h <;>
    split at h <;> first | (cases h; done) | (injection h with h; rw [← h])

theorem struct_float64_run_size (oom : Int → Bool) (ops : List Float64ArrayBuilder.Op)
    (b b1 : Float64ArrayBuilder) (h : Float64ArrayBuilder.run oom b ops = .ok b1) :
    b1.size_ = b.size_ := by
  induction ops generalizing b with
  | nil =>
    simp only [Float64ArrayBuilder.run] at h
    injection h with h
    rw [h]
  | cons op ops ih =>
    simp only [Float64ArrayBuilder.run] at h
    cases hs : Float64ArrayBuilder.step oom b op with
    | error e => rw [hs] at h; cases h
    | ok b2 =>
      rw [hs] at h
      rw [ih b2 h, struct_float64_step_size oom b b2 op hs]

theorem struct_float64_new_size (oom : Int → Bool) (capacity : Int) (b : Float64ArrayBuilder)
    (h : Float64ArrayBuilder.new oom capacity = .ok b) : b.size_ = 0 := by
  unfold Float64ArrayBuilder.new at h
  split at h
  · cases h
  · split at h
    · cases h
    · injection h with h
      rw [← h]

theorem struct_add_child_spec (s : StructArrayBuilder) (child : ArrayBuilder) (name : String) :
    ((s.add_child child name).2 = none ↔ (s.num_children = 0 ∨ child.size = s.size_)) ∧
    ((s.add_child child name).2 ≠ none → (s.add_child child name).1 = s) ∧
    ((s.add_child child name).2 = none →
      (s.add_child child name).1 =
        { size_ := child.size, validity_buffer_builder_ := s.validity_buffer_builder_,
          child_names_ := s.child_names_ ++ [name], children_ := s.children_ ++ [child] }) := by
  have hn : 0 ≤ s.num_children := by
    unfold StructArrayBuilder.num_children
    exact Int.ofNat_nonneg _
  by_cases hc : s.num_children > 0 ∧ child.size ≠ s.size_
  · have h1 : s.add_child child name =
        (s, some (.exception "Attempt to resize a StructArrayBuilder from %lld to %lld")) := by
      simp only [StructArrayBuilder.add_child, StructArrayBuilder.set_size, if_pos hc]
    rw [h1]
    refine ⟨⟨fun h => (by cases h), fun h => ?_⟩, fun _ => rfl, fun h => (by cases h)⟩
    rcases h with h | h
    · omega
    · exact absurd h hc.2
  · have h1 : s.add_child child name =
        ({ size_ := child.size, validity_buffer_builder_ := s.validity_buffer_builder_,
           child_names_ := s.child_names_ ++ [name], children_ := s.children_ ++ [child] },
         none) := by
      simp only [StructArrayBuilder.add_child, StructArrayBuilder.set_size, if_neg hc]
    rw [h1]
    refine ⟨⟨fun _ => ?_, fun _ => rfl⟩, fun h => absurd rfl h, fun _ => rfl⟩
    by_cases h0 : s.num_children = 0
    · exact Or.inl h0
    · right
      by_contra h2
      exact hc ⟨by omega, h2⟩

end arrow.hpp.builder
namespace arrow.hpp.builder

theorem struct_release_children_frame (oom : Int → Bool) (cs : List ArrayBuilder) :
    ∀ (n i : Nat) (f f1 : CArrayFinalizer) (cs1 : List ArrayBuilder),
      ArrayBuilder.release_children oom cs n i f = .ok (f1, cs1) →
      f1.array_data.length = f.array_data.length ∧
      f1.array_data.null_count = f.array_data.null_count ∧
      f1.array_data.n_buffers = f.array_data.n_buffers ∧
      f1.array_data.n_children = f.array_data.n_children ∧
      f1.array_data.release = f.array_data.release ∧
      f1.schema.format = f.schema.format ∧
      f1.schema.n_children = f.schema.n_children ∧
      f1.schema.release = f.schema.release := by
  induction cs with
  | nil =>
    intro n i f f1 cs1 h
    rw [ArrayBuilder.release_children] at h
    split at h
    · injection h with h
      injection h with h1 h2
      subst h1
      exact ⟨rfl, rfl, rfl, rfl, rfl, rfl, rfl, rfl⟩
    · cases h
  | cons c cs ih =>
    intro n i f f1 cs1 h
    rw [ArrayBuilder.release_children] at h
    split at h
    · injection h with h
      injection h with h1 h2
      subst h1
      exact ⟨rfl, rfl, rfl, rfl, rfl, rfl, rfl, rfl⟩
    · split at h
      · cases h
      · split at h
        · cases h
        · split at h
          · cases h
          · split at h
            · cases h
            · rename_i hrec
              injection h with h
              injection h with h1 h2
              subst h1
              have := ih _ _ _ _ _ hrec
              exact this

theorem struct_allocate_array_counts (oom : Int → Bool) (n_buffers n_children : Int)
    (a : ArrowArray) (h : allocate_array_data oom n_buffers n_children = .ok a) :
    a.n_buffers = n_buffers ∧ a.n_children = n_children := by
  unfold allocate_array_data at h
  simp only at h
  split at h
  · cases h
  · rename_i a1 h1
    have ha1 : a1.n_buffers = n_buffers ∧ a1.n_children = n_children := by
      split at h1
      · split at h1
        · cases h1
        · injection h1 with h1
          rw [← h1]
          exact ⟨rfl, rfl⟩
      · injection h1 with h1
        rw [← h1]
        exact ⟨rfl, rfl⟩
    split at h
    · split at h
      · cases h
      · split at h
        · cases h
        · injection h with h
          rw [← h]
          exact ha1
    · injection h with h
      rw [← h]
      exact ha1

theorem struct_allocate_schema_counts (oom : Int → Bool) (n_children : Int)
    (s : ArrowSchema) (h : allocate_schema oom n_children = .ok s) :
    s.n_children = n_children := by
  unfold allocate_schema at h
  simp only at h
  split at h
  · split at h
    · cases h
    · split at h
      · cases h
      · injection h with h
        rw [← h]
  · injection h with h
    rw [← h]

theorem struct_release_parent (oom : Int → Bool) (b b1 : StructArrayBuilder)
    (array_data : Option ArrowArray) (schema : Option ArrowSchema) (a : ArrowArray)
    (s : ArrowSchema) (h : b.release oom array_data schema = .ok (a, s, b1)) :
    a.length = b.size_ ∧ s.format = "+s" ∧ a.n_children = b.num_children ∧
    s.n_children = b.num_children ∧ a.n_buffers = 1 := by
  unfold StructArrayBuilder.release at h
  split at h
  · cases h
  · rename_i f0 hf0
    simp only at h
    split at h
    · cases h
    · rename_i f4 children1 hloop
      obtain ⟨hl, _, hnb, hnc, _, hfm, hsn, _⟩ :=
        struct_release_children_frame oom _ _ _ _ _ _ hloop
      split at h
      · cases h
      · rename_i a_out s_out f5 hrel
        injection h with h
        injection h with h1 h2
        injection h2 with h2 h3
        subst h1 h2
        unfold CArrayFinalizer.release at hrel
        split at hrel
        · cases hrel
        · cases hrel
        · split at hrel
          · cases hrel
          · split at hrel
            · cases hrel
            · injection hrel with hrel
              injection hrel with h1 h2
              injection h2 with h2 h3
              subst h1 h2
              rw [hl, hnb, hnc, hfm, hsn]
              unfold CArrayFinalizer.allocate at hf0
              split at hf0
              · cases hf0
              · rename_i a0 ha0
                split at hf0
                · cases hf0
                · rename_i s0 hs0
                  injection hf0 with hf0
                  subst hf0
                  obtain ⟨hb, hc⟩ := struct_allocate_array_counts oom _ _ a0 ha0
                  have hsc := struct_allocate_schema_counts oom _ s0 hs0
                  simp only [StructArrayBuilder.size, StructArrayBuilder.num_children]
                  exact ⟨trivial, trivial, hc, hsc, hb⟩

end arrow.hpp.builder

namespace arrow.hpp.builder

/-- C11 fails on the code: `add_child` compares `ArrayBuilder::size()`, the member
`size_`, and a `Float64ArrayBuilder` never changes `size_`, so its `size()` is 0
whatever it holds.  `add_child` throws exactly when the struct already has a
child and `child->size()` differs from `size_` (leaving the builder as it was).
Two `Float64ArrayBuilder` children that hold 1 and 2 values (their own
`release()` publishes `length` 1 and 2) are both accepted; and after a
`StringArrayBuilder` child with one element, a `Float64ArrayBuilder` child that
holds one value is rejected. -/
theorem struct_add_child_ignores_float64_counts :
    (∀ oom capacity ops b0 b, Float64ArrayBuilder.new oom capacity = .ok b0 →
      Float64ArrayBuilder.run oom b0 ops = .ok b → (ArrayBuilder.float64 b).size = 0) ∧
    (∀ (s : StructArrayBuilder) child name,
      ((s.add_child child name).2 = none ↔ (s.num_children = 0 ∨ child.size = s.size_)) ∧
      ((s.add_child child name).2 ≠ none → (s.add_child child name).1 = s)) ∧
    (∃ f0 f1 f2 s0,
      Float64ArrayBuilder.new (fun _ => false) 16 = .ok f0 ∧
      Float64ArrayBuilder.run (fun _ => false) f0 [.write_element 1.0] = .ok f1 ∧
      Float64ArrayBuilder.run (fun _ => false) f0 [.write_element 1.0, .write_element 2.0] =
        .ok f2 ∧
      published_lengths (f1.release (fun _ => false) (some ArrowArray.unreleased)
        (some ArrowSchema.unreleased)) = some (1, []) ∧
      published_lengths (f2.release (fun _ => false) (some ArrowArray.unreleased)
        (some ArrowSchema.unreleased)) = some (2, []) ∧
      StructArrayBuilder.new (fun _ => false) 0 = .ok s0 ∧
      (s0.add_children [(.float64 f1, "x"), (.float64 f2, "y")]).2 = none ∧
      (s0.add_children [(.float64 f1, "x"), (.float64 f2, "y")]).1.child_names_ = ["x", "y"] ∧
      (s0.add_children [(.float64 f1, "x"), (.float64 f2, "y")]).1.size_ = 0) ∧
    (∃ t0 t1 f0 f1 s0,
      StringArrayBuilder.new (fun _ => false) 16 16 = .ok t0 ∧
      StringArrayBuilder.run (fun _ => false) t0 [.write_buffer [97], .finish_element true] =
        .ok t1 ∧
      published_lengths (t1.release (fun _ => false) (some ArrowArray.unreleased)
        (some ArrowSchema.unreleased)) = some (1, []) ∧
      Float64ArrayBuilder.new (fun _ => false) 16 = .ok f0 ∧
      Float64ArrayBuilder.run (fun _ => false) f0 [.write_element 1.0] = .ok f1 ∧
      published_lengths (f1.release (fun _ => false) (some ArrowArray.unreleased)
        (some ArrowSchema.unreleased)) = some (1, []) ∧
      StructArrayBuilder.new (fun _ => false) 0 = .ok s0 ∧
      (s0.add_child (.string t1) "x").2 = none ∧
      (s0.add_child (.string t1) "x").1.size_ = 1 ∧
      ((s0.add_child (.string t1) "x").1.add_child (.float64 f1) "y").2 = some
        (.exception "Attempt to resize a StructArrayBuilder from %lld to %lld")) := by
  refine ⟨?_, ?_, ?_, ?_⟩
  · intro oom capacity ops b0 b h0 h
    show b.size_ = 0
    rw [struct_float64_run_size oom ops b0 b h, struct_float64_new_size oom capacity b0 h0]
  · intro s child name
    exact ⟨(struct_add_child_spec s child name).1, (struct_add_child_spec s child name).2.1⟩
  · exact ⟨_, _, _, _, rfl, rfl, rfl, rfl, rfl, rfl, rfl, rfl, rfl⟩
  · exact ⟨_, _, _, _, _, rfl, rfl, rfl, rfl, rfl, rfl, rfl, rfl, rfl, rfl⟩

/-- C12 fails on the code: the parent node that `StructArrayBuilder::release`
publishes has format `"+s"` and as many children as were added, but its `length`
is the member `size_`, which is 0 when the children are `Float64ArrayBuilder`s.
Two `Float64ArrayBuilder` children added with two values each are published, in
addition order, as child arrays of `length` 2 under a parent of `length` 0. -/
theorem struct_release_length_is_size_member :
    (∀ oom (b b1 : StructArrayBuilder) array_data schema a s,
      b.release oom array_data schema = .ok (a, s, b1) →
      a.length = b.size_ ∧ s.format = "+s" ∧ a.n_children = b.num_children ∧
      s.n_children = b.num_children) ∧
    (∃ f0 f1 f2 s0,
      Float64ArrayBuilder.new (fun _ => false) 16 = .ok f0 ∧
      Float64ArrayBuilder.run (fun _ => false) f0 [.write_element 1.0, .write_element 2.0] =
        .ok f1 ∧
      Float64ArrayBuilder.run (fun _ => false) f0 [.write_element 3.0, .write_element 4.0] =
        .ok f2 ∧
      StructArrayBuilder.new (fun _ => false) 0 = .ok s0 ∧
      (s0.add_children [(.float64 f1, "x"), (.float64 f2, "y")]).2 = none ∧
      published_lengths
        ((s0.add_children [(.float64 f1, "x"), (.float64 f2, "y")]).1.release (fun _ => false)
          (some ArrowArray.unreleased) (some ArrowSchema.unreleased)) = some (0, [2, 2]) ∧
      ∃ a s b1 a1 a2 p1 p2,
        (s0.add_children [(.float64 f1, "x"), (.float64 f2, "y")]).1.release (fun _ => false)
          (some ArrowArray.unreleased) (some ArrowSchema.unreleased) = .ok (a, s, b1) ∧
        a.length = 0 ∧ s.format = "+s" ∧ a.children = some [some a1, some a2] ∧
        a1.length = 2 ∧ a2.length = 2 ∧
        a1.buffers = some [none, p1] ∧ Buffer.float64_values p1 2 = some [1.0, 2.0] ∧
        a2.buffers = some [none, p2] ∧ Buffer.float64_values p2 2 = some [3.0, 4.0]) := by
  refine ⟨?_, ?_⟩
  · intro oom b b1 array_data schema a s h
    obtain ⟨h1, h2, h3, h4, _⟩ := struct_release_parent oom b b1 array_data schema a s h
    exact ⟨h1, h2, h3, h4⟩
  · exact ⟨_, _, _, _, rfl, rfl, rfl, rfl, rfl, rfl,
      _, _, _, _, _, _, _, rfl, rfl, rfl, rfl, rfl, rfl, rfl, rfl, rfl, rfl⟩

end arrow.hpp.builder

namespace arrow.hpp.builder.tracked

theorem heap_split_of_valid (h : Heap) (hv : h.Valid) (att : List Addr) (hn : att.Nodup)
    (hl : ∀ p ∈ att, h.live p = true) :
    h.Split (fun a => h.live a && !decide (a ∈ att)) att := by
  refine ⟨hn, ?_, ?_, ?_⟩
  · intro p hp
    exact ⟨by simp [hp], hv p (hl p hp)⟩
  · intro a ha
    simp only [Bool.and_eq_true] at ha
    exact hv a ha.1
  · intro a
    by_cases ha : a ∈ att
    · simp [ha, hl a ha]
    · simp [ha]

theorem heap_split_perm (h : Heap) (base : Addr → Bool) (own own1 : List Addr)
    (hs : h.Split base own) (hp : own.Perm own1) : h.Split base own1 := by
  obtain ⟨h1, h2, h3, h4⟩ := hs
  refine ⟨hp.nodup_iff.mp h1, fun p hp1 => h2 p (hp.mem_iff.mpr hp1), h3, ?_⟩
  intro a
  rw [h4 a]
  by_cases ha : a ∈ own
  · simp [ha, hp.mem_iff.mp ha]
  · have : a ∉ own1 := fun h => ha (hp.mem_iff.mpr h)
    simp [ha, this]

theorem heap_split_nil (h : Heap) (base : Addr → Bool) (hs : h.Split base []) :
    ∀ a, h.live a = base a := by
  intro a
  rw [hs.2.2.2 a]
  simp

theorem heap_malloc_split (oom : Nat → Int → Bool) (h h1 : Heap) (base : Addr → Bool)
    (own : List Addr) (n : Int) (r : Option Addr) (hs : h.Split base own)
    (hm : malloc oom h n = (r, h1)) :
    (r = none ∧ h1.Split base own) ∨ (∃ p, r = some p ∧ h1.Split base (own ++ [p])) := by
  obtain ⟨h1n, h2, h3, h4⟩ := hs
  unfold malloc at hm
  split at hm
  · left
    injection hm with hr hh
    subst hr hh
    refine ⟨rfl, h1n, ?_, ?_, h4⟩
    · intro p hp
      exact ⟨(h2 p hp).1, Nat.lt_succ_of_lt (h2 p hp).2⟩
    · intro a ha
      exact Nat.lt_succ_of_lt (h3 a ha)
  · right
    injection hm with hr hh
    subst hr hh
    refine ⟨h.next, rfl, ?_, ?_, ?_, ?_⟩
    · rw [List.nodup_append]
      refine ⟨h1n, List.nodup_singleton _, ?_⟩
      intro a ha hb
      rw [List.mem_singleton] at hb
      subst hb
      exact absurd (h2 _ ha).2 (Nat.lt_irrefl _)
    · intro p hp
      rw [List.mem_append, List.mem_singleton] at hp
      rcases hp with hp | hp
      · exact ⟨(h2 p hp).1, Nat.lt_succ_of_lt (h2 p hp).2⟩
      · subst hp
        refine ⟨?_, Nat.lt_succ_self _⟩
        cases hb : base h.next with
        | false => rfl
        | true => exact absurd (h3 _ hb) (Nat.lt_irrefl _)
    · intro a ha
      exact Nat.lt_succ_of_lt (h3 a ha)
    · intro a
      simp only [h4 a, List.mem_append, List.mem_singleton]
      by_cases ha : a ∈ own <;> by_cases hb : a = h.next <;> simp [ha, hb]

theorem heap_free_split (h : Heap) (base : Addr → Bool) (p : Addr) (own : List Addr)
    (hs : h.Split base (p :: own)) : ∃ h1, free h p = .ok h1 ∧ h1.Split base own := by
  obtain ⟨h1n, h2, h3, h4⟩ := hs
  have hl : h.live p = true := by rw [h4 p]; simp
  refine ⟨{ h with live := fun a => !decide (a = p) && h.live a }, ?_, ?_, ?_, h3, ?_⟩
  · simp only [free, if_pos hl]
  · exact (List.nodup_cons.mp h1n).2
  · intro q hq
    exact h2 q (List.mem_cons_of_mem _ hq)
  · intro a
    show (!decide (a = p) && h.live a) = (decide (a ∈ own) || base a)
    rw [h4 a]
    by_cases hb : a = p
    · subst hb
      have hno : a ∉ own := (List.nodup_cons.mp h1n).1
      have hba : base a = false := (h2 a (List.mem_cons_self _ _)).1
      simp [hno, hba]
    · simp [hb]

theorem heap_free_nonnull_split (h : Heap) (base : Addr → Bool) (p : Option Addr)
    (own : List Addr) (hs : h.Split base (p.toList ++ own)) :
    ∃ h1, free_nonnull h p = .ok h1 ∧ h1.Split base own := by
  cases p with
  | none => exact ⟨h, rfl, hs⟩
  | some q => exact heap_free_split h base q own hs

theorem heap_free_buffers_split (slots : List (Option Addr)) :
    ∀ (h : Heap) (base : Addr → Bool) (own : List Addr),
      h.Split base (slots.reduceOption ++ own) →
      ∃ h1, free_buffers h slots slots.length = .ok h1 ∧ h1.Split base own := by
  induction slots with
  | nil =>
    intro h base own hs
    exact ⟨h, rfl, hs⟩
  | cons s slots ih =>
    intro h base own hs
    have hs1 : h.Split base (s.toList ++ (slots.reduceOption ++ own)) := by
      cases s with
      | none => simpa [List.reduceOption_cons_of_none] using hs
      | some q => simpa [List.reduceOption_cons_of_some] using hs
    obtain ⟨h1, hf, hs2⟩ := heap_free_nonnull_split h base s _ hs1
    obtain ⟨h2, hf2, hs3⟩ := ih h1 base own hs2
    refine ⟨h2, ?_, hs3⟩
    simp only [List.length_cons, free_buffers, hf, hf2]

end arrow.hpp.builder.tracked

namespace arrow.hpp.builder.tracked

theorem heap_release_array_children_split
    (foreign : Nat → ArrowArray → Heap → Except Fault Heap)
    (slots : List (Option (Addr × ArrowArray))) :
    ∀ (h : Heap) (base : Addr → Bool) (own : List Addr),
      (∀ q c, some (q, c) ∈ slots → c.release = none) →
      h.Split base (child_addrs slots ++ own) →
      ∃ h1, release_array_children foreign h slots slots.length = .ok h1 ∧
        h1.Split base own := by
  induction slots with
  | nil =>
    intro h base own _ hs
    refine ⟨h, ?_, hs⟩
    rw [release_array_children]
    rfl
  | cons s slots ih =>
    intro h base own hc hs
    have hc1 : ∀ q c, some (q, c) ∈ slots → c.release = none :=
      fun q c hm => hc q c (List.mem_cons_of_mem _ hm)
    cases s with
    | none =>
      have hs1 : h.Split base (child_addrs slots ++ own) := by
        simpa [child_addrs] using hs
      obtain ⟨h1, hr, hs2⟩ := ih h base own hc1 hs1
      refine ⟨h1, ?_, hs2⟩
      rw [release_array_children]
      simp only [List.length_cons, Nat.add_one_ne_zero, if_false, Nat.add_sub_cancel]
      exact hr
    | some qc =>
      obtain ⟨q, c⟩ := qc
      have hrel : c.release = none := hc q c (List.mem_cons_self _ _)
      have hs1 : h.Split base (q :: (child_addrs slots ++ own)) := by
        simpa [child_addrs] using hs
      obtain ⟨h1, hf, hs2⟩ := heap_free_split h base q _ hs1
      obtain ⟨h2, hr, hs3⟩ := ih h1 base own hc1 hs2
      refine ⟨h2, ?_, hs3⟩
      rw [release_array_children]
      simp only [List.length_cons, Nat.add_one_ne_zero, if_false, Nat.add_sub_cancel, hrel, hf]
      exact hr

theorem heap_release_schema_children_split
    (foreign : Nat → ArrowSchema → Heap → Except Fault Heap)
    (slots : List (Option (Addr × ArrowSchema))) :
    ∀ (h : Heap) (base : Addr → Bool) (own : List Addr),
      (∀ q c, some (q, c) ∈ slots → c.release = none) →
      h.Split base (child_addrs slots ++ own) →
      ∃ h1, release_schema_children foreign h slots slots.length = .ok h1 ∧
        h1.Split base own := by
  induction slots with
  | nil =>
    intro h base own _ hs
    refine ⟨h, ?_, hs⟩
    rw [release_schema_children]
    rfl
  | cons s slots ih =>
    intro h base own hc hs
    have hc1 : ∀ q c, some (q, c) ∈ slots → c.release = none :=
      fun q c hm => hc q c (List.mem_cons_of_mem _ hm)
    cases s with
    | none =>
      have hs1 : h.Split base (child_addrs slots ++ own) := by
        simpa [child_addrs] using hs
      obtain ⟨h1, hr, hs2⟩ := ih h base own hc1 hs1
      refine ⟨h1, ?_, hs2⟩
      rw [release_schema_children]
      simp only [List.length_cons, Nat.add_one_ne_zero, if_false, Nat.add_sub_cancel]
      exact hr
    | some qc =>
      obtain ⟨q, c⟩ := qc
      have hrel : c.release = none := hc q c (List.mem_cons_self _ _)
      have hs1 : h.Split base (q :: (child_addrs slots ++ own)) := by
        simpa [child_addrs] using hs
      obtain ⟨h1, hf, hs2⟩ := heap_free_split h base q _ hs1
      obtain ⟨h2, hr, hs3⟩ := ih h1 base own hc1 hs2
      refine ⟨h2, ?_, hs3⟩
      rw [release_schema_children]
      simp only [List.length_cons, Nat.add_one_ne_zero, if_false, Nat.add_sub_cancel, hrel, hf]
      exact hr

theorem heap_release_array_data_split (foreign : Nat → ArrowArray → Heap → Except Fault Heap)
    (h : Heap) (base : Addr → Bool) (own : List Addr) (a : ArrowArray) (hf : a.Flat)
    (hs : h.Split base (a.blocks ++ own)) :
    ∃ h1, release_array_data foreign h a = .ok h1 ∧ h1.Split base own := by
  obtain ⟨length, null_count, offset, n_buffers, n_children, buffers, children, dictionary,
    private_data, release⟩ := a
  obtain ⟨hb, hc, hd, hp⟩ := hf
  simp only at hb hc hd hp
  subst hd hp
  rw [release_array_data]
  simp only [ArrowArray.blocks] at hs
  have step1 : ∃ h1, release_array_buffers h n_buffers buffers = .ok h1 ∧
      h1.Split base (children_blocks children ++ own) := by
    cases buffers with
    | none => exact ⟨h, rfl, by simpa [buffer_blocks] using hs⟩
    | some ps =>
      obtain ⟨p, slots⟩ := ps
      have hlen := hb p slots rfl
      have hs1 : h.Split base (slots.reduceOption ++ (p :: (children_blocks children ++ own))) := by
        simpa [buffer_blocks, List.append_assoc] using hs
      obtain ⟨h1, hf1, hs2⟩ := heap_free_buffers_split slots h base _ hs1
      obtain ⟨h2, hf2, hs3⟩ := heap_free_split h1 base p _ hs2
      refine ⟨h2, ?_, hs3⟩
      simp only [release_array_buffers, ← hlen, hf1, hf2]
  obtain ⟨h1, e1, hs1⟩ := step1
  simp only [e1]
  have step2 : ∃ h2,
      release_array_children_array foreign h1 children n_children.toNat = .ok h2 ∧
      h2.Split base own := by
    cases children with
    | none =>
      refine ⟨h1, ?_, by simpa [children_blocks] using hs1⟩
      rw [release_array_children_array]
    | some ps =>
      obtain ⟨p, slots⟩ := ps
      obtain ⟨hlen, hrel⟩ := hc p slots rfl
      have hs2 : h1.Split base (child_addrs slots ++ (p :: own)) := by
        simpa [children_blocks, List.append_assoc] using hs1
      obtain ⟨h2, hf1, hs3⟩ := heap_release_array_children_split foreign slots h1 base _ hrel hs2
      obtain ⟨h3, hf2, hs4⟩ := heap_free_split h2 base p _ hs3
      refine ⟨h3, ?_, hs4⟩
      rw [release_array_children_array]
      simp only [← hlen, hf1, hf2]
  obtain ⟨h2, e2, hs2⟩ := step2
  simp only [e2]
  rw [release_array_dictionary]
  exact ⟨h2, rfl, hs2⟩

theorem heap_release_schema_split (foreign : Nat → ArrowSchema → Heap → Except Fault Heap)
    (h : Heap) (base : Addr → Bool) (own : List Addr) (s : ArrowSchema) (hf : s.Flat)
    (hs : h.Split base (s.blocks ++ own)) :
    ∃ h1, release_schema foreign h s = .ok h1 ∧ h1.Split base own := by
  obtain ⟨format, name, metadata, flags, n_children, children, dictionary, private_data,
    release⟩ := s
  obtain ⟨hc, hm, hd, hp⟩ := hf
  simp only at hc hm hd hp
  subst hm hd hp
  rw [release_schema]
  simp only [ArrowSchema.blocks] at hs
  simp only [free_nonnull]
  have step2 : ∃ h2,
      release_schema_children_array foreign h children n_children.toNat = .ok h2 ∧
      h2.Split base own := by
    cases children with
    | none =>
      refine ⟨h, ?_, by simpa [children_blocks] using hs⟩
      rw [release_schema_children_array]
    | some ps =>
      obtain ⟨p, slots⟩ := ps
      obtain ⟨hlen, hrel⟩ := hc p slots rfl
      have hs2 : h.Split base (child_addrs slots ++ (p :: own)) := by
        simpa [children_blocks, List.append_assoc] using hs
      obtain ⟨h2, hf1, hs3⟩ := heap_release_schema_children_split foreign slots h base _ hrel hs2
      obtain ⟨h3, hf2, hs4⟩ := heap_free_split h2 base p _ hs3
      refine ⟨h3, ?_, hs4⟩
      rw [release_schema_children_array]
      simp only [← hlen, hf1, hf2]
  obtain ⟨h2, e2, hs2⟩ := step2
  simp only [e2]
  rw [release_schema_dictionary]
  exact ⟨h2, rfl, hs2⟩

end arrow.hpp.builder.tracked

namespace arrow.hpp.builder.tracked

theorem heap_set_append {α : Type} (pre rest : List α) (x y : α) :
    (pre ++ x :: rest).set pre.length y = pre ++ y :: rest := by
  induction pre with
  | nil => rfl
  | cons a pre ih => simp [ih]

theorem heap_child_addrs_append {α : Type} (pre : List (Option (Addr × α))) (p : Addr) (c : α) :
    child_addrs (pre ++ [some (p, c)]) = child_addrs pre ++ [p] := by
  simp [child_addrs, List.filterMap_append]

theorem heap_child_addrs_nulls {α : Type} (pre : List (Option (Addr × α))) (m : Nat) :
    child_addrs (pre ++ List.replicate m none) = child_addrs pre := by
  induction m with
  | zero => simp
  | succ m ih =>
    rw [List.replicate_succ', ← List.append_assoc]
    simp only [child_addrs, List.filterMap_append] at ih ⊢
    simp [ih]

theorem heap_reduceOption_nulls (m : Nat) :
    (List.replicate m (none : Option Addr)).reduceOption = [] := by
  induction m with
  | zero => rfl
  | succ m ih => simp [List.replicate_succ, List.reduceOption_cons_of_none, ih]

theorem heap_allocate_array_children_split (oom : Nat → Int → Bool) (k : Nat) :
    ∀ (h : Heap) (pre : List (Option (Addr × ArrowArray))) (base : Addr → Bool)
      (own : List Addr),
      (∀ q c, some (q, c) ∈ pre → c.release = none) →
      h.Split base (own ++ child_addrs pre) →
      ∃ h1 pre1 m ok,
        allocate_array_children oom k h (pre ++ List.replicate k none) pre.length =
          (h1, pre1 ++ List.replicate m none, ok) ∧
        pre1.length + m = pre.length + k ∧ (ok = true → m = 0) ∧
        (∀ q c, some (q, c) ∈ pre1 → c.release = none) ∧
        h1.Split base (own ++ child_addrs pre1) := by
  induction k with
  | zero =>
    intro h pre base own hrel hs
    exact ⟨h, pre, 0, true, rfl, rfl, fun _ => rfl, hrel, hs⟩
  | succ k ih =>
    intro h pre base own hrel hs
    rw [allocate_array_children]
    cases hm : malloc oom h sizeof_ArrowArray with
    | mk r h1 =>
      rcases heap_malloc_split oom h h1 base _ _ r hs hm with ⟨hr, hs1⟩ | ⟨p, hr, hs1⟩
      · subst hr
        exact ⟨h1, pre, k + 1, false, rfl, rfl, fun hf => (by cases hf), hrel, hs1⟩
      · subst hr
        simp only
        rw [List.replicate_succ, heap_set_append]
        have hrel1 : ∀ q c, some (q, c) ∈ pre ++ [some (p, ArrowArray.unreleased)] →
            c.release = none := by
          intro q c hm
          rw [List.mem_append, List.mem_singleton] at hm
          rcases hm with hm | hm
          · exact hrel q c hm
          · injection hm with hm
            injection hm with _ hc
            rw [hc]
            rfl
        have hs2 : h1.Split base
            (own ++ child_addrs (pre ++ [some (p, ArrowArray.unreleased)])) := by
          rw [heap_child_addrs_append, ← List.append_assoc]
          exact hs1
        obtain ⟨h2, pre1, m, ok, he, hl, hok, hr1, hs3⟩ := ih h1 _ base own hrel1 hs2
        refine ⟨h2, pre1, m, ok, ?_, ?_, hok, hr1, hs3⟩
        · rw [← he]
          simp [List.append_assoc]
        · rw [hl]
          simp only [List.length_append, List.length_singleton]
          omega

theorem heap_allocate_schema_children_split (oom : Nat → Int → Bool) (k : Nat) :
    ∀ (h : Heap) (pre : List (Option (Addr × ArrowSchema))) (base : Addr → Bool)
      (own : List Addr),
      (∀ q c, some (q, c) ∈ pre → c.release = none) →
      h.Split base (own ++ child_addrs pre) →
      ∃ h1 pre1 m ok,
        allocate_schema_children oom k h (pre ++ List.replicate k none) pre.length =
          (h1, pre1 ++ List.replicate m none, ok) ∧
        pre1.length + m = pre.length + k ∧ (ok = true → m = 0) ∧
        (∀ q c, some (q, c) ∈ pre1 → c.release = none) ∧
        h1.Split base (own ++ child_addrs pre1) := by
  induction k with
  | zero =>
    intro h pre base own hrel hs
    exact ⟨h, pre, 0, true, rfl, rfl, fun _ => rfl, hrel, hs⟩
  | succ k ih =>
    intro h pre base own hrel hs
    rw [allocate_schema_children]
    cases hm : malloc oom h sizeof_ArrowSchema with
    | mk r h1 =>
      rcases heap_malloc_split oom h h1 base _ _ r hs hm with ⟨hr, hs1⟩ | ⟨p, hr, hs1⟩
      · subst hr
        exact ⟨h1, pre, k + 1, false, rfl, rfl, fun hf => (by cases hf), hrel, hs1⟩
      · subst hr
        simp only
        rw [List.replicate_succ, heap_set_append]
        have hrel1 : ∀ q c, some (q, c) ∈ pre ++ [some (p, ArrowSchema.unreleased)] →
            c.release = none := by
          intro q c hm
          rw [List.mem_append, List.mem_singleton] at hm
          rcases hm with hm | hm
          · exact hrel q c hm
          · injection hm with hm
            injection hm with _ hc
            rw [hc]
            rfl
        have hs2 : h1.Split base
            (own ++ child_addrs (pre ++ [some (p, ArrowSchema.unreleased)])) := by
          rw [heap_child_addrs_append, ← List.append_assoc]
          exact hs1
        obtain ⟨h2, pre1, m, ok, he, hl, hok, hr1, hs3⟩ := ih h1 _ base own hrel1 hs2
        refine ⟨h2, pre1, m, ok, ?_, ?_, hok, hr1, hs3⟩
        · rw [← he]
          simp [List.append_assoc]
        · rw [hl]
          simp only [List.length_append, List.length_singleton]
          omega

theorem heap_perm_move (xs ys zs : List Addr) : (xs ++ ys ++ zs).Perm (ys ++ zs ++ xs) := by
  rw [List.append_assoc]
  exact List.perm_append_comm

theorem heap_abandon_array_split (foreign : Nat → ArrowArray → Heap → Except Fault Heap)
    (h : Heap) (base : Addr → Bool) (own : List Addr) (a : ArrowArray) (what : String)
    (hf : a.Flat) (hrel : a.release ≠ none) (hs : h.Split base (a.blocks ++ own)) :
    ∃ h1 a1, abandon_array_data foreign h a what = (h1, a1, some (.exception what)) ∧
      a1.release = none ∧ h1.Split base own := by
  obtain ⟨h1, hr, hs1⟩ := heap_release_array_data_split foreign h base own a hf hs
  refine ⟨h1, { a with release := none }, ?_, rfl, hs1⟩
  simp only [abandon_array_data, arrow_hpp_builder_release_array_data_internal, if_pos hrel, hr,
    Option.getD_some]

theorem heap_abandon_schema_split (foreign : Nat → ArrowSchema → Heap → Except Fault Heap)
    (h : Heap) (base : Addr → Bool) (own : List Addr) (s : ArrowSchema) (what : String)
    (hf : s.Flat) (hrel : s.release ≠ none) (hs : h.Split base (s.blocks ++ own)) :
    ∃ h1 s1, abandon_schema foreign h s what = (h1, s1, some (.exception what)) ∧
      s1.release = none ∧ h1.Split base own := by
  obtain ⟨h1, hr, hs1⟩ := heap_release_schema_split foreign h base own s hf hs
  refine ⟨h1, { s with release := none }, ?_, rfl, hs1⟩
  simp only [abandon_schema, arrow_hpp_builder_release_schema_internal, if_pos hrel, hr,
    Option.getD_some]

end arrow.hpp.builder.tracked

namespace arrow.hpp.builder.tracked

theorem heap_perm_children (own cs : List Addr) (p : Addr) :
    ((own ++ [p]) ++ cs).Perm ((cs ++ [p]) ++ own) := by
  rw [List.perm_iff_count]
  intro a
  simp only [List.count_append]
  omega

theorem heap_perm_array (bb own cs : List Addr) (p : Addr) :
    (((bb ++ own) ++ [p]) ++ cs).Perm ((bb ++ (cs ++ [p])) ++ own) := by
  rw [List.perm_iff_count]
  intro a
  simp only [List.count_append]
  omega

theorem heap_slots_flat {α : Type} (rel : α → Option ReleaseCallback)
    (pre1 : List (Option (Addr × α))) (m : Nat)
    (h : ∀ q c, some (q, c) ∈ pre1 → rel c = none) :
    ∀ q c, some (q, c) ∈ pre1 ++ List.replicate m none → rel c = none := by
  intro q c hm
  rw [List.mem_append] at hm
  rcases hm with hm | hm
  · exact h q c hm
  · exact absurd (List.eq_of_mem_replicate hm) (by simp)

theorem heap_allocate_schema_split (foreign : Nat → ArrowSchema → Heap → Except Fault Heap)
    (oom : Nat → Int → Bool) (h : Heap) (base : Addr → Bool) (own : List Addr)
    (n_children : Int) (hs : h.Split base own) :
    ∃ h1 s e, allocate_schema foreign oom h n_children = (h1, s, e) ∧
      ((e = none ∧ s.Flat ∧ s.release ≠ none ∧ h1.Split base (s.blocks ++ own)) ∨
       ((∃ what, e = some (.exception what)) ∧ s.release = none ∧ h1.Split base own)) := by
  unfold allocate_schema
  simp only []
  by_cases hnc : n_children > 0
  · rw [if_pos hnc]
    cases hm : malloc oom h (n_children * sizeof_pointer) with
    | mk r h1 =>
      rcases heap_malloc_split oom h h1 base _ _ r hs hm with ⟨hr, hs1⟩ | ⟨p, hr, hs1⟩
      · subst hr
        simp only
        obtain ⟨h2, s1, he, hrel, hs2⟩ := heap_abandon_schema_split foreign h1 base own
          { format := "", name := "", metadata := none, flags := ARROW_FLAG_NULLABLE,
            n_children := n_children, children := none, dictionary := none,
            private_data := none,
            release := some .arrow_hpp_builder_release_schema_internal }
          "Failed to allocate schema->children of size %lld"
          ⟨fun p slots hc => (by cases hc), rfl, rfl, rfl⟩ (by simp)
          (by simpa [ArrowSchema.blocks, children_blocks] using hs1)
        exact ⟨h2, s1, _, he, Or.inr ⟨⟨_, rfl⟩, hrel, hs2⟩⟩
      · subst hr
        simp only
        have hloop := heap_allocate_schema_children_split oom n_children.toNat h1 [] base
          (own ++ [p]) (fun q c hm => by cases hm) (by simpa [child_addrs] using hs1)
        simp only [List.nil_append, List.length_nil, Nat.zero_add] at hloop
        obtain ⟨h2, pre1, m, ok, he, hl, hok, hr1, hs2⟩ := hloop
        rw [he]
        have hflat : ∀ q c, some (q, c) ∈ pre1 ++ List.replicate m none →
            ArrowSchema.release c = none := heap_slots_flat ArrowSchema.release pre1 m hr1
        have hlen : (pre1 ++ List.replicate m none).length = n_children.toNat := by
          rw [List.length_append, List.length_replicate, hl]
        have hs3 : h2.Split base ((child_addrs (pre1 ++ List.replicate m none) ++ [p]) ++ own) := by
          rw [heap_child_addrs_nulls]
          exact heap_split_perm h2 base _ _ hs2 (heap_perm_children own _ p)
        cases ok with
        | false =>
          simp only
          obtain ⟨h3, s1, he3, hrel, hs4⟩ := heap_abandon_schema_split foreign h2 base own
            { format := "", name := "", metadata := none, flags := ARROW_FLAG_NULLABLE,
              n_children := n_children,
              children := some (p, pre1 ++ List.replicate m none), dictionary := none,
              private_data := none,
              release := some .arrow_hpp_builder_release_schema_internal }
            "Failed to allocate schema->children[%lld]"
            ⟨fun q slots hc => by
                injection hc with hc
                injection hc with _ hc
                subst hc
                exact ⟨hlen, hflat⟩, rfl, rfl, rfl⟩ (by simp)
            (by simpa [ArrowSchema.blocks, children_blocks] using hs3)
          exact ⟨h3, s1, _, he3, Or.inr ⟨⟨_, rfl⟩, hrel, hs4⟩⟩
        | true =>
          simp only
          refine ⟨h2, _, none, rfl, Or.inl ⟨rfl, ⟨fun q slots hc => ?_, rfl, rfl, rfl⟩, by simp, ?_⟩⟩
          · injection hc with hc
            injection hc with _ hc
            subst hc
            exact ⟨hlen, hflat⟩
          · simpa [ArrowSchema.blocks, children_blocks] using hs3
  · rw [if_neg hnc]
    refine ⟨h, _, none, rfl, Or.inl ⟨rfl, ⟨fun p slots hc => (by cases hc), rfl, rfl, rfl⟩,
      by simp, ?_⟩⟩
    simpa [ArrowSchema.blocks, children_blocks] using hs

end arrow.hpp.builder.tracked

namespace arrow.hpp.builder.tracked

theorem heap_allocate_array_data_split (foreign : Nat → ArrowArray → Heap → Except Fault Heap)
    (oom : Nat → Int → Bool) (h : Heap) (base : Addr → Bool) (own : List Addr)
    (n_buffers n_children : Int) (hs : h.Split base own) :
    ∃ h1 a e, allocate_array_data foreign oom h n_buffers n_children = (h1, a, e) ∧
      ((e = none ∧ a.Flat ∧ a.release ≠ none ∧ a.n_buffers = n_buffers ∧
        ((a.buffers = none ∧ ¬ n_buffers > 0) ∨
          ∃ p, a.buffers = some (p, List.replicate n_buffers.toNat none)) ∧
        h1.Split base (a.blocks ++ own)) ∨
       ((∃ what, e = some (.exception what)) ∧ a.release = none ∧ h1.Split base own)) := by
  unfold allocate_array_data
  simp only []
  split
  · -- the allocation of the buffer pointers threw
    rename_i h1 a1 e heq
    by_cases hnb : n_buffers > 0
    · rw [if_pos hnb] at heq
      cases hm : malloc oom h (n_buffers * sizeof_pointer) with
      | mk r h2 =>
        rw [hm] at heq
        rcases heap_malloc_split oom h h2 base _ _ r hs hm with ⟨hr, hs1⟩ | ⟨p, hr, hs1⟩
        · subst hr
          simp only at heq
          obtain ⟨h3, a3, he, hrel, hs2⟩ := heap_abandon_array_split foreign h2 base own
            { length := 0, null_count := -1, offset := 0, n_buffers := n_buffers,
              n_children := n_children, buffers := none, children := none, dictionary := none,
              private_data := none,
              release := some .arrow_hpp_builder_release_array_data_internal }
            "Failed to allocate array_data->buffers of size %lld"
            ⟨fun p slots hc => (by cases hc), fun p slots hc => (by cases hc), rfl, rfl⟩
            (by simp)
            (by simpa [ArrowArray.blocks, buffer_blocks, children_blocks] using hs1)
          rw [he] at heq
          injection heq with e1 heq
          injection heq with e2 e3
          injection e3 with e3
          subst e1 e2 e3
          exact ⟨h3, a3, _, rfl, Or.inr ⟨⟨_, rfl⟩, hrel, hs2⟩⟩
        · subst hr
          simp only at heq
          injection heq with _ heq
          injection heq with _ heq
          cases heq
    · rw [if_neg hnb] at heq
      injection heq with _ heq
      injection heq with _ heq
      cases heq
  · rename_i h1 a1 heq
    -- the struct after the buffer pointers were allocated
    have step1 : a1.length = 0 ∧ a1.null_count = -1 ∧ a1.offset = 0 ∧
        a1.n_buffers = n_buffers ∧ a1.n_children = n_children ∧ a1.children = none ∧
        a1.dictionary = none ∧ a1.private_data = none ∧
        a1.release = some .arrow_hpp_builder_release_array_data_internal ∧
        ((a1.buffers = none ∧ ¬ n_buffers > 0) ∨
          ∃ p, a1.buffers = some (p, List.replicate n_buffers.toNat none)) ∧
        h1.Split base (buffer_blocks a1.buffers ++ own) := by
      by_cases hnb : n_buffers > 0
      · rw [if_pos hnb] at heq
        cases hm : malloc oom h (n_buffers * sizeof_pointer) with
        | mk r h2 =>
          rw [hm] at heq
          rcases heap_malloc_split oom h h2 base _ _ r hs hm with ⟨hr, hs1⟩ | ⟨p, hr, hs1⟩
          · subst hr
            simp only at heq
            obtain ⟨h3, a3, he, hrel, hs2⟩ := heap_abandon_array_split foreign h2 base own
              { length := 0, null_count := -1, offset := 0, n_buffers := n_buffers,
                n_children := n_children, buffers := none, children := none,
                dictionary := none, private_data := none,
                release := some .arrow_hpp_builder_release_array_data_internal }
              "Failed to allocate array_data->buffers of size %lld"
              ⟨fun p slots hc => (by cases hc), fun p slots hc => (by cases hc), rfl, rfl⟩
              (by simp)
              (by simpa [ArrowArray.blocks, buffer_blocks, children_blocks] using hs1)
            rw [he] at heq
            injection heq with _ heq
            injection heq with _ heq
            cases heq
          · subst hr
            simp only at heq
            injection heq with e1 heq
            injection heq with e2 _
            subst e1 e2
            refine ⟨rfl, rfl, rfl, rfl, rfl, rfl, rfl, rfl, rfl, Or.inr ⟨p, rfl⟩, ?_⟩
            simp only [buffer_blocks, heap_reduceOption_nulls, List.nil_append]
            exact heap_split_perm h2 base _ _ hs1 List.perm_append_comm
      · rw [if_neg hnb] at heq
        injection heq with e1 heq
        injection heq with e2 _
        subst e1 e2
        refine ⟨rfl, rfl, rfl, rfl, rfl, rfl, rfl, rfl, rfl, Or.inl ⟨rfl, hnb⟩, ?_⟩
        simpa [buffer_blocks] using hs
    obtain ⟨hl, hnc0, hof, hnb1, hnc1, hch, hdi, hpd, hrl, hbuf, hs1⟩ := step1
    have hbflat : ∀ p slots, a1.buffers = some (p, slots) → slots.length = a1.n_buffers.toNat := by
      intro p slots hb
      rcases hbuf with ⟨hb0, _⟩ | ⟨q, hb1⟩
      · rw [hb0] at hb; cases hb
      · rw [hb1] at hb
        injection hb with hb
        injection hb with _ hb
        rw [← hb, List.length_replicate, hnb1]
    by_cases hnc : n_children > 0
    · rw [if_pos hnc]
      cases hm : malloc oom h1 (n_children * sizeof_pointer) with
      | mk r h2 =>
        rcases heap_malloc_split oom h1 h2 base _ _ r hs1 hm with ⟨hr, hs2⟩ | ⟨p, hr, hs2⟩
        · subst hr
          simp only
          obtain ⟨h3, a3, he, hrel, hs3⟩ := heap_abandon_array_split foreign h2 base own a1
            "Failed to allocate array_data->children of size %lld"
            ⟨hbflat, fun p slots hc => (by rw [hch] at hc; cases hc), hdi, hpd⟩
            (by rw [hrl]; simp)
            (by simpa [ArrowArray.blocks, hch, children_blocks] using hs2)
          exact ⟨h3, a3, _, he, Or.inr ⟨⟨_, rfl⟩, hrel, hs3⟩⟩
        · subst hr
          simp only
          have hloop := heap_allocate_array_children_split oom n_children.toNat h2 [] base
            ((buffer_blocks a1.buffers ++ own) ++ [p]) (fun q c hm => (by cases hm))
            (by simpa [child_addrs] using hs2)
          simp only [List.nil_append, List.length_nil, Nat.zero_add] at hloop
          obtain ⟨h3, pre1, m, ok, he, hl1, hok, hr1, hs3⟩ := hloop
          rw [he]
          have hflat : ∀ q c, some (q, c) ∈ pre1 ++ List.replicate m none →
              ArrowArray.release c = none := heap_slots_flat ArrowArray.release pre1 m hr1
          have hlen : (pre1 ++ List.replicate m none).length = n_children.toNat := by
            rw [List.length_append, List.length_replicate, hl1]
          have hs4 : h3.Split base
              ((buffer_blocks a1.buffers ++
                (child_addrs (pre1 ++ List.replicate m none) ++ [p])) ++ own) := by
            rw [heap_child_addrs_nulls]
            exact heap_split_perm h3 base _ _ hs3 (heap_perm_array _ own _ p)
          have hflat2 : ArrowArray.Flat
              { a1 with children := some (p, pre1 ++ List.replicate m none) } := by
            refine ⟨hbflat, fun q slots hc => ?_, hdi, hpd⟩
            injection hc with hc
            injection hc with _ hc
            subst hc
            exact ⟨by rw [hlen, hnc1], hflat⟩
          cases ok with
          | false =>
            simp only
            obtain ⟨h4, a4, he4, hrel, hs5⟩ := heap_abandon_array_split foreign h3 base own
              { a1 with children := some (p, pre1 ++ List.replicate m none) }
              "Failed to allocate array_data->children[%lld]" hflat2
              (by show a1.release ≠ none; rw [hrl]; simp)
              (by simpa [ArrowArray.blocks, children_blocks] using hs4)
            exact ⟨h4, a4, _, he4, Or.inr ⟨⟨_, rfl⟩, hrel, hs5⟩⟩
          | true =>
            simp only
            refine ⟨h3, _, none, rfl, Or.inl ⟨rfl, hflat2, ?_, hnb1, hbuf, ?_⟩⟩
            · show a1.release ≠ none
              rw [hrl]; simp
            · simpa [ArrowArray.blocks, children_blocks] using hs4
    · rw [if_neg hnc]
      refine ⟨h1, a1, none, rfl, Or.inl ⟨rfl, ⟨hbflat, fun p slots hc => ?_, hdi, hpd⟩, ?_, hnb1,
        hbuf, ?_⟩⟩
      · rw [hch] at hc; cases hc
      · rw [hrl]; simp
      · simpa [ArrowArray.blocks, hch, children_blocks] using hs1

end arrow.hpp.builder.tracked

namespace arrow.hpp.builder.tracked

theorem heap_array_callback_split (foreign : Nat → ArrowArray → Heap → Except Fault Heap)
    (h : Heap) (base : Addr → Bool) (own blocks : List Addr) (a : ArrowArray)
    (ha : (a.release = none ∧ blocks = []) ∨ (a.release ≠ none ∧ a.Flat ∧ blocks = a.blocks))
    (hs : h.Split base (blocks ++ own)) :
    ∃ h1, arrow_hpp_builder_release_array_data_internal foreign h (some a) =
        .ok (h1, some { a with release := none }) ∧ h1.Split base own := by
  rcases ha with ⟨hr, hb⟩ | ⟨hr, hf, hb⟩
  · subst hb
    refine ⟨h, ?_, hs⟩
    simp only [arrow_hpp_builder_release_array_data_internal, hr, ne_eq, not_true_eq_false,
      if_false]
    congr 3
    cases a
    simp only at hr
    subst hr
    rfl
  · subst hb
    obtain ⟨h1, he, hs1⟩ := heap_release_array_data_split foreign h base own a hf hs
    refine ⟨h1, ?_, hs1⟩
    simp only [arrow_hpp_builder_release_array_data_internal, if_pos hr, he]

theorem heap_schema_callback_split (foreign : Nat → ArrowSchema → Heap → Except Fault Heap)
    (h : Heap) (base : Addr → Bool) (own blocks : List Addr) (s : ArrowSchema)
    (ha : (s.release = none ∧ blocks = []) ∨ (s.release ≠ none ∧ s.Flat ∧ blocks = s.blocks))
    (hs : h.Split base (blocks ++ own)) :
    ∃ h1, arrow_hpp_builder_release_schema_internal foreign h (some s) =
        .ok (h1, some { s with release := none }) ∧ h1.Split base own := by
  rcases ha with ⟨hr, hb⟩ | ⟨hr, hf, hb⟩
  · subst hb
    refine ⟨h, ?_, hs⟩
    simp only [arrow_hpp_builder_release_schema_internal, hr, ne_eq, not_true_eq_false,
      if_false]
    congr 3
    cases s
    simp only at hr
    subst hr
    rfl
  · subst hb
    obtain ⟨h1, he, hs1⟩ := heap_release_schema_split foreign h base own s hf hs
    refine ⟨h1, ?_, hs1⟩
    simp only [arrow_hpp_builder_release_schema_internal, if_pos hr, he]

theorem heap_destroy_split (foreign_array : Nat → ArrowArray → Heap → Except Fault Heap)
    (foreign_schema : Nat → ArrowSchema → Heap → Except Fault Heap)
    (h : Heap) (base : Addr → Bool) (own ab sb : List Addr) (f : CArrayFinalizer)
    (ha : (f.array_data.release = none ∧ ab = []) ∨
      (f.array_data.release ≠ none ∧ f.array_data.Flat ∧ ab = f.array_data.blocks))
    (hb : (f.schema.release = none ∧ sb = []) ∨
      (f.schema.release ≠ none ∧ f.schema.Flat ∧ sb = f.schema.blocks))
    (hs : h.Split base (ab ++ (sb ++ own))) :
    ∃ h1, CArrayFinalizer.destroy foreign_array foreign_schema h f =
        .ok (h1, { array_data := { f.array_data with release := none },
                   schema := { f.schema with release := none } }) ∧
      h1.Split base own := by
  obtain ⟨h1, e1, hs1⟩ := heap_array_callback_split foreign_array h base _ ab f.array_data ha hs
  obtain ⟨h2, e2, hs2⟩ := heap_schema_callback_split foreign_schema h1 base _ sb f.schema hb hs1
  refine ⟨h2, ?_, hs2⟩
  simp only [CArrayFinalizer.destroy, e1, e2, Option.getD_some]

theorem heap_split_restore (h0 h : Heap) (att : List Addr)
    (hl : ∀ p ∈ att, h0.live p = true)
    (hs : h.Split (fun a => h0.live a && !decide (a ∈ att)) att) :
    ∀ a, h.live a = h0.live a := by
  intro a
  rw [hs.2.2.2 a]
  by_cases ha : a ∈ att
  · simp [ha, hl a ha]
  · simp [ha]

end arrow.hpp.builder.tracked

namespace arrow.hpp.builder.tracked

theorem heap_attach_flat (a : ArrowArray) (bufs : List (Option Addr)) (n_buffers : Int)
    (hf : a.Flat) (hn : a.n_buffers = n_buffers) (hlen : bufs.length = n_buffers.toNat)
    (hbuf : (a.buffers = none ∧ ¬ n_buffers > 0) ∨
      ∃ p, a.buffers = some (p, List.replicate n_buffers.toNat none)) :
    ArrowArray.Flat { a with buffers := a.buffers.map (fun pb => (pb.1, bufs)) } ∧
    (ArrowArray.blocks { a with buffers := a.buffers.map (fun pb => (pb.1, bufs)) }).Perm
      (a.blocks ++ bufs.reduceOption) := by
  obtain ⟨_, hc, hd, hp⟩ := hf
  rcases hbuf with ⟨hb, hnb⟩ | ⟨p, hb⟩
  · have h0 : n_buffers.toNat = 0 := by omega
    rw [h0, List.length_eq_zero] at hlen
    subst hlen
    refine ⟨⟨fun p slots hx => ?_, hc, hd, hp⟩, ?_⟩
    · simp only [hb, Option.map_none'] at hx
      cases hx
    · simp [ArrowArray.blocks, hb, List.reduceOption]
  · refine ⟨⟨fun q slots hx => ?_, hc, hd, hp⟩, ?_⟩
    · simp only [hb, Option.map_some'] at hx
      injection hx with hx
      injection hx with _ hx
      subst hx
      rw [hlen, hn]
    · simp only [ArrowArray.blocks, hb, Option.map_some', buffer_blocks,
        heap_reduceOption_nulls, List.nil_append]
      rw [List.perm_iff_count]
      intro x
      simp only [List.count_append]
      omega

theorem heap_lifetime (foreign_array : Nat → ArrowArray → Heap → Except Fault Heap)
    (foreign_schema : Nat → ArrowSchema → Heap → Except Fault Heap)
    (oom : Nat → Int → Bool) (h0 : Heap) (n_buffers n_children : Int)
    (bufs : List (Option Addr)) (hv : h0.Valid) (hlen : bufs.length = n_buffers.toNat)
    (hnd : bufs.reduceOption.Nodup) (hlive : ∀ p ∈ bufs.reduceOption, h0.live p = true) :
    ∃ h1 f1 e h2,
      CArrayFinalizer.allocate foreign_array foreign_schema oom h0 CArrayFinalizer.new
        n_buffers n_children = (h1, f1, e) ∧
      CArrayFinalizer.lifetime foreign_array foreign_schema oom h0 n_buffers n_children bufs =
        .ok h2 ∧
      ((e = none ∧ ∀ a, h2.live a = (h0.live a && !decide (a ∈ bufs.reduceOption))) ∨
       ((∃ what, e = some (.exception what)) ∧ ∀ a, h2.live a = h0.live a)) := by
  have hs0 := heap_split_of_valid h0 hv bufs.reduceOption hnd hlive
  obtain ⟨h1, a, e1, ea, hcase⟩ := heap_allocate_array_data_split foreign_array oom h0 _
    bufs.reduceOption n_buffers n_children hs0
  rcases hcase with ⟨he1, haf, har, han, hbuf, hs1⟩ | ⟨⟨what, he1⟩, har, hs1⟩
  · subst he1
    obtain ⟨h2, s, e2, es, hcase2⟩ := heap_allocate_schema_split foreign_schema oom h1 _
      (a.blocks ++ bufs.reduceOption) n_children hs1
    rcases hcase2 with ⟨he2, hsf, hsr, hs2⟩ | ⟨⟨what, he2⟩, hsr, hs2⟩
    · subst he2
      obtain ⟨hflat, hperm⟩ := heap_attach_flat a bufs n_buffers haf han hlen hbuf
      have hs3 : h2.Split (fun a => h0.live a && !decide (a ∈ bufs.reduceOption))
          (ArrowArray.blocks { a with buffers := a.buffers.map (fun pb => (pb.1, bufs)) } ++
            (s.blocks ++ [])) := by
        refine heap_split_perm h2 _ _ _ hs2 ?_
        rw [List.append_nil]
        refine List.Perm.trans List.perm_append_comm ?_
        exact List.Perm.append_right _ hperm.symm
      obtain ⟨h3, ed, hs4⟩ := heap_destroy_split foreign_array foreign_schema h2 _ [] _ _
        { array_data := { a with buffers := a.buffers.map (fun pb => (pb.1, bufs)) },
          schema := s }
        (Or.inr ⟨har, hflat, rfl⟩) (Or.inr ⟨hsr, hsf, rfl⟩) hs3
      refine ⟨h2, { array_data := a, schema := s }, none, h3, ?_, ?_,
        Or.inl ⟨rfl, heap_split_nil h3 _ hs4⟩⟩
      · simp only [CArrayFinalizer.allocate, ea, es]
      · simp only [CArrayFinalizer.lifetime, CArrayFinalizer.allocate, ea, es,
          CArrayFinalizer.attach_buffers, ed, Except.map]
    · subst he2
      obtain ⟨h3, ed, hs4⟩ := heap_destroy_split foreign_array foreign_schema h2 _
        bufs.reduceOption a.blocks [] { array_data := a, schema := s }
        (Or.inr ⟨har, haf, rfl⟩) (Or.inl ⟨hsr, rfl⟩) (by simpa using hs2)
      refine ⟨h2, { array_data := a, schema := s }, _, h3, ?_, ?_,
        Or.inr ⟨⟨what, rfl⟩, heap_split_restore h0 h3 _ hlive hs4⟩⟩
      · simp only [CArrayFinalizer.allocate, ea, es]
      · simp only [CArrayFinalizer.lifetime, CArrayFinalizer.allocate, ea, es, ed, Except.map]
  · subst he1
    obtain ⟨h3, ed, hs4⟩ := heap_destroy_split foreign_array foreign_schema h1 _
      bufs.reduceOption [] []
      { array_data := a, schema := ArrowSchema.unreleased }
      (Or.inl ⟨har, rfl⟩) (Or.inl ⟨rfl, rfl⟩) (by simpa using hs1)
    refine ⟨h1, { array_data := a, schema := ArrowSchema.unreleased }, _, h3, ?_, ?_,
      Or.inr ⟨⟨what, rfl⟩, heap_split_restore h0 h3 _ hlive hs4⟩⟩
    · simp only [CArrayFinalizer.allocate, ea, CArrayFinalizer.new]
    · simp only [CArrayFinalizer.lifetime, CArrayFinalizer.allocate, ea, CArrayFinalizer.new, ed,
        Except.map]

end arrow.hpp.builder.tracked

namespace arrow.hpp.builder.tracked

theorem heap_malloc_never (oom : Nat → Int → Bool) (hn : ∀ n k, oom n k = false) (h : Heap)
    (n_bytes : Int) :
    malloc oom h n_bytes =
      (some h.next, { live := fun a => decide (a = h.next) || h.live a, next := h.next + 1 }) := by
  simp [malloc, hn]

theorem heap_allocate_array_children_never (oom : Nat → Int → Bool)
    (hn : ∀ n k, oom n k = false) (k : Nat) :
    ∀ h slots i, (allocate_array_children oom k h slots i).2.2 = true := by
  induction k with
  | zero => intro h slots i; rfl
  | succ k ih =>
    intro h slots i
    rw [allocate_array_children, heap_malloc_never oom hn]
    exact ih _ _ _

theorem heap_allocate_schema_children_never (oom : Nat → Int → Bool)
    (hn : ∀ n k, oom n k = false) (k : Nat) :
    ∀ h slots i, (allocate_schema_children oom k h slots i).2.2 = true := by
  induction k with
  | zero => intro h slots i; rfl
  | succ k ih =>
    intro h slots i
    rw [allocate_schema_children, heap_malloc_never oom hn]
    exact ih _ _ _

theorem heap_allocate_array_data_never (foreign : Nat → ArrowArray → Heap → Except Fault Heap)
    (oom : Nat → Int → Bool) (hn : ∀ n k, oom n k = false) (h : Heap)
    (n_buffers n_children : Int) :
    (allocate_array_data foreign oom h n_buffers n_children).2.2 = none := by
  unfold allocate_array_data
  simp only [heap_malloc_never oom hn]
  by_cases hnb : n_buffers > 0 <;> by_cases hnc : n_children > 0
  · simp only [if_pos hnb, if_pos hnc]
    generalize hloop : allocate_array_children oom _ _ _ _ = r
    obtain ⟨h3, slots, ok⟩ := r
    have := heap_allocate_array_children_never oom hn n_children.toNat
      { live := fun a => decide (a = h.next + 1) || (decide (a = h.next) || h.live a),
        next := h.next + 1 + 1 } (List.replicate n_children.toNat none) 0
    rw [hloop] at this
    simp only at this
    subst this
    rfl
  · simp only [if_pos hnb, if_neg hnc]
  · simp only [if_neg hnb, if_pos hnc]
    generalize hloop : allocate_array_children oom _ _ _ _ = r
    obtain ⟨h3, slots, ok⟩ := r
    have := heap_allocate_array_children_never oom hn n_children.toNat
      { live := fun a => decide (a = h.next) || h.live a, next := h.next + 1 }
      (List.replicate n_children.toNat none) 0
    rw [hloop] at this
    simp only at this
    subst this
    rfl
  · simp only [if_neg hnb, if_neg hnc]

theorem heap_allocate_schema_never (foreign : Nat → ArrowSchema → Heap → Except Fault Heap)
    (oom : Nat → Int → Bool) (hn : ∀ n k, oom n k = false) (h : Heap) (n_children : Int) :
    (allocate_schema foreign oom h n_children).2.2 = none := by
  unfold allocate_schema
  simp only [heap_malloc_never oom hn]
  by_cases hnc : n_children > 0
  · simp only [if_pos hnc]
    generalize hloop : allocate_schema_children oom _ _ _ _ = r
    obtain ⟨h3, slots, ok⟩ := r
    have := heap_allocate_schema_children_never oom hn n_children.toNat
      { live := fun a => decide (a = h.next) || h.live a, next := h.next + 1 }
      (List.replicate n_children.toNat none) 0
    rw [hloop] at this
    simp only at this
    subst this
    rfl
  · simp only [if_neg hnc]

theorem heap_finalizer_allocate_never
    (foreign_array : Nat → ArrowArray → Heap → Except Fault Heap)
    (foreign_schema : Nat → ArrowSchema → Heap → Except Fault Heap)
    (oom : Nat → Int → Bool) (hn : ∀ n k, oom n k = false) (h : Heap) (f : CArrayFinalizer)
    (n_buffers n_children : Int) :
    (CArrayFinalizer.allocate foreign_array foreign_schema oom h f n_buffers n_children).2.2 =
      none := by
  unfold CArrayFinalizer.allocate
  have ha := heap_allocate_array_data_never foreign_array oom hn h n_buffers n_children
  generalize allocate_array_data foreign_array oom h n_buffers n_children = r at ha
  obtain ⟨h1, a, e⟩ := r
  simp only at ha
  subst ha
  simp only
  exact heap_allocate_schema_never foreign_schema oom hn h1 n_children

end arrow.hpp.builder.tracked

namespace arrow.hpp.builder.tracked

theorem finalizer_release_cases (f : CArrayFinalizer) (array_data_out : Option ArrowArray)
    (schema_out : Option ArrowSchema) :
    ((array_data_out = none ∨ schema_out = none ∨
        (∃ x, array_data_out = some x ∧ x.release ≠ none) ∨
        (∃ y, schema_out = some y ∧ y.release ≠ none)) ∧
      ∃ what, f.release array_data_out schema_out =
        ((f, array_data_out, schema_out), some (.exception what))) ∨
    ((∃ x y, array_data_out = some x ∧ schema_out = some y ∧ x.release = none ∧
        y.release = none) ∧
      f.release array_data_out schema_out =
        (({ array_data := { f.array_data with release := none },
            schema := { f.schema with release := none } },
          some f.array_data, some f.schema), none)) := by
  cases array_data_out with
  | none => exact Or.inl ⟨Or.inl rfl, _, rfl⟩
  | some x =>
    cases schema_out with
    | none => exact Or.inl ⟨Or.inr (Or.inl rfl), _, rfl⟩
    | some y =>
      by_cases hx : x.release ≠ none
      · refine Or.inl ⟨Or.inr (Or.inr (Or.inl ⟨x, rfl, hx⟩)), "output array_data is not released", ?_⟩
        simp only [CArrayFinalizer.release, if_pos hx]
      · by_cases hy : y.release ≠ none
        · refine Or.inl ⟨Or.inr (Or.inr (Or.inr ⟨y, rfl, hy⟩)), "output schema is not released", ?_⟩
          simp only [CArrayFinalizer.release, if_neg hx, if_pos hy]
        · refine Or.inr ⟨⟨x, y, rfl, rfl, not_not.mp hx, not_not.mp hy⟩, ?_⟩
          simp only [CArrayFinalizer.release, if_neg hx, if_neg hy]

theorem finalizer_value_release_cases (g : arrow.hpp.builder.CArrayFinalizer)
    (a_out : Option arrow.hpp.builder.ArrowArray)
    (s_out : Option arrow.hpp.builder.ArrowSchema) :
    ((a_out = none ∨ s_out = none ∨ (∃ x, a_out = some x ∧ x.release ≠ none) ∨
        (∃ y, s_out = some y ∧ y.release ≠ none)) ∧
      ∃ what, g.release a_out s_out = .error (.exception what)) ∨
    ((∃ x y, a_out = some x ∧ s_out = some y ∧ x.release = none ∧ y.release = none) ∧
      g.release a_out s_out =
        .ok (g.array_data, g.schema,
          { array_data := { g.array_data with release := none },
            schema := { g.schema with release := none } })) := by
  cases a_out with
  | none => exact Or.inl ⟨Or.inl rfl, _, rfl⟩
  | some x =>
    cases s_out with
    | none => exact Or.inl ⟨Or.inr (Or.inl rfl), _, rfl⟩
    | some y =>
      by_cases hx : x.release ≠ none
      · refine Or.inl ⟨Or.inr (Or.inr (Or.inl ⟨x, rfl, hx⟩)), "output array_data is not released", ?_⟩
        simp only [arrow.hpp.builder.CArrayFinalizer.release, if_pos hx]
      · by_cases hy : y.release ≠ none
        · refine Or.inl ⟨Or.inr (Or.inr (Or.inr ⟨y, rfl, hy⟩)), "output schema is not released", ?_⟩
          simp only [arrow.hpp.builder.CArrayFinalizer.release, if_neg hx, if_pos hy]
        · refine Or.inr ⟨⟨x, y, rfl, rfl, not_not.mp hx, not_not.mp hy⟩, ?_⟩
          simp only [arrow.hpp.builder.CArrayFinalizer.release, if_neg hx, if_neg hy]

end arrow.hpp.builder.tracked

namespace arrow.hpp.builder.tracked

theorem finalizer_destroy_released (foreign_array : Nat → ArrowArray → Heap → Except Fault Heap)
    (foreign_schema : Nat → ArrowSchema → Heap → Except Fault Heap) (h : Heap)
    (f : CArrayFinalizer) (ha : f.array_data.release = none) (hs : f.schema.release = none) :
    CArrayFinalizer.destroy foreign_array foreign_schema h f = .ok (h, f) := by
  simp only [CArrayFinalizer.destroy, arrow_hpp_builder_release_array_data_internal,
    arrow_hpp_builder_release_schema_internal, ha, hs, ne_eq, not_true_eq_false, if_false,
    Option.getD_some]

/-- C13: `CArrayFinalizer::release(array_data_out, schema_out)` throws exactly
when `array_data_out` is null, `schema_out` is null, the struct behind
`array_data_out` has a non-null `release`, or the struct behind `schema_out` has
a non-null `release`; when it throws, the finalizer and the structs behind both
output pointers are as they were before the call.  The same four conditions are
the ones under which the call fails in the embedding that carries the buffer
contents. -/
theorem finalizer_release_checks_outputs (f : CArrayFinalizer)
    (array_data_out : Option ArrowArray) (schema_out : Option ArrowSchema) :
    ((f.release array_data_out schema_out).2 ≠ none ↔
      (array_data_out = none ∨ schema_out = none ∨
        (∃ x, array_data_out = some x ∧ x.release ≠ none) ∨
        (∃ y, schema_out = some y ∧ y.release ≠ none))) ∧
    (∀ e, (f.release array_data_out schema_out).2 = some e →
      (∃ what, e = .exception what) ∧
      (f.release array_data_out schema_out).1 = (f, array_data_out, schema_out)) ∧
    (∀ (g : arrow.hpp.builder.CArrayFinalizer) (a_out : Option arrow.hpp.builder.ArrowArray)
        (s_out : Option arrow.hpp.builder.ArrowSchema),
      (∃ e, g.release a_out s_out = .error e) ↔
        (a_out = none ∨ s_out = none ∨ (∃ x, a_out = some x ∧ x.release ≠ none) ∨
          (∃ y, s_out = some y ∧ y.release ≠ none))) := by
  refine ⟨?_, ?_, ?_⟩
  · rcases finalizer_release_cases f array_data_out schema_out with
      ⟨hc, what, he⟩ | ⟨⟨x, y, hx, hy, hxr, hyr⟩, he⟩
    · rw [he]
      exact ⟨fun _ => hc, fun _ => (by simp)⟩
    · rw [he]
      refine ⟨fun hn => absurd rfl hn, fun hc => ?_⟩
      subst hx hy
      rcases hc with hc | hc | ⟨x1, hc, hr⟩ | ⟨y1, hc, hr⟩
      · cases hc
      · cases hc
      · injection hc with hc
        subst hc
        exact absurd hxr hr
      · injection hc with hc
        subst hc
        exact absurd hyr hr
  · intro e he
    rcases finalizer_release_cases f array_data_out schema_out with
      ⟨_, what, hr⟩ | ⟨_, hr⟩
    · rw [hr] at he ⊢
      injection he with he
      exact ⟨⟨what, he.symm⟩, rfl⟩
    · rw [hr] at he
      cases he
  · intro g a_out s_out
    rcases finalizer_value_release_cases g a_out s_out with
      ⟨hc, what, he⟩ | ⟨⟨x, y, hx, hy, hxr, hyr⟩, he⟩
    · exact ⟨fun _ => hc, fun _ => ⟨_, he⟩⟩
    · refine ⟨fun ⟨e, hn⟩ => ?_, fun hc => ?_⟩
      · rw [he] at hn
        cases hn
      · subst hx hy
        rcases hc with hc | hc | ⟨x1, hc, hr⟩ | ⟨y1, hc, hr⟩
        · cases hc
        · cases hc
        · injection hc with hc
          subst hc
          exact absurd hxr hr
        · injection hc with hc
          subst hc
          exact absurd hyr hr

/-- C14: when `CArrayFinalizer::release` does not throw, the structs behind the
two output pointers are the finalizer's `array_data` and `schema` as they were
before the call, member for member; the finalizer keeps them with `release` set
to null and nothing else changed; and the destructor run on that finalizer, in
any heap, returns the same heap and the same finalizer, so it frees nothing.
In the embedding that carries the buffer contents the call on two released
outputs likewise returns the internal pair unchanged. -/
theorem finalizer_release_hands_over (f : CArrayFinalizer)
    (array_data_out : Option ArrowArray) (schema_out : Option ArrowSchema)
    (hok : (f.release array_data_out schema_out).2 = none) :
    (f.release array_data_out schema_out).1.2.1 = some f.array_data ∧
    (f.release array_data_out schema_out).1.2.2 = some f.schema ∧
    (f.release array_data_out schema_out).1.1 =
      { array_data := { f.array_data with release := none },
        schema := { f.schema with release := none } } ∧
    (f.release array_data_out schema_out).1.1.array_data.release = none ∧
    (f.release array_data_out schema_out).1.1.schema.release = none ∧
    (∀ foreign_array foreign_schema h,
      CArrayFinalizer.destroy foreign_array foreign_schema h
          (f.release array_data_out schema_out).1.1 =
        .ok (h, (f.release array_data_out schema_out).1.1)) ∧
    (∀ (g : arrow.hpp.builder.CArrayFinalizer) (x : arrow.hpp.builder.ArrowArray)
        (y : arrow.hpp.builder.ArrowSchema), x.release = none → y.release = none →
      g.release (some x) (some y) =
        .ok (g.array_data, g.schema,
          { array_data := { g.array_data with release := none },
            schema := { g.schema with release := none } })) := by
  rcases finalizer_release_cases f array_data_out schema_out with
    ⟨_, what, he⟩ | ⟨_, he⟩
  · rw [he] at hok
    cases hok
  · rw [he]
    refine ⟨rfl, rfl, rfl, rfl, rfl, ?_, ?_⟩
    · intro foreign_array foreign_schema h
      exact finalizer_destroy_released foreign_array foreign_schema h _ rfl rfl
    · intro g x y hx hy
      rcases finalizer_value_release_cases g (some x) (some y) with
        ⟨hc, _⟩ | ⟨_, hv⟩
      · rcases hc with hc | hc | ⟨x1, hc, hr⟩ | ⟨y1, hc, hr⟩
        · cases hc
        · cases hc
        · injection hc with hc
          subst hc
          exact absurd hx hr
        · injection hc with hc
          subst hc
          exact absurd hy hr
      · exact hv

/-- C14 on a finalizer allocated with one buffer slot and two children, released
into two output structs whose `release` is null. -/
theorem finalizer_release_hands_over_witness :
    (((CArrayFinalizer.allocate (fun _ _ h => .ok h) (fun _ _ h => .ok h) (fun _ _ => false)
        { live := fun _ => false, next := 0 } CArrayFinalizer.new 1 2).2.1.release
        (some ArrowArray.unreleased) (some ArrowSchema.unreleased)).1.2.1 =
      some (CArrayFinalizer.allocate (fun _ _ h => .ok h) (fun _ _ h => .ok h) (fun _ _ => false)
        { live := fun _ => false, next := 0 } CArrayFinalizer.new 1 2).2.1.array_data) ∧
    (∀ h, CArrayFinalizer.destroy (fun _ _ h => .ok h) (fun _ _ h => .ok h) h
        ((CArrayFinalizer.allocate (fun _ _ h => .ok h) (fun _ _ h => .ok h) (fun _ _ => false)
          { live := fun _ => false, next := 0 } CArrayFinalizer.new 1 2).2.1.release
          (some ArrowArray.unreleased) (some ArrowSchema.unreleased)).1.1 =
      .ok (h, ((CArrayFinalizer.allocate (fun _ _ h => .ok h) (fun _ _ h => .ok h)
          (fun _ _ => false) { live := fun _ => false, next := 0 } CArrayFinalizer.new 1 2).2.1.release
          (some ArrowArray.unreleased) (some ArrowSchema.unreleased)).1.1)) :=
  ⟨(finalizer_release_hands_over
      (CArrayFinalizer.allocate (fun _ _ h => .ok h) (fun _ _ h => .ok h) (fun _ _ => false)
        { live := fun _ => false, next := 0 } CArrayFinalizer.new 1 2).2.1
      (some ArrowArray.unreleased) (some ArrowSchema.unreleased) rfl).1,
   fun h => (finalizer_release_hands_over
      (CArrayFinalizer.allocate (fun _ _ h => .ok h) (fun _ _ h => .ok h) (fun _ _ => false)
        { live := fun _ => false, next := 0 } CArrayFinalizer.new 1 2).2.1
      (some ArrowArray.unreleased) (some ArrowSchema.unreleased) rfl).2.2.2.2.2.1
      (fun _ _ h => .ok h) (fun _ _ h => .ok h) h⟩

end arrow.hpp.builder.tracked

namespace arrow.hpp.builder.tracked

/-- C15: the two release callbacks are idempotent.  When an invocation of
`arrow_hpp_builder_release_array_data_internal` (or of
`arrow_hpp_builder_release_schema_internal`) returns, the `release` member of
the struct is null, and a second invocation on it returns the same heap and the
same struct: it frees nothing.  An invocation on a null pointer, or on a struct
whose `release` is null, likewise changes nothing.  On a struct as
`allocate_array_data` (`allocate_schema`) builds it, whose blocks are
outstanding allocations, the first invocation does return, having freed those
blocks. -/
theorem release_callbacks_are_idempotent :
    (∀ foreign h node h1 node1,
      arrow_hpp_builder_release_array_data_internal foreign h node = .ok (h1, node1) →
      (∀ a, node1 = some a → a.release = none) ∧
      arrow_hpp_builder_release_array_data_internal foreign h1 node1 = .ok (h1, node1)) ∧
    (∀ foreign h, arrow_hpp_builder_release_array_data_internal foreign h none = .ok (h, none)) ∧
    (∀ foreign h a, a.release = none →
      arrow_hpp_builder_release_array_data_internal foreign h (some a) = .ok (h, some a)) ∧
    (∀ foreign h base own a, a.release ≠ none → a.Flat → h.Split base (a.blocks ++ own) →
      ∃ h1, arrow_hpp_builder_release_array_data_internal foreign h (some a) =
          .ok (h1, some { a with release := none }) ∧ h1.Split base own) ∧
    (∀ foreign h node h1 node1,
      arrow_hpp_builder_release_schema_internal foreign h node = .ok (h1, node1) →
      (∀ s, node1 = some s → s.release = none) ∧
      arrow_hpp_builder_release_schema_internal foreign h1 node1 = .ok (h1, node1)) ∧
    (∀ foreign h, arrow_hpp_builder_release_schema_internal foreign h none = .ok (h, none)) ∧
    (∀ foreign h s, s.release = none →
      arrow_hpp_builder_release_schema_internal foreign h (some s) = .ok (h, some s)) ∧
    (∀ foreign h base own s, s.release ≠ none → s.Flat → h.Split base (s.blocks ++ own) →
      ∃ h1, arrow_hpp_builder_release_schema_internal foreign h (some s) =
          .ok (h1, some { s with release := none }) ∧ h1.Split base own) := by
  have hA : ∀ (foreign : Nat → ArrowArray → Heap → Except Fault Heap) h a, a.release = none →
      arrow_hpp_builder_release_array_data_internal foreign h (some a) = .ok (h, some a) := by
    intro foreign h a ha
    simp only [arrow_hpp_builder_release_array_data_internal, ha, ne_eq, not_true_eq_false,
      if_false]
  have hS : ∀ (foreign : Nat → ArrowSchema → Heap → Except Fault Heap) h s, s.release = none →
      arrow_hpp_builder_release_schema_internal foreign h (some s) = .ok (h, some s) := by
    intro foreign h s hs
    simp only [arrow_hpp_builder_release_schema_internal, hs, ne_eq, not_true_eq_false,
      if_false]
  refine ⟨?_, fun _ _ => rfl, hA, ?_, ?_, fun _ _ => rfl, hS, ?_⟩
  · intro foreign h node h1 node1 hr
    cases node with
    | none =>
      simp only [arrow_hpp_builder_release_array_data_internal] at hr
      injection hr with hr
      injection hr with e1 e2
      subst e1 e2
      exact ⟨fun a ha => (by cases ha), rfl⟩
    | some a =>
      by_cases hrel : a.release ≠ none
      · simp only [arrow_hpp_builder_release_array_data_internal, if_pos hrel] at hr
        split at hr
        · cases hr
        · injection hr with hr
          injection hr with e1 e2
          subst e1 e2
          refine ⟨fun a1 ha => ?_, hA foreign _ _ rfl⟩
          injection ha with ha
          rw [← ha]
      · have hnone : a.release = none := not_not.mp hrel
        rw [hA foreign h a hnone] at hr
        injection hr with hr
        injection hr with e1 e2
        subst e1 e2
        refine ⟨fun a1 ha => ?_, hA foreign _ _ hnone⟩
        injection ha with ha
        rw [← ha]
        exact hnone
  · intro foreign h base own a hrel hf hs
    exact heap_array_callback_split foreign h base own a.blocks a (Or.inr ⟨hrel, hf, rfl⟩) hs
  · intro foreign h node h1 node1 hr
    cases node with
    | none =>
      simp only [arrow_hpp_builder_release_schema_internal] at hr
      injection hr with hr
      injection hr with e1 e2
      subst e1 e2
      exact ⟨fun a ha => (by cases ha), rfl⟩
    | some s =>
      by_cases hrel : s.release ≠ none
      · simp only [arrow_hpp_builder_release_schema_internal, if_pos hrel] at hr
        split at hr
        · cases hr
        · injection hr with hr
          injection hr with e1 e2
          subst e1 e2
          refine ⟨fun a1 ha => ?_, hS foreign _ _ rfl⟩
          injection ha with ha
          rw [← ha]
      · have hnone : s.release = none := not_not.mp hrel
        rw [hS foreign h s hnone] at hr
        injection hr with hr
        injection hr with e1 e2
        subst e1 e2
        refine ⟨fun a1 ha => ?_, hS foreign _ _ hnone⟩
        injection ha with ha
        rw [← ha]
        exact hnone
  · intro foreign h base own s hrel hf hs
    exact heap_schema_callback_split foreign h base own s.blocks s (Or.inr ⟨hrel, hf, rfl⟩) hs

/-- C15 on the array of a finalizer allocated with two buffer slots and two
children in an empty heap: the first invocation of the callback frees the four
blocks and sets `release` to null, and the second invocation changes nothing. -/
theorem release_callbacks_are_idempotent_witness :
    ∃ h1 a1,
      arrow_hpp_builder_release_array_data_internal (fun _ _ h => .ok h)
        (allocate_array_data (fun _ _ h => .ok h) (fun _ _ => false)
          { live := fun _ => false, next := 0 } 2 2).1
        (some (allocate_array_data (fun _ _ h => .ok h) (fun _ _ => false)
          { live := fun _ => false, next := 0 } 2 2).2.1) = .ok (h1, some a1) ∧
      (allocate_array_data (fun _ _ h => .ok h) (fun _ _ => false)
          { live := fun _ => false, next := 0 } 2 2).1.outstanding = [0, 1, 2, 3] ∧
      h1.outstanding = [] ∧ a1.release = none ∧
      arrow_hpp_builder_release_array_data_internal (fun _ _ h => .ok h) h1 (some a1) =
        .ok (h1, some a1) :=
  ⟨_, _, rfl, rfl, rfl, rfl,
    (release_callbacks_are_idempotent.1 (fun _ _ h => .ok h)
      (allocate_array_data (fun _ _ h => .ok h) (fun _ _ => false)
        { live := fun _ => false, next := 0 } 2 2).1
      (some (allocate_array_data (fun _ _ h => .ok h) (fun _ _ => false)
        { live := fun _ => false, next := 0 } 2 2).2.1) _ _ rfl).2⟩

end arrow.hpp.builder.tracked

namespace arrow.hpp.builder.tracked

theorem heap_outstanding_none (h : Heap) (hl : ∀ a, h.live a = false) : h.outstanding = [] := by
  unfold Heap.outstanding
  rw [List.filter_eq_nil_iff]
  intro a _
  simp [hl a]

/-- C16: a `CArrayFinalizer` that is constructed, allocated with
`allocate(n_buffers, n_children)`, given a buffer in any of its slots (distinct
outstanding blocks of the heap it started in) and destroyed without a call of
`release` runs to the end without freeing a block twice, whatever the allocator
does.  When `allocate` returned, the outstanding allocations at the end are those
of the start without the attached buffers: every block that `allocate` obtained
and every attached buffer has been freed once, so a heap that held only those
buffers ends with no outstanding allocation.  When `allocate` threw, the
outstanding allocations at the end are those of the start.  With an allocator
that never fails, `allocate` returns. -/
theorem finalizer_lifetime_leaks_nothing
    (foreign_array : Nat → ArrowArray → Heap → Except Fault Heap)
    (foreign_schema : Nat → ArrowSchema → Heap → Except Fault Heap)
    (oom : Nat → Int → Bool) (h0 : Heap) (n_buffers n_children : Int)
    (bufs : List (Option Addr)) (hv : h0.Valid) (hlen : bufs.length = n_buffers.toNat)
    (hnd : bufs.reduceOption.Nodup) (hlive : ∀ p ∈ bufs.reduceOption, h0.live p = true) :
    ∃ h2,
      CArrayFinalizer.lifetime foreign_array foreign_schema oom h0 n_buffers n_children bufs =
        .ok h2 ∧
      ((CArrayFinalizer.allocate foreign_array foreign_schema oom h0 CArrayFinalizer.new
          n_buffers n_children).2.2 = none →
        (∀ a, h2.live a = (h0.live a && !decide (a ∈ bufs.reduceOption))) ∧
        ((∀ a, h0.live a = true → a ∈ bufs.reduceOption) → h2.outstanding = [])) ∧
      ((CArrayFinalizer.allocate foreign_array foreign_schema oom h0 CArrayFinalizer.new
          n_buffers n_children).2.2 ≠ none →
        ∀ a, h2.live a = h0.live a) ∧
      ((∀ n k, oom n k = false) →
        (CArrayFinalizer.allocate foreign_array foreign_schema oom h0 CArrayFinalizer.new
          n_buffers n_children).2.2 = none) := by
  obtain ⟨h1, f1, e, h2, ea, el, hcase⟩ := heap_lifetime foreign_array foreign_schema oom h0
    n_buffers n_children bufs hv hlen hnd hlive
  refine ⟨h2, el, ?_, ?_, ?_⟩
  · intro hok
    rw [ea] at hok
    simp only at hok
    rcases hcase with ⟨_, hl⟩ | ⟨⟨what, he⟩, _⟩
    · refine ⟨hl, fun hall => heap_outstanding_none h2 (fun a => ?_)⟩
      rw [hl a]
      cases hla : h0.live a with
      | false => rfl
      | true => simp [hall a hla]
    · rw [he] at hok
      cases hok
  · intro hne
    rw [ea] at hne
    simp only at hne
    rcases hcase with ⟨he, _⟩ | ⟨_, hl⟩
    · exact absurd he hne
    · exact hl
  · intro hn
    exact heap_finalizer_allocate_never foreign_array foreign_schema oom hn h0 _ _ _

/-- C16 on a heap that holds two buffers (blocks 0 and 1): a finalizer allocated
with two buffer slots and three children, given the two buffers and destroyed,
leaves no outstanding allocation; when the sixth call of `malloc` fails, the
exception leaves the two buffers, which were never attached, as the only
outstanding allocations. -/
theorem finalizer_lifetime_leaks_nothing_witness :
    (∃ h2,
      CArrayFinalizer.lifetime (fun _ _ h => .ok h) (fun _ _ h => .ok h) (fun _ _ => false)
        { live := fun a => decide (a < 2), next := 2 } 2 3 [some 0, some 1] = .ok h2 ∧
      h2.outstanding = []) ∧
    (CArrayFinalizer.allocate (fun _ _ h => .ok h) (fun _ _ h => .ok h) (fun _ _ => false)
        { live := fun a => decide (a < 2), next := 2 } CArrayFinalizer.new 2 3).1.outstanding =
      [0, 1, 2, 3, 4, 5, 6, 7, 8, 9, 10] ∧
    (CArrayFinalizer.lifetime (fun _ _ h => .ok h) (fun _ _ h => .ok h)
        (fun n _ => decide (n = 7)) { live := fun a => decide (a < 2), next := 2 } 2 3
        [some 0, some 1]).map Heap.outstanding = .ok [0, 1] := by
  obtain ⟨h2, hl, hok, _, hnever⟩ := finalizer_lifetime_leaks_nothing
    (fun _ _ h => .ok h) (fun _ _ h => .ok h) (fun _ _ => false)
    { live := fun a => decide (a < 2), next := 2 } 2 3 [some 0, some 1]
    (fun a ha => by simpa using ha) rfl (by decide)
    (fun p hp => by
      have hp2 : p ∈ [0, 1] := hp
      rw [List.mem_cons, List.mem_singleton] at hp2
      rcases hp2 with hp2 | hp2 <;> subst hp2 <;> rfl)
  refine ⟨⟨h2, hl, (hok (hnever (fun _ _ => rfl))).2 (fun a ha => ?_)⟩, rfl, rfl⟩
  have ha2 : (a : Nat) < 2 := by simpa using ha
  show a ∈ [0, 1]
  rw [List.mem_cons, List.mem_singleton]
  exact Nat.le_one_iff_eq_zero_or_eq_one.mp (Nat.lt_succ_iff.mp ha2)

end arrow.hpp.builder.tracked
namespace arrow.hpp.builder

open StringArrayBuilder

theorem slices_cursors_from (items : List (List Nat)) :
    ∀ (pre rest : List Nat),
      slices ((pre.length : Int) :: cursors_from (pre.length : Int) items)
        (pre ++ items.flatten ++ rest) = items := by
  induction items with
  | nil => intro pre rest; simp [cursors_from, slices]
  | cons item items ih =>
    intro pre rest
    have h1 : ((pre.length : Int)).toNat = pre.length := Int.toNat_natCast _
    have h2 : ((pre.length : Int) + item.length - pre.length).toNat = item.length := by omega
    have h3 : (pre.length : Int) + item.length = ((pre ++ item).length : Nat) := by
      rw [List.length_append]; push_cast; rfl
    have h4 : pre ++ (item :: items).flatten ++ rest = (pre ++ item) ++ items.flatten ++ rest := by
      simp [List.append_assoc]
    simp only [cursors_from, slices, h1, h2]
    congr 1
    · simp [List.append_assoc]
    · rw [h3, h4]
      exact ih (pre ++ item) rest

theorem slices_cursors (items : List (List Nat)) :
    slices (cursors items) items.flatten = items := by
  have := slices_cursors_from items [] []
  simpa [cursors] using this

theorem cursors_from_getLastD (items : List (List Nat)) :
    ∀ start : Int, (start :: cursors_from start items).getLast (by simp) =
      start + (items.flatten.length : Int) := by
  induction items with
  | nil => intro start; simp [cursors_from]
  | cons item items ih =>
    intro start
    simp only [cursors_from]
    rw [List.getLast_cons (by simp)]
    rw [ih]
    simp only [List.flatten_cons, List.length_append]
    push_cast
    ring

theorem cursors_getLastD (items : List (List Nat)) :
    (cursors items).getLastD 0 = (items.flatten.length : Int) := by
  have h := cursors_from_getLastD items 0
  unfold cursors
  rw [List.getLastD_eq_getLast?, List.getLast?_eq_getLast _ (by simp)]
  simpa using h

theorem offset_values_of_stores {w : Nat} {bb : BufferBuilder Int w} {xs : List Int}
    (hs : bb.Stores xs) (wrap : Block Int → Buffer)
    (hw : wrap = Buffer.int32 ∨ wrap = Buffer.int64) :
    Buffer.offset_values (bb.data_.map wrap) xs.length = some xs := by
  obtain ⟨blk, hd, hlen, hsz, hcap, htake⟩ := hs
  have hle : xs.length ≤ blk.length := by omega
  rcases hw with rfl | rfl <;>
    simp [hd, Buffer.offset_values, hle, htake, Block.values_map_some]

theorem byte_values_of_holds {bb : BufferBuilder Nat 1} {xs : List Nat}
    (hs : (bb.Fresh ∧ xs = []) ∨ bb.Stores xs) :
    Buffer.byte_values (bb.data_.map Buffer.uint8) xs.length = some xs := by
  rcases hs with ⟨_, rfl⟩ | ⟨blk, hd, hlen, hsz, hcap, htake⟩
  · simp [Buffer.byte_values]
  · have hle : xs.length ≤ blk.length := by omega
    unfold Buffer.byte_values
    by_cases h0 : xs.length = 0
    · have : xs = [] := List.length_eq_zero.mp h0
      simp [this]
    · simp [hd, h0, hle, htake, Block.values_map_some]

theorem string_release_publishes_items (oom : Int → Bool) {b : StringArrayBuilder}
    {items : List (List Nat)} (ht : Tracks b items [])
    (a_out : ArrowArray) (s_out : ArrowSchema) (ha : a_out.release = none)
    (hs : s_out.release = none) {a : ArrowArray} {s : ArrowSchema} {b1 : StringArrayBuilder}
    (h : b.release oom (some a_out) (some s_out) = .ok (a, s, b1)) :
    a.length = (items.length : Int) ∧ published_strings a = some items := by
  obtain ⟨p0, v, _, _, hae⟩ := string_release_eq oom b a_out s_out ha hs h
  obtain ⟨hsz, _, hdata, h32, hlg⟩ := ht
  rw [List.append_nil] at hdata
  have hoff : Buffer.offset_values
      (if b.is_large_ = true then b.large_offset_buffer_builder_.data_.map Buffer.int64
       else b.offset_buffer_builder_.data_.map Buffer.int32) (items.length + 1) =
      some (cursors items) := by
    rw [← cursors_length]
    cases hL : b.is_large_ with
    | true => simpa using offset_values_of_stores (hlg hL).1 Buffer.int64 (Or.inr rfl)
    | false => simpa using offset_values_of_stores (h32 hL).1 Buffer.int32 (Or.inl rfl)
  have hbytes := byte_values_of_holds hdata
  subst hae
  refine ⟨hsz, ?_⟩
  simp only [published_strings, hsz, Int.toNat_natCast, hoff, cursors_getLastD, hbytes,
    slices_cursors]

theorem string_write_element_tracks (oom : Int → Bool) {s s1 : StringArrayBuilder}
    {items : List (List Nat)} (item : String) (ht : Tracks s items [])
    (h : s.write_element oom item = .ok s1) :
    Tracks s1 (items ++ [c_str_bytes item]) [] := by
  unfold write_element at h
  cases hw : write_buffer oom s (c_str_bytes item) with
  | error e => rw [hw] at h; cases h
  | ok b1 =>
    rw [hw] at h
    have t1 := (string_write_buffer_tracks oom (c_str_bytes item) ht hw).1
    have t2 := (string_finish_element_tracks oom true t1 h).1
    simpa using t2

theorem string_write_element_total {s : StringArrayBuilder} {items : List (List Nat)}
    (item : String) (ht : Tracks s items []) :
    ∃ s1, s.write_element (fun _ => false) item = .ok s1 := by
  obtain ⟨b1, hw⟩ := string_write_buffer_total (c_str_bytes item) ht
  have t1 := (string_write_buffer_tracks _ (c_str_bytes item) ht hw).1
  obtain ⟨s1, hf⟩ := string_finish_element_total true t1
  exact ⟨s1, by simp only [write_element, hw, hf]⟩

end arrow.hpp.builder
namespace geoarrow

open arrow.hpp.builder arrow.hpp.builder.StringArrayBuilder

namespace GeoParquetTypeCollector

theorem unordered_set_insert_nodup {α : Type} [DecidableEq α] (set : List α) (item : α)
    (h : set.Nodup) : (unordered_set_insert set item).Nodup := by
  unfold unordered_set_insert
  by_cases hm : item ∈ set
  · simpa [hm] using h
  · simp only [hm, if_false]
    exact List.Nodup.append h (List.nodup_singleton _) (by simpa using hm)

theorem unordered_set_insert_mem {α : Type} [DecidableEq α] (set : List α) (item p : α) :
    p ∈ unordered_set_insert set item ↔ p ∈ set ∨ p = item := by
  unfold unordered_set_insert
  by_cases hm : item ∈ set
  · simp only [hm, if_true]
    constructor
    · exact Or.inl
    · rintro (h | rfl)
      · exact h
      · exact hm
  · simp [hm]

theorem collector_run_set (events : List Event) :
    ∀ c : GeoParquetTypeCollector, c.all_types_.Nodup →
      (run c events).all_types_.Nodup ∧
      ∀ p, p ∈ (run c events).all_types_ ↔
        p ∈ c.all_types_ ∨ p ∈ current_pairs c.geometry_type_ c.dim_ events := by
  induction events with
  | nil => intro c h; simp [run, current_pairs, h]
  | cons e es ih =>
    intro c h
    cases e with
    | new_dimensions dim =>
      have := ih (c.new_dimensions dim) h
      simpa [run, step, current_pairs, new_dimensions] using this
    | new_geometry_type g =>
      have := ih (c.new_geometry_type g) h
      simpa [run, step, current_pairs, new_geometry_type] using this
    | geom_start g size =>
      have := ih (c.geom_start g size).2
        (unordered_set_insert_nodup _ _ h)
      refine ⟨this.1, fun p => ?_⟩
      have h2 := this.2 p
      simp only [run, step, current_pairs, List.mem_cons]
      rw [h2]
      simp only [geom_start, unordered_set_insert_mem]
      tauto

theorem collector_set_perm (events : List Event) :
    (run new events).all_types_.Perm
      (current_pairs .GEOMETRY_TYPE_UNKNOWN .DIMENSIONS_UNKNOWN events).dedup := by
  obtain ⟨hn, hm⟩ := collector_run_set events new List.nodup_nil
  rw [List.perm_ext_iff_of_nodup hn (List.nodup_dedup _)]
  intro p
  rw [hm p, List.mem_dedup]
  simp [new]

theorem current_pairs_features (items : List (util.GeometryType × util.Dimensions)) :
    ∀ g d, current_pairs g d (features items) = items := by
  induction items with
  | nil => intro g d; rfl
  | cons item items ih =>
    intro g d
    simp [features, feature, current_pairs, ih]

theorem collector_write_items_tracks (oom : Int → Bool)
    (ps : List (util.GeometryType × util.Dimensions)) :
    ∀ (b b1 : StringArrayBuilder) (items : List (List Nat)),
      StringArrayBuilder.Tracks b items [] → write_items oom b ps = .ok b1 →
      StringArrayBuilder.Tracks b1 (items ++ ps.map (fun p => c_str_bytes (make_type p))) [] := by
  induction ps with
  | nil =>
    intro b b1 items ht h
    simp only [write_items] at h
    injection h with h
    subst h
    simpa using ht
  | cons p ps ih =>
    intro b b1 items ht h
    simp only [write_items] at h
    cases hw : b.write_element oom (make_type p) with
    | error e => rw [hw] at h; cases h
    | ok b2 =>
      rw [hw] at h
      have t2 := string_write_element_tracks oom (make_type p) ht hw
      have := ih b2 b1 _ t2 h
      simpa [List.append_assoc] using this

theorem collector_write_items_total
    (ps : List (util.GeometryType × util.Dimensions)) :
    ∀ (b : StringArrayBuilder) (items : List (List Nat)),
      StringArrayBuilder.Tracks b items [] → ∃ b1, write_items (fun _ => false) b ps = .ok b1 := by
  induction ps with
  | nil => intro b items _; exact ⟨b, rfl⟩
  | cons p ps ih =>
    intro b items ht
    obtain ⟨b2, hw⟩ := string_write_element_total (make_type p) ht
    obtain ⟨b1, h1⟩ := ih b2 _ (string_write_element_tracks _ (make_type p) ht hw)
    refine ⟨b1, ?_⟩
    simp only [write_items, hw, h1]

theorem collector_release_spec (oom : Int → Bool)
    (iteration : List (util.GeometryType × util.Dimensions) →
      List (util.GeometryType × util.Dimensions))
    (c : GeoParquetTypeCollector) (a_out : ArrowArray) (s_out : ArrowSchema)
    (ha : a_out.release = none) (hs : s_out.release = none)
    {a : ArrowArray} {s : ArrowSchema} {b : StringArrayBuilder}
    (h : c.release oom iteration (some a_out) (some s_out) = .ok (a, s, b)) :
    a.length = ((iteration c.all_types_).length : Int) ∧
    published_strings a =
      some ((iteration c.all_types_).map (fun p => c_str_bytes (make_type p))) := by
  unfold release at h
  cases h0 : StringArrayBuilder.new oom 1024 1024 with
  | error e => rw [h0] at h; cases h
  | ok b0 =>
    rw [h0] at h
    cases hw : write_items oom b0 (iteration c.all_types_) with
    | error e => simp only [hw] at h; cases h
    | ok b1 =>
      simp only [hw] at h
      have t0 := (string_new_tracks oom 1024 1024 h0).1
      have t1 := collector_write_items_tracks oom _ b0 b1 [] t0 hw
      have := string_release_publishes_items oom t1 a_out s_out ha hs h
      simpa using this

theorem collector_release_total
    (iteration : List (util.GeometryType × util.Dimensions) →
      List (util.GeometryType × util.Dimensions))
    (c : GeoParquetTypeCollector) (a_out : ArrowArray) (s_out : ArrowSchema)
    (ha : a_out.release = none) (hs : s_out.release = none) :
    ∃ r, c.release (fun _ => false) iteration (some a_out) (some s_out) = .ok r := by
  obtain ⟨b0, h0⟩ := string_new_total 1024 1024 (by decide) (by decide)
  have t0 := (string_new_tracks _ 1024 1024 h0).1
  obtain ⟨b1, hw⟩ := collector_write_items_total (iteration c.all_types_) b0 [] t0
  have t1 := collector_write_items_tracks _ _ b0 b1 [] t0 hw
  obtain ⟨r, hr⟩ := string_release_total t1 a_out s_out ha hs
  refine ⟨r, ?_⟩
  simp only [release, h0, hw, hr]

theorem perm_pair {α : Type} {l : List α} {x y : α} (h : l.Perm [x, y]) :
    l = [x, y] ∨ l = [y, x] := by
  have hl := h.length_eq
  match l, hl with
  | [u, v], _ =>
    have hu : u ∈ [x, y] := h.subset (by simp)
    have hv : v ∈ [x, y] := h.subset (by simp)
    have hx : x ∈ [u, v] := h.symm.subset (by simp)
    have hy : y ∈ [u, v] := h.symm.subset (by simp)
    simp only [List.mem_cons, List.mem_singleton, List.not_mem_nil, or_false] at hu hv hx hy
    rcases hu with rfl | rfl
    · rcases hv with rfl | rfl
      · rcases hy with rfl | rfl <;> simp
      · simp
    · rcases hv with rfl | rfl
      · simp
      · rcases hx with rfl | rfl <;> simp

/-- C21: whatever calls a geometry source makes on the type collector, and in
whatever order the range-`for` of `release` visits the set, the array that
`release` publishes has exactly one string element per distinct (geometry type,
dimensions) pair that was current at some `geom_start`: the elements are the
labels `make_type` of a list of pairs that is a permutation of the distinct
current pairs, so no pair is written twice and none is missed.  With an allocator
that never fails `release` completes.  For the features (Polygon, XYZ),
(Polygon, XYZ), (Point, XY) the array has the two elements `"Polygon Z"` and
`"Point"`, in one order or the other. -/
theorem collector_release_writes_one_label_per_pair
    (iteration : List (util.GeometryType × util.Dimensions) →
      List (util.GeometryType × util.Dimensions))
    (hiter : ∀ l, (iteration l).Perm l) (oom : Int → Bool) (events : List Event)
    (a_out : ArrowArray) (s_out : ArrowSchema)
    (ha : a_out.release = none) (hs : s_out.release = none) :
    (∀ a s b, (run new events).release oom iteration (some a_out) (some s_out) = .ok (a, s, b) →
      ∃ written : List (util.GeometryType × util.Dimensions),
        written.Perm
          (current_pairs .GEOMETRY_TYPE_UNKNOWN .DIMENSIONS_UNKNOWN events).dedup ∧
        written.Nodup ∧
        a.length = (written.length : Int) ∧
        published_strings a = some (written.map (fun p => c_str_bytes (make_type p)))) ∧
    (∃ r, (run new events).release (fun _ => false) iteration (some a_out) (some s_out) =
      .ok r) ∧
    (events = features [(.POLYGON, .XYZ), (.POLYGON, .XYZ), (.POINT, .XY)] →
      ∀ a s b, (run new events).release oom iteration (some a_out) (some s_out) =
          .ok (a, s, b) →
        a.length = 2 ∧
        (published_strings a = some [c_str_bytes "Polygon Z", c_str_bytes "Point"] ∨
         published_strings a = some [c_str_bytes "Point", c_str_bytes "Polygon Z"])) := by
  have hperm := (hiter (run new events).all_types_).trans (collector_set_perm events)
  refine ⟨?_, collector_release_total iteration _ a_out s_out ha hs, ?_⟩
  · intro a s b h
    obtain ⟨h1, h2⟩ := collector_release_spec oom iteration _ a_out s_out ha hs h
    exact ⟨_, hperm, hperm.nodup_iff.mpr (List.nodup_dedup _), h1, h2⟩
  · intro he a s b h
    obtain ⟨h1, h2⟩ := collector_release_spec oom iteration _ a_out s_out ha hs h
    subst he
    rw [current_pairs_features] at hperm
    have hd : ([(.POLYGON, .XYZ), (.POLYGON, .XYZ), (.POINT, .XY)] :
        List (util.GeometryType × util.Dimensions)).dedup =
        [(.POLYGON, .XYZ), (.POINT, .XY)] := by decide
    rw [hd] at hperm
    rcases perm_pair hperm with he | he
    · rw [he] at h1 h2
      exact ⟨h1, Or.inl h2⟩
    · rw [he] at h1 h2
      exact ⟨h1, Or.inr h2⟩

/-- Witness for C21: the features (Polygon, XYZ), (Polygon, XYZ), (Point, XY), a
set visited in insertion order, and two output structs whose `release` is
null. -/
theorem collector_release_writes_one_label_per_pair_witness :
    (∀ l : List (util.GeometryType × util.Dimensions), (id l).Perm l) ∧
    ArrowArray.unreleased.release = none ∧ ArrowSchema.unreleased.release = none ∧
    (run new (features [(.POLYGON, .XYZ), (.POLYGON, .XYZ), (.POINT, .XY)])).all_types_ =
      [(.POLYGON, .XYZ), (.POINT, .XY)] ∧
    ((∀ a s b, (run new (features [(.POLYGON, .XYZ), (.POLYGON, .XYZ), (.POINT, .XY)])).release
        (fun _ => false) id (some ArrowArray.unreleased) (some ArrowSchema.unreleased) =
          .ok (a, s, b) →
      ∃ written : List (util.GeometryType × util.Dimensions),
        written.Perm
          (current_pairs .GEOMETRY_TYPE_UNKNOWN .DIMENSIONS_UNKNOWN
            (features [(.POLYGON, .XYZ), (.POLYGON, .XYZ), (.POINT, .XY)])).dedup ∧
        written.Nodup ∧
        a.length = (written.length : Int) ∧
        published_strings a = some (written.map (fun p => c_str_bytes (make_type p)))) ∧
    (∃ r, (run new (features [(.POLYGON, .XYZ), (.POLYGON, .XYZ), (.POINT, .XY)])).release
        (fun _ => false) id (some ArrowArray.unreleased) (some ArrowSchema.unreleased) =
      .ok r) ∧
    (features [(.POLYGON, .XYZ), (.POLYGON, .XYZ), (.POINT, .XY)] =
        features [(.POLYGON, .XYZ), (.POLYGON, .XYZ), (.POINT, .XY)] →
      ∀ a s b, (run new (features [(.POLYGON, .XYZ), (.POLYGON, .XYZ), (.POINT, .XY)])).release
          (fun _ => false) id (some ArrowArray.unreleased) (some ArrowSchema.unreleased) =
          .ok (a, s, b) →
        a.length = 2 ∧
        (published_strings a = some [c_str_bytes "Polygon Z", c_str_bytes "Point"] ∨
         published_strings a = some [c_str_bytes "Point", c_str_bytes "Polygon Z"]))) :=
  ⟨fun _ => List.Perm.refl _, rfl, rfl, by decide,
    collector_release_writes_one_label_per_pair id (fun _ => List.Perm.refl _) (fun _ => false)
      (features [(.POLYGON, .XYZ), (.POLYGON, .XYZ), (.POINT, .XY)])
      ArrowArray.unreleased ArrowSchema.unreleased rfl rfl⟩

/-- C22: `make_type` returns the empty text for a pair whose geometry type is none
of the seven recognised ones, whatever its dimensions, and for a pair whose
dimensions are none of the four recognised ones, whatever its geometry type; it
is a total function, so there is no error.  For a pair whose two components are
both recognised the text is not empty. -/
theorem make_type_unrecognised_is_empty (g : util.GeometryType) (d : util.Dimensions) :
    ((g ≠ .POINT ∧ g ≠ .LINESTRING ∧ g ≠ .POLYGON ∧ g ≠ .MULTIPOINT ∧ g ≠ .MULTILINESTRING ∧
        g ≠ .MULTIPOLYGON ∧ g ≠ .GEOMETRYCOLLECTION) → make_type (g, d) = "") ∧
    ((d ≠ .XY ∧ d ≠ .XYZ ∧ d ≠ .XYM ∧ d ≠ .XYZM) → make_type (g, d) = "") ∧
    (((g = .POINT ∨ g = .LINESTRING ∨ g = .POLYGON ∨ g = .MULTIPOINT ∨ g = .MULTILINESTRING ∨
        g = .MULTIPOLYGON ∨ g = .GEOMETRYCOLLECTION) ∧
      (d = .XY ∨ d = .XYZ ∨ d = .XYM ∨ d = .XYZM)) → make_type (g, d) ≠ "") ∧
    make_type (.GEOMETRY_TYPE_UNKNOWN, .XYZ) = "" ∧
    make_type (.POLYGON, .DIMENSIONS_UNKNOWN) = "" ∧
    make_type (.GEOMETRY_TYPE_UNKNOWN, .DIMENSIONS_UNKNOWN) = "" := by
  refine ⟨?_, ?_, ?_, rfl, rfl, rfl⟩
  · rintro ⟨h1, h2, h3, h4, h5, h6, h7⟩
    cases g <;> first | rfl | contradiction
  · rintro ⟨h1, h2, h3, h4⟩
    cases d <;> first
      | contradiction
      | (cases g <;> rfl)
  · rintro ⟨hg, hd⟩
    rcases hg with rfl | rfl | rfl | rfl | rfl | rfl | rfl <;>
      rcases hd with rfl | rfl | rfl | rfl <;> decide

end GeoParquetTypeCollector
end geoarrow
namespace arrow.hpp.builder
namespace BitmapBuilder

theorem bitmap_inv_buffer_size {b : BitmapBuilder} {vals : List Bool} (hinv : Inv b vals) :
    b.buffer_size_ = vals.length % 8 := by
  obtain ⟨cs, ps, h1, h2, h3, _⟩ := hinv
  rw [h3, h1, List.length_append, unpack_length]
  omega

theorem bitmap_release_padded (oom : Int → Bool) {b b1 : BitmapBuilder} {vals : List Bool}
    {blk : Block Nat} (hinv : Inv b vals) (h : b.release oom = .ok (some blk, b1)) :
    (∀ i, i < vals.length + (8 - vals.length % 8) →
      bitmap_get blk i = (vals ++ List.replicate (8 - vals.length % 8) false)[i]?) ∧
    8 * b1.buffer_builder_.size_ = ((vals.length + (8 - vals.length % 8) : Nat) : Int) := by
  have hbs := bitmap_inv_buffer_size hinv
  unfold release at h
  by_cases hcond : b.allocated_ = true ∨ b.null_count_ > 0
  · rw [if_pos hcond, bitmap_pad_eq_writes] at h
    cases hw : writes oom b (List.replicate (8 - b.buffer_size_) false) with
    | error e => rw [hw] at h; cases h
    | ok b2 =>
      rw [hw] at h
      obtain ⟨hinv2, _⟩ := bitmap_writes_inv oom _ b b2 vals hinv hw
      have hbs2 := bitmap_inv_buffer_size hinv2
      obtain ⟨cs2, ps2, hvals2, hps2, hsz2, _, _, _, hal2, _⟩ := hinv2
      have hlen : (vals ++ List.replicate (8 - b.buffer_size_) false).length =
          vals.length + (8 - vals.length % 8) := by
        rw [List.length_append, List.length_replicate, hbs]
      have hps0 : ps2 = [] := by
        apply List.length_eq_zero.mp
        rw [← hsz2, hbs2, hlen]
        omega
      rw [hps0, List.append_nil, hbs] at hvals2
      cases halloc : b2.allocated_ with
      | false =>
        simp only [halloc, Bool.false_eq_true, if_false] at h
        injection h with h
        injection h with hp _
        cases hp
      | true =>
        have hst := hal2 halloc
        simp only [halloc, if_true, BufferBuilder.release] at h
        injection h with h
        injection h with hp hb1
        have hl8 : 8 * cs2.length = vals.length + (8 - vals.length % 8) := by
          rw [← unpack_length, ← hvals2, List.length_append, List.length_replicate]
        constructor
        · intro i hi
          have hd : b2.buffer_builder_.data_ = some blk := hp
          rw [bitmap_stores_bitmap_get hst hd i (by omega), ← hvals2]
        · obtain ⟨_, _, _, hsize, _⟩ := id hst
          rw [← hb1]
          show 8 * b2.buffer_builder_.size_ = _
          rw [hsize]
          exact_mod_cast hl8
  · rw [if_neg hcond] at h
    have hal : b.allocated_ = false := by
      cases hb : b.allocated_ with
      | false => rfl
      | true => exact absurd (Or.inl hb) hcond
    simp only [hal, Bool.false_eq_true, if_false] at h
    injection h with h
    injection h with hp _
    cases hp

/-- C23 (amended): when `release()` returns a buffer for `N` values written to a
`BitmapBuilder` and `N` is not a multiple of 8, the bits of the byte that holds
the last written value at positions `N` and beyond are 0 (`false`, not valid),
the bits below `N` are the values written, and the builder has written exactly
`(N - 1) / 8 + 1` bytes: none beyond the one that holds the last written value.
With an allocator that never fails, values that contain a `false` get a buffer. -/
theorem bitmap_release_pads_with_zero_bits (oom : Int → Bool) (capacity guess : Int)
    (vals : List Bool) :
    (∀ b0 b blk b1, new oom capacity guess = .ok b0 → writes oom b0 vals = .ok b →
      b.release oom = .ok (some blk, b1) → vals.length % 8 ≠ 0 →
      (∀ i, vals.length ≤ i → i < 8 * ((vals.length - 1) / 8 + 1) →
        bitmap_get blk i = some false) ∧
      (∀ i, i < vals.length → bitmap_get blk i = vals[i]?) ∧
      b1.buffer_builder_.size_ = (((vals.length - 1) / 8 + 1 : Nat) : Int)) ∧
    ((guess = 0 ∨ 0 ≤ capacity) → false ∈ vals → ∃ b0 b blk b1,
      new (fun _ => false) capacity guess = .ok b0 ∧ writes (fun _ => false) b0 vals = .ok b ∧
      b.release (fun _ => false) = .ok (some blk, b1)) := by
  constructor
  · intro b0 b blk b1 h0 hw hr hn
    have hinv := (bitmap_writes_inv oom vals b0 b [] (bitmap_new_inv oom capacity guess h0).1 hw).1
    rw [List.nil_append] at hinv
    obtain ⟨hbits, hsize⟩ := bitmap_release_padded oom hinv hr
    have hN : 8 * ((vals.length - 1) / 8 + 1) = vals.length + (8 - vals.length % 8) := by
      omega
    refine ⟨?_, ?_, ?_⟩
    · intro i h1 h2
      rw [hbits i (by omega), List.getElem?_append_right h1,
        List.getElem?_replicate]
      have : i - vals.length < 8 - vals.length % 8 := by omega
      simp [this]
    · intro i hi
      rw [hbits i (by omega), List.getElem?_append_left hi]
    · rw [← hN] at hsize
      push_cast at hsize ⊢
      omega
  · intro hc hfalse
    obtain ⟨b0, h0⟩ := bitmap_new_total capacity guess hc
    obtain ⟨b, hb⟩ := bitmap_writes_total vals b0 [] (bitmap_new_inv _ capacity guess h0).1
    have hinv := (bitmap_writes_inv _ vals b0 b [] (bitmap_new_inv _ capacity guess h0).1 hb).1
    rw [List.nil_append] at hinv
    obtain ⟨⟨p, b1⟩, hr⟩ := bitmap_release_total hinv
    obtain ⟨blk, hp, _⟩ := bitmap_release_inv _ hinv hfalse hr
    subst hp
    exact ⟨b0, b, blk, b1, h0, hb, hr⟩

/-- C23 as stated fails: after the single value `false`, `release()` returns a
buffer whose padding bit 1 is `false`, not valid; and after the eight values
`false, true, ..., true`, whose last value sits in byte 0, the builder has
written two bytes. -/
theorem bitmap_release_padding_counterexample :
    (∃ b0 b blk b1, new (fun _ => false) 16 0 = .ok b0 ∧
      writes (fun _ => false) b0 [false] = .ok b ∧
      b.release (fun _ => false) = .ok (some blk, b1) ∧
      bitmap_get blk 1 = some false ∧ bitmap_get blk 1 ≠ some true) ∧
    (∃ b0 b blk b1, new (fun _ => false) 16 0 = .ok b0 ∧
      writes (fun _ => false) b0 [false, true, true, true, true, true, true, true] = .ok b ∧
      b.release (fun _ => false) = .ok (some blk, b1) ∧
      (8 - 1) / 8 = 0 ∧ b1.buffer_builder_.size_ = 2 ∧ bitmap_get blk 8 = some false) :=
  ⟨⟨_, _, _, _, rfl, rfl, rfl, by decide, by decide⟩,
   ⟨_, _, _, _, rfl, rfl, rfl, by decide, by decide, by decide⟩⟩

end BitmapBuilder
end arrow.hpp.builder
namespace arrow.hpp.builder
namespace BufferBuilder

variable {α : Type} {w : Nat}

theorem buffer_reallocate_capacity (oom : Int → Bool) (hw : 0 < w) (b b1 : BufferBuilder α w)
    (c : Int) (h : reallocate oom b c = .ok b1) :
    b1.capacity_ = c ∧ b1.size_ = b.size_ ∧ b1.growth_factor_ = b.growth_factor_ := by
  rcases buffer_reallocate_eq_ok oom hw b b1 c h with ⟨hc, rfl⟩ | ⟨_, _, rfl⟩
  · exact ⟨hc.symm, rfl, rfl⟩
  · exact ⟨rfl, rfl, rfl⟩

/-- C24 (amended): on a `BufferBuilder` (growth factor 2, as every constructor
sets it), when `size() + n` exceeds `capacity()`, `reserve(n)` grows the capacity
to the larger of `2 * capacity() + 1` and `size() + n`; when `size() + n` does
not exceed `capacity()` it leaves the builder unchanged.  The size never changes,
and with an allocator that never fails (and `size() + n` not negative) the call
returns. -/
theorem buffer_reserve_growth_rule (oom : Int → Bool) (b : BufferBuilder α (w + 1)) (n : Int)
    (hg : b.growth_factor_ = 2) :
    (∀ b1, reserve oom b n = .ok b1 →
      (b.size + n > b.capacity → b1.capacity = max (2 * b.capacity + 1) (b.size + n)) ∧
      (b.size + n ≤ b.capacity → b1 = b) ∧ b1.size = b.size) ∧
    (0 ≤ b.size + n → ∃ b1, reserve (fun _ => false) b n = .ok b1) := by
  constructor
  · intro b1 h
    unfold reserve at h
    simp only [capacity, size]
    by_cases hgt : b.size_ + n > b.capacity_
    · rw [if_pos hgt] at h
      obtain ⟨hc, hs, _⟩ := buffer_reallocate_capacity oom (Nat.succ_pos w) b b1 _ h
      refine ⟨fun _ => ?_, fun hle => absurd hgt (not_lt.mpr hle), hs⟩
      rw [hc, hg, mul_comm]
    · rw [if_neg hgt] at h
      injection h with h
      subst h
      exact ⟨fun hc => absurd hc hgt, fun _ => rfl, rfl⟩
  · intro h0
    exact buffer_reserve_total (Nat.succ_pos w) b n h0

/-- Witness for C24: a full buffer of capacity 16 asked for 4 more elements grows
to capacity 33. -/
theorem buffer_reserve_growth_rule_witness :
    ({ data_ := some (List.replicate 16 (some 0)), capacity_ := 16, size_ := 16,
       growth_factor_ := 2 } : BufferBuilder Nat 1).growth_factor_ = 2 ∧
    ((∀ b1, reserve (fun _ => false)
        ({ data_ := some (List.replicate 16 (some 0)), capacity_ := 16, size_ := 16,
           growth_factor_ := 2 } : BufferBuilder Nat 1) 4 = .ok b1 →
      ((16 : Int) + 4 > 16 → b1.capacity = max (2 * 16 + 1) (16 + 4)) ∧
      ((16 : Int) + 4 ≤ 16 → b1 =
        ({ data_ := some (List.replicate 16 (some 0)), capacity_ := 16, size_ := 16,
           growth_factor_ := 2 } : BufferBuilder Nat 1)) ∧ b1.size = 16) ∧
    ((0 : Int) ≤ 16 + 4 → ∃ b1, reserve (fun _ => false)
        ({ data_ := some (List.replicate 16 (some 0)), capacity_ := 16, size_ := 16,
           growth_factor_ := 2 } : BufferBuilder Nat 1) 4 = .ok b1)) :=
  ⟨rfl, buffer_reserve_growth_rule (fun _ => false)
    ({ data_ := some (List.replicate 16 (some 0)), capacity_ := 16, size_ := 16,
       growth_factor_ := 2 } : BufferBuilder Nat 1) 4 rfl⟩

/-- C24 as stated fails: a builder constructed with capacity 16 and filled with 16
elements has `size() + 4 > capacity()`, and `reserve(4)` grows its capacity to
33, not to `2 * 16 + 4 = 36`. -/
theorem buffer_reserve_growth_counterexample :
    ∃ b0 b b1 : BufferBuilder Nat 1,
      new (fun _ => false) 16 = .ok b0 ∧
      write_buffer (fun _ => false) b0 (List.replicate 16 0) = .ok b ∧
      b.capacity = 16 ∧ b.size = 16 ∧ b.size + 4 > b.capacity ∧
      reserve (fun _ => false) b 4 = .ok b1 ∧
      b1.capacity = 33 ∧ b1.capacity ≠ 2 * b.capacity + 4 :=
  ⟨_, _, _, rfl, rfl, by decide, by decide, by decide, rfl, by decide, by decide⟩

end BufferBuilder
end arrow.hpp.builder
namespace arrow.hpp.builder

namespace BufferBuilder

variable {α : Type} {w : Nat}

theorem buffer_reallocate_size (oom : Int → Bool) (b b1 : BufferBuilder α w)
    (c : Int) (h : reallocate oom b c = .ok b1) : b1.size_ = b.size_ := by
  unfold reallocate at h
  by_cases hc : c = b.capacity_
  · rw [if_pos hc] at h
    injection h with h
    rw [← h]
  · rw [if_neg hc] at h
    cases hr : realloc oom b.data_ (c * (w : Int)) w with
    | none => simp only [hr] at h; cases h
    | some d =>
      simp only [hr] at h
      injection h with h
      rw [← h]

theorem buffer_write_buffer_size (oom : Int → Bool) (b b1 : BufferBuilder α w)
    (xs : List α) (h : write_buffer oom b xs = .ok b1) :
    b1.size = b.size + xs.length := by
  unfold write_buffer at h
  cases hr : reserve oom b xs.length with
  | error e => rw [hr] at h; cases h
  | ok b2 =>
    rw [hr] at h
    have hs : b2.size_ = b.size_ := by
      unfold reserve at hr
      by_cases hgt : b.size_ + (xs.length : Int) > b.capacity_
      · rw [if_pos hgt] at hr
        exact buffer_reallocate_size oom b b2 _ hr
      · rw [if_neg hgt] at hr
        injection hr with hr
        rw [← hr]
    cases hm : memcpy b2.data_ b2.size_ xs with
    | error e => simp only [hm] at h; cases h
    | ok d =>
      simp only [hm] at h
      injection h with h
      rw [← h]
      simp only [size, advance, hs]

end BufferBuilder

namespace StringArrayBuilder

theorem string_write_buffer_mode (oom : Int → Bool) (s s1 : StringArrayBuilder)
    (xs : List Nat) (h : write_buffer oom s xs = .ok s1) :
    (s1.is_large_ = true ↔
      (s.is_large_ = true ∨ INT32_MAX < s.data_buffer_builder_.size + (xs.length : Int))) ∧
    s1.data_buffer_builder_.size = s.data_buffer_builder_.size + (xs.length : Int) := by
  unfold write_buffer at h
  by_cases hn : s.needs_make_large (xs.length : Int) = true
  · rw [if_pos hn] at h
    have hn2 := hn
    simp only [needs_make_large, Bool.and_eq_true, Bool.not_eq_true', decide_eq_true_eq] at hn2
    cases hm : make_large oom s with
    | error e => rw [hm] at h; cases h
    | ok b1 =>
      rw [hm] at h
      have hb1 : b1.is_large_ = true ∧ b1.data_buffer_builder_ = s.data_buffer_builder_ := by
        unfold make_large at hm
        cases hl : make_large_loop oom s.offset_buffer_builder_
            (List.range s.offset_buffer_builder_.size.toNat) s.large_offset_buffer_builder_ with
        | error e => rw [hl] at hm; cases hm
        | ok l1 =>
          rw [hl] at hm
          injection hm with hm
          rw [← hm]
          exact ⟨rfl, rfl⟩
      cases hd : b1.data_buffer_builder_.write_buffer oom xs with
      | error e => simp only [hd] at h; cases h
      | ok d =>
        simp only [hd] at h
        injection h with h
        have hsz := BufferBuilder.buffer_write_buffer_size oom _ _ xs hd
        rw [hb1.2] at hsz
        rw [← h]
        refine ⟨?_, hsz⟩
        simp only [hb1.1, true_iff]
        exact Or.inr hn2.2
  · rw [if_neg hn] at h
    cases hd : s.data_buffer_builder_.write_buffer oom xs with
    | error e => simp only [hd] at h; cases h
    | ok d =>
      simp only [hd] at h
      injection h with h
      have hsz := BufferBuilder.buffer_write_buffer_size oom _ _ xs hd
      rw [← h]
      refine ⟨?_, hsz⟩
      show s.is_large_ = true ↔ _
      simp only [needs_make_large, Bool.and_eq_true, Bool.not_eq_true', decide_eq_true_eq,
        not_and, not_lt] at hn
      constructor
      · exact Or.inl
      · rintro (hL | hbig)
        · exact hL
        · cases hL : s.is_large_ with
          | true => rfl
          | false => have := hn hL; omega

theorem string_finish_element_mode (oom : Int → Bool) (s s1 : StringArrayBuilder)
    (nn : Bool) (h : finish_element oom s nn = .ok s1) : s1.is_large_ = s.is_large_ := by
  unfold finish_element at h
  cases hL : s.is_large_ with
  | true =>
    simp only [hL, if_true] at h
    cases hw : s.large_offset_buffer_builder_.write_element oom s.data_buffer_builder_.size with
    | error e => simp only [hw] at h; cases h
    | ok l1 =>
      simp only [hw] at h
      cases hv : s.validity_buffer_builder_.write_element oom nn with
      | error e => simp only [hv] at h; cases h
      | ok v =>
        simp only [hv] at h
        injection h with h
        rw [← h]
  | false =>
    simp only [hL, Bool.false_eq_true, if_false] at h
    cases hw : s.offset_buffer_builder_.write_element oom
        (toInt32 s.data_buffer_builder_.size) with
    | error e => simp only [hw] at h; cases h
    | ok o1 =>
      simp only [hw] at h
      cases hv : s.validity_buffer_builder_.write_element oom nn with
      | error e => simp only [hv] at h; cases h
      | ok v =>
        simp only [hv] at h
        injection h with h
        rw [← h]

theorem string_run_stays_large (oom : Int → Bool) (ops : List Op) :
    ∀ (s s1 : StringArrayBuilder), s.is_large_ = true → run oom s ops = .ok s1 →
      s1.is_large_ = true := by
  induction ops with
  | nil =>
    intro s s1 hL h
    simp only [run] at h
    injection h with h
    rw [← h]
    exact hL
  | cons op ops ih =>
    intro s s1 hL h
    simp only [run] at h
    cases hs : step oom s op with
    | error e => simp only [hs] at h; cases h
    | ok s2 =>
      simp only [hs] at h
      refine ih s2 s1 ?_ h
      cases op with
      | write_buffer buffer =>
        exact (string_write_buffer_mode oom s s2 buffer hs).1.mpr (Or.inl hL)
      | finish_element nn =>
        rw [string_finish_element_mode oom s s2 nn hs]
        exact hL

/-- C25: for every state of a `StringArrayBuilder` and every buffer of `n` bytes,
a `write_buffer` that returns leaves the data size at the old size plus `n`, and
it switches the builder to large (64-bit offset) mode if and only if the builder
was not large and that size exceeds `INT32_MAX = 2^31 - 1`; a write that brings
the size to exactly `2^31 - 1` leaves the mode as it was; a builder that is large
stays large through every later `write_buffer` and `finish_element`.  With an
allocator that never fails, the write returns in every state reached from the
constructor. -/
theorem string_write_buffer_promotes_past_int32_max (oom : Int → Bool)
    (s : StringArrayBuilder) (buffer : List Nat) :
    (∀ s1, write_buffer oom s buffer = .ok s1 →
      s1.data_buffer_builder_.size = s.data_buffer_builder_.size + (buffer.length : Int) ∧
      ((s.is_large_ = false ∧ s1.is_large_ = true) ↔
        (s.is_large_ = false ∧ s1.data_buffer_builder_.size > 2 ^ 31 - 1)) ∧
      (s1.data_buffer_builder_.size = 2 ^ 31 - 1 → s1.is_large_ = s.is_large_) ∧
      (s.is_large_ = true → s1.is_large_ = true) ∧
      (∀ ops s2, s1.is_large_ = true → run oom s1 ops = .ok s2 → s2.is_large_ = true)) ∧
    (∀ capacity guess ops, -1 ≤ capacity → -1 ≤ guess →
      ∃ b0 b b1, new (fun _ => false) capacity guess = .ok b0 ∧
        run (fun _ => false) b0 ops = .ok b ∧
        write_buffer (fun _ => false) b buffer = .ok b1) := by
  constructor
  · intro s1 h
    obtain ⟨hiff, hsz⟩ := string_write_buffer_mode oom s s1 buffer h
    have hmax : INT32_MAX = 2 ^ 31 - 1 := by decide
    rw [hmax, ← hsz] at hiff
    refine ⟨hsz, ?_, ?_, ?_, ?_⟩
    · constructor
      · rintro ⟨h0, h1⟩
        refine ⟨h0, ?_⟩
        rcases hiff.mp h1 with hL | hbig
        · rw [h0] at hL; cases hL
        · exact hbig
      · rintro ⟨h0, hbig⟩
        exact ⟨h0, hiff.mpr (Or.inr hbig)⟩
    · intro he
      cases hL : s.is_large_ with
      | true => exact hiff.mpr (Or.inl hL)
      | false =>
        cases hL1 : s1.is_large_ with
        | false => rfl
        | true =>
          rcases hiff.mp hL1 with h2 | h2
          · rw [hL] at h2; cases h2
          · omega
    · intro hL
      exact hiff.mpr (Or.inl hL)
    · intro ops s2 hL hrun
      exact string_run_stays_large oom ops s1 s2 hL hrun
  · intro capacity guess ops hc hg
    obtain ⟨b0, h0⟩ := string_new_total capacity guess hc hg
    have t0 := (string_new_tracks _ capacity guess h0).1
    obtain ⟨b, hb⟩ := string_run_total ops b0 [] [] t0
    have t1 := (string_run_tracks _ ops b0 b [] [] t0 hb).1
    obtain ⟨b1, h1⟩ := string_write_buffer_total buffer t1
    exact ⟨b0, b, b1, h0, hb, h1⟩

end StringArrayBuilder
end arrow.hpp.builder
namespace arrow.hpp.builder

theorem finalizer_allocate_schema_name (oom : Int → Bool) (f f0 : CArrayFinalizer)
    (n_buffers n_children : Int) (h : f.allocate oom n_buffers n_children = .ok f0) :
    f0.schema.name = "" := by
  unfold CArrayFinalizer.allocate at h
  split at h
  · cases h
  · split at h
    · cases h
    · rename_i s0 hs0
      injection h with h
      subst h
      show s0.name = ""
      unfold allocate_schema at hs0
      simp only at hs0
      split at hs0
      · split at hs0
        · cases hs0
        · split at hs0
          · cases hs0
          · injection hs0 with hs0
            rw [← hs0]
      · injection hs0 with hs0
        rw [← hs0]

theorem finalizer_release_outputs (f f1 : CArrayFinalizer) (array_data : Option ArrowArray)
    (schema : Option ArrowSchema) (a : ArrowArray) (s : ArrowSchema)
    (h : f.release array_data schema = .ok (a, s, f1)) :
    a = f.array_data ∧ s = f.schema := by
  unfold CArrayFinalizer.release at h
  split at h
  · cases h
  · cases h
  · split at h
    · cases h
    · split at h
      · cases h
      · injection h with h
        injection h with h1 h2
        injection h2 with h2 h3
        exact ⟨h1.symm, h2.symm⟩

theorem struct_release_children_name (oom : Int → Bool) (cs : List ArrayBuilder) :
    ∀ (n i : Nat) (f f1 : CArrayFinalizer) (cs1 : List ArrayBuilder),
      ArrayBuilder.release_children oom cs n i f = .ok (f1, cs1) →
      f1.schema.name = f.schema.name := by
  induction cs with
  | nil =>
    intro n i f f1 cs1 h
    rw [ArrayBuilder.release_children] at h
    split at h
    · injection h with h
      injection h with h1 h2
      subst h1
      rfl
    · cases h
  | cons c cs ih =>
    intro n i f f1 cs1 h
    rw [ArrayBuilder.release_children] at h
    split at h
    · injection h with h
      injection h with h1 h2
      subst h1
      rfl
    · split at h
      · cases h
      · split at h
        · cases h
        · split at h
          · cases h
          · split at h
            · cases h
            · rename_i hrec
              injection h with h
              injection h with h1 h2
              subst h1
              have := ih _ _ _ _ _ hrec
              exact this

theorem float64_release_schema_name (oom : Int → Bool) (b b1 : Float64ArrayBuilder)
    (array_data : Option ArrowArray) (schema : Option ArrowSchema) (a : ArrowArray)
    (s : ArrowSchema) (h : b.release oom array_data schema = .ok (a, s, b1)) :
    s.name = "" := by
  unfold Float64ArrayBuilder.release at h
  split at h
  · cases h
  · rename_i f0 hf0
    have hn := finalizer_allocate_schema_name oom _ f0 _ _ hf0
    simp only at h
    split at h
    · cases h
    · split at h
      · cases h
      · split at h
        · cases h
        · split at h
          · cases h
          · rename_i hrel
            injection h with h
            injection h with h1 h2
            injection h2 with h2 h3
            subst h2
            rw [(finalizer_release_outputs _ _ _ _ _ _ hrel).2]
            exact hn

theorem string_release_schema_name (oom : Int → Bool) (b b1 : StringArrayBuilder)
    (array_data : Option ArrowArray) (schema : Option ArrowSchema) (a : ArrowArray)
    (s : ArrowSchema) (h : b.release oom array_data schema = .ok (a, s, b1)) :
    s.name = "" := by
  unfold StringArrayBuilder.release at h
  split at h
  · cases h
  · rename_i f0 hf0
    have hn := finalizer_allocate_schema_name oom _ f0 _ _ hf0
    split at h
    · cases h
    · split at h
      · cases h
      · split at h
        · cases h
        · split at h
          · cases h
          · simp only at h
            split at h
            · cases h
            · rename_i hrel
              injection h with h
              injection h with h1 h2
              injection h2 with h2 h3
              subst h2
              rw [(finalizer_release_outputs _ _ _ _ _ _ hrel).2]
              exact hn

theorem struct_release_schema_name (oom : Int → Bool) (c c1 : ArrayBuilder)
    (array_data : Option ArrowArray) (schema : Option ArrowSchema) (a : ArrowArray)
    (s : ArrowSchema) (h : ArrayBuilder.release oom c array_data schema = .ok (a, s, c1)) :
    s.name = "" := by
  cases c with
  | float64 b =>
    rw [ArrayBuilder.release] at h
    split at h
    · cases h
    · rename_i a0 s0 b0 hrel
      injection h with h
      injection h with h1 h2
      injection h2 with h2 h3
      subst h2
      exact float64_release_schema_name oom b b0 _ _ _ _ hrel
  | string b =>
    rw [ArrayBuilder.release] at h
    split at h
    · cases h
    · rename_i a0 s0 b0 hrel
      injection h with h
      injection h with h1 h2
      injection h2 with h2 h3
      subst h2
      exact string_release_schema_name oom b b0 _ _ _ _ hrel
  | struct size_ v names children_ =>
    rw [ArrayBuilder.release] at h
    split at h
    · cases h
    · rename_i f0 hf0
      have hn := finalizer_allocate_schema_name oom _ f0 _ _ hf0
      simp only at h
      split at h
      · cases h
      · rename_i f4 children1 hloop
        have hname := struct_release_children_name oom _ _ _ _ _ _ hloop
        split at h
        · cases h
        · rename_i hrel
          injection h with h
          injection h with h1 h2
          injection h2 with h2 h3
          subst h2
          rw [(finalizer_release_outputs _ _ _ _ _ _ hrel).2, hname]
          exact hn

end arrow.hpp.builder
namespace arrow.hpp.builder

theorem struct_schema_child_slot (s : ArrowSchema) (i : Nat) (p : Option ArrowSchema)
    (h : s.child i = .ok p) : ∃ l, s.children = some l ∧ i < l.length := by
  unfold ArrowSchema.child at h
  cases hc : s.children with
  | none => simp only [hc] at h; cases h
  | some l =>
    simp only [hc] at h
    refine ⟨l, rfl, ?_⟩
    by_contra hlt
    have : l.get? i = none := by
      rw [List.get?_eq_getElem?]
      exact List.getElem?_eq_none (not_lt.mp hlt)
    rw [this] at h
    cases h

theorem struct_release_children_slots (oom : Int → Bool) (cs : List ArrayBuilder) :
    ∀ (n i : Nat) (f f1 : CArrayFinalizer) (cs1 : List ArrayBuilder),
      ArrayBuilder.release_children oom cs n i f = .ok (f1, cs1) →
      (∀ j, j < i → f1.schema.children.bind (fun l => l[j]?) =
        f.schema.children.bind (fun l => l[j]?)) ∧
      (∀ j, i ≤ j → j < i + n →
        ∃ c, f1.schema.children.bind (fun l => l[j]?) = some (some c) ∧ c.name = "") := by
  induction cs with
  | nil =>
    intro n i f f1 cs1 h
    rw [ArrayBuilder.release_children] at h
    split at h
    · rename_i hn
      injection h with h
      injection h with h1 h2
      subst h1
      exact ⟨fun _ _ => rfl, fun j h1 h2 => by omega⟩
    · cases h
  | cons c cs ih =>
    intro n i f f1 cs1 h
    rw [ArrayBuilder.release_children] at h
    split at h
    · rename_i hn
      injection h with h
      injection h with h1 h2
      subst h1
      exact ⟨fun _ _ => rfl, fun j h1 h2 => by omega⟩
    · rename_i hn
      split at h
      · cases h
      · split at h
        · cases h
        · rename_i schema_i hsc
          split at h
          · cases h
          · rename_i a s c1 hrel
            split at h
            · cases h
            · rename_i f2 cs2 hrec
              injection h with h
              injection h with h1 h2
              subst h1
              have hname := struct_release_schema_name oom c c1 _ _ a s hrel
              obtain ⟨l, hl, hi⟩ := struct_schema_child_slot _ _ _ hsc
              obtain ⟨hpre, hnew⟩ := ih _ _ _ _ _ hrec
              have hch : (f.schema.write_child i s).children = some (l.set i (some s)) := by
                simp only [ArrowSchema.write_child, hl, Option.map_some']
              simp only [hch, Option.some_bind] at hpre
              constructor
              · intro j hj
                rw [hpre j (by omega), hl, Option.some_bind]
                simp only [List.getElem?_set]
                rw [if_neg (by omega)]
              · intro j h1 h2
                by_cases hji : j = i
                · subst hji
                  refine ⟨s, ?_, hname⟩
                  rw [hpre j (by omega)]
                  simp only [List.getElem?_set]
                  simp [hi]
                · exact hnew j (by omega) (by omega)

/-- C26 fails on the code: `add_child` stores the name in `child_names_`, and
`release` never reads it.  Every schema that a builder of this library publishes
has the name `""` that `allocate_schema` gives it, so every child slot of the
parent that `StructArrayBuilder::release` publishes holds a schema whose name is
`""`, whatever names were supplied.  Two `Float64ArrayBuilder` children added as
`"x"` and `"y"` are recorded under these names in the builder and published with
the names `""` and `""`. -/
theorem struct_release_drops_child_names :
    (∀ oom (b b1 : StructArrayBuilder) array_data schema a s,
      b.release oom array_data schema = .ok (a, s, b1) →
      ∀ j, j < b.child_names_.length →
        ∃ c, s.children.bind (fun l => l[j]?) = some (some c) ∧ c.name = "") ∧
    (∃ f0 s0,
      Float64ArrayBuilder.new (fun _ => false) 16 = .ok f0 ∧
      StructArrayBuilder.new (fun _ => false) 0 = .ok s0 ∧
      (s0.add_children [(.float64 f0, "x"), (.float64 f0, "y")]).2 = none ∧
      (s0.add_children [(.float64 f0, "x"), (.float64 f0, "y")]).1.child_names_ = ["x", "y"] ∧
      ∃ a s b1,
        (s0.add_children [(.float64 f0, "x"), (.float64 f0, "y")]).1.release (fun _ => false)
          (some ArrowArray.unreleased) (some ArrowSchema.unreleased) = .ok (a, s, b1) ∧
        published_child_names s = some ["", ""] ∧
        published_child_names s ≠ some ["x", "y"]) := by
  refine ⟨?_, ?_⟩
  · intro oom b b1 array_data schema a s h j hj
    unfold StructArrayBuilder.release at h
    split at h
    · cases h
    · simp only at h
      split at h
      · cases h
      · rename_i f4 children1 hloop
        split at h
        · cases h
        · rename_i hrel
          injection h with h
          injection h with h1 h2
          injection h2 with h2 h3
          subst h2
          rw [(finalizer_release_outputs _ _ _ _ _ _ hrel).2]
          exact (struct_release_children_slots oom _ _ _ _ _ _ hloop).2 j (by omega) (by omega)
  · exact ⟨_, _, rfl, rfl, rfl, rfl, _, _, _, rfl, by decide, by decide⟩

end arrow.hpp.builder
namespace geoarrow

open arrow.hpp.builder

theorem factory_multipoint_outcome (s1 s2 : Option ArrowSchema) (m1 m2 pm : Meta)
    (hst : m1.storage_type_ = m2.storage_type_) :
    outcome (create_view_multipoint s1 m1 pm) = outcome (create_view_multipoint s2 m2 pm) := by
  unfold create_view_multipoint
  rw [hst]
  by_cases h1 : m2.storage_type_ = .List
  · by_cases h2 : pm.storage_type_ = .FixedSizeList
    · simp only [h1, h2, outcome, ArrayView.class_name]
    · simp only [h1, h2, outcome]
  · simp only [h1, outcome]

theorem factory_multilinestring_outcome (parse : Option ArrowSchema → Except String Meta)
    (s1 s2 : Option ArrowSchema) (m1 m2 lm : Meta)
    (hst : m1.storage_type_ = m2.storage_type_) (hc : children0 s1 = children0 s2) :
    outcome (create_view_multilinestring parse s1 m1 lm) =
      outcome (create_view_multilinestring parse s2 m2 lm) := by
  unfold create_view_multilinestring
  simp only [bind, Except.bind, Meta.construct, hc, hst]
  cases children0 s2 with
  | error e => rfl
  | ok c =>
    simp only
    cases children0 c with
    | error e => rfl
    | ok g =>
      simp only
      cases parse g with
      | error e => rfl
      | ok pm =>
        simp only
        by_cases h1 : m2.storage_type_ = .List
        · by_cases h2 : lm.storage_type_ = .List
          · by_cases h3 : pm.storage_type_ = .FixedSizeList
            · simp only [h1, h2, h3, outcome, ArrayView.class_name]
            · simp only [h1, h2, h3, outcome]
          · simp only [h1, h2, outcome]
        · simp only [h1, outcome]

theorem factory_multipolygon_outcome (parse : Option ArrowSchema → Except String Meta)
    (s1 s2 : Option ArrowSchema) (m1 m2 pm : Meta)
    (hst : m1.storage_type_ = m2.storage_type_) (hc : children0 s1 = children0 s2) :
    outcome (create_view_multipolygon parse s1 m1 pm) =
      outcome (create_view_multipolygon parse s2 m2 pm) := by
  unfold create_view_multipolygon
  simp only [bind, Except.bind, Meta.construct, hc, hst]
  cases children0 s2 with
  | error e => rfl
  | ok c =>
    simp only
    cases children0 c with
    | error e => rfl
    | ok g =>
      simp only
      cases parse g with
      | error e => rfl
      | ok lm =>
        simp only
        cases children0 g with
        | error e => rfl
        | ok k =>
          simp only
          cases parse k with
          | error e => rfl
          | ok qm =>
            simp only
            by_cases h1 : m2.storage_type_ = .List
            · by_cases h2 : pm.storage_type_ = .List
              · by_cases h3 : lm.storage_type_ = .List
                · by_cases h4 : qm.storage_type_ = .FixedSizeList
                  · simp only [h1, h2, h3, h4, outcome, ArrayView.class_name]
                  · simp only [h1, h2, h3, h4, outcome]
                · simp only [h1, h2, h3, outcome]
              · simp only [h1, h2, outcome]
            · simp only [h1, outcome]

theorem factory_collection_outcome (parse : Option ArrowSchema → Except String Meta)
    (s1 s2 : Option ArrowSchema) (m1 m2 : Meta)
    (hst : m1.storage_type_ = m2.storage_type_) (hc : children0 s1 = children0 s2) :
    outcome (create_view_collection parse s1 m1) =
      outcome (create_view_collection parse s2 m2) := by
  unfold create_view_collection
  simp only [bind, Except.bind, Meta.construct, hc]
  cases children0 s2 with
  | error e => rfl
  | ok c =>
    simp only
    cases parse c with
    | error e => rfl
    | ok cm =>
      simp only
      by_cases h1 : cm.extension_ = .Point
      · simp only [h1]
        exact factory_multipoint_outcome s1 s2 m1 m2 cm hst
      · by_cases h2 : cm.extension_ = .Linestring
        · simp only [h2]
          exact factory_multilinestring_outcome parse s1 s2 m1 m2 cm hst hc
        · by_cases h3 : cm.extension_ = .Polygon
          · simp only [h3]
            exact factory_multipolygon_outcome parse s1 s2 m1 m2 cm hst hc
          · simp only [h1, h2, h3, outcome]

/-- C27: for a node whose tag is multipoint, multilinestring, multipolygon or
geometry collection, `create_view` is `create_view_collection` applied to the
node with any of the four tags in the metadata; and two nodes with such tags,
the same storage kind and the same first child have the same outcome: the same
class of view or the same failure.  A node tagged multipoint with list storage
whose child is tagged linestring (list storage, over fixed-size-list points)
yields the collection-of-linestring view. -/
theorem factory_collection_tag_is_irrelevant (parse : Option ArrowSchema → Except String Meta)
    (s1 s2 : Option ArrowSchema) (tag1 tag2 : util.Extension) (st : util.StorageType)
    (ht1 : is_collection_tag tag1 = true) (ht2 : is_collection_tag tag2 = true)
    (h1 : parse s1 = .ok ⟨tag1, st⟩) (h2 : parse s2 = .ok ⟨tag2, st⟩)
    (hc : children0 s1 = children0 s2) :
    outcome (create_view parse s1) = outcome (create_view parse s2) ∧
    (∀ tag, create_view parse s1 = create_view_collection parse s1 ⟨tag, st⟩) ∧
    (∀ c g ge, tag1 = .MultiPoint → st = .List → children0 s1 = .ok c →
      parse c = .ok ⟨.Linestring, .List⟩ → children0 c = .ok g →
      parse g = .ok ⟨ge, .FixedSizeList⟩ →
      create_view parse s1 = .ok (.CollectionArrayView_LinestringArrayView s1) ∧
      outcome (create_view parse s2) = .ok "CollectionArrayView<LinestringArrayView>") := by
  have e1 := factory_collection_eq parse s1 tag1 st ht1 h1
  have e2 := factory_collection_eq parse s2 tag2 st ht2 h2
  have hout : outcome (create_view parse s1) = outcome (create_view parse s2) := by
    rw [e1, e2]
    exact factory_collection_outcome parse s1 s2 _ _ rfl hc
  refine ⟨hout, ?_, ?_⟩
  · intro tag
    rw [e1]
    unfold create_view_collection create_view_multipoint create_view_multilinestring
      create_view_multipolygon
    rfl
  · intro c g ge htag hst hc1 hcm hg hgm
    subst hst
    have hv := factory_collection_linestring parse s1 c g tag1 ge ht1 h1 hc1 hcm hg hgm
    refine ⟨hv, ?_⟩
    rw [← hout, hv]
    rfl

/-- Witness for C27: a multipoint node and a geometry-collection node over the
same linestring child, read by the stand-in for the `Meta` constructor. -/
theorem factory_collection_tag_is_irrelevant_witness :
    is_collection_tag .MultiPoint = true ∧ is_collection_tag .GeometryCollection = true ∧
    sample_Meta (sample_node (some "geoarrow.multipoint") "+l" [sample_linestring]) =
      .ok ⟨.MultiPoint, .List⟩ ∧
    sample_Meta (sample_node (some "geoarrow.geometrycollection") "+l" [sample_linestring]) =
      .ok ⟨.GeometryCollection, .List⟩ ∧
    children0 (sample_node (some "geoarrow.multipoint") "+l" [sample_linestring]) =
      children0 (sample_node (some "geoarrow.geometrycollection") "+l" [sample_linestring]) ∧
    (outcome (create_view sample_Meta
        (sample_node (some "geoarrow.multipoint") "+l" [sample_linestring])) =
      outcome (create_view sample_Meta
        (sample_node (some "geoarrow.geometrycollection") "+l" [sample_linestring])) ∧
    (∀ tag, create_view sample_Meta
        (sample_node (some "geoarrow.multipoint") "+l" [sample_linestring]) =
      create_view_collection sample_Meta
        (sample_node (some "geoarrow.multipoint") "+l" [sample_linestring]) ⟨tag, .List⟩) ∧
    (∀ c g ge, util.Extension.MultiPoint = .MultiPoint → util.StorageType.List = .List →
      children0 (sample_node (some "geoarrow.multipoint") "+l" [sample_linestring]) = .ok c →
      sample_Meta c = .ok ⟨.Linestring, .List⟩ → children0 c = .ok g →
      sample_Meta g = .ok ⟨ge, .FixedSizeList⟩ →
      create_view sample_Meta
          (sample_node (some "geoarrow.multipoint") "+l" [sample_linestring]) =
        .ok (.CollectionArrayView_LinestringArrayView
          (sample_node (some "geoarrow.multipoint") "+l" [sample_linestring])) ∧
      outcome (create_view sample_Meta
          (sample_node (some "geoarrow.geometrycollection") "+l" [sample_linestring])) =
        .ok "CollectionArrayView<LinestringArrayView>")) :=
  ⟨rfl, rfl, rfl, rfl, rfl,
    factory_collection_tag_is_irrelevant sample_Meta
      (sample_node (some "geoarrow.multipoint") "+l" [sample_linestring])
      (sample_node (some "geoarrow.geometrycollection") "+l" [sample_linestring])
      .MultiPoint .GeometryCollection .List rfl rfl rfl rfl rfl⟩

end geoarrow
